import Mathlib

/-!
# Scene-replacement ingestion (`rtx_mod_usd.cpp`): a shallow embedding

Names are byte strings, modelled as `List Char`.  64-bit hashes (`XXH64_hash_t`) are
natural numbers below `2 ^ 64`.
-/

namespace UsdMod

/-! ## Part 1. Definitions -/

/-! ### Naming-convention hashes (`rtx_mod_usd.cpp:134-180`) -/

/-- The largest `unsigned long long`. -/
def ULLONG_MAX : Nat := 2 ^ 64 - 1

/-- The C library `isspace` in the "C" locale: space, `\t`, `\n`, `\v`, `\f`, `\r`. -/
def isSpaceC (c : Char) : Bool :=
  c.toNat = 32 || (9 ≤ c.toNat && c.toNat ≤ 13)

/-- Value of one base-16 digit as the C library reads it (`0-9`, `a-f`, `A-F`). -/
def hexDigitValue (c : Char) : Option Nat :=
  if 48 ≤ c.toNat ∧ c.toNat ≤ 57 then some (c.toNat - 48)
  else if 97 ≤ c.toNat ∧ c.toNat ≤ 102 then some (c.toNat - 87)
  else if 65 ≤ c.toNat ∧ c.toNat ≤ 70 then some (c.toNat - 55)
  else none

/-- Whether a character is a base-16 digit. -/
def isHexDigit (c : Char) : Bool := (hexDigitValue c).isSome

/-- One accumulation step of the digit loop. -/
def accumulateHex (acc : Nat) (c : Char) : Nat := acc * 16 + (hexDigitValue c).getD 0

/-- Exact (unbounded) value of a run of base-16 digits. -/
def hexDigitsValue (ds : List Char) : Nat := ds.foldl accumulateHex 0

/-- Optional sign of the subject sequence: returns whether it was `-`, and the rest. -/
def skipSign : List Char → Bool × List Char
  | [] => (false, [])
  | c :: t => if c = '-' then (true, t) else if c = '+' then (false, t) else (false, c :: t)

/-- Optional `0x` / `0X` of a base-16 subject sequence; it is consumed only when a
digit follows (otherwise the subject sequence is the lone `0`). -/
def skipHexPrefix : List Char → List Char
  | z :: x :: d :: t =>
    if z = '0' ∧ (x = 'x' ∨ x = 'X') ∧ isHexDigit d = true then d :: t else z :: x :: d :: t
  | s => s

/-- The run of base-16 digits that `strtoull(_, nullptr, 16)` converts: what is left
after leading white space, an optional sign and an optional `0x`. -/
def subjectDigits (s : List Char) : List Char :=
  (skipHexPrefix (skipSign (s.dropWhile isSpaceC)).2).takeWhile isHexDigit

/-- The C library call `std::strtoull(s, nullptr, 16)` (ISO C 7.22.1.4) on the bytes `s`
(read up to the terminating NUL, which is not a digit): no digits give `0`, a value
that does not fit gives `ULLONG_MAX`, a leading `-` negates in the unsigned type. -/
def strtoull16 (s : List Char) : Nat :=
  let v := hexDigitsValue (subjectDigits s)
  if ULLONG_MAX < v then ULLONG_MAX
  else if (skipSign (s.dropWhile isSpaceC)).1 then (2 ^ 64 - v) % 2 ^ 64
  else v

/-- `getNamedHash(name, prefix, len)`: `name.compare(0, len, prefix) == 0` holds exactly
when the first `len` bytes of `name` are `prefix`; the hash is then parsed from
`name.c_str() + len`. -/
def getNamedHash (name : List Char) (pfx : List Char) (len : Nat) : Nat :=
  if name.take len = pfx then
    -- is a mesh replacement.
    strtoull16 (name.drop len)
  else
    -- Not a mesh replacements
    0

/-- Modelled from the spec: the constant `lss::prefix::mesh` is declared outside the
given sources; the spec (4.1, 6) gives the mesh prefix as `mesh_`. -/
def meshPrefix : List Char := "mesh_".toList

/-- Modelled from the spec: the constant `lss::prefix::light` is declared outside the
given sources; the spec (4.1, 6) gives the light prefix as `light_`. -/
def lightPrefix : List Char := "light_".toList

/-- Modelled from the spec: the constant `lss::prefix::mat` is declared outside the
given sources; the spec (4.1, 6) gives the material prefix as `mat_`. -/
def matPrefix : List Char := "mat_".toList

/-- The literal `legacyPrefix` of `getLightHash`. -/
def legacyPrefix : List Char := "sphereLight_".toList

/-- The literal `kMaterialType` of `getMaterialHash`. -/
def kMaterialType : List Char := "Material".toList

/-- `getModelHash(prim)`, on the prim's name. -/
def getModelHash (name : List Char) : Nat :=
  getNamedHash name meshPrefix meshPrefix.length

/-- `getLightHash(prim)`, on the prim's name: `GetText()[0] == 's'` selects the legacy
prefix and nothing else. -/
def getLightHash (name : List Char) : Nat :=
  if name.head? = some 's' then
    getNamedHash name legacyPrefix legacyPrefix.length
  else
    getNamedHash name lightPrefix lightPrefix.length

/-- `getMaterialHash(prim)`, on the prim's name and type name; `usdOriginHash` is the
value of `getStrongestOpinionatedPathHash(prim)` (an XXH64 digest). -/
def getMaterialHash (name typeName : List Char) (usdOriginHash : Nat) : Nat :=
  let nameHash := getNamedHash name matPrefix matPrefix.length
  if nameHash ≠ 0 then nameHash
  else if typeName ≠ kMaterialType then 0
  else usdOriginHash

/-- Whether `name` starts with `pfx` (the test `name.compare(0, len, pfx) == 0`). -/
abbrev startsWith (pfx name : List Char) : Prop := name.take pfx.length = pfx

/-- The text parses to zero: its digit run (after white space, sign and `0x`) is
empty or consists of the digit `0` only. -/
abbrev parsesToZero (s : List Char) : Prop := ∀ c ∈ subjectDigits s, c = '0'

/-- Digit `d < 16` as a character, in upper or lower case. -/
def hexDigitChar (upper : Bool) (d : Nat) : Char :=
  if d < 10 then Char.ofNat (48 + d)
  else if upper then Char.ofNat (55 + d) else Char.ofNat (87 + d)

/-- The `n` low base-16 digits of `v`, most significant first. -/
def hexDigits (upper : Bool) : Nat → Nat → List Char
  | 0, _ => []
  | n + 1, v => hexDigits upper n (v / 16) ++ [hexDigitChar upper (v % 16)]

/-- The 16-hex-digit rendering of a 64-bit value. -/
def hex16 (upper : Bool) (v : Nat) : List Char := hexDigits upper 16 v

/-! ### Data model

The types `RasterGeometry`, `MaterialData`, `RtLight`, `AssetReplacement` and
`SecretReplacement` are declared outside the given sources; the records below keep the
fields that `rtx_mod_usd.cpp` reads or writes.  A `float` is kept as its IEEE-754
binary32 bit pattern. -/

/-- A `float`, by its binary32 bit pattern (`bits < 2 ^ 32`). -/
structure F32 where
  bits : Nat
  deriving DecidableEq, Repr

/-- 4x4 transform (`pxr::GfMatrix4f` / `Matrix4`), entries idealised as rationals. -/
abbrev Matrix4 := Matrix (Fin 4) (Fin 4) ℚ

/-- `VkIndexType` of an index buffer. -/
inductive VkIndexType where
  | UINT16
  | UINT32
  deriving DecidableEq, Repr

/-- The index view `RasterBuffer(slice, 0, stride, indexType)` together with the index
values that the `memcpy` put behind it. -/
structure IndexBuffer where
  stride : Nat
  indexType : VkIndexType
  data : List Nat
  deriving DecidableEq, Repr

/-- A vertex view `RasterBuffer(vertexSlice, offset, stride, VK_FORMAT_R32G32B32_SFLOAT)`. -/
structure VertexBuffer where
  offset : Nat
  stride : Nat
  deriving DecidableEq, Repr

/-- `VkCullModeFlags` values used. -/
inductive VkCullMode where
  | NONE
  | BACK_BIT
  deriving DecidableEq, Repr

/-- `VkFrontFace`. -/
inductive VkFrontFace where
  | COUNTER_CLOCKWISE
  | CLOCKWISE
  deriving DecidableEq, Repr

/-- `RasterGeometry`: the fields this file assigns.  `hashVertexPosition`, `hashIndices`
and `hashVertexTexcoord` are `hashes[HashComponents::...]`, the content identifiers.
A default-constructed geometry has every field at its zero value. -/
structure RasterGeometry where
  vertexCount : Nat := 0
  indexCount : Nat := 0
  indexBuffer : Option IndexBuffer := none
  positionBuffer : Option VertexBuffer := none
  normalBuffer : Option VertexBuffer := none
  texcoordBuffer : Option VertexBuffer := none
  vertexData : List F32 := []
  hashVertexPosition : Nat := 0
  hashIndices : Nat := 0
  hashVertexTexcoord : Nat := 0
  triangleList : Bool := false
  cullMode : VkCullMode := VkCullMode.NONE
  forceCullBit : Bool := false
  frontFace : VkFrontFace := VkFrontFace.COUNTER_CLOCKWISE
  deriving DecidableEq, Repr

/-- `RtSurfaceMaterialType`. -/
inductive RtSurfaceMaterialType where
  | Opaque
  | Translucent
  | RayPortal
  deriving DecidableEq, Repr

/-- Blend and alpha-test state of an opaque material.  `none` in a field stands for an
indeterminate value (the source reads a variable that no statement has assigned, or
casts a float outside the range of `uint8_t`). -/
structure AlphaState where
  useLegacyAlphaState : Bool
  blendEnabled : Bool
  blendType : Option Int
  invertedBlend : Bool
  alphaTestType : Option Int
  alphaReferenceValue : Option Nat
  deriving DecidableEq, Repr

/-- `MaterialData`: the family, the ignore flag and, for the opaque family, the alpha
state.  Textures and the remaining scalar parameters are not part of this model. -/
structure MaterialData where
  type : RtSurfaceMaterialType
  ignored : Bool
  alpha : Option AlphaState
  deriving DecidableEq, Repr

/-- The five light shapes that `processLight` emits. -/
inductive LightShape where
  | Sphere
  | Rect
  | Disk
  | Cylinder
  | Distant
  deriving DecidableEq, Repr

/-- `Vector3`, three `float`s. -/
structure Vector3 where
  x : F32
  y : F32
  z : F32
  deriving DecidableEq, Repr

/-- `RtLight`: shape, the transform the descriptor was derived from, and the radiance.
Of the extents the model keeps the `dimensions` of a rect light (`none` for the other
shapes): the first component is `none` when the source multiplies a `width` that no
statement has assigned. -/
structure RtLight where
  shape : LightShape
  localToRoot : Matrix4
  radiance : Vector3
  dimensions : Option (Option F32 × F32) := none

/-- `AssetReplacement`.  A pointer into the replacement store is kept as the key the
pointee is stored under. -/
structure AssetReplacement where
  geometryData : Option Nat := none
  materialData : Option Nat := none
  replacementToObject : Matrix4 := 1
  lightData : Option RtLight := none
  includeOriginal : Bool := false

/-- `SecretReplacement`, in the field order of the aggregate initialisers. -/
structure SecretReplacement where
  header : String
  name : String
  description : String
  unlockHash : Nat
  assetHash : Nat
  replacementPath : String
  displayBeforeUnlocked : Bool
  exclusiveReplacement : Bool
  variantId : Nat
  deriving DecidableEq, Repr

/-! ### The replacement store -/

/-- Lookup in a keyed table. -/
def kvGet {α : Type} (k : Nat) : List (Nat × α) → Option α
  | [] => none
  | (k', v) :: t => if k' = k then some v else kvGet k t

/-- Insert or overwrite in a keyed table. -/
def kvSet {α : Type} (k : Nat) (v : α) : List (Nat × α) → List (Nat × α)
  | [] => [(k, v)]
  | (k', v') :: t => if k' = k then (k, v) :: t else (k', v') :: kvSet k v t

/-- Remove a key from a keyed table. -/
def kvErase {α : Type} (k : Nat) : List (Nat × α) → List (Nat × α)
  | [] => []
  | (k', v') :: t => if k' = k then kvErase k t else (k', v') :: kvErase k t

/-- Update the value under a key in place (writes through a pointer to a stored object). -/
def kvModify {α : Type} (k : Nat) (f : α → α) : List (Nat × α) → List (Nat × α)
  | [] => []
  | (k', v') :: t => if k' = k then (k', f v') :: kvModify k f t else (k', v') :: kvModify k f t

/-- Modelled from the spec: the class `AssetReplacements` (`m_owner.m_replacements`) is
declared in `rtx_asset_replacer.h`, outside the given sources.  Spec 2 and 9: a
content-addressed, type-tagged object cache over per-type backing maps, with
get/store/remove by type tag plus hash, replacement lists stored per category (mesh,
light), and a wholesale clear. -/
structure AssetReplacements where
  geometries : List (Nat × RasterGeometry) := []
  materials : List (Nat × MaterialData) := []
  secretReplacements : List (Nat × List SecretReplacement) := []
  meshes : List (Nat × List AssetReplacement) := []
  lights : List (Nat × List AssetReplacement) := []

/-- Modelled from the spec: `AssetReplacements::clear()`, absent from the given sources;
spec 4.6: "clears the entire replacement store". -/
def AssetReplacements.clear (_r : AssetReplacements) : AssetReplacements := {}

/-- Modelled from the spec: `storeObject(hash, SecretReplacement)`, absent from the given
sources; the store keeps every secret variant of a base hash, in registration order
(spec 4.8). -/
def AssetReplacements.storeSecret (r : AssetReplacements) (hash : Nat)
    (s : SecretReplacement) : AssetReplacements :=
  { r with secretReplacements :=
      kvSet hash ((kvGet hash r.secretReplacements).getD [] ++ [s]) r.secretReplacements }

/-- `State` of a mod. -/
inductive State where
  | Unloaded
  | Loading
  | Loaded
  deriving DecidableEq, Repr

/-- The mutable state of `UsdMod::Impl` together with the owner's members it touches:
`m_owner.state()`, `m_owner.m_status`, `m_owner.m_filePath`, `m_owner.m_replacements`,
`m_fileModificationTime`, `m_openedFilePath`, `m_replacedCount`; and `assetPath`, the
function-static `pxr::SdfAssetPath assetPath` of `processMaterial` (line 366), which starts
empty and keeps its value from one call to the next, across `unload()` as well. -/
structure Impl where
  state : State := State.Unloaded
  status : String := ""
  filePath : String
  replacements : AssetReplacements := {}
  fileModificationTime : Int := 0
  openedFilePath : String := ""
  replacedCount : Nat := 0
  assetPath : List Char := []

/-- Abnormal ends of a call: an out-of-bounds read, a failed `assert`, an exception
thrown by `std::filesystem`, or the use of an invalid prim. -/
inductive Fault where
  | outOfBounds
  | assertion
  | filesystemError
  | invalidPrim
  deriving DecidableEq, Repr

/-! ### The scene document, as the document provider answers the queries made here -/

/-- What the attribute `info:mdl:sourceAsset` of a shader holds: no value (`HasValue()`
is false, also when the attribute is missing), a value that `Get(&assetPath)` cannot read
as an `SdfAssetPath` (`Get` returns false and leaves `assetPath` as it was), or an asset
path, given by `GetAssetPath()`. -/
inductive SourceAsset where
  | noValue
  | unreadable
  | path (assetPathStr : List Char)
  deriving DecidableEq, Repr

/-- What `processMaterial` reads of a child prim of a material: whether it is a shader
(`IsA<pxr::UsdShadeShader>()`) and the attributes that decide family, ignore flag and
alpha state; each optional attribute is `none` when `Get` yields no value. -/
structure ShaderPrim where
  isShader : Bool := true
  sourceAsset : SourceAsset := SourceAsset.noValue
  hasLegacyRayPortalIndex : Bool := false
  ignoreMaterial : Option Bool := none
  useLegacyAlphaState : Option Bool := none
  blendEnabled : Option Bool := none
  blendType : Option Int := none
  invertedBlend : Option Bool := none
  alphaTestType : Option Int := none
  alphaReferenceValue : Option F32 := none
  deriving DecidableEq, Repr

/-- A material prim: name, type name, `getStrongestOpinionatedPathHash`, the child
`GetChild("Shader")` when valid, and the active children in order. -/
structure MaterialPrim where
  name : List Char
  typeName : List Char := "Material".toList
  usdOriginHash : Nat := 0
  shaderChild : Option ShaderPrim := none
  activeChildren : List ShaderPrim := []
  deriving DecidableEq, Repr

/-- `pxr::GfVec3f`. -/
structure GfVec3f where
  x : F32
  y : F32
  z : F32
  deriving DecidableEq, Repr

/-- `pxr::GfVec2f`. -/
structure GfVec2f where
  x : F32
  y : F32
  deriving DecidableEq, Repr

/-- An active child of a mesh prim: whether it is a `UsdGeomSubset`, its structural
hash, its `triangleIndices` (`none` when the attribute is absent) and the material its
`material:binding` resolves to. -/
structure ChildPrim where
  isGeomSubset : Bool := true
  usdOriginHash : Nat
  triangleIndices : Option (List Int) := none
  boundMaterial : Option MaterialPrim := none
  deriving DecidableEq, Repr

/-- Schema type of a prim, as far as the `IsA<...>()` tests of this file tell apart. -/
inductive PrimType where
  | Mesh
  | SphereLight
  | RectLight
  | DiskLight
  | CylinderLight
  | DistantLight
  | OtherLight
  | Other
  deriving DecidableEq, Repr

/-- `IsA<pxr::UsdLuxLight>()`. -/
def PrimType.isLight : PrimType → Bool
  | PrimType.Mesh => false
  | PrimType.Other => false
  | _ => true

/-- The shape `processLight` dispatches on; `none` for any other light type. -/
def PrimType.lightShape : PrimType → Option LightShape
  | PrimType.SphereLight => some LightShape.Sphere
  | PrimType.RectLight => some LightShape.Rect
  | PrimType.DiskLight => some LightShape.Disk
  | PrimType.CylinderLight => some LightShape.Cylinder
  | PrimType.DistantLight => some LightShape.Distant
  | _ => none

/-- A prim met by the graph walker, with the answers to the queries `processPrim` and
`processLight` make.  `localToWorld` is `xformCache.GetLocalToWorldTransform(prim)`,
`relativeToRoot` is `xformCache.ComputeRelativeTransform(prim, rootPrim, _)`. -/
structure UsdPrim where
  type : PrimType := PrimType.Mesh
  name : List Char := []
  usdOriginHash : Nat := 0
  activeChildren : List ChildPrim := []
  faceVertexIndices : Option (List Int) := none
  faceVertexCounts : List Int := []
  points : List GfVec3f := []
  normals : List GfVec3f := []
  invertedUvs : List GfVec2f := []
  doubleSided : Option Bool := none
  orientation : Option (List Char) := none
  boundMaterial : Option MaterialPrim := none
  localToWorld : Matrix4 := 1
  relativeToRoot : Matrix4 := 1
  hasIntensity : Bool := true
  hasPreserveOriginalDrawCall : Bool := false
  color : Option GfVec3f := none
  enableColorTemperature : Option Bool := none
  colorTemperature : Option F32 := none
  exposure : Option F32 := none
  intensity : Option F32 := none
  width : Option F32 := none
  height : Option F32 := none

/-- A replacement root with its active descendants in traversal order
(`GetFilteredDescendants(pxr::UsdPrimIsActive)`). -/
structure ReplacementRoot where
  rootPrim : UsdPrim
  descendants : List UsdPrim := []

/-- An opened stage: the custom layer data of the root layer as far as the status needs
it (`none`: no custom layer data; `some none`: key absent or empty), the active children
of `/RootNode/meshes`, `/RootNode/lights` and `/RootNode/Looks` (`none`: prim invalid),
and the default prim. -/
structure UsdStage where
  exportStatus : Option (Option String) := none
  meshes : Option (List ReplacementRoot) := none
  lights : Option (List ReplacementRoot) := none
  looks : Option (List MaterialPrim) := none
  defaultPrim : Option ReplacementRoot := none

/-- Opaque-material defaults of the option store that the alpha state reads. -/
structure OpaqueMaterialDefaults where
  UseLegacyAlphaState : Bool := true
  BlendEnabled : Bool := false
  DefaultBlendType : Int := 0
  InvertedBlend : Bool := false
  DefaultAlphaTestType : Int := 0
  AlphaReferenceValue : Nat := 0
  deriving DecidableEq, Repr

/-- The numeric library functions `processLight` calls, none of them code of this
repository: `pow(2, exposure)` of the C library as the `float` factor of the product,
`pxr::UsdLuxBlackbodyTemperatureAsRgb`, and the length that `GfVec3f::Normalize` returns
for the image of the `i`-th unit direction under `GfMatrix4f::TransformDir`. -/
structure Numerics where
  pow2 : F32 → F32
  blackbodyTemperatureAsRgb : F32 → Vector3
  axisScale : Matrix4 → Fin 3 → F32

/-- The collaborators of one call: the file system (`fs::exists`, `fs::last_write_time`,
`ArchGetModificationTime`, `remove_filename`), the document provider
(`UsdStage::Open`), the option store and the numeric libraries. -/
structure Env where
  lastWriteTime : String → Option Int
  openStage : String → Option UsdStage
  removeFilename : String → String
  numerics : Numerics
  isLHS : Bool := false
  opaqueDefaults : OpaqueMaterialDefaults := {}

/-! ### Binary32 arithmetic for the alpha reference value -/

/-- Sign bit. -/
def F32.signBit (x : F32) : Bool := x.bits / 2 ^ 31 % 2 = 1

/-- Biased exponent field. -/
def F32.expField (x : F32) : Nat := x.bits / 2 ^ 23 % 256

/-- Fraction field. -/
def F32.fraction (x : F32) : Nat := x.bits % 2 ^ 23

/-- Integer significand of a finite datum (hidden bit included for normal numbers). -/
def F32.significand (x : F32) : Nat :=
  if x.expField = 0 then x.fraction else 2 ^ 23 + x.fraction

/-- Exponent of the unit in the last place of a finite datum. -/
def F32.exponent (x : F32) : Int :=
  if x.expField = 0 then -149 else (x.expField : Int) - 150

/-- Value of a finite datum. -/
def F32.toRat (x : F32) : ℚ :=
  (if x.signBit then -1 else 1) * (x.significand : ℚ) * (2 : ℚ) ^ x.exponent

/-- Number of significant bits of `n`, for `n < 2 ^ fuel`. -/
def bitLength : Nat → Nat → Nat
  | 0, _ => 0
  | fuel + 1, n => if n = 0 then 0 else bitLength fuel (n / 2) + 1

/-- `p / 2 ^ s` rounded to the nearest integer, ties to even. -/
def roundNearestEven (p s : Nat) : Nat :=
  if 2 * (p % 2 ^ s) < 2 ^ s then p / 2 ^ s
  else if 2 * (p % 2 ^ s) = 2 ^ s then (if p / 2 ^ s % 2 = 0 then p / 2 ^ s else p / 2 ^ s + 1)
  else p / 2 ^ s + 1

/-- `static_cast<uint8_t>(std::numeric_limits<uint8_t>::max() * x)` for a `float x`:
the `int` 255 converts to `255.0f`, the IEEE-754 product is the exact product rounded
to 24 significant bits (to nearest, ties to even), and the cast truncates toward zero.
`none` is an indeterminate result: `x` is NaN or infinite, or the truncated value does
not fit `uint8_t`. -/
def alphaReferenceFromNormalized (x : F32) : Option Nat :=
  if x.expField = 255 then none
  else
    let p := 255 * x.significand
    let s := bitLength 32 p - 24
    let m := roundNearestEven p s
    let e : Int := x.exponent + (s : Int)
    let t := if 0 ≤ e then m * 2 ^ e.toNat else m / 2 ^ (-e).toNat
    if x.signBit = true ∧ 0 < t then none
    else if t ≤ 255 then some t
    else none

/-! ### Binary32 multiplication for the radiance and the dimensions of a light -/

/-- The `float` 0.0. -/
def F32.zero : F32 := { bits := 0 }

/-- The `float` 1.0. -/
def F32.one : F32 := { bits := 0x3F800000 }

/-- Whether a datum is a NaN. -/
def F32.isNaN (x : F32) : Bool := x.expField = 255 && x.fraction ≠ 0

/-- The datum with the given sign, biased exponent field and fraction field. -/
def F32.pack (sign : Bool) (expField fraction : Nat) : F32 :=
  { bits := (if sign then 2 ^ 31 else 0) + expField * 2 ^ 23 + fraction }

/-- A quiet NaN; the model lets it stand for every NaN result. -/
def F32.defaultNaN : F32 := F32.pack false 255 (2 ^ 22)

/-- The datum nearest to `(-1) ^ sign * m * 2 ^ e` (to nearest, ties to even): the
result has at most 24 significant bits and its unit in the last place is no finer than
`2 ^ (-149)`; a magnitude past the largest finite datum gives an infinity. -/
def F32.round (sign : Bool) (m : Nat) (e : Int) : F32 :=
  if m = 0 then F32.pack sign 0 0
  else
    let ulp : Int := max (e + (bitLength 64 m : Int) - 24) (-149)
    let r := if e ≤ ulp then roundNearestEven m (ulp - e).toNat else m * 2 ^ (e - ulp).toNat
    let r1 := if r = 2 ^ 24 then 2 ^ 23 else r
    let ulp1 : Int := if r = 2 ^ 24 then ulp + 1 else ulp
    if r1 < 2 ^ 23 then F32.pack sign 0 r1
    else if 255 ≤ ulp1 + 150 then F32.pack sign 255 0
    else F32.pack sign (ulp1 + 150).toNat (r1 - 2 ^ 23)

/-- The IEEE-754 product of two `float`s (`x * y`): a NaN operand or `0 * inf` gives a
NaN, an infinite factor an infinity, and two finite factors the exact product rounded. -/
def F32.mul (x y : F32) : F32 :=
  let sign := xor x.signBit y.signBit
  if x.isNaN || y.isNaN then F32.defaultNaN
  else if x.expField = 255 then
    (if y.expField = 0 ∧ y.fraction = 0 then F32.defaultNaN else F32.pack sign 255 0)
  else if y.expField = 255 then
    (if x.expField = 0 ∧ x.fraction = 0 then F32.defaultNaN else F32.pack sign 255 0)
  else F32.round sign (x.significand * y.significand) (x.exponent + y.exponent)

/-- `Vector3 * float`, per component. -/
def Vector3.scale (v : Vector3) (s : F32) : Vector3 :=
  { x := F32.mul v.x s, y := F32.mul v.y s, z := F32.mul v.z s }

/-- `Vector3 * Vector3`, per component. -/
def Vector3.mul (v w : Vector3) : Vector3 :=
  { x := F32.mul v.x w.x, y := F32.mul v.y w.y, z := F32.mul v.z w.z }

/-- `Vector3(1.f)`. -/
def Vector3.ones : Vector3 := { x := F32.one, y := F32.one, z := F32.one }

/-! ### Material ingestion (`processMaterial`, lines 247-553) -/

/-- The shader of a material prim (lines 318-326): `GetChild("Shader")`, and when that
is invalid or not a shader, the scan over the active children, which keeps assigning
and so ends on the last shader-typed child. -/
def selectShader (matPrim : MaterialPrim) : Option ShaderPrim :=
  match matPrim.shaderChild with
  | some sh =>
    if sh.isShader then some sh
    else matPrim.activeChildren.foldl (fun acc child => if child.isShader then some child else acc)
      (some sh)
  | none =>
    matPrim.activeChildren.foldl (fun acc child => if child.isShader then some child else acc)
      none

/-- The function-static `assetPath` after `sourceAssetAttr.Get(&assetPath)` (line 367):
the path read, or the value the variable had when the read fails. -/
def assetPathAfterGet (assetPath : List Char) (shader : ShaderPrim) : List Char :=
  match shader.sourceAsset with
  | SourceAsset.path assetPathStr => assetPathStr
  | _ => assetPath

/-- The family chosen at lines 362-380; `assetPath` is the value of the function-static
variable on entry.  The tests run only when the attribute has a value, on the string the
variable holds after the read, whose result the source does not look at. -/
def classifyMaterial (assetPath : List Char) (shader : ShaderPrim) : RtSurfaceMaterialType :=
  match shader.sourceAsset with
  | SourceAsset.noValue => RtSurfaceMaterialType.Opaque
  | _ =>
    let assetPathStr := assetPathAfterGet assetPath shader
    if "AperturePBR_Portal.mdl".toList <:+: assetPathStr then RtSurfaceMaterialType.RayPortal
    else if "AperturePBR_Translucent.mdl".toList <:+: assetPathStr then
      if shader.hasLegacyRayPortalIndex then RtSurfaceMaterialType.RayPortal
      else RtSurfaceMaterialType.Translucent
    else RtSurfaceMaterialType.Opaque

/-- The alpha state of an opaque material (lines 422-483). -/
def opaqueAlphaState (d : OpaqueMaterialDefaults) (shader : ShaderPrim) : AlphaState :=
  let useLegacyAlphaState := shader.useLegacyAlphaState.getD d.UseLegacyAlphaState
  if !useLegacyAlphaState then
    let blendEnabled := shader.blendEnabled.getD d.BlendEnabled
    { useLegacyAlphaState := useLegacyAlphaState
      blendEnabled := blendEnabled
      blendType := if blendEnabled then shader.blendType else some d.DefaultBlendType
      invertedBlend :=
        if blendEnabled then shader.invertedBlend.getD d.InvertedBlend else d.InvertedBlend
      alphaTestType := shader.alphaTestType
      alphaReferenceValue := shader.alphaReferenceValue.bind alphaReferenceFromNormalized }
  else
    { useLegacyAlphaState := useLegacyAlphaState
      blendEnabled := d.BlendEnabled
      blendType := some d.DefaultBlendType
      invertedBlend := d.InvertedBlend
      alphaTestType := some d.DefaultAlphaTestType
      alphaReferenceValue := some d.AlphaReferenceValue }

/-- Modelled from the spec: the constructors of `MaterialData` are declared in
`rtx_materials.h`, outside the given sources; a `MaterialData` built without the ignore
argument has the flag unset (spec 4.3: the flag "may be set per shader"). -/
abbrev MaterialData.defaultIgnored : Bool := false

/-- The `MaterialData` built from a shader (lines 357-536); the ray-portal constructor
call at line 535 passes no ignore flag. -/
def buildMaterialData (d : OpaqueMaterialDefaults) (assetPath : List Char)
    (shader : ShaderPrim) : MaterialData :=
  let shouldIgnore := shader.ignoreMaterial.getD false
  match classifyMaterial assetPath shader with
  | RtSurfaceMaterialType.Translucent =>
    { type := RtSurfaceMaterialType.Translucent, ignored := shouldIgnore, alpha := none }
  | RtSurfaceMaterialType.Opaque =>
    { type := RtSurfaceMaterialType.Opaque, ignored := shouldIgnore
      alpha := some (opaqueAlphaState d shader) }
  | RtSurfaceMaterialType.RayPortal =>
    { type := RtSurfaceMaterialType.RayPortal, ignored := MaterialData.defaultIgnored
      alpha := none }

/-- `processMaterial(args, matPrim)`: the returned pointer is the key of the stored
material, `none` for `nullptr`.  A call that reaches the family tests leaves in the
function-static `assetPath` what the read of the source asset left there. -/
def processMaterial (env : Env) (matPrim : MaterialPrim) (σ : Impl) : Option Nat × Impl :=
  let materialHash := getMaterialHash matPrim.name matPrim.typeName matPrim.usdOriginHash
  if materialHash = 0 then (none, σ)
  else
    -- Check if the material has already been processed
    match kvGet materialHash σ.replacements.materials with
    | some _ => (some materialHash, σ)
    | none =>
      match selectShader matPrim with
      | none => (none, σ)
      | some shader =>
        (some materialHash,
          { σ with
            replacements := { σ.replacements with
              materials := kvSet materialHash
                (buildMaterialData env.opaqueDefaults σ.assetPath shader)
                σ.replacements.materials }
            assetPath := assetPathAfterGet σ.assetPath shader })

/-- `processMaterialUser(args, prim)`, on the material the prim's binding resolves to. -/
def processMaterialUser (env : Env) (bound : Option MaterialPrim) (σ : Impl) :
    Option Nat × Impl :=
  match bound with
  | none => (none, σ)
  | some matPrim => processMaterial env matPrim σ

/-! ### Geometry ingestion (`processGeomSubset`, `processPrim`, lines 555-870) -/

/-- `kMaxU16Indices`. -/
def kMaxU16Indices : Nat := 64 * 1024

/-- The running maximum of the index loop: `int maxIndex = 0` followed by
`maxIndex = std::max(maxIndex, vecIndices[i])`. -/
def maxIndexOf (vecIndices : List Int) : Int := vecIndices.foldl max 0

/-- The test `maxIndex < kMaxU16Indices`: the `int` is converted to `uint32_t` for the
comparison. -/
def use16bitIndices (maxIndex : Int) : Bool :=
  decide ((maxIndex % 2 ^ 32).toNat < kMaxU16Indices)

/-- The index view both ingestion paths write (lines 569-605 and 714-733):
`newIndices16[i] = static_cast<uint16_t>(vecIndices[i])` with 2-byte stride when the
maximum passes the test, the raw 32-bit words with 4-byte stride otherwise. -/
def makeIndexBuffer (vecIndices : List Int) : IndexBuffer :=
  if use16bitIndices (maxIndexOf vecIndices) then
    { stride := 2, indexType := VkIndexType.UINT16
      data := vecIndices.map (fun i => (i % 2 ^ 16).toNat) }
  else
    { stride := 4, indexType := VkIndexType.UINT32
      data := vecIndices.map (fun i => (i % 2 ^ 32).toNat) }

/-- `++m_replacedCount` on a 64-bit counter. -/
def nextCount (c : Nat) : Nat := (c + 1) % 2 ^ 64

/-- `m_owner.m_replacements->getObject(hash, geometryData)`. -/
def Impl.getGeometry (σ : Impl) (hash : Nat) : Option RasterGeometry :=
  kvGet hash σ.replacements.geometries

/-- `m_owner.m_replacements->storeObject(hash, geometry)`. -/
def Impl.storeGeometry (σ : Impl) (hash : Nat) (g : RasterGeometry) : Impl :=
  { σ with replacements := { σ.replacements with
      geometries := kvSet hash g σ.replacements.geometries } }

/-- A write through a `RasterGeometry&` that points into the store. -/
def Impl.modifyGeometry (σ : Impl) (hash : Nat) (f : RasterGeometry → RasterGeometry) : Impl :=
  { σ with replacements := { σ.replacements with
      geometries := kvModify hash f σ.replacements.geometries } }

/-- `m_replacedCount = c`. -/
def Impl.setReplacedCount (σ : Impl) (c : Nat) : Impl := { σ with replacedCount := c }

/-- `m_owner.m_replacements->removeObject<RasterGeometry>(hash)`. -/
def Impl.removeGeometry (σ : Impl) (hash : Nat) : Impl :=
  { σ with replacements := { σ.replacements with
      geometries := kvErase hash σ.replacements.geometries } }

/-- The writes of `processGeomSubset` to `geometryData` (lines 599-610): index view,
index count, and both content identifiers set to the counter value just drawn. -/
def writeSubsetIndices (vecIndices : List Int) (count : Nat) (g : RasterGeometry) :
    RasterGeometry :=
  { g with
    indexBuffer := some (makeIndexBuffer vecIndices)
    indexCount := vecIndices.length
    hashVertexPosition := count
    hashIndices := count }

/-- The writes of the index block of `processPrim` to the new geometry (lines 727-735). -/
def writeMeshIndices (vecIndices : List Int) (g : RasterGeometry) : RasterGeometry :=
  { g with
    indexBuffer := some (makeIndexBuffer vecIndices)
    indexCount := vecIndices.length }

/-- `newGeomData.vertexCount = points.size()` (line 682). -/
def writeVertexCount (n : Nat) (g : RasterGeometry) : RasterGeometry :=
  { g with vertexCount := n }

/-- `processGeomSubset(args, subPrim, geometryData, materialData)`: `geomKey` names the
stored geometry that `geometryData` refers to; the result is the returned flag, the
material pointer after the call and the new state. -/
def processGeomSubset (env : Env) (subPrim : ChildPrim) (geomKey : Nat)
    (materialData : Option Nat) (σ : Impl) : Except Fault (Bool × Option Nat × Impl) :=
  match subPrim.triangleIndices with
  | none => Except.ok (false, materialData, σ)
  | some vecIndices =>
    if vecIndices.length = 0 then Except.error Fault.assertion
    else
      let count := nextCount σ.replacedCount
      let σ1 := (σ.setReplacedCount count).modifyGeometry geomKey
        (writeSubsetIndices vecIndices count)
      let r := processMaterialUser env subPrim.boundMaterial σ1
      Except.ok (true, (if r.1.isSome then r.1 else materialData), r.2)

/-- The interleaved vertex floats (lines 746-762). -/
def interleaveVertices (isNormalValid isUVValid : Bool) :
    List GfVec3f → List GfVec3f → List GfVec2f → List F32
  | [], _, _ => []
  | p :: ps, ns, ts =>
    [p.x, p.y, p.z]
      ++ (if isNormalValid then (match ns.head? with | some n => [n.x, n.y, n.z] | none => [])
          else [])
      ++ (if isUVValid then (match ts.head? with | some t => [t.x, t.y] | none => []) else [])
      ++ interleaveVertices isNormalValid isUVValid ps ns.tail ts.tail

/-- `isNormalValid` (line 679). -/
def isNormalValid (prim : UsdPrim) : Bool :=
  !prim.normals.isEmpty && decide (prim.points.length = prim.normals.length)

/-- `isUVValid` (line 680). -/
def isUVValid (prim : UsdPrim) : Bool :=
  !prim.invertedUvs.isEmpty && decide (prim.points.length = prim.invertedUvs.length)

/-- `vertexStructureSize` (lines 685-688): 12 bytes of position, 12 of normal and 8 of
uv when kept. -/
def vertexStructureSize (prim : UsdPrim) : Nat :=
  12 + (if isNormalValid prim then 12 else 0) + (if isUVValid prim then 8 else 0)

/-- The index block of `processPrim` (lines 714-736) on the new geometry; `none` stands
for the `return` at line 719, and `vecFaceCounts[0]` on an empty array is an
out-of-bounds read. -/
def indexBlock (prim : UsdPrim) (numSubsets : Nat) (σ1 : Impl) : Except Fault (Option Impl) :=
  let vecIndices := prim.faceVertexIndices.getD []
  let indexSize := if numSubsets ≤ 1 then vecIndices.length * 4 else 0
  if 0 < indexSize then
    match prim.faceVertexCounts.head? with
    | none => Except.error Fault.outOfBounds
    | some c =>
      if c ≠ 3 ∨ vecIndices.length % 3 ≠ 0 then Except.ok none
      else Except.ok (some (σ1.modifyGeometry prim.usdOriginHash (writeMeshIndices vecIndices)))
  else Except.ok (some σ1)

/-- The fields of the new geometry written at lines 741-797: the interleaved vertex
data, the three views, the content identifiers (`cUV` and `cPos` are the counter values
drawn for them), topology, culling and winding. -/
def fillVertexFields (prim : UsdPrim) (cUV cPos : Nat) (g : RasterGeometry) : RasterGeometry :=
  { g with
    vertexData := interleaveVertices (isNormalValid prim) (isUVValid prim) prim.points
      prim.normals prim.invertedUvs
    positionBuffer := some { offset := 0, stride := vertexStructureSize prim }
    normalBuffer :=
      if isNormalValid prim then some { offset := 12, stride := vertexStructureSize prim }
      else g.normalBuffer
    texcoordBuffer :=
      if isUVValid prim then
        some { offset := 12 + (if isNormalValid prim then 12 else 0)
               stride := vertexStructureSize prim }
      else g.texcoordBuffer
    hashVertexTexcoord := if isUVValid prim then cUV else g.hashVertexTexcoord
    hashVertexPosition := cPos
    hashIndices := cPos
    triangleList := true
    cullMode :=
      match prim.doubleSided with
      | some false => VkCullMode.BACK_BIT
      | _ => VkCullMode.NONE
    forceCullBit := prim.doubleSided.isSome || g.forceCullBit
    frontFace :=
      if prim.orientation = some "rightHanded".toList then VkFrontFace.COUNTER_CLOCKWISE
      else VkFrontFace.CLOCKWISE }

/-- Lines 741-797 on the state: `++m_replacedCount` for the texcoord identifier when uvs
are kept, `++m_replacedCount` for the position identifier, and the field writes. -/
def vertexBlock (prim : UsdPrim) (σ2 : Impl) : Impl :=
  let cUV := if isUVValid prim then nextCount σ2.replacedCount else σ2.replacedCount
  let cPos := nextCount cUV
  (σ2.setReplacedCount cPos).modifyGeometry prim.usdOriginHash (fillVertexFields prim cUV cPos)

/-- The block of `processPrim` that fills a geometry not yet in the store (lines
645-797).  The flag is `false` when the source leaves `processPrim` from inside the
block (a rejected mesh). -/
def createGeometry (prim : UsdPrim) (numSubsets : Nat) (σ : Impl) :
    Except Fault (Bool × Impl) :=
  let σ0 := σ.storeGeometry prim.usdOriginHash {}
  if numSubsets ≤ 1 ∧ prim.faceVertexIndices.isSome = false then Except.ok (false, σ0)
  else if prim.points.length = 0 then Except.ok (false, σ0)
  else
    let σ1 := σ0.modifyGeometry prim.usdOriginHash (writeVertexCount prim.points.length)
    match indexBlock prim numSubsets σ1 with
    | Except.error f => Except.error f
    | Except.ok none => Except.ok (false, σ1)
    | Except.ok (some σ2) => Except.ok (true, vertexBlock prim σ2)

/-- `XYflip`, the matrix `diag(1, 1, -1, 1)`. -/
def XYflip : Matrix4 := Matrix.diagonal ![1, 1, -1, 1]

/-- The transform `processPrim` records (lines 802-812). -/
def replacementToObjectOf (env : Env) (prim : UsdPrim) : Matrix4 :=
  if env.isLHS then XYflip * prim.localToWorld * XYflip else prim.localToWorld

/-- The loop over the children when the number of subsets is not one (lines 826-862):
the state is `isFirst`, the parent's material pointer, the mod state and `args.meshes`. -/
def subsetLoop (env : Env) (geomKey : Nat) (replacementToObject : Matrix4) :
    List ChildPrim → Bool → Option Nat → Impl → List AssetReplacement →
      Except Fault (Option Nat × Impl × List AssetReplacement)
  | [], _, materialData, σ, meshes => Except.ok (materialData, σ, meshes)
  | child :: rest, isFirst, materialData, σ, meshes =>
    if child.isGeomSubset then
      if isFirst then
        -- Find the first successful geomSubset, call it first.
        match processGeomSubset env child geomKey materialData σ with
        | Except.error f => Except.error f
        | Except.ok (done, materialData1, σ1) =>
          subsetLoop env geomKey replacementToObject rest (if done then false else true)
            materialData1 σ1 meshes
      else
        let usdOriginHash := child.usdOriginHash
        match σ.getGeometry usdOriginHash with
        | some _ =>
          let r := processMaterialUser env child.boundMaterial σ
          let newReplacementMesh : AssetReplacement :=
            { geometryData := some usdOriginHash
              materialData := if r.1.isSome then r.1 else materialData
              replacementToObject := replacementToObject }
          subsetLoop env geomKey replacementToObject rest isFirst materialData r.2
            (meshes ++ [newReplacementMesh])
        | none =>
          let σ0 := σ.storeGeometry usdOriginHash ((σ.getGeometry geomKey).getD {})
          -- Only add this to the replacements if it was successful
          match processGeomSubset env child usdOriginHash materialData σ0 with
          | Except.error f => Except.error f
          | Except.ok (true, materialData1, σ1) =>
            subsetLoop env geomKey replacementToObject rest isFirst materialData σ1
              (meshes ++ [{ geometryData := some usdOriginHash, materialData := materialData1
                            replacementToObject := replacementToObject }])
          | Except.ok (false, _, σ1) =>
            subsetLoop env geomKey replacementToObject rest isFirst materialData
              (σ1.removeGeometry usdOriginHash) meshes
    else subsetLoop env geomKey replacementToObject rest isFirst materialData σ meshes

/-- `processPrim(args, prim)`: the new state and `args.meshes`. -/
def processPrim (env : Env) (prim : UsdPrim) (σ : Impl) (meshes : List AssetReplacement) :
    Except Fault (Impl × List AssetReplacement) :=
  let numSubsets := (prim.activeChildren.filter (fun c => c.isGeomSubset)).length
  let usdOriginHash := prim.usdOriginHash
  let created : Except Fault (Bool × Impl) :=
    match σ.getGeometry usdOriginHash with
    | some _ => Except.ok (true, σ)
    | none => createGeometry prim numSubsets σ
  match created with
  | Except.error f => Except.error f
  | Except.ok (false, σ1) => Except.ok (σ1, meshes)
  | Except.ok (true, σ1) =>
    let r := processMaterialUser env prim.boundMaterial σ1
    let replacementToObject := replacementToObjectOf env prim
    let walked : Except Fault (Option Nat × Impl × List AssetReplacement) :=
      if numSubsets = 1 then
        -- Just grab the material from the single subset, otherwise ignore it:
        match prim.activeChildren.find? (fun c => c.isGeomSubset) with
        | some child =>
          let r1 := processMaterialUser env child.boundMaterial r.2
          Except.ok ((if r1.1.isSome then r1.1 else r.1), r1.2, meshes)
        | none => Except.ok (r.1, r.2, meshes)
      else subsetLoop env usdOriginHash replacementToObject prim.activeChildren true r.1 r.2 meshes
    match walked with
    | Except.error f => Except.error f
    | Except.ok (materialData, σ2, meshes1) =>
      if ((σ2.getGeometry usdOriginHash).map (fun g => g.indexCount)).getD 0 = 0 then
        Except.ok (σ2, meshes1)
      else
        Except.ok (σ2, meshes1 ++ [{ geometryData := some usdOriginHash
                                     materialData := materialData
                                     replacementToObject := replacementToObject }])

/-! ### Light ingestion and the graph walker (`processLight`, `processReplacement`) -/

/-- `Vector3 radiance(1.f)` after `getVector3(lightPrim, kColorToken, radiance)`: the
`color` attribute when it has a value, white otherwise. -/
def lightColor (lightPrim : UsdPrim) : Vector3 :=
  match lightPrim.color with
  | some c => { x := c.x, y := c.y, z := c.z }
  | none => Vector3.ones

/-- The radiance of a light (lines 911-938): `color * intensity * pow(2, exposure) *
temperature`, evaluated left to right; the colour starts as `Vector3(1.f)`, exposure and
intensity as `0.0f`, the temperature factor as `Vector3(1.f)`, and each is overwritten
by the attribute that has a value. -/
def lightRadiance (env : Env) (lightPrim : UsdPrim) : Vector3 :=
  let radiance : Vector3 := lightColor lightPrim
  let temperature : Vector3 :=
    if lightPrim.enableColorTemperature.getD false then
      match lightPrim.colorTemperature with
      | some temp => env.numerics.blackbodyTemperatureAsRgb temp
      | none => Vector3.ones
    else Vector3.ones
  let exposure := lightPrim.exposure.getD F32.zero
  let intensity := lightPrim.intensity.getD F32.zero
  ((radiance.scale intensity).scale (env.numerics.pow2 exposure)).mul temperature

/-- `processLight(args, lightPrim)` as far as the replacement list goes: the diagnostic
for a distant light under a mesh root only logs; the transform is the world transform
when the root is a light and the transform relative to the root otherwise; a missing
`intensity` attribute fails the `assert`; one descriptor is appended for each of the
five shapes and none for any other light.  The rect light gets the dimensions
`(width * xScale, height * yScale)`, where `height` starts as `0.0f` and `width` is
unassigned until the attribute yields a value. -/
def processLight (env : Env) (rootPrim lightPrim : UsdPrim) (meshes : List AssetReplacement) :
    Except Fault (List AssetReplacement) :=
  let localToRoot :=
    if rootPrim.type.isLight then lightPrim.localToWorld else lightPrim.relativeToRoot
  let xScale := env.numerics.axisScale localToRoot 0
  let yScale := env.numerics.axisScale localToRoot 1
  if lightPrim.hasIntensity = false then Except.error Fault.assertion
  else
    let radiance := lightRadiance env lightPrim
    match lightPrim.type.lightShape with
    | some LightShape.Rect =>
      let dimensions : Option F32 × F32 :=
        (lightPrim.width.map (fun width => F32.mul width xScale),
          F32.mul (lightPrim.height.getD F32.zero) yScale)
      let genericLight : RtLight :=
        { shape := LightShape.Rect, localToRoot := localToRoot, radiance := radiance
          dimensions := some dimensions }
      Except.ok (meshes ++ [{ lightData := some genericLight }])
    | some shape =>
      let genericLight : RtLight :=
        { shape := shape, localToRoot := localToRoot, radiance := radiance }
      Except.ok (meshes ++ [{ lightData := some genericLight }])
    | none => Except.ok meshes

/-- The dispatch on one prim inside `processReplacement`. -/
def processNode (env : Env) (rootPrim node : UsdPrim) (σ : Impl)
    (meshes : List AssetReplacement) : Except Fault (Impl × List AssetReplacement) :=
  if node.type = PrimType.Mesh then processPrim env node σ meshes
  else if node.type.isLight then
    match processLight env rootPrim node meshes with
    | Except.error f => Except.error f
    | Except.ok meshes1 => Except.ok (σ, meshes1)
  else Except.ok (σ, meshes)

/-- The loop over the descendants inside `processReplacement`. -/
def processDescendants (env : Env) (rootPrim : UsdPrim) :
    List UsdPrim → Impl → List AssetReplacement → Except Fault (Impl × List AssetReplacement)
  | [], σ, meshes => Except.ok (σ, meshes)
  | desc :: rest, σ, meshes =>
    match processNode env rootPrim desc σ meshes with
    | Except.error f => Except.error f
    | Except.ok (σ1, meshes1) => processDescendants env rootPrim rest σ1 meshes1

/-- `args.meshes[0].includeOriginal = true`. -/
def markIncludeOriginal : List AssetReplacement → List AssetReplacement
  | [] => []
  | first :: rest => { first with includeOriginal := true } :: rest

/-- `processReplacement(args)` with `args.meshes` empty on entry, as at every call site. -/
def processReplacement (env : Env) (root : ReplacementRoot) (σ : Impl) :
    Except Fault (Impl × List AssetReplacement) :=
  match processNode env root.rootPrim root.rootPrim σ [] with
  | Except.error f => Except.error f
  | Except.ok (σ1, meshes1) =>
    match processDescendants env root.rootPrim root.descendants σ1 meshes1 with
    | Except.error f => Except.error f
    | Except.ok (σ2, meshes2) =>
      if !meshes2.isEmpty && root.rootPrim.hasPreserveOriginalDrawCall then
        Except.ok (σ2, markIncludeOriginal meshes2)
      else Except.ok (σ2, meshes2)

/-! ### The secret-variant registry (`TEMP_parseSecretReplacementVariants`) -/

/-- `kStorageCubeHash`. -/
def kStorageCubeHash : Nat := 0x9B9B00D1861E9B54

/-- `kCompanionCubeHash`. -/
def kCompanionCubeHash : Nat := 0x3242AA8DAD33D907

/-- The storage-cube variants in source order: name, unlock hash, sub-document. -/
def storageCubeVariants : List (String × Nat × String) :=
  [("Ice", 0x60ead40e2269b3c5, "./SubUSDs/SM_Prop_CompanionCube_Ice.usd"),
   ("Lens", 0xa8e871f4ebc52eab, "./SubUSDs/SM_Prop_CompanionCube_Lens.usd"),
   ("Camera", 0xd150bdeff3f0299a, "./SubUSDs/SM_Prop_CompanionCubeCamera_A01_01.usd"),
   ("Digital Skull", 0xb26578451f75c11a, "./SubUSDs/SM_Prop_CompanionCubeDigital_A02_01.usd"),
   ("Iso-Wheatly", 0xc270f63a956c0c71, "./SubUSDs/SM_Prop_CompanionCubeIsogrid_A01_01.usd"),
   ("Iso-Voyager", 0xaaaf0cbd8c8204cd, "./SubUSDs/SM_Prop_CompanionCubeIsogrid_A02_01.usd"),
   ("Iso-Black-Mesa", 0x2f9fe4ce23a83bc2, "./SubUSDs/SM_Prop_CompanionCubeIsogrid_A03_01.usd"),
   ("RTX", 0xe361f386c03400f3, "./SubUSDs/SM_Prop_RTX_CompanionCube_A1_01.usd")]

/-- The companion-cube variants in source order. -/
def companionCubeVariants : List (String × Nat × String) :=
  [("Pillow", 0xc901411d90916a58, "./SubUSDs/SM_Prop_CompanionCube_Pillow_A.usd"),
   ("Ceramic", 0x3495c5b9d210daa1, "./SubUSDs/SM_Prop_CompanionCube_Ceramic.usd"),
   ("Wood", 0x5e50cb7c64375acc, "./SubUSDs/SM_Prop_CompanionCube_Wood.usd"),
   ("Digital", 0xf2bda31c09fc42f6, "./SubUSDs/SM_Prop_CompanionCubeDigital_A01_01.usd")]

/-- The `lookupCount` lambda: the tallied count, or `1u` when the hash has none. -/
def lookupCount (variantCounts : List (Nat × Nat)) (hash : Nat) : Nat :=
  match kvGet hash variantCounts with
  | some c => c
  | none => 1

/-- The run of `storeObject(base, SecretReplacement{..., numVariants++})` calls of one
base hash; `numVariants` is a `uint32_t`. -/
def registerVariants (header : String) (base : Nat) :
    List (String × Nat × String) → Nat → AssetReplacements → AssetReplacements
  | [], _, r => r
  | (name, unlockHash, path) :: rest, numVariants, r =>
    registerVariants header base rest ((numVariants + 1) % 2 ^ 32)
      (r.storeSecret base
        { header := header, name := name, description := "", unlockHash := unlockHash
          assetHash := base, replacementPath := path, displayBeforeUnlocked := true
          exclusiveReplacement := true, variantId := numVariants })

/-- `TEMP_parseSecretReplacementVariants(variantCounts)`. -/
def TEMP_parseSecretReplacementVariants (variantCounts : List (Nat × Nat))
    (r : AssetReplacements) : AssetReplacements :=
  registerVariants "Companion Cubes" kCompanionCubeHash companionCubeVariants
    (lookupCount variantCounts kCompanionCubeHash)
    (registerVariants "Storage Cubes" kStorageCubeHash storageCubeVariants
      (lookupCount variantCounts kStorageCubeHash) r)

/-! ### The document walk and the lifecycle (`processUSD`, `load`, `unload`,
`checkForChanges`, lines 1001-1171) -/

/-- Modelled from the spec: `AssetReplacements::set<AssetReplacement::eMesh>`, absent
from the given sources; spec 4.7: the list is stored under the hash in the mesh
category. -/
def Impl.setMeshes (σ : Impl) (hash : Nat) (v : List AssetReplacement) : Impl :=
  { σ with replacements := { σ.replacements with meshes := kvSet hash v σ.replacements.meshes } }

/-- Modelled from the spec: `AssetReplacements::set<AssetReplacement::eLight>`, absent
from the given sources; spec 4.7: the list is stored under the hash in the light
category. -/
def Impl.setLights (σ : Impl) (hash : Nat) (v : List AssetReplacement) : Impl :=
  { σ with replacements := { σ.replacements with lights := kvSet hash v σ.replacements.lights } }

/-- The loop over the children of `/RootNode/meshes` (lines 1088-1101), tallying
`variantCounts` (a map to `uint32_t`). -/
def meshesLoop (env : Env) :
    List ReplacementRoot → List (Nat × Nat) → Impl → Except Fault (List (Nat × Nat) × Impl)
  | [], variantCounts, σ => Except.ok (variantCounts, σ)
  | child :: rest, variantCounts, σ =>
    if getModelHash child.rootPrim.name ≠ 0 then
      match processReplacement env child σ with
      | Except.error f => Except.error f
      | Except.ok (σ1, replacementVec) =>
        meshesLoop env rest
          (kvSet (getModelHash child.rootPrim.name)
            (((kvGet (getModelHash child.rootPrim.name) variantCounts).getD 0 + 1) % 2 ^ 32)
            variantCounts)
          (σ1.setMeshes (getModelHash child.rootPrim.name) replacementVec)
    else meshesLoop env rest variantCounts σ

/-- The inner loop over the secret variants of one base hash (lines 1107-1130). -/
def secretVariantsLoop (env : Env) (modBaseDirectory : String) (hash : Nat) :
    List SecretReplacement → Impl → Except Fault Impl
  | [], σ => Except.ok σ
  | secretReplacement :: rest, σ =>
    match env.lastWriteTime (modBaseDirectory ++ secretReplacement.replacementPath) with
    | none => secretVariantsLoop env modBaseDirectory hash rest σ
    | some _ =>
      match env.openStage (modBaseDirectory ++ secretReplacement.replacementPath) with
      | none => secretVariantsLoop env modBaseDirectory hash rest σ
      | some pStage =>
        match pStage.defaultPrim with
        | none => Except.error Fault.invalidPrim
        | some rootPrim =>
          match processReplacement env rootPrim σ with
          | Except.error f => Except.error f
          | Except.ok (σ1, replacementVec) =>
            secretVariantsLoop env modBaseDirectory hash rest
              (σ1.setMeshes ((hash + secretReplacement.variantId) % 2 ^ 64) replacementVec)

/-- The outer loop over `secretReplacements()` (line 1106), in registration order of
the base hashes. -/
def secretsLoop (env : Env) (modBaseDirectory : String) :
    List (Nat × List SecretReplacement) → Impl → Except Fault Impl
  | [], σ => Except.ok σ
  | (hash, secretReplacements) :: rest, σ =>
    match secretVariantsLoop env modBaseDirectory hash secretReplacements σ with
    | Except.error f => Except.error f
    | Except.ok σ1 => secretsLoop env modBaseDirectory rest σ1

/-- The loop over the children of `/RootNode/lights` (lines 1136-1146). -/
def lightsLoop (env : Env) : List ReplacementRoot → Impl → Except Fault Impl
  | [], σ => Except.ok σ
  | child :: rest, σ =>
    if getLightHash child.rootPrim.name ≠ 0 then
      match processReplacement env child σ with
      | Except.error f => Except.error f
      | Except.ok (σ1, replacementVec) =>
        lightsLoop env rest (σ1.setLights (getLightHash child.rootPrim.name) replacementVec)
    else lightsLoop env rest σ

/-- The loop over the children of `/RootNode/Looks` (lines 1156-1160). -/
def looksLoop (env : Env) : List MaterialPrim → Impl → Impl
  | [], σ => σ
  | materialPrim :: rest, σ => looksLoop env rest (processMaterial env materialPrim σ).2

/-- The status label read from the custom layer data (lines 1072-1082). -/
def statusOf (stage : UsdStage) : String :=
  match stage.exportStatus with
  | none => "Layer Data Missing"
  | some (some status) => status
  | some none => "Status Missing"

/-- `processUSD(context)`. -/
def processUSD (env : Env) (σ : Impl) : Except Fault Impl :=
  let replacementsUsdPath := σ.filePath
  let σ0 := { σ with state := State.Loading }
  match env.openStage replacementsUsdPath with
  | none =>
    Except.ok { σ0 with openedFilePath := "", fileModificationTime := 0, state := State.Unloaded }
  | some stage =>
    let modBaseDirectory := env.removeFilename replacementsUsdPath
    match env.lastWriteTime replacementsUsdPath with
    | none => Except.error Fault.filesystemError
    | some modTime =>
      let σ1 := { σ0 with openedFilePath := replacementsUsdPath
                          fileModificationTime := modTime
                          status := statusOf stage }
      match meshesLoop env (stage.meshes.getD []) [] σ1 with
      | Except.error f => Except.error f
      | Except.ok (variantCounts, σ2) =>
        let σ3 := { σ2 with replacements :=
          TEMP_parseSecretReplacementVariants variantCounts σ2.replacements }
        match secretsLoop env modBaseDirectory σ3.replacements.secretReplacements σ3 with
        | Except.error f => Except.error f
        | Except.ok σ4 =>
          match lightsLoop env (stage.lights.getD []) σ4 with
          | Except.error f => Except.error f
          | Except.ok σ5 =>
            Except.ok { looksLoop env (stage.looks.getD []) σ5 with state := State.Loaded }

/-- `load(context)`. -/
def load (env : Env) (σ : Impl) : Except Fault Impl :=
  if σ.state = State.Unloaded then processUSD env σ else Except.ok σ

/-- `unload()`. -/
def unload (σ : Impl) : Impl :=
  if σ.state = State.Loaded then
    { σ with replacements := σ.replacements.clear, state := State.Unloaded }
  else σ

/-- `checkForChanges(context)`: the returned flag and the new state.
`fs::last_write_time` throws when the file does not exist. -/
def checkForChanges (env : Env) (σ : Impl) : Except Fault (Bool × Impl) :=
  if σ.openedFilePath = "" then Except.ok (false, σ)
  else
    let stat : Except Fault (Option Int) :=
      if σ.state = State.Loaded then
        match env.lastWriteTime σ.openedFilePath with
        | some t => Except.ok (some t)
        | none => Except.error Fault.filesystemError
      else
        match env.lastWriteTime σ.openedFilePath with
        | some t => Except.ok (some t)
        | none => Except.ok none
    match stat with
    | Except.error f => Except.error f
    | Except.ok none => Except.ok (false, { σ with state := State.Unloaded })
    | Except.ok (some newModTime) =>
      if newModTime > σ.fileModificationTime then
        match processUSD env (unload σ) with
        | Except.error f => Except.error f
        | Except.ok σ1 => Except.ok (true, σ1)
      else Except.ok (false, σ)

/-- The range of the C++ type `int` (32 bits), the element type of the index arrays. -/
abbrev IsInt32 (i : Int) : Prop := -2147483648 ≤ i ∧ i < 2147483648

/-! ### Documents on which the walk raises no fault -/

/-- The checks of the walk pass on a node: a mesh node has an entry `faceVertexCounts[0]`
to read and none of its geometry subsets holds an empty `triangleIndices` array; a
light node has the `intensity` attribute. -/
abbrev UsdPrim.checksPass (p : UsdPrim) : Prop :=
  if p.type = PrimType.Mesh then
    p.faceVertexCounts ≠ [] ∧
      ∀ c ∈ p.activeChildren, c.isGeomSubset = true → c.triangleIndices ≠ some []
  else if p.type.isLight = true then p.hasIntensity = true
  else True

/-- The checks of the walk pass on a replacement root and on each of its descendants. -/
abbrev ReplacementRoot.checksPass (r : ReplacementRoot) : Prop :=
  r.rootPrim.checksPass ∧ ∀ d ∈ r.descendants, d.checksPass

/-- The checks of the walk pass on every replacement root of a stage. -/
abbrev UsdStage.checksPass (s : UsdStage) : Prop :=
  (∀ r ∈ s.meshes.getD [], r.checksPass) ∧ (∀ r ∈ s.lights.getD [], r.checksPass)

/-- The checks of the walk pass on the document at `path` and its sub-documents: the
modification time of the document can be read, its replacement roots pass, and every
document that opens has a valid default prim that passes. -/
def Env.checksPass (env : Env) (path : String) : Prop :=
  (env.lastWriteTime path).isSome = true
  ∧ (∀ stage, env.openStage path = some stage → stage.checksPass)
  ∧ (∀ p stage, env.openStage p = some stage →
      ∃ root, stage.defaultPrim = some root ∧ root.checksPass)

/-! ### Concrete inputs used by the witnesses -/

/-- The numeric libraries at the arguments the examples reach: `pow(2, 0) = 1`, and unit
axis lengths for the identity transform, the only transform of the examples; no example
enables the colour temperature. -/
def exNumerics : Numerics :=
  { pow2 := fun _ => F32.one
    blackbodyTemperatureAsRgb := fun _ => Vector3.ones
    axisScale := fun _ _ => F32.one }

/-- A zero vector. -/
def exOrigin : GfVec3f := { x := { bits := 0 }, y := { bits := 0 }, z := { bits := 0 } }

/-- A triangle mesh with positions only: three points, indices `0 1 2`. -/
def exTriangle : UsdPrim :=
  { type := PrimType.Mesh, usdOriginHash := 42
    faceVertexIndices := some [0, 1, 2], faceVertexCounts := [3]
    points := [exOrigin, exOrigin, exOrigin] }

/-- A document with one mesh replacement root, `mesh_00000000DEADBEEF`, and the default
prim `RootNode`. -/
def exStage : UsdStage :=
  { meshes := some [{ rootPrim := { exTriangle with name := "mesh_00000000DEADBEEF".toList } }]
    defaultPrim := some { rootPrim := { type := PrimType.Other, name := "RootNode".toList } } }

/-- The document `mod.usda` on disk, last written at time 5. -/
def exEnv : Env :=
  { lastWriteTime := fun p => if p = "mod.usda" then some 5 else none
    openStage := fun p => if p = "mod.usda" then some exStage else none
    removeFilename := fun _ => ""
    numerics := exNumerics }

/-- The same document, written again at time 6. -/
def exEnvTouched : Env :=
  { exEnv with lastWriteTime := fun p => if p = "mod.usda" then some 6 else none }

/-- No document on disk. -/
def exEnvMissing : Env :=
  { lastWriteTime := fun _ => none, openStage := fun _ => none, removeFilename := fun _ => ""
    numerics := exNumerics }

/-- A mod whose document is `mod.usda`, not yet loaded. -/
def exUnloaded : Impl := { filePath := "mod.usda" }

/-- A state that holds one default geometry under key 1. -/
def exWithGeometry : Impl := exUnloaded.storeGeometry 1 {}

/-- A loaded mod that recorded `mod.usda` at time 5 and holds one stored geometry. -/
def exLoaded : Impl :=
  { exWithGeometry with
    state := State.Loaded, openedFilePath := "mod.usda", fileModificationTime := 5 }

/-- The `float` 0.5. -/
def exHalf : F32 := { bits := 0x3F000000 }

/-- The `float` 1.0. -/
def exOne : F32 := { bits := 0x3F800000 }

/-- The `float` 0.0. -/
def exZero : F32 := { bits := 0 }

/-- An opaque shader that sets its own alpha state and authors the given reference. -/
def exAlphaShader (x : F32) : ShaderPrim :=
  { useLegacyAlphaState := some false, alphaReferenceValue := some x }

/-- A material `mat_0000000000000001` with the given shader. -/
def exMaterial (x : F32) : MaterialPrim :=
  { name := "mat_0000000000000001".toList, shaderChild := some (exAlphaShader x) }

/-- A subset whose largest index is 65535. -/
def exSubset65535 : ChildPrim := { usdOriginHash := 7, triangleIndices := some [0, 1, 65535] }

/-- A mesh whose largest index is 65536. -/
def exMesh65536 : UsdPrim :=
  { exTriangle with faceVertexIndices := some [0, 1, 65536] }

/-! ### Notions used to state the claims -/

/-- The content identifiers (`hashes[VertexPosition]`, `hashes[Indices]`) of the geometry
an `AssetReplacement` points to. -/
def contentIdentifiers (σ : Impl) (a : AssetReplacement) : Option (Nat × Nat) :=
  match a.geometryData with
  | none => none
  | some key => (σ.getGeometry key).map (fun g => (g.hashVertexPosition, g.hashIndices))

/-- Every content identifier in the store is at most the session counter
`m_replacedCount`, from which the identifiers are drawn. -/
def IdentifiersBelowCounter (σ : Impl) : Prop :=
  ∀ k g, σ.getGeometry k = some g →
    g.hashVertexPosition ≤ σ.replacedCount ∧ g.hashIndices ≤ σ.replacedCount

/-- State `τ` reached while `processPrim` ingests a mesh with structural hash `h` that was
new to the store of `σ`: the identifiers stay below the counter, the geometries of `σ`
are untouched, and the geometry under `h` carries identifiers above the counter of `σ`. -/
def FreshGeometry (σ : Impl) (h : Nat) (τ : Impl) : Prop :=
  IdentifiersBelowCounter τ ∧
  (∀ k g, σ.getGeometry k = some g → τ.getGeometry k = some g) ∧
  σ.replacedCount < τ.replacedCount ∧
  ∃ g, τ.getGeometry h = some g ∧ σ.replacedCount < g.hashVertexPosition
    ∧ σ.replacedCount < g.hashIndices

/-- The structure of a replacement store that the reload claim compares: per category
the keys in order, with the length of the replacement list under each key. -/
def storeStructure (r : AssetReplacements) :
    List (Nat × Nat) × List (Nat × Nat) × List Nat × List Nat × List (Nat × Nat) :=
  (r.meshes.map (fun e => (e.1, e.2.length)),
   r.lights.map (fun e => (e.1, e.2.length)),
   r.geometries.map (fun e => e.1),
   r.materials.map (fun e => e.1),
   r.secretReplacements.map (fun e => (e.1, e.2.length)))

/-- A geometry with its content identifiers blanked. -/
def eraseIdentifiers (g : RasterGeometry) : RasterGeometry :=
  { g with hashVertexPosition := 0, hashIndices := 0, hashVertexTexcoord := 0 }

/-- Two stores agree up to the values of the content identifiers and up to the material
data under each material key (the family of a material can depend on the function-static
`assetPath` that an earlier call left). -/
def StoreSim (r s : AssetReplacements) : Prop :=
  r.geometries.map (fun e => (e.1, eraseIdentifiers e.2))
      = s.geometries.map (fun e => (e.1, eraseIdentifiers e.2))
  ∧ r.materials.map (fun e => (e.1, ())) = s.materials.map (fun e => (e.1, ()))
  ∧ r.secretReplacements = s.secretReplacements
  ∧ r.meshes = s.meshes
  ∧ r.lights = s.lights

/-- Two mod states whose stores agree up to the values of the content identifiers. -/
def Sim (σ τ : Impl) : Prop := StoreSim σ.replacements τ.replacements

/-- Two outcomes of a call that end the same way: the same fault, or normal results
related by `R`. -/
def exceptRel {α : Type} (R : α → α → Prop) : Except Fault α → Except Fault α → Prop
  | Except.ok a, Except.ok b => R a b
  | Except.error f, Except.error f2 => f = f2
  | _, _ => False

/-- Two roots that resolve to the same source mesh: a document with the replacement
roots `mesh_00000000DEADBEEF` and `mesh_00000000DEADBEE0`, each the example triangle
with structural hash 42. -/
def exStageShared : UsdStage :=
  { meshes := some
      [{ rootPrim := { exTriangle with name := "mesh_00000000DEADBEEF".toList } },
       { rootPrim := { exTriangle with name := "mesh_00000000DEADBEE0".toList } }] }

/-- The document with the two roots on disk. -/
def exEnvShared : Env :=
  { lastWriteTime := fun p => if p = "mod.usda" then some 5 else none
    openStage := fun p => if p = "mod.usda" then some exStageShared else none
    removeFilename := fun _ => ""
    numerics := exNumerics }

/-- The example triangle under another structural hash. -/
def exTriangle43 : UsdPrim := { exTriangle with usdOriginHash := 43 }

/-- The state after `processPrim` ingested the example triangle into the empty store. -/
def exAfterTriangle : Impl :=
  match processPrim exEnv exTriangle exUnloaded [] with
  | Except.ok r => r.1
  | Except.error _ => exUnloaded

/-- The state the first `load()` of the example document leaves. -/
def exFirstLoad : Impl :=
  match load exEnv exUnloaded with
  | Except.ok σ => σ
  | Except.error _ => exUnloaded

/-- A shader whose source asset names the translucent and the portal family. -/
def exPortalShader : ShaderPrim :=
  { sourceAsset := SourceAsset.path "AperturePBR_Translucent.mdl/AperturePBR_Portal.mdl".toList }

/-- A shader whose source-asset attribute has a value that cannot be read as an asset
path. -/
def exUnreadableShader : ShaderPrim := { sourceAsset := SourceAsset.unreadable }

/-- A material `mat_0000000000000017` whose shader is the one with the unreadable source
asset. -/
def exUnreadableMaterial : MaterialPrim :=
  { name := "mat_0000000000000017".toList, shaderChild := some exUnreadableShader }

/-- A shader whose source asset names the translucent family. -/
def exTranslucentShader : ShaderPrim :=
  { sourceAsset := SourceAsset.path "./AperturePBR_Translucent.mdl".toList }

/-- A material `mat_0000000000000006` whose shader is the translucent shader. -/
def exTranslucentMaterial : MaterialPrim :=
  { name := "mat_0000000000000006".toList, shaderChild := some exTranslucentShader }

/-- A shader with no source asset and no alpha attributes, which sets its own alpha
state. -/
def exPlainShader : ShaderPrim := { useLegacyAlphaState := some false }

/-- A material `mat_0000000000000002` with no child named `Shader` and two shader-typed
children: the portal shader first, the plain shader last. -/
def exTwoShaderMaterial : MaterialPrim :=
  { name := "mat_0000000000000002".toList, activeChildren := [exPortalShader, exPlainShader] }

/-- A material `mat_0000000000000003` whose child named `Shader` is not a shader and
which has no shader-typed child. -/
def exWrongTypeMaterial : MaterialPrim :=
  { name := "mat_0000000000000003".toList, shaderChild := some { isShader := false } }

/-- A material `mat_0000000000000004` whose shader is the plain shader. -/
def exPlainMaterial : MaterialPrim :=
  { name := "mat_0000000000000004".toList, shaderChild := some exPlainShader }

/-- A material `mat_0000000000000005` whose shader is the portal shader. -/
def exPortalMaterial : MaterialPrim :=
  { name := "mat_0000000000000005".toList, shaderChild := some exPortalShader }

/-- The `float` 500.0. -/
def ex500 : F32 := { bits := 0x43FA0000 }

/-- The `float` 2.0. -/
def exTwo : F32 := { bits := 0x40000000 }

/-- The `float` 250.0. -/
def ex250 : F32 := { bits := 0x437A0000 }

/-- The `float` 1000.0. -/
def ex1000 : F32 := { bits := 0x447A0000 }

/-- A rect light with `width = 2`, `height = 1`, `intensity = 500`, no colour, no colour
temperature, no exposure and the identity transform. -/
def exRectLight : UsdPrim :=
  { type := PrimType.RectLight, name := "light_0000000000000007".toList, usdOriginHash := 70
    intensity := some ex500, width := some exTwo, height := some exOne }

/-- The rect light with the colour `(0.5, 1, 2)`. -/
def exColouredRectLight : UsdPrim :=
  { exRectLight with color := some { x := exHalf, y := exOne, z := exTwo } }

/-- A distant light with the `intensity` attribute. -/
def exDistantLight : UsdPrim :=
  { type := PrimType.DistantLight, usdOriginHash := 71, intensity := some exOne }

/-- The example triangle as a mesh replacement root with a distant light below it. -/
def exMeshRootWithDistantLight : ReplacementRoot :=
  { rootPrim := { exTriangle with name := "mesh_00000000DEADBEEF".toList }
    descendants := [exDistantLight] }

/-- The example triangle as a replacement root that carries `preserveOriginalDrawCall`,
with a rect light below it. -/
def exPreservingRoot : ReplacementRoot :=
  { rootPrim := { exTriangle with
      name := "mesh_00000000DEADBEEF".toList, hasPreserveOriginalDrawCall := true }
    descendants := [exRectLight] }

/-- An observation of the mod state that the geometry table, the material table, the
session counter and the function-static `assetPath` do not enter. -/
def WalkInvariant {α : Type} (p : Impl → α) : Prop :=
  ∀ (σ : Impl) (geometries : List (Nat × RasterGeometry))
    (materials : List (Nat × MaterialData)) (replacedCount : Nat) (assetPath : List Char),
    p { σ with
        replacements := { σ.replacements with geometries := geometries, materials := materials }
        replacedCount := replacedCount
        assetPath := assetPath } = p σ

/-- The number of mesh replacement roots among `roots` that derive the hash `base`. -/
def rootsDeriving (roots : List ReplacementRoot) (base : Nat) : Nat :=
  (roots.filter (fun r => decide (getModelHash r.rootPrim.name = base))).length

/-- A document with two mesh replacement roots that derive the storage-cube hash
(`mesh_9B9B00D1861E9B54` and `mesh_9b9b00d1861e9b54`). -/
def exStageCubes : UsdStage :=
  { meshes := some
      [{ rootPrim := { exTriangle with name := "mesh_9B9B00D1861E9B54".toList } },
       { rootPrim := { exTriangle with name := "mesh_9b9b00d1861e9b54".toList } }] }

/-- The document with the two storage-cube roots on disk. -/
def exEnvCubes : Env :=
  { lastWriteTime := fun p => if p = "mod.usda" then some 5 else none
    openStage := fun p => if p = "mod.usda" then some exStageCubes else none
    removeFilename := fun _ => ""
    numerics := exNumerics }

/-- The state the first `load()` of the document with the two storage-cube roots leaves. -/
def exCubesLoaded : Impl :=
  match load exEnvCubes exUnloaded with
  | Except.ok σ => σ
  | Except.error _ => exUnloaded

/-- The variant index the first secret variant of a base hash receives: the tally of the
mesh replacement roots that derive the base hash (a `uint32_t`), or 1 when no root
derives it. -/
def firstVariantIndex (roots : List ReplacementRoot) (base : Nat) : Nat :=
  if rootsDeriving roots base = 0 then 1 else rootsDeriving roots base % 2 ^ 32

/-- A subset without the `triangleIndices` attribute. -/
def exSubsetNoIndices : ChildPrim := { usdOriginHash := 8 }

/-- A subset with three indices, bound to the plain material `mat_0000000000000004`. -/
def exSubsetBound : ChildPrim :=
  { usdOriginHash := 9, triangleIndices := some [0, 1, 2], boundMaterial := some exPlainMaterial }

/-- A mesh with positions and two geometry subsets, the first without indices. -/
def exTwoSubsetMesh : UsdPrim :=
  { type := PrimType.Mesh, usdOriginHash := 44
    points := [exOrigin, exOrigin, exOrigin]
    activeChildren := [exSubsetNoIndices, exSubsetBound] }

/-- A ray-portal shader that authors `inputs:ignore_material` as true. -/
def exIgnoredPortalShader : ShaderPrim :=
  { sourceAsset := SourceAsset.path "./AperturePBR_Portal.mdl".toList, ignoreMaterial := some true }

/-- A material `mat_0000000000000021` whose shader is the ignored ray-portal shader. -/
def exIgnoredPortalMaterial : MaterialPrim :=
  { name := "mat_0000000000000021".toList, shaderChild := some exIgnoredPortalShader }

/-- The same attributes on a shader of the translucent family. -/
def exIgnoredTranslucentShader : ShaderPrim :=
  { sourceAsset := SourceAsset.path "./AperturePBR_Translucent.mdl".toList, ignoreMaterial := some true }

/-- A material `mat_0000000000000022` whose shader is the ignored translucent shader. -/
def exIgnoredTranslucentMaterial : MaterialPrim :=
  { name := "mat_0000000000000022".toList, shaderChild := some exIgnoredTranslucentShader }

/-- The option store with the left-handed option set. -/
def exEnvLHS : Env := { exEnv with isLHS := true }

/-- The triangle placed by a transform with an off-diagonal Z entry and a translation. -/
def exSheared : UsdPrim :=
  { exTriangle with
    localToWorld := Matrix.of ![![1, 0, 5, 0], ![0, 1, 0, 0], ![0, 0, 1, 0], ![7, 8, 9, 1]] }

/-- A mesh below a replacement root that scales by two: its world transform is the
scale, its transform relative to the root is the identity. -/
def exScaledChild : UsdPrim :=
  { exTriangle with
    usdOriginHash := 46
    localToWorld := Matrix.diagonal ![2, 2, 2, 1]
    relativeToRoot := 1 }

/-- A mesh replacement root `mesh_00000000DEADBEEF` that scales by two, with the scaled
child as its one descendant. -/
def exScaledRoot : ReplacementRoot :=
  { rootPrim := { exTriangle with
      name := "mesh_00000000DEADBEEF".toList
      usdOriginHash := 45
      localToWorld := Matrix.diagonal ![2, 2, 2, 1] }
    descendants := [exScaledChild] }

/-- A sphere light at the place of the scaled child. -/
def exScaledLight : UsdPrim := { exScaledChild with type := PrimType.SphereLight }

/-- A mesh whose first index is negative. -/
def exMeshNegative : UsdPrim :=
  { exTriangle with faceVertexIndices := some [-1, 0, 1] }

/-- A mesh whose first face is a triangle, followed by a quadrilateral and a two-vertex
face: nine face-vertex indices in all. -/
def exMixedFaces : UsdPrim :=
  { type := PrimType.Mesh, usdOriginHash := 47
    faceVertexIndices := some [0, 1, 2, 0, 1, 2, 3, 0, 1], faceVertexCounts := [3, 4, 2]
    points := [exOrigin, exOrigin, exOrigin, exOrigin] }

/-- A mesh with positions and three geometry subsets: the bound subset, the subset
without indices, and the bound subset again under another hash. -/
def exThreeSubsetMesh : UsdPrim :=
  { type := PrimType.Mesh, usdOriginHash := 48
    points := [exOrigin, exOrigin, exOrigin]
    activeChildren := [exSubsetBound, exSubsetNoIndices, { exSubsetBound with usdOriginHash := 10 }] }

/-- The vertex fields of a geometry: vertex count, interleaved data and the three
views. -/
def vertexFields (g : RasterGeometry) :
    Nat × List F32 × Option VertexBuffer × Option VertexBuffer × Option VertexBuffer :=
  (g.vertexCount, g.vertexData, g.positionBuffer, g.normalBuffer, g.texcoordBuffer)

/-- The sizes and offsets, in bytes, of the packed buffer of a new geometry (lines
684-697). -/
structure BufferLayout where
  indexSize : Nat
  vertexStructureSize : Nat
  indexOffset : Nat
  pointsOffset : Nat
  normalsOffset : Nat
  uvOffset : Nat
  indexSliceSize : Nat
  vertexSliceSize : Nat
  totalSize : Nat
  deriving DecidableEq, Repr

/-- The layout `processPrim` computes at lines 684-697 for a mesh with `numSubsets`
subsets.  `align` stands for `dxvk::align(size, CACHE_LINE_SIZE)`, a function of the
utility library outside the given sources.  The operands are `size_t` byte counts of
arrays held in memory, far below 2^64, so no wrap-around is modelled. -/
def bufferLayout (align : Nat → Nat) (prim : UsdPrim) (numSubsets : Nat) : BufferLayout :=
  let vecIndices := prim.faceVertexIndices.getD []
  let vertexCount := prim.points.length
  let indexSize := if numSubsets ≤ 1 then vecIndices.length * 4 else 0
  let pointsSize := 12
  let normalsSize := if isNormalValid prim then 12 else 0
  let uvSize := if isUVValid prim then 8 else 0
  let vertexStructureSize := pointsSize + normalsSize + uvSize
  let indexOffset := 0
  let pointsOffset := align indexSize
  let normalsOffset := pointsOffset + pointsSize
  let uvOffset := normalsOffset + normalsSize
  let indexSliceSize := align indexSize
  let vertexSliceSize := align (vertexStructureSize * vertexCount)
  { indexSize := indexSize
    vertexStructureSize := vertexStructureSize
    indexOffset := indexOffset
    pointsOffset := pointsOffset
    normalsOffset := normalsOffset
    uvOffset := uvOffset
    indexSliceSize := indexSliceSize
    vertexSliceSize := vertexSliceSize
    totalSize := indexSliceSize + vertexSliceSize }

/-- An alignment function: rounding up to the next multiple of `a`. -/
def exAlign (a x : Nat) : Nat := (x + (a - 1)) / a * a

/-- The three public calls that change the state of the mod. -/
inductive Call where
  | load
  | unload
  | checkForChanges
  deriving DecidableEq, Repr

/-- One call, made with the collaborators as they are at the time of the call; the
result is the state after a normal return. -/
def runCall (env : Env) (c : Call) (σ : Impl) : Except Fault Impl :=
  match c with
  | Call.load => load env σ
  | Call.unload => Except.ok (unload σ)
  | Call.checkForChanges =>
    match checkForChanges env σ with
    | Except.error f => Except.error f
    | Except.ok (_, σ1) => Except.ok σ1

/-- A finite sequence of calls, each with the collaborators of its time; a call that
does not return normally ends the run. -/
def runCalls : List (Env × Call) → Impl → Except Fault Impl
  | [], σ => Except.ok σ
  | (env, c) :: rest, σ =>
    match runCall env c σ with
    | Except.error f => Except.error f
    | Except.ok σ1 => runCalls rest σ1

/-- A state between calls: `Loaded`, or `Unloaded` with an empty replacement store. -/
def RestingState (σ : Impl) : Prop :=
  σ.state = State.Loaded ∨ (σ.state = State.Unloaded ∧ σ.replacements = {})

/-- A mesh new to the store without positions, with two geometry subsets: the first
without indices, the second with three indices and the plain material. -/
def exTwoSubsetNoPoints : UsdPrim :=
  { type := PrimType.Mesh, usdOriginHash := 50
    activeChildren := [exSubsetNoIndices, exSubsetBound] }

/-- A material `mat_0000000000000012` without any shader child. -/
def exNoShaderMaterial : MaterialPrim := { name := "mat_0000000000000012".toList }

/-- A subset with three indices, bound to the material without shader. -/
def exSubsetNoShader : ChildPrim :=
  { usdOriginHash := 11, triangleIndices := some [0, 1, 2]
    boundMaterial := some exNoShaderMaterial }

/-- A mesh with positions and two geometry subsets: the first without indices, the
second bound to the material without shader. -/
def exTwoSubsetNoShaderMesh : UsdPrim :=
  { type := PrimType.Mesh, usdOriginHash := 51
    points := [exOrigin, exOrigin, exOrigin]
    activeChildren := [exSubsetNoIndices, exSubsetNoShader] }

theorem hexDigitValue_lt (c : Char) (d : Nat) (h : hexDigitValue c = some d) : d < 16 := by
  unfold hexDigitValue at h
  split_ifs at h <;> simp at h <;> omega

theorem hexDigitValue_eq_zero (c : Char) (h : hexDigitValue c = some 0) : c = '0' := by
  unfold hexDigitValue at h
  have h48 : c.toNat = 48 := by
    split_ifs at h <;> simp at h <;> omega
  rw [← Char.ofNat_toNat c, h48]

theorem isHexDigit_not_special (c : Char) (h : isHexDigit c = true) :
    isSpaceC c = false ∧ c ≠ '-' ∧ c ≠ '+' ∧ c ≠ 'x' ∧ c ≠ 'X' := by
  refine ⟨?_, ?_, ?_, ?_, ?_⟩
  · unfold isHexDigit hexDigitValue at h
    unfold isSpaceC
    split_ifs at h <;> simp at h ⊢ <;> omega
  all_goals
    intro hc
    subst hc
    revert h
    decide

theorem foldl_accumulateHex_eq_zero (ds : List Char) (acc : Nat)
    (hds : ∀ c ∈ ds, isHexDigit c = true) :
    ds.foldl accumulateHex acc = 0 ↔ acc = 0 ∧ ∀ c ∈ ds, c = '0' := by
  induction ds generalizing acc with
  | nil => simp
  | cons c t ih =>
    have hc : isHexDigit c = true := hds c (List.mem_cons_self _ _)
    have ht : ∀ x ∈ t, isHexDigit x = true := fun x hx => hds x (List.mem_cons_of_mem _ hx)
    rw [List.foldl_cons, ih _ ht]
    unfold isHexDigit at hc
    obtain ⟨d, hd⟩ := Option.isSome_iff_exists.mp hc
    constructor
    · rintro ⟨h0, hall⟩
      unfold accumulateHex at h0
      rw [hd] at h0
      simp at h0
      have hd0 : hexDigitValue c = some 0 := by rw [hd, h0.2]
      refine ⟨h0.1, ?_⟩
      intro x hx
      rcases List.mem_cons.mp hx with rfl | hx
      · exact hexDigitValue_eq_zero _ hd0
      · exact hall x hx
    · rintro ⟨h0, hall⟩
      refine ⟨?_, fun x hx => hall x (List.mem_cons_of_mem _ hx)⟩
      have : c = '0' := hall c (List.mem_cons_self _ _)
      subst this
      subst h0
      decide

theorem subjectDigits_isHex (s : List Char) : ∀ c ∈ subjectDigits s, isHexDigit c = true := by
  intro c hc
  unfold subjectDigits at hc
  exact (List.mem_takeWhile_imp hc)

theorem strtoull16_eq_zero_iff (s : List Char) : strtoull16 s = 0 ↔ parsesToZero s := by
  have key := foldl_accumulateHex_eq_zero (subjectDigits s) 0 (subjectDigits_isHex s)
  simp only [true_and] at key
  unfold parsesToZero
  rw [← key]
  unfold strtoull16 hexDigitsValue ULLONG_MAX
  simp only
  generalize (subjectDigits s).foldl accumulateHex 0 = v
  have h64 : (2 : Nat) ^ 64 = 18446744073709551616 := by norm_num
  rw [h64]
  clear h64 key
  split_ifs with h1 h2
  · constructor
    · intro h
      simp at h
    · intro h
      omega
  · constructor <;> intro h <;> omega
  · exact Iff.rfl

/-- On a non-empty run of digits the parser reads the whole run and sees no sign. -/
theorem subjectDigits_of_hex (ds : List Char) (h : ∀ c ∈ ds, isHexDigit c = true) :
    subjectDigits ds = ds ∧ (skipSign (ds.dropWhile isSpaceC)).1 = false := by
  have htw : ds.takeWhile isHexDigit = ds := by
    rw [List.takeWhile_eq_self_iff]
    exact h
  match ds, h, htw with
  | [], _, _ => exact ⟨rfl, rfl⟩
  | [a], h, htw =>
    obtain ⟨hs, hm, hp, _, _⟩ := isHexDigit_not_special a (h a (by simp))
    simp [subjectDigits, List.dropWhile, hs, skipSign, hm, hp, skipHexPrefix] at htw ⊢
    exact htw
  | [a, b], h, htw =>
    obtain ⟨hs, hm, hp, _, _⟩ := isHexDigit_not_special a (h a (by simp))
    simp [subjectDigits, List.dropWhile, hs, skipSign, hm, hp, skipHexPrefix] at htw ⊢
    exact htw
  | a :: b :: c :: t, h, htw =>
    obtain ⟨hs, hm, hp, _, _⟩ := isHexDigit_not_special a (h a (by simp))
    obtain ⟨_, _, _, hx, hX⟩ := isHexDigit_not_special b (h b (by simp))
    simp only [subjectDigits, List.dropWhile, hs, skipSign, hm, hp, skipHexPrefix, if_false,
      hx, hX, or_self, false_and, and_false]
    exact ⟨htw, trivial⟩

theorem strtoull16_of_hex (ds : List Char) (h : ∀ c ∈ ds, isHexDigit c = true)
    (hv : hexDigitsValue ds < 2 ^ 64) : strtoull16 ds = hexDigitsValue ds := by
  obtain ⟨h1, h2⟩ := subjectDigits_of_hex ds h
  unfold strtoull16
  simp only [h1, h2]
  unfold ULLONG_MAX
  have : ¬ (2 ^ 64 - 1 < hexDigitsValue ds) := by omega
  rw [if_neg this]
  simp

theorem hexDigitChar_value (u : Bool) (d : Nat) (h : d < 16) :
    hexDigitValue (hexDigitChar u d) = some d := by
  interval_cases d <;> cases u <;> decide

theorem hexDigits_isHex (u : Bool) (n v : Nat) : ∀ c ∈ hexDigits u n v, isHexDigit c = true := by
  induction n generalizing v with
  | zero => simp [hexDigits]
  | succ n ih =>
    intro c hc
    simp only [hexDigits, List.mem_append, List.mem_singleton] at hc
    rcases hc with hc | rfl
    · exact ih _ c hc
    · unfold isHexDigit
      rw [hexDigitChar_value u _ (Nat.mod_lt _ (by norm_num))]
      rfl

theorem hexDigitsValue_hexDigits (u : Bool) (n v : Nat) :
    hexDigitsValue (hexDigits u n v) = v % 16 ^ n := by
  induction n generalizing v with
  | zero => simp [hexDigits, hexDigitsValue, Nat.mod_one]
  | succ n ih =>
    have ih' := ih (v / 16)
    unfold hexDigitsValue at ih' ⊢
    simp only [hexDigits, List.foldl_append, List.foldl_cons, List.foldl_nil]
    rw [ih']
    unfold accumulateHex
    rw [hexDigitChar_value u _ (Nat.mod_lt _ (by norm_num))]
    simp only [Option.getD_some]
    rw [pow_succ, Nat.mul_comm (16 ^ n) 16, Nat.mod_mul]
    ring

theorem getNamedHash_eq_zero_iff (name pfx : List Char) :
    getNamedHash name pfx pfx.length = 0 ↔
      (¬ startsWith pfx name ∨ parsesToZero (name.drop pfx.length)) := by
  unfold getNamedHash startsWith
  by_cases h : name.take pfx.length = pfx
  · rw [if_pos h, strtoull16_eq_zero_iff]
    simp [h]
  · rw [if_neg h]
    simp [h]

/-! ### C1 -/

/-- C1 as stated fails: the node name `mesh_0` starts with the recognised prefix
`mesh_`, yet the derived hash `getModelHash` is 0, because the text after the prefix
parses to zero. -/
theorem getModelHash_zero_despite_prefix :
    ¬ (getModelHash "mesh_0".toList = 0 ↔ ¬ startsWith meshPrefix "mesh_0".toList) := by
  decide

/-- C1 (amended): the derived replacement hash is 0 if and only if the name starts with
none of the recognised prefixes or the text after the prefix parses to zero (its digit
run after optional white space, sign and `0x` is empty or all zeros), and, for
`getMaterialHash`, additionally the node is not Material-typed or its structural hash
is 0.  The node type is consulted by `getMaterialHash` only. -/
theorem derived_hash_eq_zero_iff (name typeName : List Char) (usdOriginHash : Nat) :
    (getModelHash name = 0 ↔
      (¬ startsWith meshPrefix name ∨ parsesToZero (name.drop meshPrefix.length))) ∧
    (getLightHash name = 0 ↔
      ((¬ startsWith lightPrefix name ∧ ¬ startsWith legacyPrefix name)
        ∨ (startsWith lightPrefix name ∧ parsesToZero (name.drop lightPrefix.length))
        ∨ (startsWith legacyPrefix name ∧ parsesToZero (name.drop legacyPrefix.length)))) ∧
    (getMaterialHash name typeName usdOriginHash = 0 ↔
      ((¬ startsWith matPrefix name ∨ parsesToZero (name.drop matPrefix.length)) ∧
        (typeName ≠ kMaterialType ∨ usdOriginHash = 0))) := by
  refine ⟨getNamedHash_eq_zero_iff name meshPrefix, ?_, ?_⟩
  · unfold getLightHash
    by_cases hs : name.head? = some 's'
    · rw [if_pos hs, getNamedHash_eq_zero_iff]
      have hl : ¬ startsWith lightPrefix name := by
        intro hl
        unfold startsWith at hl
        cases name with
        | nil => simp at hs
        | cons c t =>
          simp at hs
          subst hs
          revert hl
          simp [lightPrefix]
      tauto
    · rw [if_neg hs, getNamedHash_eq_zero_iff]
      have hl : ¬ startsWith legacyPrefix name := by
        intro hl
        unfold startsWith at hl
        cases name with
        | nil => simp [legacyPrefix] at hl
        | cons c t =>
          simp at hs
          simp [legacyPrefix] at hl
          exact hs hl.1
      tauto
  · unfold getMaterialHash
    have key := getNamedHash_eq_zero_iff name matPrefix
    by_cases h0 : getNamedHash name matPrefix matPrefix.length = 0
    · have hk := key.mp h0
      by_cases ht : typeName = kMaterialType
      · simp [h0, ht, hk]
      · simp [h0, ht, hk]
    · have hk : ¬ (¬ startsWith matPrefix name ∨ parsesToZero (name.drop matPrefix.length)) :=
        fun h => h0 (key.mpr h)
      simp only [ne_eq, h0, not_false_eq_true, if_true]
      constructor
      · intro h
        exact h.elim
      · intro h
        exact absurd h.1 hk

/-! ### C2 -/

/-- C2: for every 64-bit value `v` and every prefix `pfx` (in particular `mesh_`,
`light_`, `sphereLight_` and `mat_`), `getNamedHash` applied to the name made of the
prefix followed by the 16-hex-digit rendering of `v`, in upper or lower case, returns
exactly `v`. -/
theorem getNamedHash_hex16 (v : Nat) (hv : v < 2 ^ 64) (upper : Bool) (pfx : List Char) :
    getNamedHash (pfx ++ hex16 upper v) pfx pfx.length = v := by
  unfold getNamedHash
  rw [List.take_left, if_pos rfl, List.drop_left]
  unfold hex16
  have hval : hexDigitsValue (hexDigits upper 16 v) = v := by
    rw [hexDigitsValue_hexDigits]
    apply Nat.mod_eq_of_lt
    calc v < 2 ^ 64 := hv
      _ = 16 ^ 16 := by norm_num
  rw [strtoull16_of_hex _ (hexDigits_isHex upper 16 v) (by rw [hval]; exact hv), hval]

/-- C2 witness: `mesh_00000000DEADBEEF` and `sphereLight_00000000deadbeef`. -/
theorem getNamedHash_hex16_witness :
    (0xDEADBEEF < 2 ^ 64 ∧
      getNamedHash (meshPrefix ++ hex16 true 0xDEADBEEF) meshPrefix meshPrefix.length
        = 0xDEADBEEF) ∧
    getNamedHash (legacyPrefix ++ hex16 false 0xDEADBEEF) legacyPrefix legacyPrefix.length
        = 0xDEADBEEF :=
  ⟨⟨by norm_num, getNamedHash_hex16 0xDEADBEEF (by norm_num) true meshPrefix⟩,
    getNamedHash_hex16 0xDEADBEEF (by norm_num) false legacyPrefix⟩

/-! ### Keyed tables and the store -/

theorem kvGet_kvSet_self {α : Type} (k : Nat) (v : α) (m : List (Nat × α)) :
    kvGet k (kvSet k v m) = some v := by
  induction m with
  | nil => simp [kvSet, kvGet]
  | cons e t ih =>
    obtain ⟨k', v'⟩ := e
    by_cases h : k' = k
    · simp [kvSet, kvGet, h]
    · simp [kvSet, kvGet, h, ih]

theorem kvGet_kvSet_ne {α : Type} (k k2 : Nat) (v : α) (m : List (Nat × α)) (hne : k2 ≠ k) :
    kvGet k2 (kvSet k v m) = kvGet k2 m := by
  induction m with
  | nil => simp [kvSet, kvGet, Ne.symm hne]
  | cons e t ih =>
    obtain ⟨k', v'⟩ := e
    by_cases h : k' = k
    · subst h
      simp [kvSet, kvGet, Ne.symm hne]
    · by_cases h2 : k' = k2
      · subst h2
        simp [kvSet, kvGet, h]
      · simp [kvSet, kvGet, h, h2, ih]

theorem kvGet_kvModify_self {α : Type} (k : Nat) (f : α → α) (m : List (Nat × α)) :
    kvGet k (kvModify k f m) = (kvGet k m).map f := by
  induction m with
  | nil => simp [kvModify, kvGet]
  | cons e t ih =>
    obtain ⟨k', v'⟩ := e
    by_cases h : k' = k
    · simp [kvModify, kvGet, h]
    · simp [kvModify, kvGet, h, ih]

theorem kvGet_kvModify_ne {α : Type} (k k2 : Nat) (f : α → α) (m : List (Nat × α))
    (hne : k2 ≠ k) : kvGet k2 (kvModify k f m) = kvGet k2 m := by
  induction m with
  | nil => simp [kvModify, kvGet]
  | cons e t ih =>
    obtain ⟨k', v'⟩ := e
    by_cases h : k' = k
    · subst h
      simp [kvModify, kvGet, Ne.symm hne, ih]
    · by_cases h2 : k' = k2
      · subst h2
        simp [kvModify, kvGet, h]
      · simp [kvModify, kvGet, h, h2, ih]

theorem kvGet_kvErase_self {α : Type} (k : Nat) (m : List (Nat × α)) :
    kvGet k (kvErase k m) = none := by
  induction m with
  | nil => simp [kvErase, kvGet]
  | cons e t ih =>
    obtain ⟨k', v'⟩ := e
    by_cases h : k' = k
    · simp [kvErase, h, ih]
    · simp [kvErase, kvGet, h, ih]

theorem kvGet_kvErase_ne {α : Type} (k k2 : Nat) (m : List (Nat × α)) (hne : k2 ≠ k) :
    kvGet k2 (kvErase k m) = kvGet k2 m := by
  induction m with
  | nil => simp [kvErase, kvGet]
  | cons e t ih =>
    obtain ⟨k', v'⟩ := e
    by_cases h : k' = k
    · subst h
      simp [kvErase, kvGet, Ne.symm hne, ih]
    · by_cases h2 : k' = k2
      · subst h2
        simp [kvErase, kvGet, h]
      · simp [kvErase, kvGet, h, h2, ih]

/-- Material ingestion touches the material table and the function-static `assetPath`
only. -/
theorem processMaterial_frame (env : Env) (matPrim : MaterialPrim) (σ : Impl) :
    ∃ mats ap, (processMaterial env matPrim σ).2 =
      { σ with replacements := { σ.replacements with materials := mats }, assetPath := ap } := by
  unfold processMaterial
  simp only
  split_ifs
  · exact ⟨σ.replacements.materials, σ.assetPath, rfl⟩
  · split
    · exact ⟨σ.replacements.materials, σ.assetPath, rfl⟩
    · split
      · exact ⟨σ.replacements.materials, σ.assetPath, rfl⟩
      · exact ⟨_, _, rfl⟩

theorem processMaterialUser_frame (env : Env) (bound : Option MaterialPrim) (σ : Impl) :
    ∃ mats ap, (processMaterialUser env bound σ).2 =
      { σ with replacements := { σ.replacements with materials := mats }, assetPath := ap } := by
  unfold processMaterialUser
  cases bound with
  | none => exact ⟨σ.replacements.materials, σ.assetPath, rfl⟩
  | some m => exact processMaterial_frame env m σ

theorem processMaterialUser_getGeometry (env : Env) (bound : Option MaterialPrim) (σ : Impl)
    (k : Nat) : (processMaterialUser env bound σ).2.getGeometry k = σ.getGeometry k := by
  obtain ⟨mats, ap, h⟩ := processMaterialUser_frame env bound σ
  rw [h]
  rfl

theorem processMaterialUser_replacedCount (env : Env) (bound : Option MaterialPrim) (σ : Impl) :
    (processMaterialUser env bound σ).2.replacedCount = σ.replacedCount := by
  obtain ⟨mats, ap, h⟩ := processMaterialUser_frame env bound σ
  rw [h]

/-! ### The index loop -/

theorem foldl_max_ge (l : List Int) (a : Int) :
    a ≤ l.foldl max a ∧ ∀ i ∈ l, i ≤ l.foldl max a := by
  induction l generalizing a with
  | nil => simp
  | cons x t ih =>
    obtain ⟨h1, h2⟩ := ih (max a x)
    simp only [List.foldl_cons, List.mem_cons]
    refine ⟨le_trans (le_max_left a x) h1, ?_⟩
    rintro i (rfl | hi)
    · exact le_trans (le_max_right a i) h1
    · exact h2 i hi

theorem foldl_max_mem (l : List Int) (a : Int) : l.foldl max a = a ∨ l.foldl max a ∈ l := by
  induction l generalizing a with
  | nil => simp
  | cons x t ih =>
    simp only [List.foldl_cons, List.mem_cons]
    rcases ih (max a x) with h | h
    · rw [h]
      rcases max_choice a x with h' | h'
      · exact Or.inl h'
      · exact Or.inr (Or.inl h')
    · exact Or.inr (Or.inr h)

/-- The 16-bit test passes exactly when every index is below 65536. -/
theorem use16bitIndices_iff (vecIndices : List Int) (hint : ∀ i ∈ vecIndices, IsInt32 i) :
    use16bitIndices (maxIndexOf vecIndices) = true ↔ ∀ i ∈ vecIndices, i < 65536 := by
  obtain ⟨h0, hge⟩ := foldl_max_ge vecIndices 0
  have hmem := foldl_max_mem vecIndices 0
  have hlt : maxIndexOf vecIndices < 2147483648 := by
    unfold maxIndexOf
    rcases hmem with h | h
    · rw [h]
      norm_num
    · exact (hint _ h).2
  unfold use16bitIndices kMaxU16Indices
  unfold maxIndexOf at hlt ⊢
  generalize vecIndices.foldl max 0 = m at h0 hge hmem hlt
  have h32 : (2 : Int) ^ 32 = 4294967296 := by norm_num
  rw [decide_eq_true_iff, h32]
  constructor
  · intro h i hi
    have := hge i hi
    omega
  · intro h
    rcases hmem with rfl | hm
    · norm_num
    · have := h m hm
      omega

/-- The width of the index view that both ingestion paths build. -/
theorem makeIndexBuffer_width (vecIndices : List Int) (hint : ∀ i ∈ vecIndices, IsInt32 i) :
    (((makeIndexBuffer vecIndices).indexType = VkIndexType.UINT16 ∧
        (makeIndexBuffer vecIndices).stride = 2) ↔ ∀ i ∈ vecIndices, i < 65536) ∧
    (((makeIndexBuffer vecIndices).indexType = VkIndexType.UINT32 ∧
        (makeIndexBuffer vecIndices).stride = 4) ↔ ∃ i ∈ vecIndices, 65536 ≤ i) := by
  have key := use16bitIndices_iff vecIndices hint
  unfold makeIndexBuffer
  by_cases h : use16bitIndices (maxIndexOf vecIndices) = true
  · have hall := key.mp h
    rw [if_pos h]
    refine ⟨⟨fun _ => hall, fun _ => ⟨rfl, rfl⟩⟩, ⟨fun hc => ?_, fun hc => ?_⟩⟩
    · simp at hc
    · obtain ⟨i, hi, h6⟩ := hc
      have := hall i hi
      omega
  · have hnall : ¬ ∀ i ∈ vecIndices, i < 65536 := fun hc => h (key.mpr hc)
    rw [if_neg h]
    refine ⟨⟨fun hc => ?_, fun hc => absurd hc hnall⟩, ⟨fun _ => ?_, fun _ => ⟨rfl, rfl⟩⟩⟩
    · simp at hc
    · push_neg at hnall
      exact hnall

/-! ### Geometry ingestion -/

@[simp] theorem getGeometry_storeGeometry_self (σ : Impl) (k : Nat) (g : RasterGeometry) :
    (σ.storeGeometry k g).getGeometry k = some g :=
  kvGet_kvSet_self k g _

@[simp] theorem getGeometry_modifyGeometry_self (σ : Impl) (k : Nat)
    (f : RasterGeometry → RasterGeometry) :
    (σ.modifyGeometry k f).getGeometry k = (σ.getGeometry k).map f :=
  kvGet_kvModify_self k f _

theorem getGeometry_storeGeometry_ne (σ : Impl) (k k2 : Nat) (g : RasterGeometry)
    (hne : k2 ≠ k) : (σ.storeGeometry k g).getGeometry k2 = σ.getGeometry k2 :=
  kvGet_kvSet_ne k k2 g _ hne

theorem getGeometry_modifyGeometry_ne (σ : Impl) (k k2 : Nat)
    (f : RasterGeometry → RasterGeometry) (hne : k2 ≠ k) :
    (σ.modifyGeometry k f).getGeometry k2 = σ.getGeometry k2 :=
  kvGet_kvModify_ne k k2 f _ hne

theorem getGeometry_removeGeometry_ne (σ : Impl) (k k2 : Nat) (hne : k2 ≠ k) :
    (σ.removeGeometry k).getGeometry k2 = σ.getGeometry k2 :=
  kvGet_kvErase_ne k k2 _ hne

@[simp] theorem getGeometry_setReplacedCount (σ : Impl) (c k : Nat) :
    (σ.setReplacedCount c).getGeometry k = σ.getGeometry k := rfl

/-- What the claims about index data read of a stored geometry. -/
theorem processGeomSubset_indexBuffer (env : Env) (subPrim : ChildPrim) (geomKey : Nat)
    (materialData : Option Nat) (σ : Impl) (vecIndices : List Int) (g : RasterGeometry)
    (hidx : subPrim.triangleIndices = some vecIndices) (hne : vecIndices ≠ [])
    (hg : σ.getGeometry geomKey = some g) :
    ∃ mat σ', processGeomSubset env subPrim geomKey materialData σ = Except.ok (true, mat, σ')
      ∧ σ'.getGeometry geomKey
          = some (writeSubsetIndices vecIndices (nextCount σ.replacedCount) g) := by
  have hlen : vecIndices.length ≠ 0 := by
    intro h
    exact hne (List.length_eq_zero.mp h)
  unfold processGeomSubset
  rw [hidx]
  simp only [hlen, if_false]
  refine ⟨_, _, rfl, ?_⟩
  rw [processMaterialUser_getGeometry, getGeometry_modifyGeometry_self,
    getGeometry_setReplacedCount, hg]
  rfl

/-- Without subset children the subset loop does nothing. -/
theorem subsetLoop_no_subsets (env : Env) (geomKey : Nat) (m : Matrix4)
    (children : List ChildPrim) (isFirst : Bool) (materialData : Option Nat) (σ : Impl)
    (meshes : List AssetReplacement) (h : ∀ c ∈ children, c.isGeomSubset = false) :
    subsetLoop env geomKey m children isFirst materialData σ meshes
      = Except.ok (materialData, σ, meshes) := by
  induction children with
  | nil => rfl
  | cons c t ih =>
    have hc : c.isGeomSubset = false := h c (List.mem_cons_self _ _)
    unfold subsetLoop
    simp only [hc]
    exact ih (fun x hx => h x (List.mem_cons_of_mem _ hx))

@[simp] theorem replacedCount_modifyGeometry (σ : Impl) (k : Nat)
    (f : RasterGeometry → RasterGeometry) :
    (σ.modifyGeometry k f).replacedCount = σ.replacedCount := rfl

@[simp] theorem replacedCount_storeGeometry (σ : Impl) (k : Nat) (g : RasterGeometry) :
    (σ.storeGeometry k g).replacedCount = σ.replacedCount := rfl

@[simp] theorem replacedCount_removeGeometry (σ : Impl) (k : Nat) :
    (σ.removeGeometry k).replacedCount = σ.replacedCount := rfl

@[simp] theorem replacedCount_setReplacedCount (σ : Impl) (c : Nat) :
    (σ.setReplacedCount c).replacedCount = c := rfl

/-- The counter value drawn for the texcoord identifier of a new geometry. -/
theorem vertexBlock_getGeometry (prim : UsdPrim) (σ2 : Impl) :
    (vertexBlock prim σ2).getGeometry prim.usdOriginHash =
      (σ2.getGeometry prim.usdOriginHash).map
        (fillVertexFields prim
          (if isUVValid prim then nextCount σ2.replacedCount else σ2.replacedCount)
          (nextCount (if isUVValid prim then nextCount σ2.replacedCount else σ2.replacedCount))) := by
  unfold vertexBlock
  simp only [getGeometry_modifyGeometry_self, getGeometry_setReplacedCount]

/-- An accepted mesh with its own indices: the block that fills the new geometry. -/
theorem createGeometry_accept (prim : UsdPrim) (numSubsets : Nat) (σ : Impl)
    (vecIndices : List Int) (hsub : numSubsets ≤ 1)
    (hidx : prim.faceVertexIndices = some vecIndices) (hne : vecIndices ≠ [])
    (hpts : prim.points ≠ []) (hfc : prim.faceVertexCounts.head? = some 3)
    (htri : vecIndices.length % 3 = 0) :
    ∃ σ1, createGeometry prim numSubsets σ = Except.ok (true, σ1)
      ∧ σ1.getGeometry prim.usdOriginHash
          = some (fillVertexFields prim
              (if isUVValid prim then nextCount σ.replacedCount else σ.replacedCount)
              (nextCount (if isUVValid prim then nextCount σ.replacedCount else σ.replacedCount))
              (writeMeshIndices vecIndices (writeVertexCount prim.points.length {}))) := by
  have hlen : 0 < vecIndices.length * 4 := by
    have := List.length_pos.mpr hne
    omega
  have hplen : prim.points.length ≠ 0 := fun h => hpts (List.length_eq_zero.mp h)
  unfold createGeometry indexBlock
  simp only [hidx, hsub, Option.isSome_some, Option.getD_some, if_true, hplen, if_false, hfc,
    htri, hlen, ne_eq, not_true_eq_false, or_self, Bool.true_eq_false, and_false]
  refine ⟨_, rfl, ?_⟩
  rw [vertexBlock_getGeometry]
  simp only [getGeometry_modifyGeometry_self, getGeometry_storeGeometry_self, Option.map_some',
    replacedCount_modifyGeometry, replacedCount_storeGeometry]

/-- An accepted mesh with its own indices and at most one subset: `processPrim` returns
and the geometry stored under the structural hash is the one the block filled. -/
theorem processPrim_accept (env : Env) (prim : UsdPrim) (σ : Impl)
    (meshes : List AssetReplacement) (vecIndices : List Int)
    (hsub : (prim.activeChildren.filter (fun c => c.isGeomSubset)).length ≤ 1)
    (hnew : σ.getGeometry prim.usdOriginHash = none)
    (hidx : prim.faceVertexIndices = some vecIndices) (hne : vecIndices ≠ [])
    (hpts : prim.points ≠ []) (hfc : prim.faceVertexCounts.head? = some 3)
    (htri : vecIndices.length % 3 = 0) :
    ∃ σ' meshes', processPrim env prim σ meshes = Except.ok (σ', meshes')
      ∧ σ'.getGeometry prim.usdOriginHash
          = some (fillVertexFields prim
              (if isUVValid prim then nextCount σ.replacedCount else σ.replacedCount)
              (nextCount (if isUVValid prim then nextCount σ.replacedCount else σ.replacedCount))
              (writeMeshIndices vecIndices (writeVertexCount prim.points.length {}))) := by
  obtain ⟨σ1, hc, hg⟩ := createGeometry_accept prim _ σ vecIndices hsub hidx hne hpts hfc htri
  generalize fillVertexFields prim _ _ _ = G at hg ⊢
  unfold processPrim
  simp only [hnew, hc]
  by_cases h1 : (prim.activeChildren.filter (fun c => c.isGeomSubset)).length = 1
  · simp only [h1, if_true]
    cases hf : prim.activeChildren.find? (fun c => c.isGeomSubset) with
    | none =>
      simp only
      split_ifs <;> exact ⟨_, _, rfl, by simp only [processMaterialUser_getGeometry, hg]⟩
    | some child =>
      simp only
      split_ifs <;> exact ⟨_, _, rfl, by simp only [processMaterialUser_getGeometry, hg]⟩
  · have h0 : prim.activeChildren.filter (fun c => c.isGeomSubset) = [] := by
      apply List.length_eq_zero.mp
      omega
    have hall : ∀ c ∈ prim.activeChildren, c.isGeomSubset = false := by
      intro c hc'
      by_contra hcon
      have : c ∈ prim.activeChildren.filter (fun c => c.isGeomSubset) := by
        rw [List.mem_filter]
        exact ⟨hc', by simpa using hcon⟩
      rw [h0] at this
      exact absurd this (List.not_mem_nil c)
    simp only [h1, if_false, subsetLoop_no_subsets _ _ _ _ _ _ _ _ hall]
    split_ifs <;> exact ⟨_, _, rfl, by simp only [processMaterialUser_getGeometry, hg]⟩

/-! ### C3 -/

/-- C3: for every non-empty index array ingested by `processGeomSubset` (a subset with a
`triangleIndices` array, writing into a stored geometry) or by `processPrim` (a new mesh
with at most one subset that passes the position and triangle checks), the call returns
and the index buffer it leaves has 16-bit indices (stride 2) if and only if every index,
hence the maximum, is below 65536, and 32-bit indices (stride 4) if and only if some
index is 65536 or more. -/
theorem index_width_iff_max_below_65536 (env : Env) (vecIndices : List Int)
    (hne : vecIndices ≠ []) (hint : ∀ i ∈ vecIndices, IsInt32 i) :
    (∀ (subPrim : ChildPrim) (geomKey : Nat) (materialData : Option Nat) (σ : Impl)
        (g : RasterGeometry),
        subPrim.triangleIndices = some vecIndices → σ.getGeometry geomKey = some g →
        ∃ mat σ' g' ib,
          processGeomSubset env subPrim geomKey materialData σ = Except.ok (true, mat, σ')
          ∧ σ'.getGeometry geomKey = some g' ∧ g'.indexBuffer = some ib
          ∧ ((ib.indexType = VkIndexType.UINT16 ∧ ib.stride = 2) ↔ ∀ i ∈ vecIndices, i < 65536)
          ∧ ((ib.indexType = VkIndexType.UINT32 ∧ ib.stride = 4) ↔ ∃ i ∈ vecIndices, 65536 ≤ i)) ∧
    (∀ (prim : UsdPrim) (σ : Impl) (meshes : List AssetReplacement),
        (prim.activeChildren.filter (fun c => c.isGeomSubset)).length ≤ 1 →
        σ.getGeometry prim.usdOriginHash = none →
        prim.faceVertexIndices = some vecIndices → prim.points ≠ [] →
        prim.faceVertexCounts.head? = some 3 → vecIndices.length % 3 = 0 →
        ∃ σ' meshes' g' ib,
          processPrim env prim σ meshes = Except.ok (σ', meshes')
          ∧ σ'.getGeometry prim.usdOriginHash = some g' ∧ g'.indexBuffer = some ib
          ∧ ((ib.indexType = VkIndexType.UINT16 ∧ ib.stride = 2) ↔ ∀ i ∈ vecIndices, i < 65536)
          ∧ ((ib.indexType = VkIndexType.UINT32 ∧ ib.stride = 4) ↔ ∃ i ∈ vecIndices, 65536 ≤ i)) := by
  have hw := makeIndexBuffer_width vecIndices hint
  constructor
  · intro subPrim geomKey materialData σ g hidx hg
    obtain ⟨mat, σ', hr, hg'⟩ :=
      processGeomSubset_indexBuffer env subPrim geomKey materialData σ vecIndices g hidx hne hg
    exact ⟨mat, σ', _, makeIndexBuffer vecIndices, hr, hg', rfl, hw.1, hw.2⟩
  · intro prim σ meshes hsub hnew hidx hpts hfc htri
    obtain ⟨σ', meshes', hr, hg'⟩ :=
      processPrim_accept env prim σ meshes vecIndices hsub hnew hidx hne hpts hfc htri
    exact ⟨σ', meshes', _, makeIndexBuffer vecIndices, hr, hg', rfl, hw.1, hw.2⟩

/-- C3 witness: a subset with largest index 65535 gets 16-bit indices, a mesh with
largest index 65536 gets 32-bit indices. -/
theorem index_width_boundary_witness :
    (∃ mat σ' g' ib,
      processGeomSubset exEnv exSubset65535 1 none exWithGeometry = Except.ok (true, mat, σ')
      ∧ σ'.getGeometry 1 = some g' ∧ g'.indexBuffer = some ib
      ∧ ((ib.indexType = VkIndexType.UINT16 ∧ ib.stride = 2) ↔
          ∀ i ∈ ([0, 1, 65535] : List Int), i < 65536)
      ∧ ((ib.indexType = VkIndexType.UINT32 ∧ ib.stride = 4) ↔
          ∃ i ∈ ([0, 1, 65535] : List Int), 65536 ≤ i)) ∧
    (∃ σ' meshes' g' ib,
      processPrim exEnv exMesh65536 exUnloaded [] = Except.ok (σ', meshes')
      ∧ σ'.getGeometry 42 = some g' ∧ g'.indexBuffer = some ib
      ∧ ((ib.indexType = VkIndexType.UINT16 ∧ ib.stride = 2) ↔
          ∀ i ∈ ([0, 1, 65536] : List Int), i < 65536)
      ∧ ((ib.indexType = VkIndexType.UINT32 ∧ ib.stride = 4) ↔
          ∃ i ∈ ([0, 1, 65536] : List Int), 65536 ≤ i)) ∧
    (makeIndexBuffer [0, 1, 65535]).indexType = VkIndexType.UINT16 ∧
    (makeIndexBuffer [0, 1, 65536]).indexType = VkIndexType.UINT32 :=
  ⟨(index_width_iff_max_below_65536 exEnv [0, 1, 65535] (by decide) (by decide)).1
      exSubset65535 1 none exWithGeometry {} rfl rfl,
    (index_width_iff_max_below_65536 exEnv [0, 1, 65536] (by decide) (by decide)).2
      exMesh65536 exUnloaded [] (by decide) rfl rfl (by decide) rfl rfl,
    by decide, by decide⟩

/-! ### The walk returns on a document that passes its checks -/

theorem processGeomSubset_ok (env : Env) (subPrim : ChildPrim) (geomKey : Nat)
    (materialData : Option Nat) (σ : Impl) (h : subPrim.triangleIndices ≠ some []) :
    ∃ r, processGeomSubset env subPrim geomKey materialData σ = Except.ok r := by
  unfold processGeomSubset
  cases ht : subPrim.triangleIndices with
  | none => exact ⟨_, rfl⟩
  | some v =>
    have hv : ¬ v.length = 0 := by
      intro h0
      apply h
      rw [ht, List.length_eq_zero.mp h0]
    simp only [if_neg hv]
    exact ⟨_, rfl⟩

theorem subsetLoop_ok (env : Env) (geomKey : Nat) (M : Matrix4) (children : List ChildPrim) :
    (∀ c ∈ children, c.isGeomSubset = true → c.triangleIndices ≠ some []) →
    ∀ (isFirst : Bool) (mat : Option Nat) (σ : Impl) (ms : List AssetReplacement),
      ∃ r, subsetLoop env geomKey M children isFirst mat σ ms = Except.ok r := by
  induction children with
  | nil =>
    intro _ isFirst mat σ ms
    exact ⟨_, rfl⟩
  | cons child rest ih =>
    intro h isFirst mat σ ms
    have hrest := ih (fun c hc => h c (List.mem_cons_of_mem _ hc))
    have hchild := h child (List.mem_cons_self _ _)
    unfold subsetLoop
    by_cases hg : child.isGeomSubset = true
    · rw [if_pos hg]
      by_cases hf : isFirst = true
      · rw [if_pos hf]
        obtain ⟨r, hr⟩ := processGeomSubset_ok env child geomKey mat σ (hchild hg)
        rw [hr]
        obtain ⟨d, m1, σ1⟩ := r
        exact hrest _ _ _ _
      · rw [if_neg hf]
        simp only
        cases hgeo : σ.getGeometry child.usdOriginHash with
        | some g => exact hrest _ _ _ _
        | none =>
          simp only
          obtain ⟨r, hr⟩ := processGeomSubset_ok env child child.usdOriginHash mat
            (σ.storeGeometry child.usdOriginHash ((σ.getGeometry geomKey).getD {})) (hchild hg)
          rw [hr]
          obtain ⟨d, m1, σ1⟩ := r
          cases d with
          | true => exact hrest _ _ _ _
          | false => exact hrest _ _ _ _
    · rw [if_neg hg]
      exact hrest _ _ _ _

theorem indexBlock_ok (prim : UsdPrim) (n : Nat) (σ : Impl) (h : prim.faceVertexCounts ≠ []) :
    ∃ r, indexBlock prim n σ = Except.ok r := by
  unfold indexBlock
  cases hc : prim.faceVertexCounts with
  | nil => exact absurd hc h
  | cons c cs =>
    simp only [List.head?_cons]
    split_ifs <;> exact ⟨_, rfl⟩

theorem createGeometry_ok (prim : UsdPrim) (n : Nat) (σ : Impl)
    (h : prim.faceVertexCounts ≠ []) : ∃ r, createGeometry prim n σ = Except.ok r := by
  unfold createGeometry
  simp only
  split_ifs with h1 h2
  · exact ⟨_, rfl⟩
  · exact ⟨_, rfl⟩
  · obtain ⟨r, hr⟩ := indexBlock_ok prim n
      ((σ.storeGeometry prim.usdOriginHash {}).modifyGeometry prim.usdOriginHash
        (writeVertexCount prim.points.length)) h
    rw [hr]
    cases r with
    | none => exact ⟨_, rfl⟩
    | some σ2 => exact ⟨_, rfl⟩

theorem processPrim_ok (env : Env) (prim : UsdPrim) (σ : Impl) (ms : List AssetReplacement)
    (h1 : prim.faceVertexCounts ≠ [])
    (h2 : ∀ c ∈ prim.activeChildren, c.isGeomSubset = true → c.triangleIndices ≠ some []) :
    ∃ r, processPrim env prim σ ms = Except.ok r := by
  have tail : ∀ σ1 : Impl, ∃ r,
      (match (Except.ok (true, σ1) : Except Fault (Bool × Impl)) with
        | Except.error f => Except.error f
        | Except.ok (false, σ1) => Except.ok (σ1, ms)
        | Except.ok (true, σ1) =>
          let r := processMaterialUser env prim.boundMaterial σ1
          let replacementToObject := replacementToObjectOf env prim
          let walked : Except Fault (Option Nat × Impl × List AssetReplacement) :=
            if (prim.activeChildren.filter (fun c => c.isGeomSubset)).length = 1 then
              match prim.activeChildren.find? (fun c => c.isGeomSubset) with
              | some child =>
                let r1 := processMaterialUser env child.boundMaterial r.2
                Except.ok ((if r1.1.isSome then r1.1 else r.1), r1.2, ms)
              | none => Except.ok (r.1, r.2, ms)
            else subsetLoop env prim.usdOriginHash replacementToObject prim.activeChildren
              true r.1 r.2 ms
          match walked with
          | Except.error f => Except.error f
          | Except.ok (materialData, σ2, meshes1) =>
            if ((σ2.getGeometry prim.usdOriginHash).map (fun g => g.indexCount)).getD 0 = 0 then
              Except.ok (σ2, meshes1)
            else
              Except.ok (σ2, meshes1 ++ [{ geometryData := some prim.usdOriginHash
                                           materialData := materialData
                                           replacementToObject := replacementToObject }]))
        = (Except.ok r : Except Fault (Impl × List AssetReplacement)) := by
    intro σ1
    simp only
    by_cases hn : (prim.activeChildren.filter (fun c => c.isGeomSubset)).length = 1
    · rw [if_pos hn]
      cases prim.activeChildren.find? (fun c => c.isGeomSubset) with
      | some child =>
        simp only
        split_ifs <;> exact ⟨_, rfl⟩
      | none =>
        simp only
        split_ifs <;> exact ⟨_, rfl⟩
    · rw [if_neg hn]
      obtain ⟨r, hr⟩ := subsetLoop_ok env prim.usdOriginHash (replacementToObjectOf env prim)
        prim.activeChildren h2 true (processMaterialUser env prim.boundMaterial σ1).1
        (processMaterialUser env prim.boundMaterial σ1).2 ms
      rw [hr]
      obtain ⟨m, σ2, ms1⟩ := r
      simp only
      split_ifs <;> exact ⟨_, rfl⟩
  unfold processPrim
  simp only
  cases hg : σ.getGeometry prim.usdOriginHash with
  | some g => exact tail σ
  | none =>
    simp only
    obtain ⟨r, hr⟩ := createGeometry_ok prim
      (prim.activeChildren.filter (fun c => c.isGeomSubset)).length σ h1
    rw [hr]
    obtain ⟨b, σ1⟩ := r
    cases b with
    | false => exact ⟨_, rfl⟩
    | true => exact tail σ1

theorem processLight_ok (env : Env) (rootPrim lightPrim : UsdPrim)
    (ms : List AssetReplacement) (h : lightPrim.hasIntensity = true) :
    ∃ r, processLight env rootPrim lightPrim ms = Except.ok r := by
  unfold processLight
  have hi : ¬ lightPrim.hasIntensity = false := by
    rw [h]
    decide
  simp only [if_neg hi]
  split <;> exact ⟨_, rfl⟩

theorem processNode_ok (env : Env) (rootPrim node : UsdPrim) (σ : Impl)
    (ms : List AssetReplacement) (h : node.checksPass) :
    ∃ r, processNode env rootPrim node σ ms = Except.ok r := by
  unfold processNode
  unfold UsdPrim.checksPass at h
  by_cases hm : node.type = PrimType.Mesh
  · rw [if_pos hm] at h ⊢
    exact processPrim_ok env node σ ms h.1 h.2
  · rw [if_neg hm] at h ⊢
    by_cases hli : node.type.isLight = true
    · rw [if_pos hli] at h ⊢
      obtain ⟨r, hr⟩ := processLight_ok env rootPrim node ms h
      rw [hr]
      exact ⟨_, rfl⟩
    · rw [if_neg hli]
      exact ⟨_, rfl⟩

theorem processDescendants_ok (env : Env) (rootPrim : UsdPrim) (descs : List UsdPrim) :
    (∀ d ∈ descs, d.checksPass) →
    ∀ (σ : Impl) (ms : List AssetReplacement),
      ∃ r, processDescendants env rootPrim descs σ ms = Except.ok r := by
  induction descs with
  | nil =>
    intro _ σ ms
    exact ⟨_, rfl⟩
  | cons d rest ih =>
    intro h σ ms
    unfold processDescendants
    obtain ⟨r, hr⟩ := processNode_ok env rootPrim d σ ms (h d (List.mem_cons_self _ _))
    rw [hr]
    obtain ⟨σ1, ms1⟩ := r
    exact ih (fun c hc => h c (List.mem_cons_of_mem _ hc)) σ1 ms1

theorem processReplacement_ok (env : Env) (root : ReplacementRoot) (σ : Impl)
    (h : root.checksPass) : ∃ r, processReplacement env root σ = Except.ok r := by
  unfold processReplacement
  obtain ⟨r, hr⟩ := processNode_ok env root.rootPrim root.rootPrim σ [] h.1
  rw [hr]
  obtain ⟨σ1, ms1⟩ := r
  simp only
  obtain ⟨r2, hr2⟩ := processDescendants_ok env root.rootPrim root.descendants h.2 σ1 ms1
  rw [hr2]
  obtain ⟨σ2, ms2⟩ := r2
  simp only
  split_ifs <;> exact ⟨_, rfl⟩

theorem meshesLoop_ok (env : Env) (roots : List ReplacementRoot) :
    (∀ r ∈ roots, r.checksPass) →
    ∀ (vc : List (Nat × Nat)) (σ : Impl), ∃ r, meshesLoop env roots vc σ = Except.ok r := by
  induction roots with
  | nil =>
    intro _ vc σ
    exact ⟨_, rfl⟩
  | cons child rest ih =>
    intro h vc σ
    have hrest := ih (fun c hc => h c (List.mem_cons_of_mem _ hc))
    unfold meshesLoop
    by_cases hh : getModelHash child.rootPrim.name ≠ 0
    · rw [if_pos hh]
      obtain ⟨r, hr⟩ := processReplacement_ok env child σ (h child (List.mem_cons_self _ _))
      rw [hr]
      obtain ⟨σ1, ms1⟩ := r
      exact hrest _ _
    · rw [if_neg hh]
      exact hrest _ _

theorem secretVariantsLoop_ok (env : Env) (dir : String) (hash : Nat)
    (hsub : ∀ p stage, env.openStage p = some stage →
      ∃ root, stage.defaultPrim = some root ∧ root.checksPass)
    (secrets : List SecretReplacement) :
    ∀ (σ : Impl), ∃ σ', secretVariantsLoop env dir hash secrets σ = Except.ok σ' := by
  induction secrets with
  | nil =>
    intro σ
    exact ⟨_, rfl⟩
  | cons s rest ih =>
    intro σ
    unfold secretVariantsLoop
    cases hl : env.lastWriteTime (dir ++ s.replacementPath) with
    | none => exact ih _
    | some t =>
      simp only
      cases ho : env.openStage (dir ++ s.replacementPath) with
      | none => exact ih _
      | some pStage =>
        simp only
        obtain ⟨root, hd, hroot⟩ := hsub _ _ ho
        rw [hd]
        simp only
        obtain ⟨r, hr⟩ := processReplacement_ok env root σ hroot
        rw [hr]
        obtain ⟨σ1, ms1⟩ := r
        exact ih _

theorem secretsLoop_ok (env : Env) (dir : String)
    (hsub : ∀ p stage, env.openStage p = some stage →
      ∃ root, stage.defaultPrim = some root ∧ root.checksPass)
    (table : List (Nat × List SecretReplacement)) :
    ∀ (σ : Impl), ∃ σ', secretsLoop env dir table σ = Except.ok σ' := by
  induction table with
  | nil =>
    intro σ
    exact ⟨_, rfl⟩
  | cons e rest ih =>
    intro σ
    obtain ⟨hash, secrets⟩ := e
    unfold secretsLoop
    obtain ⟨σ1, h1⟩ := secretVariantsLoop_ok env dir hash hsub secrets σ
    rw [h1]
    exact ih _

theorem lightsLoop_ok (env : Env) (roots : List ReplacementRoot) :
    (∀ r ∈ roots, r.checksPass) →
    ∀ (σ : Impl), ∃ σ', lightsLoop env roots σ = Except.ok σ' := by
  induction roots with
  | nil =>
    intro _ σ
    exact ⟨_, rfl⟩
  | cons child rest ih =>
    intro h σ
    have hrest := ih (fun c hc => h c (List.mem_cons_of_mem _ hc))
    unfold lightsLoop
    by_cases hh : getLightHash child.rootPrim.name ≠ 0
    · rw [if_pos hh]
      obtain ⟨r, hr⟩ := processReplacement_ok env child σ (h child (List.mem_cons_self _ _))
      rw [hr]
      obtain ⟨σ1, ms1⟩ := r
      exact hrest _
    · rw [if_neg hh]
      exact hrest _

theorem processUSD_ok (env : Env) (σ : Impl) (h : env.checksPass σ.filePath) :
    ∃ σ', processUSD env σ = Except.ok σ' := by
  obtain ⟨htime, hdoc, hsub⟩ := h
  unfold processUSD
  simp only
  cases ho : env.openStage σ.filePath with
  | none => exact ⟨_, rfl⟩
  | some stage =>
    simp only
    obtain ⟨t, ht⟩ := Option.isSome_iff_exists.mp htime
    rw [ht]
    simp only
    obtain ⟨hmesh, hlight⟩ := hdoc stage ho
    obtain ⟨r, hr⟩ := meshesLoop_ok env (stage.meshes.getD []) hmesh []
      { σ with state := State.Loading, openedFilePath := σ.filePath, fileModificationTime := t,
               status := statusOf stage }
    rw [hr]
    obtain ⟨vc, σ2⟩ := r
    simp only
    obtain ⟨σ4, h4⟩ := secretsLoop_ok env (env.removeFilename σ.filePath) hsub
      (TEMP_parseSecretReplacementVariants vc σ2.replacements).secretReplacements
      { σ2 with replacements := TEMP_parseSecretReplacementVariants vc σ2.replacements }
    rw [h4]
    simp only
    obtain ⟨σ5, h5⟩ := lightsLoop_ok env (stage.lights.getD []) hlight σ4
    rw [h5]
    exact ⟨_, rfl⟩

theorem exStage_checksPass : exStage.checksPass := by
  refine ⟨?_, ?_⟩
  · intro r hr
    simp only [exStage, Option.getD_some, List.mem_singleton] at hr
    subst hr
    decide
  · intro r hr
    exact absurd hr (List.not_mem_nil r)

theorem exStage_defaultPrim_checksPass :
    ∃ root, exStage.defaultPrim = some root ∧ root.checksPass :=
  ⟨_, rfl, by decide⟩

theorem exEnv_checksPass : exEnv.checksPass "mod.usda" := by
  refine ⟨rfl, ?_, ?_⟩
  · intro stage h
    have hs : stage = exStage := by
      simp only [exEnv, if_true, Option.some.injEq] at h
      exact h.symm
    rw [hs]
    exact exStage_checksPass
  · intro p stage h
    have hs : stage = exStage := by
      simp only [exEnv] at h
      split_ifs at h
      simp only [Option.some.injEq] at h
      exact h.symm
    rw [hs]
    exact exStage_defaultPrim_checksPass

/-- A walk that returns normally after the document opened ends in `Loaded`. -/
theorem processUSD_state_of_open (env : Env) (σ σ' : Impl) (stage : UsdStage)
    (hopen : env.openStage σ.filePath = some stage) (h : processUSD env σ = Except.ok σ') :
    σ'.state = State.Loaded := by
  unfold processUSD at h
  simp only [hopen] at h
  split at h
  · exact absurd h (by simp)
  · split at h
    · exact absurd h (by simp)
    · split at h
      · exact absurd h (by simp)
      · split at h
        · exact absurd h (by simp)
        · injection h with h
          rw [← h]

/-- C8: `load()` returns the state it was given (state, replacement store, recorded path
and recorded modification time all unchanged) unless that state is `Unloaded`; called in
`Unloaded` with a document that cannot be opened it returns normally in `Unloaded` with
the store untouched; called in `Unloaded` with a document that opens, every normal
return is in `Loaded`, and the call does return, in `Loaded`, when the checks of the
walk pass on the document (its modification time can be read, every mesh node has a
face count to read and no empty subset index array, every light has an intensity, every
sub-document that opens has a valid default prim). -/
theorem load_effect (env : Env) (σ : Impl) :
    (σ.state ≠ State.Unloaded → load env σ = Except.ok σ) ∧
    (σ.state = State.Unloaded → env.openStage σ.filePath = none →
      ∃ σ', load env σ = Except.ok σ' ∧ σ'.state = State.Unloaded
        ∧ σ'.replacements = σ.replacements) ∧
    (σ.state = State.Unloaded → (env.openStage σ.filePath).isSome = true →
      ∀ σ', load env σ = Except.ok σ' → σ'.state = State.Loaded) ∧
    (σ.state = State.Unloaded → (env.openStage σ.filePath).isSome = true →
      env.checksPass σ.filePath →
      ∃ σ', load env σ = Except.ok σ' ∧ σ'.state = State.Loaded) := by
  refine ⟨?_, ?_, ?_, ?_⟩
  · intro hs
    unfold load
    rw [if_neg hs]
  · intro hs hopen
    unfold load processUSD
    rw [if_pos hs]
    simp only [hopen]
    exact ⟨_, rfl, rfl, rfl⟩
  · intro hs hopen σ' h
    unfold load at h
    rw [if_pos hs] at h
    obtain ⟨stage, hstage⟩ := Option.isSome_iff_exists.mp hopen
    exact processUSD_state_of_open env σ σ' stage hstage h
  · intro hs hopen hchecks
    obtain ⟨stage, hstage⟩ := Option.isSome_iff_exists.mp hopen
    obtain ⟨σ', h⟩ := processUSD_ok env σ hchecks
    refine ⟨σ', ?_, processUSD_state_of_open env σ σ' stage hstage h⟩
    unfold load
    rw [if_pos hs]
    exact h

/-- C8 witness: loading the example document, which passes the checks of the walk, from
`Unloaded` returns in `Loaded`; loading with no document on disk returns in `Unloaded`;
loading again when loaded changes nothing. -/
theorem load_effect_witness :
    (∃ σ', load exEnv exUnloaded = Except.ok σ' ∧ σ'.state = State.Loaded) ∧
    (∃ σ', load exEnv exUnloaded = Except.ok σ' ∧ σ'.state = State.Loaded
      ∧ σ'.replacements.meshes.map (fun e => (e.1, e.2.length)) = [(0xDEADBEEF, 1)]) ∧
    (∃ σ', load exEnvMissing exUnloaded = Except.ok σ' ∧ σ'.state = State.Unloaded
      ∧ σ'.replacements = exUnloaded.replacements) ∧
    load exEnv exLoaded = Except.ok exLoaded :=
  ⟨(load_effect exEnv exUnloaded).2.2.2 rfl rfl exEnv_checksPass,
    ⟨_, rfl, (load_effect exEnv exUnloaded).2.2.1 rfl rfl _ rfl, by decide⟩,
    (load_effect exEnvMissing exUnloaded).2.1 rfl rfl,
    (load_effect exEnv exLoaded).1 (by decide)⟩

/-! ### C9 -/

/-- C9: `unload()` returns the state it was given unless that state is `Loaded`; called
in `Loaded` it leaves every table of the replacement store empty and the state
`Unloaded`, and touches nothing else. -/
theorem unload_effect (σ : Impl) :
    (σ.state ≠ State.Loaded → unload σ = σ) ∧
    (σ.state = State.Loaded →
      (unload σ).state = State.Unloaded
      ∧ (unload σ).replacements.geometries = []
      ∧ (unload σ).replacements.materials = []
      ∧ (unload σ).replacements.secretReplacements = []
      ∧ (unload σ).replacements.meshes = []
      ∧ (unload σ).replacements.lights = []
      ∧ (unload σ).filePath = σ.filePath
      ∧ (unload σ).openedFilePath = σ.openedFilePath
      ∧ (unload σ).fileModificationTime = σ.fileModificationTime
      ∧ (unload σ).replacedCount = σ.replacedCount) := by
  constructor
  · intro hs
    unfold unload
    rw [if_neg hs]
  · intro hs
    unfold unload
    rw [if_pos hs]
    exact ⟨rfl, rfl, rfl, rfl, rfl, rfl, rfl, rfl, rfl, rfl⟩

/-- C9 witness: unloading the loaded example mod empties its store; unloading an
unloaded mod changes nothing. -/
theorem unload_effect_witness :
    ((unload exLoaded).state = State.Unloaded
      ∧ (unload exLoaded).replacements.geometries = []
      ∧ (unload exLoaded).replacements.materials = []
      ∧ (unload exLoaded).replacements.secretReplacements = []
      ∧ (unload exLoaded).replacements.meshes = []
      ∧ (unload exLoaded).replacements.lights = []
      ∧ (unload exLoaded).filePath = exLoaded.filePath
      ∧ (unload exLoaded).openedFilePath = exLoaded.openedFilePath
      ∧ (unload exLoaded).fileModificationTime = exLoaded.fileModificationTime
      ∧ (unload exLoaded).replacedCount = exLoaded.replacedCount) ∧
    unload exWithGeometry = exWithGeometry :=
  ⟨(unload_effect exLoaded).2 rfl, (unload_effect exWithGeometry).1 (by decide)⟩

/-! ### C10 -/

/-- The two branches of `checkForChanges` for a missing file: outside `Loaded` the
existence test answers, inside `Loaded` `fs::last_write_time` throws. -/
theorem checkForChanges_missing_file (env : Env) (σ : Impl) (hpath : σ.openedFilePath ≠ "")
    (hmiss : env.lastWriteTime σ.openedFilePath = none) :
    (σ.state ≠ State.Loaded →
      checkForChanges env σ = Except.ok (false, { σ with state := State.Unloaded })) ∧
    (σ.state = State.Loaded → checkForChanges env σ = Except.error Fault.filesystemError) := by
  constructor
  · intro hs
    unfold checkForChanges
    rw [if_neg hpath, hmiss]
    simp only [hs, if_false]
  · intro hs
    unfold checkForChanges
    rw [if_neg hpath, hmiss]
    simp only [hs, if_true]

/-- C10 (the code at the failing input): the loaded example mod, whose recorded path is
`mod.usda`, polled while no file is on disk: the call ends with the exception of
`fs::last_write_time` instead of returning false in `Unloaded`; the same poll on the
mod in `Unloaded` returns false. -/
theorem checkForChanges_loaded_missing_file_throws :
    checkForChanges exEnvMissing exLoaded = Except.error Fault.filesystemError ∧
    checkForChanges exEnvMissing { exLoaded with state := State.Unloaded }
      = Except.ok (false, { exLoaded with state := State.Unloaded }) := by
  constructor
  · exact (checkForChanges_missing_file exEnvMissing exLoaded (by decide) rfl).2 rfl
  · exact (checkForChanges_missing_file exEnvMissing { exLoaded with state := State.Unloaded }
      (by decide) rfl).1 (by decide)

/-! ### Binary32: the product `255 * x` and its truncation -/

theorem bitLength_zero (fuel : Nat) : bitLength fuel 0 = 0 := by
  cases fuel <;> simp [bitLength]

theorem bitLength_spec (fuel n : Nat) (h : n < 2 ^ fuel) :
    n < 2 ^ bitLength fuel n ∧ (n ≠ 0 → 2 ^ (bitLength fuel n - 1) ≤ n ∧ 1 ≤ bitLength fuel n)
      ∧ bitLength fuel n ≤ fuel := by
  induction fuel generalizing n with
  | zero =>
    have : n = 0 := by simpa using h
    subst this
    simp [bitLength]
  | succ fuel ih =>
    by_cases hn : n = 0
    · subst hn
      simp [bitLength]
    · have h2 : n / 2 < 2 ^ fuel := by
        rw [pow_succ] at h
        omega
      obtain ⟨i1, i2, i3⟩ := ih (n / 2) h2
      simp only [bitLength, hn, if_false]
      refine ⟨?_, fun _ => ⟨?_, by omega⟩, by omega⟩
      · rw [pow_succ]
        omega
      · simp only [Nat.add_sub_cancel]
        by_cases hz : n / 2 = 0
        · rw [hz, bitLength_zero]
          simp
          omega
        · obtain ⟨j1, j2⟩ := i2 hz
          have : 2 ^ bitLength fuel (n / 2) = 2 * 2 ^ (bitLength fuel (n / 2) - 1) := by
            rw [← pow_succ']
            congr 1
            omega
          omega

theorem two_pow_mod_255 (n : Nat) : 2 ^ n % 255 = 2 ^ (n % 8) := by
  have h8 : n % 8 < 8 := Nat.mod_lt _ (by norm_num)
  have hsmall : 2 ^ (n % 8) < 255 := by
    have : 2 ^ (n % 8) ≤ 2 ^ 7 := Nat.pow_le_pow_right (by norm_num) (by omega)
    omega
  conv_lhs => rw [← Nat.div_add_mod n 8]
  rw [pow_add, pow_mul, Nat.mul_mod, Nat.pow_mod]
  norm_num
  exact hsmall

theorem roundNearestEven_cases (p s : Nat) :
    roundNearestEven p s = p / 2 ^ s ∨
      (roundNearestEven p s = p / 2 ^ s + 1 ∧ 2 ^ s ≤ 2 * (p % 2 ^ s)) := by
  unfold roundNearestEven
  split_ifs with h1 h2 h3
  · exact Or.inl rfl
  · exact Or.inl rfl
  · exact Or.inr ⟨rfl, by omega⟩
  · exact Or.inr ⟨rfl, by omega⟩

set_option maxRecDepth 100000 in
theorem carry_finite_check : ∀ s < 8, ∀ j < 9, ∀ u < 256,
    ¬ (2 ^ 23 < 2 ^ (j + 16) * u ∧ 2 ^ (j + 16) * u ≤ 2 ^ 24 ∧
       0 < (2 ^ ((j + s + 1) % 8) * u) % 255 ∧
       (2 ^ ((j + s + 1) % 8) * u) % 255 ≤ 2 ^ s ∧
       2 ^ (j + s + 17) * u < 255 * 2 ^ 24 + 129) := by
  decide!

/-- Rounding the exact product to 24 bits never carries into the integer part. -/
theorem round_no_carry (m k s : Nat) (hm : m < 2 ^ 24) (hmk : m ≤ 2 ^ k) (hs1 : 1 ≤ s)
    (hs8 : s ≤ 8) (hk : 23 ≤ k) (hlo : 2 ^ (23 + s) ≤ 255 * m) (hhi : 255 * m < 2 ^ (24 + s)) :
    roundNearestEven (255 * m) s / 2 ^ (k - s) = 255 * m / 2 ^ k := by
  have hpk : 2 ^ k = 2 ^ s * 2 ^ (k - s) := by
    rw [← pow_add]
    congr 1
    omega
  have hdiv : 255 * m / 2 ^ k = 255 * m / 2 ^ s / 2 ^ (k - s) := by
    rw [hpk, Nat.div_div_eq_div_mul]
  rcases roundNearestEven_cases (255 * m) s with h | ⟨h, hup⟩
  · rw [h, hdiv]
  · rw [h, hdiv, Nat.succ_div]
    suffices hnd : ¬ (2 ^ (k - s) ∣ 255 * m / 2 ^ s + 1) by simp [hnd]
    rintro ⟨u, hu⟩
    exfalso
    have hspos : 0 < 2 ^ s := Nat.two_pow_pos s
    have hdm := Nat.div_add_mod (255 * m) (2 ^ s)
    have hr : 255 * m % 2 ^ s < 2 ^ s := Nat.mod_lt _ hspos
    have hFlt : 255 * m / 2 ^ s < 2 ^ 24 := by
      rw [Nat.div_lt_iff_lt_mul hspos]
      calc 255 * m < 2 ^ (24 + s) := hhi
        _ = 2 ^ 24 * 2 ^ s := by rw [pow_add]
    have hFge : 2 ^ 23 ≤ 255 * m / 2 ^ s := by
      rw [Nat.le_div_iff_mul_le hspos]
      calc 2 ^ 23 * 2 ^ s = 2 ^ (23 + s) := by rw [pow_add]
        _ ≤ 255 * m := hlo
    generalize hF : 255 * m / 2 ^ s = F at hu hdm hFlt hFge
    generalize hrr : 255 * m % 2 ^ s = r at hup hdm hr
    -- the key equation
    have hs2 : 2 ^ s = 2 * 2 ^ (s - 1) := by
      rw [← pow_succ']
      congr 1
      omega
    have heq : 2 ^ k * u + r = 255 * m + 2 ^ s := by
      calc 2 ^ k * u + r = 2 ^ s * (2 ^ (k - s) * u) + r := by rw [hpk, Nat.mul_assoc]
        _ = 2 ^ s * (F + 1) + r := by rw [hu]
        _ = (2 ^ s * F + r) + 2 ^ s := by ring
        _ = 255 * m + 2 ^ s := by rw [hdm]
    have hupos : 1 ≤ u := by
      rcases Nat.eq_zero_or_pos u with h0 | h0
      · rw [h0] at hu
        simp at hu
      · exact h0
    have hsk : 2 ^ s ≤ 2 ^ k := Nat.pow_le_pow_right (by norm_num) (by omega)
    have hu256 : u < 256 := by
      by_contra hcon
      have : 2 ^ k * 256 ≤ 2 ^ k * u := Nat.mul_le_mul_left _ (by omega)
      have hmk' : 255 * m ≤ 255 * 2 ^ k := Nat.mul_le_mul_left _ hmk
      omega
    have hj16 : 16 ≤ k - s := by
      by_contra hcon
      have h15 : 2 ^ (k - s) ≤ 2 ^ 15 := Nat.pow_le_pow_right (by norm_num) (by omega)
      have : 2 ^ (k - s) * u ≤ 2 ^ 15 * 255 := Nat.mul_le_mul h15 (by omega)
      have h23 : (2 : Nat) ^ 23 = 8388608 := by norm_num
      have h15' : (2 : Nat) ^ 15 = 32768 := by norm_num
      omega
    have hj24 : k - s ≤ 24 := by
      by_contra hcon
      have h25 : 2 ^ 25 ≤ 2 ^ (k - s) := Nat.pow_le_pow_right (by norm_num) (by omega)
      have : 2 ^ (k - s) * 1 ≤ 2 ^ (k - s) * u := Nat.mul_le_mul_left _ hupos
      have h24 : (2 : Nat) ^ 24 = 16777216 := by norm_num
      have h25' : (2 : Nat) ^ 25 = 33554432 := by norm_num
      omega
    obtain ⟨j, hj⟩ : ∃ j, k - s = j + 16 := ⟨k - s - 16, by omega⟩
    obtain ⟨s', hs'⟩ : ∃ s', s = s' + 1 := ⟨s - 1, by omega⟩
    have hkjs : k = j + s' + 17 := by omega
    have hd1 : 2 ^ s' ≤ r := by
      have : 2 ^ s = 2 * 2 ^ s' := by rw [hs', pow_succ']
      omega
    have hd2 : r < 2 * 2 ^ s' := by
      have : 2 ^ s = 2 * 2 ^ s' := by rw [hs', pow_succ']
      omega
    have hs'le : 2 ^ s' ≤ 2 ^ 7 := Nat.pow_le_pow_right (by norm_num) (by omega)
    have h27 : (2 : Nat) ^ 7 = 128 := by norm_num
    -- remainder modulo 255
    have hmod : (2 ^ ((j + s' + 1) % 8) * u) % 255 = 2 * 2 ^ s' - r := by
      have e1 : (2 ^ k * u) % 255 = (2 ^ ((j + s' + 1) % 8) * u) % 255 := by
        have hk8 : k % 8 = (j + s' + 1) % 8 := by omega
        rw [← Nat.mod_mul_mod, two_pow_mod_255, hk8]
      have e2 : 2 ^ k * u = 255 * m + (2 * 2 ^ s' - r) := by
        have : 2 ^ s = 2 * 2 ^ s' := by rw [hs', pow_succ']
        omega
      rw [← e1, e2, Nat.mul_add_mod]
      apply Nat.mod_eq_of_lt
      omega
    refine carry_finite_check s' (by omega) j (by omega) u hu256 ⟨?_, ?_, ?_, ?_, ?_⟩
    · rw [← hj, ← hu]
      omega
    · rw [← hj, ← hu]
      omega
    · rw [hmod]
      omega
    · rw [hmod]
      omega
    · rw [← hkjs]
      have h24 : (2 : Nat) ^ 24 = 16777216 := by norm_num
      have : 2 ^ s = 2 * 2 ^ s' := by rw [hs', pow_succ']
      omega

theorem round_core (m k : Nat) (hm : m < 2 ^ 24) (hmk : m ≤ 2 ^ k) (hk : 23 ≤ k) :
    roundNearestEven (255 * m) (bitLength 32 (255 * m) - 24)
        / 2 ^ (k - (bitLength 32 (255 * m) - 24)) = 255 * m / 2 ^ k
      ∧ bitLength 32 (255 * m) - 24 ≤ 8 := by
  have h24 : (2 : Nat) ^ 24 = 16777216 := by norm_num
  have h32 : (2 : Nat) ^ 32 = 4294967296 := by norm_num
  have hp : 255 * m < 2 ^ 32 := by omega
  obtain ⟨b1, b2, b3⟩ := bitLength_spec 32 (255 * m) hp
  refine ⟨?_, by omega⟩
  by_cases hb : bitLength 32 (255 * m) ≤ 24
  · have hs : bitLength 32 (255 * m) - 24 = 0 := by omega
    rw [hs]
    simp [roundNearestEven, Nat.mod_one]
  · have hp0 : 255 * m ≠ 0 := by
      intro h0
      rw [h0, bitLength_zero] at hb
      omega
    obtain ⟨c1, c2⟩ := b2 hp0
    apply round_no_carry m k _ hm hmk (by omega) (by omega) hk
    · have : 23 + (bitLength 32 (255 * m) - 24) = bitLength 32 (255 * m) - 1 := by omega
      rw [this]
      exact c1
    · have : 24 + (bitLength 32 (255 * m) - 24) = bitLength 32 (255 * m) := by omega
      rw [this]
      exact b1

theorem F32.significand_lt (x : F32) : x.significand < 2 ^ 24 := by
  unfold F32.significand F32.fraction
  have : x.bits % 2 ^ 23 < 2 ^ 23 := Nat.mod_lt _ (Nat.two_pow_pos 23)
  have h24 : (2 : Nat) ^ 24 = 2 ^ 23 + 2 ^ 23 := by norm_num
  split_ifs <;> omega

/-- A finite datum in the unit interval is `m / 2 ^ k` with `k ≥ 23` and `m ≤ 2 ^ k`. -/
theorem F32.unit_interval (x : F32) (h0 : 0 ≤ x.toRat)
    (h1 : x.toRat ≤ 1) :
    ∃ k : Nat, 23 ≤ k ∧ x.exponent = -(k : Int) ∧ x.significand ≤ 2 ^ k
      ∧ (x.signBit = true → x.significand = 0)
      ∧ x.toRat = (x.significand : ℚ) / 2 ^ k := by
  have hE : x.expField < 256 := Nat.mod_lt _ (by norm_num)
  have hsign : x.signBit = true → x.significand = 0 := by
    intro hs
    by_contra hm
    have hmpos : (0 : ℚ) < x.significand := by
      exact_mod_cast Nat.pos_of_ne_zero hm
    have hpow : (0 : ℚ) < (2 : ℚ) ^ x.exponent := zpow_pos (by norm_num) _
    have : x.toRat < 0 := by
      unfold F32.toRat
      rw [if_pos hs]
      have := mul_pos hmpos hpow
      linarith
    linarith
  have hval : x.toRat = (x.significand : ℚ) * (2 : ℚ) ^ x.exponent := by
    unfold F32.toRat
    by_cases hs : x.signBit = true
    · rw [if_pos hs, hsign hs]
      simp
    · rw [if_neg hs]
      ring
  by_cases hz : x.expField = 0
  · have he : x.exponent = -((149 : Nat) : Int) := by
      unfold F32.exponent
      rw [if_pos hz]
      rfl
    refine ⟨149, by norm_num, he, ?_, hsign, ?_⟩
    · have := F32.significand_lt x
      calc x.significand ≤ 2 ^ 24 := le_of_lt this
        _ ≤ 2 ^ 149 := Nat.pow_le_pow_right (by norm_num) (by norm_num)
    · rw [hval, he, zpow_neg, zpow_natCast]
      rfl
  · have hmge : 2 ^ 23 ≤ x.significand := by
      unfold F32.significand
      rw [if_neg hz]
      omega
    have he : x.exponent = (x.expField : Int) - 150 := by
      unfold F32.exponent
      rw [if_neg hz]
    have hle : x.expField ≤ 127 := by
      by_contra hcon
      have hexp : (-22 : Int) ≤ x.exponent := by
        rw [he]
        omega
      have hpow : (2 : ℚ) ^ (-22 : Int) ≤ (2 : ℚ) ^ x.exponent :=
        zpow_le_zpow_right₀ (by norm_num) hexp
      have hm' : ((2 ^ 23 : Nat) : ℚ) ≤ (x.significand : ℚ) := by exact_mod_cast hmge
      have hpos : (0 : ℚ) < (2 : ℚ) ^ (-22 : Int) := zpow_pos (by norm_num) _
      have : (2 : ℚ) ≤ x.toRat := by
        rw [hval]
        calc (2 : ℚ) = ((2 ^ 23 : Nat) : ℚ) * (2 : ℚ) ^ (-22 : Int) := by norm_num
          _ ≤ (x.significand : ℚ) * (2 : ℚ) ^ (-22 : Int) :=
            mul_le_mul_of_nonneg_right hm' (le_of_lt hpos)
          _ ≤ (x.significand : ℚ) * (2 : ℚ) ^ x.exponent :=
            mul_le_mul_of_nonneg_left hpow (by positivity)
      linarith
    have hek : x.exponent = -((150 - x.expField : Nat) : Int) := by
      rw [he]
      omega
    have hvalk : x.toRat = (x.significand : ℚ) / 2 ^ (150 - x.expField) := by
      rw [hval, hek, zpow_neg, zpow_natCast]
      rfl
    refine ⟨150 - x.expField, by omega, hek, ?_, hsign, hvalk⟩
    have hpos : (0 : ℚ) < 2 ^ (150 - x.expField) := by positivity
    rw [hvalk, div_le_one hpos] at h1
    exact_mod_cast h1

/-- The conversion of a finite value in the unit interval is exact truncation. -/
theorem alphaReferenceFromNormalized_floor (x : F32) (hfin : x.expField ≠ 255)
    (h0 : 0 ≤ x.toRat) (h1 : x.toRat ≤ 1) :
    alphaReferenceFromNormalized x = some ⌊255 * x.toRat⌋₊ := by
  obtain ⟨k, hk, he, hmk, hsign, hval⟩ := F32.unit_interval x h0 h1
  obtain ⟨hround, hs8⟩ := round_core x.significand k (F32.significand_lt x) hmk hk
  have hfloor : ⌊255 * x.toRat⌋₊ = 255 * x.significand / 2 ^ k := by
    rw [hval]
    have : (255 : ℚ) * ((x.significand : ℚ) / 2 ^ k)
        = ((255 * x.significand : Nat) : ℚ) / ((2 ^ k : Nat) : ℚ) := by
      push_cast
      ring
    rw [this, Nat.floor_div_eq_div]
  have hle : 255 * x.significand / 2 ^ k ≤ 255 := by
    apply Nat.div_le_of_le_mul
    calc 255 * x.significand ≤ 255 * 2 ^ k := Nat.mul_le_mul_left _ hmk
      _ = 2 ^ k * 255 := Nat.mul_comm _ _
  unfold alphaReferenceFromNormalized
  rw [if_neg hfin]
  simp only
  have hneg : ¬ (0 ≤ x.exponent + ((bitLength 32 (255 * x.significand) - 24 : Nat) : Int)) := by
    rw [he]
    omega
  have hto : (-(x.exponent + ((bitLength 32 (255 * x.significand) - 24 : Nat) : Int))).toNat
      = k - (bitLength 32 (255 * x.significand) - 24) := by
    rw [he]
    omega
  rw [if_neg hneg, hto, hround, hfloor]
  have hnot : ¬ (x.signBit = true ∧ 0 < 255 * x.significand / 2 ^ k) := by
    rintro ⟨hs, hpos⟩
    rw [hsign hs] at hpos
    simp at hpos
  rw [if_neg hnot, if_pos hle]

/-! ### C4 -/

/-- C4: for every material whose hash is non-zero and not yet stored, whose shader is of
the opaque family with the use-legacy-alpha-state flag resolving to false, and which
authors an alpha-test reference value `x`, a finite `float` with `0 ≤ x ≤ 1`, the stored
`alphaReferenceValue` equals `floor (255 * x)`: truncation, not rounding. -/
theorem stored_alphaReference_floor (env : Env) (matPrim : MaterialPrim) (σ : Impl)
    (shader : ShaderPrim) (x : F32)
    (hhash : getMaterialHash matPrim.name matPrim.typeName matPrim.usdOriginHash ≠ 0)
    (hnew : kvGet (getMaterialHash matPrim.name matPrim.typeName matPrim.usdOriginHash)
      σ.replacements.materials = none)
    (hsh : selectShader matPrim = some shader)
    (hop : classifyMaterial σ.assetPath shader = RtSurfaceMaterialType.Opaque)
    (hleg : shader.useLegacyAlphaState.getD env.opaqueDefaults.UseLegacyAlphaState = false)
    (hx : shader.alphaReferenceValue = some x)
    (hfin : x.expField ≠ 255) (h0 : 0 ≤ x.toRat) (h1 : x.toRat ≤ 1) :
    ∃ md a,
      (processMaterial env matPrim σ).1
        = some (getMaterialHash matPrim.name matPrim.typeName matPrim.usdOriginHash)
      ∧ kvGet (getMaterialHash matPrim.name matPrim.typeName matPrim.usdOriginHash)
          (processMaterial env matPrim σ).2.replacements.materials = some md
      ∧ md.type = RtSurfaceMaterialType.Opaque ∧ md.alpha = some a
      ∧ a.alphaReferenceValue = some ⌊255 * x.toRat⌋₊ := by
  have hmd : buildMaterialData env.opaqueDefaults σ.assetPath shader =
      { type := RtSurfaceMaterialType.Opaque, ignored := shader.ignoreMaterial.getD false
        alpha := some (opaqueAlphaState env.opaqueDefaults shader) } := by
    unfold buildMaterialData
    rw [hop]
  have hal : (opaqueAlphaState env.opaqueDefaults shader).alphaReferenceValue
      = some ⌊255 * x.toRat⌋₊ := by
    unfold opaqueAlphaState
    simp only [hleg, Bool.not_false, if_true, hx, Option.bind_some]
    exact alphaReferenceFromNormalized_floor x hfin h0 h1
  have hpm : processMaterial env matPrim σ =
      (some (getMaterialHash matPrim.name matPrim.typeName matPrim.usdOriginHash),
        { σ with
          replacements := { σ.replacements with
            materials := kvSet (getMaterialHash matPrim.name matPrim.typeName matPrim.usdOriginHash)
              (buildMaterialData env.opaqueDefaults σ.assetPath shader) σ.replacements.materials }
          assetPath := assetPathAfterGet σ.assetPath shader }) := by
    unfold processMaterial
    simp only [hhash, if_false, hnew, hsh]
  rw [hpm]
  refine ⟨buildMaterialData env.opaqueDefaults σ.assetPath shader,
    opaqueAlphaState env.opaqueDefaults shader,
    rfl, kvGet_kvSet_self _ _ _, ?_, ?_, hal⟩
  · rw [hmd]
  · rw [hmd]

theorem exHalf_toRat : exHalf.toRat = 1 / 2 := by
  have h1 : exHalf.signBit = false := by decide
  have h2 : exHalf.significand = 8388608 := by decide
  have h3 : exHalf.exponent = -24 := by decide
  unfold F32.toRat
  rw [h1, h2, h3]
  norm_num

/-- C4 witness: the material `mat_0000000000000001` authoring 0.5 stores
`floor (255 * 0.5) = 127`; and the conversion gives 255 for 1.0, 0 for 0.0, 127 for 0.5. -/
theorem stored_alphaReference_floor_witness :
    (∃ md a,
      (processMaterial exEnv (exMaterial exHalf) exUnloaded).1
        = some (getMaterialHash (exMaterial exHalf).name (exMaterial exHalf).typeName
            (exMaterial exHalf).usdOriginHash)
      ∧ kvGet (getMaterialHash (exMaterial exHalf).name (exMaterial exHalf).typeName
            (exMaterial exHalf).usdOriginHash)
          (processMaterial exEnv (exMaterial exHalf) exUnloaded).2.replacements.materials = some md
      ∧ md.type = RtSurfaceMaterialType.Opaque ∧ md.alpha = some a
      ∧ a.alphaReferenceValue = some ⌊255 * exHalf.toRat⌋₊) ∧
    ⌊255 * exHalf.toRat⌋₊ = 127 ∧
    alphaReferenceFromNormalized exOne = some 255 ∧
    alphaReferenceFromNormalized exZero = some 0 ∧
    alphaReferenceFromNormalized exHalf = some 127 :=
  ⟨stored_alphaReference_floor exEnv (exMaterial exHalf) exUnloaded (exAlphaShader exHalf) exHalf
      (by decide) rfl rfl rfl rfl rfl (by decide)
      (by rw [exHalf_toRat]; norm_num) (by rw [exHalf_toRat]; norm_num),
    by rw [exHalf_toRat]; norm_num [Nat.floor_eq_iff],
    by decide, by decide, by decide⟩

/-! ### C5: content identifiers -/

theorem nextCount_eq (c : Nat) (h : c + 1 < 2 ^ 64) : nextCount c = c + 1 := by
  unfold nextCount
  exact Nat.mod_eq_of_lt h

theorem getGeometry_storeGeometry (σ : Impl) (k k2 : Nat) (g : RasterGeometry) :
    (σ.storeGeometry k g).getGeometry k2 = if k2 = k then some g else σ.getGeometry k2 := by
  by_cases h : k2 = k
  · subst h
    simp
  · rw [if_neg h, getGeometry_storeGeometry_ne _ _ _ _ h]

theorem getGeometry_modifyGeometry (σ : Impl) (k k2 : Nat) (f : RasterGeometry → RasterGeometry) :
    (σ.modifyGeometry k f).getGeometry k2
      = if k2 = k then (σ.getGeometry k2).map f else σ.getGeometry k2 := by
  by_cases h : k2 = k
  · subst h
    simp
  · rw [if_neg h, getGeometry_modifyGeometry_ne _ _ _ _ h]

theorem getGeometry_removeGeometry (σ : Impl) (k k2 : Nat) :
    (σ.removeGeometry k).getGeometry k2 = if k2 = k then none else σ.getGeometry k2 := by
  by_cases h : k2 = k
  · subst h
    rw [if_pos rfl]
    exact kvGet_kvErase_self _ _
  · rw [if_neg h, getGeometry_removeGeometry_ne _ _ _ h]

/-- What a subset call does to the counter and the geometries. -/
theorem processGeomSubset_effect (env : Env) (sub : ChildPrim) (q : Nat) (mat : Option Nat)
    (τ : Impl) (b : Bool) (mat' : Option Nat) (τ' : Impl)
    (h : processGeomSubset env sub q mat τ = Except.ok (b, mat', τ')) :
    (b = false ∧ τ' = τ) ∨
    (b = true ∧ τ'.replacedCount = nextCount τ.replacedCount ∧
      ∃ idx, ∀ k, τ'.getGeometry k =
        if k = q then (τ.getGeometry k).map (writeSubsetIndices idx (nextCount τ.replacedCount))
        else τ.getGeometry k) := by
  unfold processGeomSubset at h
  cases hidx : sub.triangleIndices with
  | none =>
    rw [hidx] at h
    simp only [Except.ok.injEq, Prod.mk.injEq] at h
    exact Or.inl ⟨h.1.symm, h.2.2.symm⟩
  | some idx =>
    rw [hidx] at h
    simp only at h
    by_cases hl : idx.length = 0
    · rw [if_pos hl] at h
      exact absurd h (by simp)
    · rw [if_neg hl] at h
      simp only [Except.ok.injEq, Prod.mk.injEq] at h
      obtain ⟨hb, -, hτ⟩ := h
      refine Or.inr ⟨hb.symm, ?_, idx, ?_⟩
      · rw [← hτ, processMaterialUser_replacedCount]
        rfl
      · intro k
        rw [← hτ, processMaterialUser_getGeometry, getGeometry_modifyGeometry]
        rfl

theorem processMaterialUser_identifiers (env : Env) (bound : Option MaterialPrim) (τ : Impl)
    (h : IdentifiersBelowCounter τ) :
    IdentifiersBelowCounter (processMaterialUser env bound τ).2 := by
  intro k g hg
  rw [processMaterialUser_getGeometry] at hg
  rw [processMaterialUser_replacedCount]
  exact h k g hg

theorem processMaterialUser_fresh (env : Env) (bound : Option MaterialPrim) (σ : Impl) (h : Nat)
    (τ : Impl) (hf : FreshGeometry σ h τ) :
    FreshGeometry σ h (processMaterialUser env bound τ).2 := by
  obtain ⟨h1, h2, h3, g, h4, h5, h6⟩ := hf
  refine ⟨processMaterialUser_identifiers env bound τ h1, ?_, ?_, g, ?_, h5, h6⟩
  · intro k g' hk
    rw [processMaterialUser_getGeometry]
    exact h2 k g' hk
  · rw [processMaterialUser_replacedCount]
    exact h3
  · rw [processMaterialUser_getGeometry]
    exact h4

/-- A successful subset call on the fresh geometry or on a key outside the old store
keeps the state fresh. -/
theorem processGeomSubset_fresh (env : Env) (sub : ChildPrim) (q : Nat) (mat : Option Nat)
    (σ : Impl) (h : Nat) (τ : Impl) (b : Bool) (mat' : Option Nat) (τ' : Impl)
    (hr : processGeomSubset env sub q mat τ = Except.ok (b, mat', τ'))
    (hf : FreshGeometry σ h τ) (hq : σ.getGeometry q = none)
    (hw : τ.replacedCount + 1 < 2 ^ 64) :
    FreshGeometry σ h τ' ∧ τ'.replacedCount ≤ τ.replacedCount + 1 := by
  rcases processGeomSubset_effect env sub q mat τ b mat' τ' hr with ⟨-, rfl⟩ | ⟨-, hc, idx, hg⟩
  · exact ⟨hf, by omega⟩
  · rw [nextCount_eq _ hw] at hc hg
    obtain ⟨h1, h2, h3, g, h4, h5, h6⟩ := hf
    refine ⟨⟨?_, ?_, by omega, ?_⟩, by omega⟩
    · intro k g' hk
      rw [hg k] at hk
      by_cases hkq : k = q
      · rw [if_pos hkq] at hk
        cases hτ : τ.getGeometry k with
        | none => rw [hτ] at hk; simp at hk
        | some g0 =>
          rw [hτ] at hk
          simp only [Option.map_some', Option.some.injEq] at hk
          rw [← hk, hc]
          exact ⟨le_refl _, le_refl _⟩
      · rw [if_neg hkq] at hk
        have := h1 k g' hk
        omega
    · intro k g' hk
      rw [hg k]
      have hkq : k ≠ q := by
        rintro rfl
        rw [hq] at hk
        exact absurd hk (by simp)
      rw [if_neg hkq]
      exact h2 k g' hk
    · by_cases hhq : h = q
      · refine ⟨writeSubsetIndices idx (τ.replacedCount + 1) g, ?_, ?_, ?_⟩
        · rw [hg h, if_pos hhq, h4]
          rfl
        · show σ.replacedCount < τ.replacedCount + 1
          omega
        · show σ.replacedCount < τ.replacedCount + 1
          omega
      · exact ⟨g, by rw [hg h, if_neg hhq, h4], h5, h6⟩

theorem storeGeometry_fresh (σ : Impl) (h : Nat) (τ : Impl) (c : Nat) (g0 : RasterGeometry)
    (hf : FreshGeometry σ h τ) (hc : τ.getGeometry c = none)
    (hg0 : g0.hashVertexPosition ≤ τ.replacedCount ∧ g0.hashIndices ≤ τ.replacedCount) :
    FreshGeometry σ h (τ.storeGeometry c g0) := by
  obtain ⟨h1, h2, h3, g, h4, h5, h6⟩ := hf
  refine ⟨?_, ?_, h3, g, ?_, h5, h6⟩
  · intro k g' hk
    rw [getGeometry_storeGeometry] at hk
    by_cases hkc : k = c
    · rw [if_pos hkc] at hk
      simp only [Option.some.injEq] at hk
      rw [← hk]
      exact hg0
    · rw [if_neg hkc] at hk
      exact h1 k g' hk
  · intro k g' hk
    have hkc : k ≠ c := by
      rintro rfl
      rw [h2 k g' hk] at hc
      exact absurd hc (by simp)
    rw [getGeometry_storeGeometry, if_neg hkc]
    exact h2 k g' hk
  · have hhc : h ≠ c := by
      rintro rfl
      rw [h4] at hc
      exact absurd hc (by simp)
    rw [getGeometry_storeGeometry, if_neg hhc]
    exact h4

theorem removeGeometry_fresh (σ : Impl) (h : Nat) (τ : Impl) (c : Nat)
    (hf : FreshGeometry σ h τ) (hc : σ.getGeometry c = none) (hhc : h ≠ c) :
    FreshGeometry σ h (τ.removeGeometry c) := by
  obtain ⟨h1, h2, h3, g, h4, h5, h6⟩ := hf
  refine ⟨?_, ?_, h3, g, ?_, h5, h6⟩
  · intro k g' hk
    rw [getGeometry_removeGeometry] at hk
    by_cases hkc : k = c
    · rw [if_pos hkc] at hk
      exact absurd hk (by simp)
    · rw [if_neg hkc] at hk
      exact h1 k g' hk
  · intro k g' hk
    have hkc : k ≠ c := by
      rintro rfl
      rw [hc] at hk
      exact absurd hk (by simp)
    rw [getGeometry_removeGeometry, if_neg hkc]
    exact h2 k g' hk
  · rw [getGeometry_removeGeometry, if_neg hhc]
    exact h4

/-- The subset loop keeps the state fresh and draws at most one counter value per child. -/
theorem subsetLoop_fresh (env : Env) (σ : Impl) (h : Nat) (M : Matrix4)
    (hσh : σ.getGeometry h = none) (children : List ChildPrim) :
    ∀ (isFirst : Bool) (mat : Option Nat) (τ : Impl) (ms : List AssetReplacement)
      (mat' : Option Nat) (τ' : Impl) (ms' : List AssetReplacement),
      subsetLoop env h M children isFirst mat τ ms = Except.ok (mat', τ', ms') →
      FreshGeometry σ h τ → τ.replacedCount + children.length < 2 ^ 64 →
      FreshGeometry σ h τ' ∧ τ'.replacedCount ≤ τ.replacedCount + children.length := by
  induction children with
  | nil =>
    intro isFirst mat τ ms mat' τ' ms' hr hf _
    unfold subsetLoop at hr
    simp only [Except.ok.injEq, Prod.mk.injEq] at hr
    obtain ⟨-, rfl, -⟩ := hr
    exact ⟨hf, by omega⟩
  | cons child rest ih =>
    intro isFirst mat τ ms mat' τ' ms' hr hf hw
    simp only [List.length_cons] at hw ⊢
    unfold subsetLoop at hr
    by_cases hsub : child.isGeomSubset = true
    · rw [if_pos hsub] at hr
      by_cases hfirst : isFirst = true
      · rw [if_pos hfirst] at hr
        cases hres : processGeomSubset env child h mat τ with
        | error f =>
          rw [hres] at hr
          exact absurd hr (by simp)
        | ok r =>
          obtain ⟨done, m1, τ1⟩ := r
          rw [hres] at hr
          simp only at hr
          obtain ⟨hf1, hc1⟩ := processGeomSubset_fresh env child h mat σ h τ done m1 τ1 hres hf hσh
            (by omega)
          obtain ⟨hf2, hc2⟩ := ih _ _ _ _ _ _ _ hr hf1 (by omega)
          exact ⟨hf2, by omega⟩
      · rw [if_neg hfirst] at hr
        simp only at hr
        cases hget : τ.getGeometry child.usdOriginHash with
        | some g0 =>
          rw [hget] at hr
          simp only at hr
          have hf1 := processMaterialUser_fresh env child.boundMaterial σ h τ hf
          have hc1 := processMaterialUser_replacedCount env child.boundMaterial τ
          obtain ⟨hf2, hc2⟩ := ih _ _ _ _ _ _ _ hr hf1 (by omega)
          exact ⟨hf2, by omega⟩
        | none =>
          rw [hget] at hr
          simp only at hr
          have hσc : σ.getGeometry child.usdOriginHash = none := by
            cases hσc : σ.getGeometry child.usdOriginHash with
            | none => rfl
            | some g' =>
              rw [hf.2.1 _ g' hσc] at hget
              exact absurd hget (by simp)
          have hhc : h ≠ child.usdOriginHash := by
            intro hhc
            obtain ⟨g, hg, -, -⟩ := hf.2.2.2
            rw [hhc, hget] at hg
            exact absurd hg (by simp)
          have hcopy : ((τ.getGeometry h).getD {}).hashVertexPosition ≤ τ.replacedCount ∧
              ((τ.getGeometry h).getD {}).hashIndices ≤ τ.replacedCount := by
            obtain ⟨g, hg, -, -⟩ := hf.2.2.2
            rw [hg]
            exact hf.1 h g hg
          have hf0 := storeGeometry_fresh σ h τ child.usdOriginHash _ hf hget hcopy
          cases hres : processGeomSubset env child child.usdOriginHash mat
              (τ.storeGeometry child.usdOriginHash ((τ.getGeometry h).getD {})) with
          | error f =>
            rw [hres] at hr
            exact absurd hr (by simp)
          | ok r =>
            obtain ⟨done, m1, τ1⟩ := r
            rw [hres] at hr
            obtain ⟨hf1, hc1⟩ := processGeomSubset_fresh env child child.usdOriginHash mat σ h _
              done m1 τ1 hres hf0 hσc (by simpa using (by omega : τ.replacedCount + 1 < 2 ^ 64))
            have hc1' : τ1.replacedCount ≤ τ.replacedCount + 1 := hc1
            cases done with
            | true =>
              simp only at hr
              obtain ⟨hf2, hc2⟩ := ih _ _ _ _ _ _ _ hr hf1 (by omega)
              exact ⟨hf2, by omega⟩
            | false =>
              simp only at hr
              have hf1' := removeGeometry_fresh σ h τ1 child.usdOriginHash hf1 hσc hhc
              obtain ⟨hf2, hc2⟩ := ih _ _ _ _ _ _ _ hr hf1' (by
                have : (τ1.removeGeometry child.usdOriginHash).replacedCount = τ1.replacedCount := rfl
                omega)
              have : (τ1.removeGeometry child.usdOriginHash).replacedCount = τ1.replacedCount := rfl
              exact ⟨hf2, by omega⟩
    · rw [if_neg hsub] at hr
      obtain ⟨hf2, hc2⟩ := ih _ _ _ _ _ _ _ hr hf (by omega)
      exact ⟨hf2, by omega⟩

theorem indexBlock_effect (prim : UsdPrim) (numSubsets : Nat) (τ τ2 : Impl)
    (h : indexBlock prim numSubsets τ = Except.ok (some τ2)) :
    τ2.replacedCount = τ.replacedCount ∧
    ∃ f : RasterGeometry → RasterGeometry, ∀ k, τ2.getGeometry k =
      if k = prim.usdOriginHash then (τ.getGeometry k).map f else τ.getGeometry k := by
  unfold indexBlock at h
  simp only at h
  by_cases h1 : 0 < (if numSubsets ≤ 1 then (prim.faceVertexIndices.getD []).length * 4 else 0)
  · rw [if_pos h1] at h
    cases hfc : prim.faceVertexCounts.head? with
    | none =>
      rw [hfc] at h
      exact absurd h (by simp)
    | some c =>
      rw [hfc] at h
      simp only at h
      by_cases h2 : c ≠ 3 ∨ (prim.faceVertexIndices.getD []).length % 3 ≠ 0
      · rw [if_pos h2] at h
        exact absurd h (by simp)
      · rw [if_neg h2] at h
        simp only [Except.ok.injEq, Option.some.injEq] at h
        rw [← h]
        exact ⟨rfl, _, fun k => getGeometry_modifyGeometry _ _ _ _⟩
  · rw [if_neg h1] at h
    simp only [Except.ok.injEq, Option.some.injEq] at h
    rw [← h]
    refine ⟨rfl, id, fun k => ?_⟩
    simp

theorem vertexBlock_effect (prim : UsdPrim) (τ : Impl) (hw : τ.replacedCount + 2 < 2 ^ 64) :
    ∃ cPos, τ.replacedCount < cPos ∧ cPos ≤ τ.replacedCount + 2 ∧
      (vertexBlock prim τ).replacedCount = cPos ∧
      ∃ cUV, ∀ k, (vertexBlock prim τ).getGeometry k =
        if k = prim.usdOriginHash then (τ.getGeometry k).map (fillVertexFields prim cUV cPos)
        else τ.getGeometry k := by
  have hb : τ.replacedCount <
        nextCount (if isUVValid prim = true then nextCount τ.replacedCount else τ.replacedCount)
      ∧ nextCount (if isUVValid prim = true then nextCount τ.replacedCount else τ.replacedCount)
        ≤ τ.replacedCount + 2 := by
    have e1 : nextCount τ.replacedCount = τ.replacedCount + 1 := nextCount_eq _ (by omega)
    have e2 : nextCount (τ.replacedCount + 1) = τ.replacedCount + 2 := nextCount_eq _ (by omega)
    by_cases huv : isUVValid prim = true
    · rw [if_pos huv, e1, e2]
      omega
    · rw [if_neg huv, e1]
      omega
  refine ⟨nextCount (if isUVValid prim = true then nextCount τ.replacedCount else τ.replacedCount),
    hb.1, hb.2, rfl,
    (if isUVValid prim = true then nextCount τ.replacedCount else τ.replacedCount), fun k => ?_⟩
  unfold vertexBlock
  simp only
  rw [getGeometry_modifyGeometry]
  rfl

/-- What the block that fills a new geometry leaves behind. -/
theorem createGeometry_effect (prim : UsdPrim) (numSubsets : Nat) (σ σ1 : Impl) (b : Bool)
    (hr : createGeometry prim numSubsets σ = Except.ok (b, σ1))
    (hinv : IdentifiersBelowCounter σ) (hnew : σ.getGeometry prim.usdOriginHash = none)
    (hw : σ.replacedCount + 2 < 2 ^ 64) :
    (b = false → ∃ g, σ1.getGeometry prim.usdOriginHash = some g ∧ g.indexCount = 0) ∧
    (b = true → FreshGeometry σ prim.usdOriginHash σ1
      ∧ σ1.replacedCount ≤ σ.replacedCount + 2) := by
  unfold createGeometry at hr
  simp only at hr
  split_ifs at hr with h1 h2
  · simp only [Except.ok.injEq, Prod.mk.injEq] at hr
    obtain ⟨rfl, rfl⟩ := hr
    exact ⟨fun _ => ⟨{}, by simp, rfl⟩, fun hb => absurd hb (by simp)⟩
  · simp only [Except.ok.injEq, Prod.mk.injEq] at hr
    obtain ⟨rfl, rfl⟩ := hr
    exact ⟨fun _ => ⟨{}, by simp, rfl⟩, fun hb => absurd hb (by simp)⟩
  · cases hib : indexBlock prim numSubsets
        ((σ.storeGeometry prim.usdOriginHash {}).modifyGeometry prim.usdOriginHash
          (writeVertexCount prim.points.length)) with
    | error f =>
      rw [hib] at hr
      exact absurd hr (by simp)
    | ok o =>
      rw [hib] at hr
      cases o with
      | none =>
        simp only [Except.ok.injEq, Prod.mk.injEq] at hr
        obtain ⟨rfl, rfl⟩ := hr
        exact ⟨fun _ => ⟨writeVertexCount prim.points.length {}, by simp, rfl⟩,
          fun hb => absurd hb (by simp)⟩
      | some σ2 =>
        simp only [Except.ok.injEq, Prod.mk.injEq] at hr
        obtain ⟨rfl, rfl⟩ := hr
        refine ⟨fun hb => absurd hb (by simp), fun _ => ?_⟩
        obtain ⟨hc2, f, hg2⟩ := indexBlock_effect prim numSubsets _ σ2 hib
        have hc2' : σ2.replacedCount = σ.replacedCount := hc2
        obtain ⟨cPos, hlt, hle, hcnt, cUV, hgv⟩ := vertexBlock_effect prim σ2 (by omega)
        have hkey : ∀ k, (vertexBlock prim σ2).getGeometry k =
            if k = prim.usdOriginHash then
              some (fillVertexFields prim cUV cPos (f (writeVertexCount prim.points.length {})))
            else σ.getGeometry k := by
          intro k
          rw [hgv k, hg2 k]
          by_cases hk : k = prim.usdOriginHash
          · subst hk
            simp
          · simp only [if_neg hk]
            rw [getGeometry_modifyGeometry_ne _ _ _ _ hk, getGeometry_storeGeometry_ne _ _ _ _ hk]
        refine ⟨⟨?_, ?_, by omega,
          fillVertexFields prim cUV cPos (f (writeVertexCount prim.points.length {})),
          ?_, ?_, ?_⟩, by omega⟩
        · intro k g hk
          rw [hkey k] at hk
          rw [hcnt]
          by_cases hkh : k = prim.usdOriginHash
          · rw [if_pos hkh] at hk
            simp only [Option.some.injEq] at hk
            rw [← hk]
            exact ⟨le_refl _, le_refl _⟩
          · rw [if_neg hkh] at hk
            have := hinv k g hk
            omega
        · intro k g hk
          have hkh : k ≠ prim.usdOriginHash := by
            rintro rfl
            rw [hnew] at hk
            exact absurd hk (by simp)
          rw [hkey k, if_neg hkh]
          exact hk
        · rw [hkey, if_pos rfl]
        · show σ.replacedCount < cPos
          omega
        · show σ.replacedCount < cPos
          omega

/-- An accepted mesh whose structural hash is new to the store gets fresh identifiers. -/
theorem processPrim_fresh (env : Env) (prim : UsdPrim) (σ : Impl)
    (meshes : List AssetReplacement) (σ' : Impl) (meshes' : List AssetReplacement)
    (g2 : RasterGeometry)
    (hinv : IdentifiersBelowCounter σ)
    (hw : σ.replacedCount + 2 + prim.activeChildren.length < 2 ^ 64)
    (hnew : σ.getGeometry prim.usdOriginHash = none)
    (hr : processPrim env prim σ meshes = Except.ok (σ', meshes'))
    (hg2 : σ'.getGeometry prim.usdOriginHash = some g2) (hacc : g2.indexCount ≠ 0) :
    FreshGeometry σ prim.usdOriginHash σ' := by
  unfold processPrim at hr
  simp only [hnew] at hr
  cases hcr : createGeometry prim (prim.activeChildren.filter (fun c => c.isGeomSubset)).length σ with
  | error f =>
    rw [hcr] at hr
    exact absurd hr (by simp)
  | ok r =>
    obtain ⟨b, σ1⟩ := r
    rw [hcr] at hr
    obtain ⟨hfalse, htrue⟩ := createGeometry_effect prim _ σ σ1 b hcr hinv hnew (by omega)
    cases b with
    | false =>
      simp only [Except.ok.injEq, Prod.mk.injEq] at hr
      obtain ⟨rfl, -⟩ := hr
      obtain ⟨g, hg, hz⟩ := hfalse rfl
      rw [hg] at hg2
      simp only [Option.some.injEq] at hg2
      rw [← hg2] at hacc
      exact absurd hz hacc
    | true =>
      obtain ⟨hf1, hc1⟩ := htrue rfl
      simp only at hr
      have hfm := processMaterialUser_fresh env prim.boundMaterial σ _ σ1 hf1
      have hcm := processMaterialUser_replacedCount env prim.boundMaterial σ1
      by_cases hone : (prim.activeChildren.filter (fun c => c.isGeomSubset)).length = 1
      · rw [if_pos hone] at hr
        cases hfind : prim.activeChildren.find? (fun c => c.isGeomSubset) with
        | none =>
          rw [hfind] at hr
          simp only at hr
          split_ifs at hr <;>
          · simp only [Except.ok.injEq, Prod.mk.injEq] at hr
            obtain ⟨rfl, -⟩ := hr
            exact hfm
        | some child =>
          rw [hfind] at hr
          simp only at hr
          have hfm2 := processMaterialUser_fresh env child.boundMaterial σ _ _ hfm
          split_ifs at hr <;>
          · simp only [Except.ok.injEq, Prod.mk.injEq] at hr
            obtain ⟨rfl, -⟩ := hr
            exact hfm2
      · rw [if_neg hone] at hr
        cases hloop : subsetLoop env prim.usdOriginHash (replacementToObjectOf env prim)
            prim.activeChildren true (processMaterialUser env prim.boundMaterial σ1).1
            (processMaterialUser env prim.boundMaterial σ1).2 meshes with
        | error f =>
          rw [hloop] at hr
          exact absurd hr (by simp)
        | ok r =>
          obtain ⟨m2, σ2, ms2⟩ := r
          rw [hloop] at hr
          obtain ⟨hf2, -⟩ := subsetLoop_fresh env σ prim.usdOriginHash _ hnew prim.activeChildren
            _ _ _ _ _ _ _ hloop hfm (by omega)
          simp only at hr
          split_ifs at hr <;>
          · simp only [Except.ok.injEq, Prod.mk.injEq] at hr
            obtain ⟨rfl, -⟩ := hr
            exact hf2

/-- C5 (amended): a mesh node that `processPrim` accepts (its geometry ends with a
non-zero index count) and whose structural hash is not yet in the store gets
VertexPosition and Indices identifiers different from those of every geometry already
in the store, whatever its vertex and index bytes, and leaves those geometries as they
were; this holds when the stored identifiers are at most the session counter (which the
call re-establishes) and the 64-bit counter does not wrap during the call. -/
theorem new_mesh_identifiers_differ (env : Env) (prim : UsdPrim) (σ : Impl)
    (meshes : List AssetReplacement) (σ' : Impl) (meshes' : List AssetReplacement)
    (k1 : Nat) (g1 g2 : RasterGeometry)
    (hinv : IdentifiersBelowCounter σ)
    (hw : σ.replacedCount + 2 + prim.activeChildren.length < 2 ^ 64)
    (hnew : σ.getGeometry prim.usdOriginHash = none)
    (hold : σ.getGeometry k1 = some g1)
    (hr : processPrim env prim σ meshes = Except.ok (σ', meshes'))
    (hg2 : σ'.getGeometry prim.usdOriginHash = some g2) (hacc : g2.indexCount ≠ 0) :
    σ'.getGeometry k1 = some g1
      ∧ g1.hashVertexPosition ≠ g2.hashVertexPosition
      ∧ g1.hashIndices ≠ g2.hashIndices
      ∧ IdentifiersBelowCounter σ' := by
  obtain ⟨h1, h2, -, g, h4, h5, h6⟩ :=
    processPrim_fresh env prim σ meshes σ' meshes' g2 hinv hw hnew hr hg2 hacc
  rw [hg2] at h4
  simp only [Option.some.injEq] at h4
  subst h4
  have := hinv k1 g1 hold
  exact ⟨h2 k1 g1 hold, by omega, by omega, h1⟩

theorem identifiersBelowCounter_exUnloaded : IdentifiersBelowCounter exUnloaded := by
  intro k g hk
  exact absurd hk (by simp [exUnloaded, Impl.getGeometry, kvGet])

theorem identifiersBelowCounter_exAfterTriangle : IdentifiersBelowCounter exAfterTriangle :=
  (processPrim_fresh exEnv exTriangle exUnloaded [] exAfterTriangle _ _
    identifiersBelowCounter_exUnloaded (by decide) rfl rfl rfl (by decide)).1

/-- C5 as stated fails: the roots `mesh_00000000DEADBEEF` and `mesh_00000000DEADBEE0`
hold byte-identical triangles that resolve to the same source mesh (structural hash 42);
after the document walk both replacement lists point to the one geometry stored under
42, so the two carry the same content identifiers. -/
theorem shared_source_mesh_shares_identifiers :
    ∃ σ' a b, load exEnvShared exUnloaded = Except.ok σ'
      ∧ kvGet 0xDEADBEEF σ'.replacements.meshes = some [a]
      ∧ kvGet 0xDEADBEE0 σ'.replacements.meshes = some [b]
      ∧ contentIdentifiers σ' a = contentIdentifiers σ' b
      ∧ contentIdentifiers σ' a = some (1, 1) :=
  ⟨_, _, _, rfl, rfl, rfl, rfl, rfl⟩

/-- C5 witness: after the example triangle was ingested under structural hash 42, the
byte-identical triangle under structural hash 43 gets other identifiers. -/
theorem new_mesh_identifiers_differ_witness :
    ∃ σ' ms' g1 g2, processPrim exEnv exTriangle43 exAfterTriangle [] = Except.ok (σ', ms')
      ∧ exAfterTriangle.getGeometry 42 = some g1
      ∧ σ'.getGeometry 43 = some g2
      ∧ σ'.getGeometry 42 = some g1
      ∧ g1.hashVertexPosition ≠ g2.hashVertexPosition
      ∧ g1.hashIndices ≠ g2.hashIndices
      ∧ g1.vertexData = g2.vertexData ∧ g1.indexBuffer = g2.indexBuffer :=
  ⟨_, _, _, _, rfl, rfl, rfl,
    (new_mesh_identifiers_differ exEnv exTriangle43 exAfterTriangle [] _ _ 42 _ _
      identifiersBelowCounter_exAfterTriangle (by decide) rfl rfl rfl rfl (by decide)).1,
    (new_mesh_identifiers_differ exEnv exTriangle43 exAfterTriangle [] _ _ 42 _ _
      identifiersBelowCounter_exAfterTriangle (by decide) rfl rfl rfl rfl (by decide)).2.1,
    (new_mesh_identifiers_differ exEnv exTriangle43 exAfterTriangle [] _ _ 42 _ _
      identifiersBelowCounter_exAfterTriangle (by decide) rfl rfl rfl rfl (by decide)).2.2.1,
    rfl, rfl⟩

/-! ### C6: reloading reproduces the structure of the store -/

theorem kvGet_map {α β : Type} (f : α → β) (k : Nat) (m : List (Nat × α)) :
    kvGet k (m.map (fun e => (e.1, f e.2))) = (kvGet k m).map f := by
  induction m with
  | nil => rfl
  | cons e t ih =>
    obtain ⟨k', v⟩ := e
    by_cases h : k' = k
    · simp [kvGet, h]
    · simp [kvGet, h, ih]

theorem kvSet_map {α β : Type} (f : α → β) (k : Nat) (v : α) (m : List (Nat × α)) :
    (kvSet k v m).map (fun e => (e.1, f e.2)) = kvSet k (f v) (m.map (fun e => (e.1, f e.2))) := by
  induction m with
  | nil => rfl
  | cons e t ih =>
    obtain ⟨k', v'⟩ := e
    by_cases h : k' = k
    · simp [kvSet, h]
    · simp [kvSet, h, ih]

theorem kvErase_map {α β : Type} (f : α → β) (k : Nat) (m : List (Nat × α)) :
    (kvErase k m).map (fun e => (e.1, f e.2)) = kvErase k (m.map (fun e => (e.1, f e.2))) := by
  induction m with
  | nil => rfl
  | cons e t ih =>
    obtain ⟨k', v'⟩ := e
    by_cases h : k' = k
    · simp [kvErase, h, ih]
    · simp [kvErase, h, ih]

theorem kvModify_map_congr {α β : Type} (er : α → β) (k : Nat) (f f2 : α → α)
    (hf : ∀ a b, er a = er b → er (f a) = er (f2 b)) :
    ∀ (A B : List (Nat × α)),
      A.map (fun e => (e.1, er e.2)) = B.map (fun e => (e.1, er e.2)) →
      (kvModify k f A).map (fun e => (e.1, er e.2))
        = (kvModify k f2 B).map (fun e => (e.1, er e.2)) := by
  intro A
  induction A with
  | nil =>
    intro B h
    cases B with
    | nil => rfl
    | cons b t => simp at h
  | cons a t ih =>
    intro B h
    cases B with
    | nil => simp at h
    | cons b t2 =>
      obtain ⟨ka, va⟩ := a
      obtain ⟨kb, vb⟩ := b
      simp only [List.map_cons, List.cons.injEq, Prod.mk.injEq] at h
      obtain ⟨⟨hk, hv⟩, ht⟩ := h
      subst hk
      have := ih t2 ht
      by_cases hka : ka = k
      · simp [kvModify, hka, this, hf va vb hv]
      · simp [kvModify, hka, this, hv]

theorem Sim.refl (σ : Impl) : Sim σ σ := ⟨rfl, rfl, rfl, rfl, rfl⟩

theorem Sim.getGeometry {σ τ : Impl} (h : Sim σ τ) (k : Nat) :
    (σ.getGeometry k).map eraseIdentifiers = (τ.getGeometry k).map eraseIdentifiers := by
  unfold Impl.getGeometry
  rw [← kvGet_map, ← kvGet_map, h.1]

theorem Sim.getGeometry_none {σ τ : Impl} (h : Sim σ τ) (k : Nat)
    (hn : σ.getGeometry k = none) : τ.getGeometry k = none := by
  have := h.getGeometry k
  rw [hn] at this
  cases hτ : τ.getGeometry k with
  | none => rfl
  | some g => rw [hτ] at this; simp at this

theorem Sim.getGeometry_some {σ τ : Impl} (h : Sim σ τ) (k : Nat) (g : RasterGeometry)
    (hn : σ.getGeometry k = some g) :
    ∃ g2, τ.getGeometry k = some g2 ∧ eraseIdentifiers g = eraseIdentifiers g2 := by
  have := h.getGeometry k
  rw [hn] at this
  cases hτ : τ.getGeometry k with
  | none => rw [hτ] at this; simp at this
  | some g2 =>
    rw [hτ] at this
    simp only [Option.map_some', Option.some.injEq] at this
    exact ⟨g2, rfl, this⟩

theorem Sim.storeGeometry {σ τ : Impl} (h : Sim σ τ) (k : Nat) (g g2 : RasterGeometry)
    (hg : eraseIdentifiers g = eraseIdentifiers g2) :
    Sim (σ.storeGeometry k g) (τ.storeGeometry k g2) := by
  obtain ⟨h1, h2, h3, h4, h5⟩ := h
  refine ⟨?_, h2, h3, h4, h5⟩
  show (kvSet k g σ.replacements.geometries).map _ = (kvSet k g2 τ.replacements.geometries).map _
  rw [kvSet_map, kvSet_map, h1, hg]

theorem Sim.modifyGeometry {σ τ : Impl} (h : Sim σ τ) (k : Nat)
    (f f2 : RasterGeometry → RasterGeometry)
    (hf : ∀ a b, eraseIdentifiers a = eraseIdentifiers b →
      eraseIdentifiers (f a) = eraseIdentifiers (f2 b)) :
    Sim (σ.modifyGeometry k f) (τ.modifyGeometry k f2) := by
  obtain ⟨h1, h2, h3, h4, h5⟩ := h
  exact ⟨kvModify_map_congr eraseIdentifiers k f f2 hf _ _ h1, h2, h3, h4, h5⟩

theorem Sim.removeGeometry {σ τ : Impl} (h : Sim σ τ) (k : Nat) :
    Sim (σ.removeGeometry k) (τ.removeGeometry k) := by
  obtain ⟨h1, h2, h3, h4, h5⟩ := h
  refine ⟨?_, h2, h3, h4, h5⟩
  show (kvErase k σ.replacements.geometries).map _ = (kvErase k τ.replacements.geometries).map _
  rw [kvErase_map, kvErase_map, h1]

theorem Sim.setReplacedCount {σ τ : Impl} (h : Sim σ τ) (c c2 : Nat) :
    Sim (σ.setReplacedCount c) (τ.setReplacedCount c2) := h

theorem Sim.setMeshes {σ τ : Impl} (h : Sim σ τ) (k : Nat) (v : List AssetReplacement) :
    Sim (σ.setMeshes k v) (τ.setMeshes k v) := by
  obtain ⟨h1, h2, h3, h4, h5⟩ := h
  refine ⟨h1, h2, h3, ?_, h5⟩
  show kvSet k v σ.replacements.meshes = kvSet k v τ.replacements.meshes
  rw [h4]

theorem Sim.setLights {σ τ : Impl} (h : Sim σ τ) (k : Nat) (v : List AssetReplacement) :
    Sim (σ.setLights k v) (τ.setLights k v) := by
  obtain ⟨h1, h2, h3, h4, h5⟩ := h
  refine ⟨h1, h2, h3, h4, ?_⟩
  show kvSet k v σ.replacements.lights = kvSet k v τ.replacements.lights
  rw [h5]

theorem kvGet_isSome_of_keys {α β : Type} (k : Nat) (A : List (Nat × α)) (B : List (Nat × β))
    (h : A.map (fun e => (e.1, ())) = B.map (fun e => (e.1, ()))) :
    (kvGet k A).isSome = (kvGet k B).isSome := by
  have hA := kvGet_map (fun _ : α => ()) k A
  have hB := kvGet_map (fun _ : β => ()) k B
  rw [h, hB] at hA
  cases hka : kvGet k A <;> cases hkb : kvGet k B <;> simp [hka, hkb] at hA ⊢

theorem processMaterial_sim (env : Env) (m : MaterialPrim) {σ τ : Impl} (h : Sim σ τ) :
    (processMaterial env m σ).1 = (processMaterial env m τ).1 ∧
      Sim (processMaterial env m σ).2 (processMaterial env m τ).2 := by
  obtain ⟨h1, h2, h3, h4, h5⟩ := h
  have hsome := kvGet_isSome_of_keys (getMaterialHash m.name m.typeName m.usdOriginHash)
    σ.replacements.materials τ.replacements.materials h2
  unfold processMaterial
  simp only
  split_ifs
  · exact ⟨rfl, h1, h2, h3, h4, h5⟩
  · cases hσ : kvGet (getMaterialHash m.name m.typeName m.usdOriginHash)
        σ.replacements.materials with
    | some a =>
      cases hτ : kvGet (getMaterialHash m.name m.typeName m.usdOriginHash)
          τ.replacements.materials with
      | some b => exact ⟨rfl, h1, h2, h3, h4, h5⟩
      | none =>
        rw [hσ, hτ] at hsome
        exact absurd hsome (by simp)
    | none =>
      cases hτ : kvGet (getMaterialHash m.name m.typeName m.usdOriginHash)
          τ.replacements.materials with
      | some b =>
        rw [hσ, hτ] at hsome
        exact absurd hsome (by simp)
      | none =>
        cases selectShader m with
        | none => exact ⟨rfl, h1, h2, h3, h4, h5⟩
        | some sh =>
          refine ⟨rfl, h1, ?_, h3, h4, h5⟩
          show (kvSet _ _ σ.replacements.materials).map (fun e => (e.1, ()))
            = (kvSet _ _ τ.replacements.materials).map (fun e => (e.1, ()))
          rw [kvSet_map (fun _ : MaterialData => ()), kvSet_map (fun _ : MaterialData => ()), h2]

theorem processMaterialUser_sim (env : Env) (b : Option MaterialPrim) {σ τ : Impl}
    (h : Sim σ τ) :
    (processMaterialUser env b σ).1 = (processMaterialUser env b τ).1 ∧
      Sim (processMaterialUser env b σ).2 (processMaterialUser env b τ).2 := by
  unfold processMaterialUser
  cases b with
  | none => exact ⟨rfl, h⟩
  | some m => exact processMaterial_sim env m h

theorem erase_writeSubsetIndices (idx : List Int) (c c2 : Nat) (a b : RasterGeometry)
    (h : eraseIdentifiers a = eraseIdentifiers b) :
    eraseIdentifiers (writeSubsetIndices idx c a)
      = eraseIdentifiers (writeSubsetIndices idx c2 b) := by
  cases a
  cases b
  simp only [eraseIdentifiers, writeSubsetIndices, RasterGeometry.mk.injEq] at h ⊢
  simp [h]

theorem erase_writeMeshIndices (idx : List Int) (a b : RasterGeometry)
    (h : eraseIdentifiers a = eraseIdentifiers b) :
    eraseIdentifiers (writeMeshIndices idx a) = eraseIdentifiers (writeMeshIndices idx b) := by
  cases a
  cases b
  simp only [eraseIdentifiers, writeMeshIndices, RasterGeometry.mk.injEq] at h ⊢
  simp [h]

theorem erase_writeVertexCount (n : Nat) (a b : RasterGeometry)
    (h : eraseIdentifiers a = eraseIdentifiers b) :
    eraseIdentifiers (writeVertexCount n a) = eraseIdentifiers (writeVertexCount n b) := by
  cases a
  cases b
  simp only [eraseIdentifiers, writeVertexCount, RasterGeometry.mk.injEq] at h ⊢
  simp [h]

theorem erase_fillVertexFields (prim : UsdPrim) (u p u2 p2 : Nat) (a b : RasterGeometry)
    (h : eraseIdentifiers a = eraseIdentifiers b) :
    eraseIdentifiers (fillVertexFields prim u p a)
      = eraseIdentifiers (fillVertexFields prim u2 p2 b) := by
  cases a
  cases b
  simp only [eraseIdentifiers, fillVertexFields, RasterGeometry.mk.injEq] at h ⊢
  simp [h]

theorem erase_indexCount (a b : RasterGeometry)
    (h : eraseIdentifiers a = eraseIdentifiers b) : a.indexCount = b.indexCount := by
  cases a
  cases b
  simp only [eraseIdentifiers, RasterGeometry.mk.injEq] at h
  simp [h]

theorem Sim.indexCount {σ τ : Impl} (h : Sim σ τ) (k : Nat) :
    (σ.getGeometry k).map (fun g => g.indexCount)
      = (τ.getGeometry k).map (fun g => g.indexCount) := by
  have := h.getGeometry k
  cases hσ : σ.getGeometry k with
  | none => rw [h.getGeometry_none k hσ]
  | some g =>
    obtain ⟨g2, hg2, he⟩ := h.getGeometry_some k g hσ
    rw [hg2]
    simp [erase_indexCount g g2 he]

theorem Sim.getD {σ τ : Impl} (h : Sim σ τ) (k : Nat) :
    eraseIdentifiers ((σ.getGeometry k).getD {}) = eraseIdentifiers ((τ.getGeometry k).getD {}) := by
  cases hσ : σ.getGeometry k with
  | none => rw [h.getGeometry_none k hσ]
  | some g =>
    obtain ⟨g2, hg2, he⟩ := h.getGeometry_some k g hσ
    rw [hg2]
    exact he

theorem processGeomSubset_sim (env : Env) (sub : ChildPrim) (q : Nat) (mat : Option Nat)
    {σ τ : Impl} (h : Sim σ τ) :
    exceptRel (fun a b => a.1 = b.1 ∧ a.2.1 = b.2.1 ∧ Sim a.2.2 b.2.2)
      (processGeomSubset env sub q mat σ) (processGeomSubset env sub q mat τ) := by
  unfold processGeomSubset
  cases sub.triangleIndices with
  | none => exact ⟨rfl, rfl, h⟩
  | some idx =>
    simp only
    by_cases hl : idx.length = 0
    · rw [if_pos hl, if_pos hl]
      exact rfl
    · rw [if_neg hl, if_neg hl]
      have hs := processMaterialUser_sim env sub.boundMaterial
        ((h.setReplacedCount (nextCount σ.replacedCount) (nextCount τ.replacedCount)).modifyGeometry
          q _ _ (erase_writeSubsetIndices idx (nextCount σ.replacedCount)
            (nextCount τ.replacedCount)))
      refine ⟨rfl, ?_, hs.2⟩
      show (if _ then _ else _) = (if _ then _ else _)
      rw [hs.1]

theorem indexBlock_sim (prim : UsdPrim) (n : Nat) {σ τ : Impl} (h : Sim σ τ) :
    exceptRel (fun a b => (a = none ∧ b = none) ∨ ∃ x y, a = some x ∧ b = some y ∧ Sim x y)
      (indexBlock prim n σ) (indexBlock prim n τ) := by
  unfold indexBlock
  simp only
  by_cases h1 : 0 < (if n ≤ 1 then (prim.faceVertexIndices.getD []).length * 4 else 0)
  · rw [if_pos h1, if_pos h1]
    cases prim.faceVertexCounts.head? with
    | none => exact rfl
    | some c =>
      simp only
      by_cases h2 : c ≠ 3 ∨ (prim.faceVertexIndices.getD []).length % 3 ≠ 0
      · rw [if_pos h2, if_pos h2]
        exact Or.inl ⟨rfl, rfl⟩
      · rw [if_neg h2, if_neg h2]
        exact Or.inr ⟨_, _, rfl, rfl, h.modifyGeometry _ _ _ (erase_writeMeshIndices _)⟩
  · rw [if_neg h1, if_neg h1]
    exact Or.inr ⟨_, _, rfl, rfl, h⟩

theorem vertexBlock_sim (prim : UsdPrim) {σ τ : Impl} (h : Sim σ τ) :
    Sim (vertexBlock prim σ) (vertexBlock prim τ) := by
  unfold vertexBlock
  exact (h.setReplacedCount _ _).modifyGeometry _ _ _ (erase_fillVertexFields prim _ _ _ _)

theorem createGeometry_sim (prim : UsdPrim) (n : Nat) {σ τ : Impl} (h : Sim σ τ) :
    exceptRel (fun a b => a.1 = b.1 ∧ Sim a.2 b.2)
      (createGeometry prim n σ) (createGeometry prim n τ) := by
  have h0 := h.storeGeometry prim.usdOriginHash {} {} rfl
  unfold createGeometry
  simp only
  by_cases h1 : n ≤ 1 ∧ prim.faceVertexIndices.isSome = false
  · rw [if_pos h1, if_pos h1]
    exact ⟨rfl, h0⟩
  · rw [if_neg h1, if_neg h1]
    by_cases h2 : prim.points.length = 0
    · rw [if_pos h2, if_pos h2]
      exact ⟨rfl, h0⟩
    · rw [if_neg h2, if_neg h2]
      have hv := h0.modifyGeometry prim.usdOriginHash _ _
        (erase_writeVertexCount prim.points.length)
      have hib := indexBlock_sim prim n hv
      revert hib
      cases indexBlock prim n ((σ.storeGeometry prim.usdOriginHash {}).modifyGeometry
          prim.usdOriginHash (writeVertexCount prim.points.length)) with
      | error f =>
        cases indexBlock prim n ((τ.storeGeometry prim.usdOriginHash {}).modifyGeometry
            prim.usdOriginHash (writeVertexCount prim.points.length)) with
        | error f2 => exact fun hib => hib
        | ok b => exact fun hib => hib.elim
      | ok a =>
        cases indexBlock prim n ((τ.storeGeometry prim.usdOriginHash {}).modifyGeometry
            prim.usdOriginHash (writeVertexCount prim.points.length)) with
        | error f2 => exact fun hib => hib.elim
        | ok b =>
          intro hib
          rcases hib with ⟨rfl, rfl⟩ | ⟨x, y, rfl, rfl, hxy⟩
          · exact ⟨rfl, hv⟩
          · exact ⟨rfl, vertexBlock_sim prim hxy⟩

theorem exceptRel_cases {α : Type} {R : α → α → Prop} {x y : Except Fault α}
    (h : exceptRel R x y) :
    (∃ f, x = Except.error f ∧ y = Except.error f) ∨
      (∃ a b, x = Except.ok a ∧ y = Except.ok b ∧ R a b) := by
  cases x with
  | error f =>
    cases y with
    | error f2 =>
      have : f = f2 := h
      exact Or.inl ⟨f, rfl, by rw [this]⟩
    | ok b => exact h.elim
  | ok a =>
    cases y with
    | error f2 => exact h.elim
    | ok b => exact Or.inr ⟨a, b, rfl, rfl, h⟩

theorem subsetLoop_sim (env : Env) (geomKey : Nat) (M : Matrix4) (children : List ChildPrim) :
    ∀ (isFirst : Bool) (mat : Option Nat) (σ τ : Impl) (ms : List AssetReplacement),
      Sim σ τ →
      exceptRel (fun a b => a.1 = b.1 ∧ Sim a.2.1 b.2.1 ∧ a.2.2 = b.2.2)
        (subsetLoop env geomKey M children isFirst mat σ ms)
        (subsetLoop env geomKey M children isFirst mat τ ms) := by
  induction children with
  | nil =>
    intro isFirst mat σ τ ms h
    exact ⟨rfl, h, rfl⟩
  | cons child rest ih =>
    intro isFirst mat σ τ ms h
    unfold subsetLoop
    by_cases hsub : child.isGeomSubset = true
    · rw [if_pos hsub, if_pos hsub]
      by_cases hfirst : isFirst = true
      · rw [if_pos hfirst, if_pos hfirst]
        rcases exceptRel_cases (processGeomSubset_sim env child geomKey mat h) with
          ⟨f, hx, hy⟩ | ⟨a, b, hx, hy, hab⟩
        · rw [hx, hy]
          exact rfl
        · rw [hx, hy]
          obtain ⟨a1, a2, a3⟩ := a
          obtain ⟨b1, b2, b3⟩ := b
          obtain ⟨h1, h2, h3⟩ := hab
          simp only at h1 h2 h3
          subst h1
          subst h2
          exact ih _ _ _ _ _ h3
      · rw [if_neg hfirst, if_neg hfirst]
        simp only
        cases hσ : σ.getGeometry child.usdOriginHash with
        | some g =>
          obtain ⟨g2, hg2, -⟩ := h.getGeometry_some _ g hσ
          rw [hg2]
          simp only
          have hm := processMaterialUser_sim env child.boundMaterial h
          rw [hm.1]
          exact ih _ _ _ _ _ hm.2
        | none =>
          rw [h.getGeometry_none _ hσ]
          simp only
          have h0 := h.storeGeometry child.usdOriginHash _ _ (h.getD geomKey)
          rcases exceptRel_cases (processGeomSubset_sim env child child.usdOriginHash mat h0) with
            ⟨f, hx, hy⟩ | ⟨a, b, hx, hy, hab⟩
          · rw [hx, hy]
            exact rfl
          · rw [hx, hy]
            obtain ⟨a1, a2, a3⟩ := a
            obtain ⟨b1, b2, b3⟩ := b
            obtain ⟨h1, h2, h3⟩ := hab
            simp only at h1 h2 h3
            subst h1
            subst h2
            cases a1 with
            | true => exact ih _ _ _ _ _ h3
            | false => exact ih _ _ _ _ _ (h3.removeGeometry _)
    · rw [if_neg hsub, if_neg hsub]
      exact ih _ _ _ _ _ h

theorem processPrim_tail_sim (env : Env) (prim : UsdPrim) (m1 : Option Nat)
    (ms1 : List AssetReplacement) {σ2 τ2 : Impl} (e2 : Sim σ2 τ2) :
    exceptRel (fun a b => Sim a.1 b.1 ∧ a.2 = b.2)
      (if ((σ2.getGeometry prim.usdOriginHash).map (fun g => g.indexCount)).getD 0 = 0 then
        (Except.ok (σ2, ms1) : Except Fault (Impl × List AssetReplacement))
      else
        Except.ok (σ2, ms1 ++ [{ geometryData := some prim.usdOriginHash
                                 materialData := m1
                                 replacementToObject := replacementToObjectOf env prim }]))
      (if ((τ2.getGeometry prim.usdOriginHash).map (fun g => g.indexCount)).getD 0 = 0 then
        (Except.ok (τ2, ms1) : Except Fault (Impl × List AssetReplacement))
      else
        Except.ok (τ2, ms1 ++ [{ geometryData := some prim.usdOriginHash
                                 materialData := m1
                                 replacementToObject := replacementToObjectOf env prim }])) := by
  rw [e2.indexCount prim.usdOriginHash]
  split_ifs
  · exact ⟨e2, rfl⟩
  · exact ⟨e2, rfl⟩

theorem processPrim_created_sim (env : Env) (prim : UsdPrim) (ms : List AssetReplacement)
    (b : Bool) {σ1 τ1 : Impl} (h2 : Sim σ1 τ1) :
    exceptRel (fun a b => Sim a.1 b.1 ∧ a.2 = b.2)
      (match (Except.ok (b, σ1) : Except Fault (Bool × Impl)) with
        | Except.error f => Except.error f
        | Except.ok (false, σ1) => Except.ok (σ1, ms)
        | Except.ok (true, σ1) =>
          match (if (prim.activeChildren.filter (fun c => c.isGeomSubset)).length = 1 then
              match prim.activeChildren.find? (fun c => c.isGeomSubset) with
              | some child =>
                Except.ok
                  ((if (processMaterialUser env child.boundMaterial
                        (processMaterialUser env prim.boundMaterial σ1).2).1.isSome
                    then (processMaterialUser env child.boundMaterial
                        (processMaterialUser env prim.boundMaterial σ1).2).1
                    else (processMaterialUser env prim.boundMaterial σ1).1),
                    (processMaterialUser env child.boundMaterial
                        (processMaterialUser env prim.boundMaterial σ1).2).2, ms)
              | none => Except.ok ((processMaterialUser env prim.boundMaterial σ1).1,
                  (processMaterialUser env prim.boundMaterial σ1).2, ms)
            else subsetLoop env prim.usdOriginHash (replacementToObjectOf env prim)
              prim.activeChildren true (processMaterialUser env prim.boundMaterial σ1).1
              (processMaterialUser env prim.boundMaterial σ1).2 ms) with
          | Except.error f => Except.error f
          | Except.ok (materialData, σ2, meshes1) =>
            if ((σ2.getGeometry prim.usdOriginHash).map (fun g => g.indexCount)).getD 0 = 0 then
              Except.ok (σ2, meshes1)
            else
              Except.ok (σ2, meshes1 ++ [{ geometryData := some prim.usdOriginHash
                                           materialData := materialData
                                           replacementToObject := replacementToObjectOf env prim }]))
      (match (Except.ok (b, τ1) : Except Fault (Bool × Impl)) with
        | Except.error f => Except.error f
        | Except.ok (false, σ1) => Except.ok (σ1, ms)
        | Except.ok (true, σ1) =>
          match (if (prim.activeChildren.filter (fun c => c.isGeomSubset)).length = 1 then
              match prim.activeChildren.find? (fun c => c.isGeomSubset) with
              | some child =>
                Except.ok
                  ((if (processMaterialUser env child.boundMaterial
                        (processMaterialUser env prim.boundMaterial σ1).2).1.isSome
                    then (processMaterialUser env child.boundMaterial
                        (processMaterialUser env prim.boundMaterial σ1).2).1
                    else (processMaterialUser env prim.boundMaterial σ1).1),
                    (processMaterialUser env child.boundMaterial
                        (processMaterialUser env prim.boundMaterial σ1).2).2, ms)
              | none => Except.ok ((processMaterialUser env prim.boundMaterial σ1).1,
                  (processMaterialUser env prim.boundMaterial σ1).2, ms)
            else subsetLoop env prim.usdOriginHash (replacementToObjectOf env prim)
              prim.activeChildren true (processMaterialUser env prim.boundMaterial σ1).1
              (processMaterialUser env prim.boundMaterial σ1).2 ms) with
          | Except.error f => Except.error f
          | Except.ok (materialData, σ2, meshes1) =>
            if ((σ2.getGeometry prim.usdOriginHash).map (fun g => g.indexCount)).getD 0 = 0 then
              Except.ok (σ2, meshes1)
            else
              Except.ok (σ2, meshes1 ++ [{ geometryData := some prim.usdOriginHash
                                           materialData := materialData
                                           replacementToObject := replacementToObjectOf env prim }])) := by
  cases b with
  | false => exact ⟨h2, rfl⟩
  | true =>
    simp only
    have hm := processMaterialUser_sim env prim.boundMaterial h2
    by_cases hone : (prim.activeChildren.filter (fun c => c.isGeomSubset)).length = 1
    · simp only [if_pos hone]
      cases prim.activeChildren.find? (fun c => c.isGeomSubset) with
      | none =>
        simp only
        rw [hm.1]
        exact processPrim_tail_sim env prim _ ms hm.2
      | some child =>
        simp only
        have hm2 := processMaterialUser_sim env child.boundMaterial hm.2
        rw [hm2.1, hm.1]
        exact processPrim_tail_sim env prim _ ms hm2.2
    · simp only [if_neg hone]
      rw [hm.1]
      rcases exceptRel_cases (subsetLoop_sim env prim.usdOriginHash (replacementToObjectOf env prim)
          prim.activeChildren true (processMaterialUser env prim.boundMaterial τ1).1 _ _ ms hm.2) with
        ⟨f, hx, hy⟩ | ⟨a, b, hx, hy, hab⟩
      · rw [hx, hy]
        exact rfl
      · rw [hx, hy]
        obtain ⟨m1, σ2, ms1⟩ := a
        obtain ⟨m2, τ2, ms2⟩ := b
        obtain ⟨e1, e2, e3⟩ := hab
        simp only at e1 e2 e3
        subst e1
        subst e3
        exact processPrim_tail_sim env prim _ _ e2

theorem processPrim_sim (env : Env) (prim : UsdPrim) (ms : List AssetReplacement)
    {σ τ : Impl} (h : Sim σ τ) :
    exceptRel (fun a b => Sim a.1 b.1 ∧ a.2 = b.2)
      (processPrim env prim σ ms) (processPrim env prim τ ms) := by
  unfold processPrim
  simp only
  cases hσ : σ.getGeometry prim.usdOriginHash with
  | some g =>
    obtain ⟨g2, hg2, -⟩ := h.getGeometry_some _ g hσ
    rw [hg2]
    exact processPrim_created_sim env prim ms true h
  | none =>
    rw [h.getGeometry_none _ hσ]
    simp only
    rcases exceptRel_cases (createGeometry_sim prim
        (prim.activeChildren.filter (fun c => c.isGeomSubset)).length h) with
      ⟨f, hx, hy⟩ | ⟨a, b, hx, hy, hab⟩
    · rw [hx, hy]
      exact rfl
    · rw [hx, hy]
      obtain ⟨a1, σ1⟩ := a
      obtain ⟨b1, τ1⟩ := b
      obtain ⟨h1, h2⟩ := hab
      simp only at h1 h2
      subst h1
      exact processPrim_created_sim env prim ms a1 h2

theorem processNode_sim (env : Env) (rootPrim node : UsdPrim) (ms : List AssetReplacement)
    {σ τ : Impl} (h : Sim σ τ) :
    exceptRel (fun a b => Sim a.1 b.1 ∧ a.2 = b.2)
      (processNode env rootPrim node σ ms) (processNode env rootPrim node τ ms) := by
  unfold processNode
  by_cases hm : node.type = PrimType.Mesh
  · rw [if_pos hm, if_pos hm]
    exact processPrim_sim env node ms h
  · rw [if_neg hm, if_neg hm]
    by_cases hl : node.type.isLight = true
    · rw [if_pos hl, if_pos hl]
      cases processLight env rootPrim node ms with
      | error f => exact rfl
      | ok ms1 => exact ⟨h, rfl⟩
    · rw [if_neg hl, if_neg hl]
      exact ⟨h, rfl⟩

theorem processDescendants_sim (env : Env) (rootPrim : UsdPrim) (descs : List UsdPrim) :
    ∀ (ms : List AssetReplacement) (σ τ : Impl), Sim σ τ →
      exceptRel (fun a b => Sim a.1 b.1 ∧ a.2 = b.2)
        (processDescendants env rootPrim descs σ ms)
        (processDescendants env rootPrim descs τ ms) := by
  induction descs with
  | nil =>
    intro ms σ τ h
    exact ⟨h, rfl⟩
  | cons d rest ih =>
    intro ms σ τ h
    unfold processDescendants
    rcases exceptRel_cases (processNode_sim env rootPrim d ms h) with
      ⟨f, hx, hy⟩ | ⟨a, b, hx, hy, hab⟩
    · rw [hx, hy]
      exact rfl
    · rw [hx, hy]
      obtain ⟨σ1, ms1⟩ := a
      obtain ⟨τ1, ms2⟩ := b
      obtain ⟨h1, h2⟩ := hab
      simp only at h1 h2
      subst h2
      exact ih _ _ _ h1

theorem processReplacement_sim (env : Env) (root : ReplacementRoot) {σ τ : Impl}
    (h : Sim σ τ) :
    exceptRel (fun a b => Sim a.1 b.1 ∧ a.2 = b.2)
      (processReplacement env root σ) (processReplacement env root τ) := by
  unfold processReplacement
  rcases exceptRel_cases (processNode_sim env root.rootPrim root.rootPrim [] h) with
    ⟨f, hx, hy⟩ | ⟨a, b, hx, hy, hab⟩
  · rw [hx, hy]
    exact rfl
  · rw [hx, hy]
    obtain ⟨σ1, ms1⟩ := a
    obtain ⟨τ1, ms2⟩ := b
    obtain ⟨h1, h2⟩ := hab
    simp only at h1 h2
    subst h2
    simp only
    rcases exceptRel_cases (processDescendants_sim env root.rootPrim root.descendants ms1 _ _ h1)
      with ⟨f, hx2, hy2⟩ | ⟨a, b, hx2, hy2, hab2⟩
    · rw [hx2, hy2]
      exact rfl
    · rw [hx2, hy2]
      obtain ⟨σ2, ms3⟩ := a
      obtain ⟨τ2, ms4⟩ := b
      obtain ⟨h3, h4⟩ := hab2
      simp only at h3 h4
      subst h4
      simp only
      split_ifs
      · exact ⟨h3, rfl⟩
      · exact ⟨h3, rfl⟩

theorem meshesLoop_sim (env : Env) (roots : List ReplacementRoot) :
    ∀ (vc : List (Nat × Nat)) (σ τ : Impl), Sim σ τ →
      exceptRel (fun a b => a.1 = b.1 ∧ Sim a.2 b.2)
        (meshesLoop env roots vc σ) (meshesLoop env roots vc τ) := by
  induction roots with
  | nil =>
    intro vc σ τ h
    exact ⟨rfl, h⟩
  | cons child rest ih =>
    intro vc σ τ h
    unfold meshesLoop
    by_cases hh : getModelHash child.rootPrim.name ≠ 0
    · rw [if_pos hh, if_pos hh]
      rcases exceptRel_cases (processReplacement_sim env child h) with
        ⟨f, hx, hy⟩ | ⟨a, b, hx, hy, hab⟩
      · rw [hx, hy]
        exact rfl
      · rw [hx, hy]
        obtain ⟨σ1, ms1⟩ := a
        obtain ⟨τ1, ms2⟩ := b
        obtain ⟨h1, h2⟩ := hab
        simp only at h1 h2
        subst h2
        exact ih _ _ _ (h1.setMeshes _ _)
    · rw [if_neg hh, if_neg hh]
      exact ih _ _ _ h

theorem secretVariantsLoop_sim (env : Env) (dir : String) (hash : Nat)
    (secrets : List SecretReplacement) :
    ∀ (σ τ : Impl), Sim σ τ →
      exceptRel Sim (secretVariantsLoop env dir hash secrets σ)
        (secretVariantsLoop env dir hash secrets τ) := by
  induction secrets with
  | nil =>
    intro σ τ h
    exact h
  | cons s rest ih =>
    intro σ τ h
    unfold secretVariantsLoop
    cases env.lastWriteTime (dir ++ s.replacementPath) with
    | none => exact ih _ _ h
    | some t =>
      simp only
      cases env.openStage (dir ++ s.replacementPath) with
      | none => exact ih _ _ h
      | some pStage =>
        simp only
        cases pStage.defaultPrim with
        | none => exact rfl
        | some rootPrim =>
          simp only
          rcases exceptRel_cases (processReplacement_sim env rootPrim h) with
            ⟨f, hx, hy⟩ | ⟨a, b, hx, hy, hab⟩
          · rw [hx, hy]
            exact rfl
          · rw [hx, hy]
            obtain ⟨σ1, ms1⟩ := a
            obtain ⟨τ1, ms2⟩ := b
            obtain ⟨h1, h2⟩ := hab
            simp only at h1 h2
            subst h2
            exact ih _ _ (h1.setMeshes _ _)

theorem secretsLoop_sim (env : Env) (dir : String)
    (table : List (Nat × List SecretReplacement)) :
    ∀ (σ τ : Impl), Sim σ τ →
      exceptRel Sim (secretsLoop env dir table σ) (secretsLoop env dir table τ) := by
  induction table with
  | nil =>
    intro σ τ h
    exact h
  | cons e rest ih =>
    intro σ τ h
    obtain ⟨hash, secrets⟩ := e
    unfold secretsLoop
    rcases exceptRel_cases (secretVariantsLoop_sim env dir hash secrets σ τ h) with
      ⟨f, hx, hy⟩ | ⟨a, b, hx, hy, hab⟩
    · rw [hx, hy]
      exact rfl
    · rw [hx, hy]
      exact ih _ _ hab

theorem lightsLoop_sim (env : Env) (roots : List ReplacementRoot) :
    ∀ (σ τ : Impl), Sim σ τ →
      exceptRel Sim (lightsLoop env roots σ) (lightsLoop env roots τ) := by
  induction roots with
  | nil =>
    intro σ τ h
    exact h
  | cons child rest ih =>
    intro σ τ h
    unfold lightsLoop
    by_cases hh : getLightHash child.rootPrim.name ≠ 0
    · rw [if_pos hh, if_pos hh]
      rcases exceptRel_cases (processReplacement_sim env child h) with
        ⟨f, hx, hy⟩ | ⟨a, b, hx, hy, hab⟩
      · rw [hx, hy]
        exact rfl
      · rw [hx, hy]
        obtain ⟨σ1, ms1⟩ := a
        obtain ⟨τ1, ms2⟩ := b
        obtain ⟨h1, h2⟩ := hab
        simp only at h1 h2
        subst h2
        exact ih _ _ (h1.setLights _ _)
    · rw [if_neg hh, if_neg hh]
      exact ih _ _ h

theorem looksLoop_sim (env : Env) (mats : List MaterialPrim) :
    ∀ (σ τ : Impl), Sim σ τ → Sim (looksLoop env mats σ) (looksLoop env mats τ) := by
  induction mats with
  | nil =>
    intro σ τ h
    exact h
  | cons m rest ih =>
    intro σ τ h
    unfold looksLoop
    exact ih _ _ (processMaterial_sim env m h).2

theorem storeSecret_sim (hash : Nat) (s : SecretReplacement) {r r2 : AssetReplacements}
    (h : StoreSim r r2) : StoreSim (r.storeSecret hash s) (r2.storeSecret hash s) := by
  obtain ⟨h1, h2, h3, h4, h5⟩ := h
  refine ⟨h1, h2, ?_, h4, h5⟩
  show kvSet hash _ r.secretReplacements = kvSet hash _ r2.secretReplacements
  rw [h3]

theorem registerVariants_sim (header : String) (base : Nat)
    (vs : List (String × Nat × String)) :
    ∀ (n : Nat) (r r2 : AssetReplacements), StoreSim r r2 →
      StoreSim (registerVariants header base vs n r) (registerVariants header base vs n r2) := by
  induction vs with
  | nil =>
    intro n r r2 h
    exact h
  | cons v rest ih =>
    intro n r r2 h
    obtain ⟨name, unlockHash, path⟩ := v
    unfold registerVariants
    exact ih _ _ _ (storeSecret_sim _ _ h)

theorem TEMP_parseSecretReplacementVariants_sim (vc : List (Nat × Nat))
    {r r2 : AssetReplacements} (h : StoreSim r r2) :
    StoreSim (TEMP_parseSecretReplacementVariants vc r)
      (TEMP_parseSecretReplacementVariants vc r2) := by
  unfold TEMP_parseSecretReplacementVariants
  exact registerVariants_sim _ _ _ _ _ _ (registerVariants_sim _ _ _ _ _ _ h)

/-- The document walk from two states with the same document path whose stores agree up
to identifier values ends the same way, in stores that agree up to identifier values. -/
theorem processUSD_sim (env : Env) {σ τ : Impl} (hp : σ.filePath = τ.filePath) (h : Sim σ τ) :
    exceptRel (fun a b => Sim a b ∧ a.state = b.state) (processUSD env σ) (processUSD env τ) := by
  unfold processUSD
  simp only [← hp]
  cases env.openStage σ.filePath with
  | none => exact ⟨h, rfl⟩
  | some stage =>
    simp only
    cases env.lastWriteTime σ.filePath with
    | none => exact rfl
    | some t =>
      simp only
      have h1 : Sim { σ with state := State.Loading, openedFilePath := σ.filePath
                             fileModificationTime := t, status := statusOf stage }
                    { τ with state := State.Loading, openedFilePath := σ.filePath
                             filePath := σ.filePath
                             fileModificationTime := t, status := statusOf stage } := h
      rcases exceptRel_cases (meshesLoop_sim env (stage.meshes.getD []) [] _ _ h1) with
        ⟨f, hx, hy⟩ | ⟨a, b, hx, hy, hab⟩
      · rw [hx, hy]
        exact rfl
      · rw [hx, hy]
        obtain ⟨vc, σ2⟩ := a
        obtain ⟨vc2, τ2⟩ := b
        obtain ⟨e1, e2⟩ := hab
        simp only at e1 e2
        subst e1
        simp only
        have e3 : Sim { σ2 with replacements :=
              TEMP_parseSecretReplacementVariants vc σ2.replacements }
            { τ2 with replacements :=
              TEMP_parseSecretReplacementVariants vc τ2.replacements } :=
          TEMP_parseSecretReplacementVariants_sim vc e2
        have esec : (TEMP_parseSecretReplacementVariants vc σ2.replacements).secretReplacements
            = (TEMP_parseSecretReplacementVariants vc τ2.replacements).secretReplacements :=
          e3.2.2.1
        rw [← esec]
        rcases exceptRel_cases (secretsLoop_sim env (env.removeFilename σ.filePath)
            (TEMP_parseSecretReplacementVariants vc σ2.replacements).secretReplacements _ _ e3) with
          ⟨f, hx2, hy2⟩ | ⟨σ4, τ4, hx2, hy2, e4⟩
        · rw [hx2, hy2]
          exact rfl
        · rw [hx2, hy2]
          simp only
          rcases exceptRel_cases (lightsLoop_sim env (stage.lights.getD []) _ _ e4) with
            ⟨f, hx3, hy3⟩ | ⟨σ5, τ5, hx3, hy3, e5⟩
          · rw [hx3, hy3]
            exact rfl
          · rw [hx3, hy3]
            exact ⟨looksLoop_sim env _ _ _ e5, rfl⟩

/-! The document path is never written. -/

theorem processMaterialUser_filePath (env : Env) (b : Option MaterialPrim) (σ : Impl) :
    (processMaterialUser env b σ).2.filePath = σ.filePath := by
  obtain ⟨mats, ap, h⟩ := processMaterialUser_frame env b σ
  rw [h]

theorem processGeomSubset_filePath (env : Env) (sub : ChildPrim) (q : Nat) (mat : Option Nat)
    (τ : Impl) (r : Bool × Option Nat × Impl)
    (h : processGeomSubset env sub q mat τ = Except.ok r) : r.2.2.filePath = τ.filePath := by
  unfold processGeomSubset at h
  cases hidx : sub.triangleIndices with
  | none =>
    rw [hidx] at h
    simp only [Except.ok.injEq] at h
    rw [← h]
  | some idx =>
    rw [hidx] at h
    simp only at h
    by_cases hl : idx.length = 0
    · rw [if_pos hl] at h
      exact absurd h (by simp)
    · rw [if_neg hl] at h
      simp only [Except.ok.injEq] at h
      rw [← h]
      simp only
      rw [processMaterialUser_filePath]
      rfl

theorem indexBlock_filePath (prim : UsdPrim) (numSubsets : Nat) (τ τ2 : Impl)
    (h : indexBlock prim numSubsets τ = Except.ok (some τ2)) : τ2.filePath = τ.filePath := by
  unfold indexBlock at h
  simp only at h
  by_cases h1 : 0 < (if numSubsets ≤ 1 then (prim.faceVertexIndices.getD []).length * 4 else 0)
  · rw [if_pos h1] at h
    cases hfc : prim.faceVertexCounts.head? with
    | none =>
      rw [hfc] at h
      exact absurd h (by simp)
    | some c =>
      rw [hfc] at h
      simp only at h
      by_cases h2 : c ≠ 3 ∨ (prim.faceVertexIndices.getD []).length % 3 ≠ 0
      · rw [if_pos h2] at h
        exact absurd h (by simp)
      · rw [if_neg h2] at h
        simp only [Except.ok.injEq, Option.some.injEq] at h
        rw [← h]
        rfl
  · rw [if_neg h1] at h
    simp only [Except.ok.injEq, Option.some.injEq] at h
    rw [← h]

theorem createGeometry_filePath (prim : UsdPrim) (n : Nat) (σ : Impl) (r : Bool × Impl)
    (h : createGeometry prim n σ = Except.ok r) : r.2.filePath = σ.filePath := by
  unfold createGeometry at h
  simp only at h
  by_cases h1 : n ≤ 1 ∧ prim.faceVertexIndices.isSome = false
  · rw [if_pos h1] at h
    simp only [Except.ok.injEq] at h
    rw [← h]
    rfl
  · rw [if_neg h1] at h
    by_cases h2 : prim.points.length = 0
    · rw [if_pos h2] at h
      simp only [Except.ok.injEq] at h
      rw [← h]
      rfl
    · rw [if_neg h2] at h
      cases hib : indexBlock prim n ((σ.storeGeometry prim.usdOriginHash {}).modifyGeometry
          prim.usdOriginHash (writeVertexCount prim.points.length)) with
      | error f =>
        rw [hib] at h
        exact absurd h (by simp)
      | ok o =>
        rw [hib] at h
        cases o with
        | none =>
          simp only [Except.ok.injEq] at h
          rw [← h]
          rfl
        | some σ2 =>
          simp only [Except.ok.injEq] at h
          rw [← h]
          have : σ2.filePath = σ.filePath := by
            rw [indexBlock_filePath prim n _ σ2 hib]
            rfl
          show (vertexBlock prim σ2).filePath = σ.filePath
          rw [← this]
          rfl

theorem subsetLoop_filePath (env : Env) (geomKey : Nat) (M : Matrix4)
    (children : List ChildPrim) :
    ∀ (isFirst : Bool) (mat : Option Nat) (τ : Impl) (ms : List AssetReplacement)
      (r : Option Nat × Impl × List AssetReplacement),
      subsetLoop env geomKey M children isFirst mat τ ms = Except.ok r →
      r.2.1.filePath = τ.filePath := by
  induction children with
  | nil =>
    intro isFirst mat τ ms r h
    unfold subsetLoop at h
    simp only [Except.ok.injEq] at h
    rw [← h]
  | cons child rest ih =>
    intro isFirst mat τ ms r h
    unfold subsetLoop at h
    by_cases hsub : child.isGeomSubset = true
    · rw [if_pos hsub] at h
      by_cases hfirst : isFirst = true
      · rw [if_pos hfirst] at h
        cases hres : processGeomSubset env child geomKey mat τ with
        | error f =>
          rw [hres] at h
          exact absurd h (by simp)
        | ok r1 =>
          rw [hres] at h
          obtain ⟨d, m1, τ1⟩ := r1
          simp only at h
          rw [ih _ _ _ _ _ h]
          exact processGeomSubset_filePath env child geomKey mat τ _ hres
      · rw [if_neg hfirst] at h
        simp only at h
        cases hget : τ.getGeometry child.usdOriginHash with
        | some g0 =>
          rw [hget] at h
          simp only at h
          rw [ih _ _ _ _ _ h, processMaterialUser_filePath]
        | none =>
          rw [hget] at h
          simp only at h
          cases hres : processGeomSubset env child child.usdOriginHash mat
              (τ.storeGeometry child.usdOriginHash ((τ.getGeometry geomKey).getD {})) with
          | error f =>
            rw [hres] at h
            exact absurd h (by simp)
          | ok r1 =>
            rw [hres] at h
            obtain ⟨d, m1, τ1⟩ := r1
            have hp := processGeomSubset_filePath env child child.usdOriginHash mat _ _ hres
            cases d with
            | true =>
              simp only at h
              rw [ih _ _ _ _ _ h]
              exact hp
            | false =>
              simp only at h
              rw [ih _ _ _ _ _ h]
              exact hp
    · rw [if_neg hsub] at h
      exact ih _ _ _ _ _ h

theorem processPrim_filePath (env : Env) (prim : UsdPrim) (σ : Impl)
    (ms : List AssetReplacement) (r : Impl × List AssetReplacement)
    (h : processPrim env prim σ ms = Except.ok r) : r.1.filePath = σ.filePath := by
  unfold processPrim at h
  simp only at h
  have key : ∀ (b : Bool) (σ1 : Impl), σ1.filePath = σ.filePath →
      (match (Except.ok (b, σ1) : Except Fault (Bool × Impl)) with
        | Except.error f => Except.error f
        | Except.ok (false, σ1) => Except.ok (σ1, ms)
        | Except.ok (true, σ1) =>
          match (if (prim.activeChildren.filter (fun c => c.isGeomSubset)).length = 1 then
              match prim.activeChildren.find? (fun c => c.isGeomSubset) with
              | some child =>
                Except.ok
                  ((if (processMaterialUser env child.boundMaterial
                        (processMaterialUser env prim.boundMaterial σ1).2).1.isSome
                    then (processMaterialUser env child.boundMaterial
                        (processMaterialUser env prim.boundMaterial σ1).2).1
                    else (processMaterialUser env prim.boundMaterial σ1).1),
                    (processMaterialUser env child.boundMaterial
                        (processMaterialUser env prim.boundMaterial σ1).2).2, ms)
              | none => Except.ok ((processMaterialUser env prim.boundMaterial σ1).1,
                  (processMaterialUser env prim.boundMaterial σ1).2, ms)
            else subsetLoop env prim.usdOriginHash (replacementToObjectOf env prim)
              prim.activeChildren true (processMaterialUser env prim.boundMaterial σ1).1
              (processMaterialUser env prim.boundMaterial σ1).2 ms) with
          | Except.error f => Except.error f
          | Except.ok (materialData, σ2, meshes1) =>
            if ((σ2.getGeometry prim.usdOriginHash).map (fun g => g.indexCount)).getD 0 = 0 then
              Except.ok (σ2, meshes1)
            else
              Except.ok (σ2, meshes1 ++ [{ geometryData := some prim.usdOriginHash
                                           materialData := materialData
                                           replacementToObject := replacementToObjectOf env prim }]))
        = Except.ok r → r.1.filePath = σ.filePath := by
    intro b σ1 h1 hr
    cases b with
    | false =>
      simp only [Except.ok.injEq] at hr
      rw [← hr]
      exact h1
    | true =>
      simp only at hr
      by_cases hone : (prim.activeChildren.filter (fun c => c.isGeomSubset)).length = 1
      · simp only [if_pos hone] at hr
        cases hfind : prim.activeChildren.find? (fun c => c.isGeomSubset) with
        | none =>
          rw [hfind] at hr
          simp only at hr
          split_ifs at hr <;>
          · simp only [Except.ok.injEq] at hr
            rw [← hr]
            simp only
            rw [processMaterialUser_filePath, h1]
        | some child =>
          rw [hfind] at hr
          simp only at hr
          split_ifs at hr <;>
          · simp only [Except.ok.injEq] at hr
            rw [← hr]
            simp only
            rw [processMaterialUser_filePath, processMaterialUser_filePath, h1]
      · simp only [if_neg hone] at hr
        cases hloop : subsetLoop env prim.usdOriginHash (replacementToObjectOf env prim)
            prim.activeChildren true (processMaterialUser env prim.boundMaterial σ1).1
            (processMaterialUser env prim.boundMaterial σ1).2 ms with
        | error f =>
          rw [hloop] at hr
          exact absurd hr (by simp)
        | ok r2 =>
          rw [hloop] at hr
          obtain ⟨m2, σ2, ms2⟩ := r2
          have hp := subsetLoop_filePath env _ _ _ _ _ _ _ _ hloop
          simp only at hp hr
          split_ifs at hr <;>
          · simp only [Except.ok.injEq] at hr
            rw [← hr]
            simp only
            rw [hp, processMaterialUser_filePath, h1]
  cases hσ : σ.getGeometry prim.usdOriginHash with
  | some g =>
    rw [hσ] at h
    exact key true σ rfl h
  | none =>
    rw [hσ] at h
    simp only at h
    cases hcr : createGeometry prim (prim.activeChildren.filter (fun c => c.isGeomSubset)).length σ with
    | error f =>
      rw [hcr] at h
      exact absurd h (by simp)
    | ok r1 =>
      rw [hcr] at h
      obtain ⟨b, σ1⟩ := r1
      exact key b σ1 (createGeometry_filePath prim _ σ _ hcr) h

theorem processNode_filePath (env : Env) (rootPrim node : UsdPrim) (σ : Impl)
    (ms : List AssetReplacement) (r : Impl × List AssetReplacement)
    (h : processNode env rootPrim node σ ms = Except.ok r) : r.1.filePath = σ.filePath := by
  unfold processNode at h
  by_cases hm : node.type = PrimType.Mesh
  · rw [if_pos hm] at h
    exact processPrim_filePath env node σ ms r h
  · rw [if_neg hm] at h
    by_cases hl : node.type.isLight = true
    · rw [if_pos hl] at h
      cases hlight : processLight env rootPrim node ms with
      | error f =>
        rw [hlight] at h
        exact absurd h (by simp)
      | ok ms1 =>
        rw [hlight] at h
        simp only [Except.ok.injEq] at h
        rw [← h]
    · rw [if_neg hl] at h
      simp only [Except.ok.injEq] at h
      rw [← h]

theorem processDescendants_filePath (env : Env) (rootPrim : UsdPrim) (descs : List UsdPrim) :
    ∀ (σ : Impl) (ms : List AssetReplacement) (r : Impl × List AssetReplacement),
      processDescendants env rootPrim descs σ ms = Except.ok r → r.1.filePath = σ.filePath := by
  induction descs with
  | nil =>
    intro σ ms r h
    unfold processDescendants at h
    simp only [Except.ok.injEq] at h
    rw [← h]
  | cons d rest ih =>
    intro σ ms r h
    unfold processDescendants at h
    cases hn : processNode env rootPrim d σ ms with
    | error f =>
      rw [hn] at h
      exact absurd h (by simp)
    | ok r1 =>
      rw [hn] at h
      obtain ⟨σ1, ms1⟩ := r1
      simp only at h
      rw [ih _ _ _ h]
      exact processNode_filePath env rootPrim d σ ms _ hn

theorem processReplacement_filePath (env : Env) (root : ReplacementRoot) (σ : Impl)
    (r : Impl × List AssetReplacement)
    (h : processReplacement env root σ = Except.ok r) : r.1.filePath = σ.filePath := by
  unfold processReplacement at h
  cases hn : processNode env root.rootPrim root.rootPrim σ [] with
  | error f =>
    rw [hn] at h
    exact absurd h (by simp)
  | ok r1 =>
    rw [hn] at h
    obtain ⟨σ1, ms1⟩ := r1
    simp only at h
    have h1 := processNode_filePath env _ _ σ [] _ hn
    cases hd : processDescendants env root.rootPrim root.descendants σ1 ms1 with
    | error f =>
      rw [hd] at h
      exact absurd h (by simp)
    | ok r2 =>
      rw [hd] at h
      obtain ⟨σ2, ms2⟩ := r2
      have h2 := processDescendants_filePath env _ _ σ1 ms1 _ hd
      simp only at h h1 h2
      split_ifs at h <;>
      · simp only [Except.ok.injEq] at h
        rw [← h]
        simp only
        rw [h2, h1]

theorem meshesLoop_filePath (env : Env) (roots : List ReplacementRoot) :
    ∀ (vc : List (Nat × Nat)) (σ : Impl) (r : List (Nat × Nat) × Impl),
      meshesLoop env roots vc σ = Except.ok r → r.2.filePath = σ.filePath := by
  induction roots with
  | nil =>
    intro vc σ r h
    unfold meshesLoop at h
    simp only [Except.ok.injEq] at h
    rw [← h]
  | cons child rest ih =>
    intro vc σ r h
    unfold meshesLoop at h
    by_cases hh : getModelHash child.rootPrim.name ≠ 0
    · rw [if_pos hh] at h
      cases hp : processReplacement env child σ with
      | error f =>
        rw [hp] at h
        exact absurd h (by simp)
      | ok r1 =>
        rw [hp] at h
        obtain ⟨σ1, ms1⟩ := r1
        simp only at h
        rw [ih _ _ _ h]
        exact processReplacement_filePath env child σ _ hp
    · rw [if_neg hh] at h
      exact ih _ _ _ h

theorem secretVariantsLoop_filePath (env : Env) (dir : String) (hash : Nat)
    (secrets : List SecretReplacement) :
    ∀ (σ σ' : Impl), secretVariantsLoop env dir hash secrets σ = Except.ok σ' →
      σ'.filePath = σ.filePath := by
  induction secrets with
  | nil =>
    intro σ σ' h
    unfold secretVariantsLoop at h
    simp only [Except.ok.injEq] at h
    rw [← h]
  | cons s rest ih =>
    intro σ σ' h
    unfold secretVariantsLoop at h
    cases hl : env.lastWriteTime (dir ++ s.replacementPath) with
    | none =>
      rw [hl] at h
      exact ih _ _ h
    | some t =>
      rw [hl] at h
      simp only at h
      cases ho : env.openStage (dir ++ s.replacementPath) with
      | none =>
        rw [ho] at h
        exact ih _ _ h
      | some pStage =>
        rw [ho] at h
        simp only at h
        cases hd : pStage.defaultPrim with
        | none =>
          rw [hd] at h
          exact absurd h (by simp)
        | some rootPrim =>
          rw [hd] at h
          simp only at h
          cases hp : processReplacement env rootPrim σ with
          | error f =>
            rw [hp] at h
            exact absurd h (by simp)
          | ok r1 =>
            rw [hp] at h
            obtain ⟨σ1, ms1⟩ := r1
            simp only at h
            rw [ih _ _ h]
            exact processReplacement_filePath env rootPrim σ _ hp

theorem secretsLoop_filePath (env : Env) (dir : String)
    (table : List (Nat × List SecretReplacement)) :
    ∀ (σ σ' : Impl), secretsLoop env dir table σ = Except.ok σ' → σ'.filePath = σ.filePath := by
  induction table with
  | nil =>
    intro σ σ' h
    unfold secretsLoop at h
    simp only [Except.ok.injEq] at h
    rw [← h]
  | cons e rest ih =>
    intro σ σ' h
    obtain ⟨hash, secrets⟩ := e
    unfold secretsLoop at h
    cases hv : secretVariantsLoop env dir hash secrets σ with
    | error f =>
      rw [hv] at h
      exact absurd h (by simp)
    | ok σ1 =>
      rw [hv] at h
      simp only at h
      rw [ih _ _ h]
      exact secretVariantsLoop_filePath env dir hash secrets σ σ1 hv

theorem lightsLoop_filePath (env : Env) (roots : List ReplacementRoot) :
    ∀ (σ σ' : Impl), lightsLoop env roots σ = Except.ok σ' → σ'.filePath = σ.filePath := by
  induction roots with
  | nil =>
    intro σ σ' h
    unfold lightsLoop at h
    simp only [Except.ok.injEq] at h
    rw [← h]
  | cons child rest ih =>
    intro σ σ' h
    unfold lightsLoop at h
    by_cases hh : getLightHash child.rootPrim.name ≠ 0
    · rw [if_pos hh] at h
      cases hp : processReplacement env child σ with
      | error f =>
        rw [hp] at h
        exact absurd h (by simp)
      | ok r1 =>
        rw [hp] at h
        obtain ⟨σ1, ms1⟩ := r1
        simp only at h
        rw [ih _ _ h]
        exact processReplacement_filePath env child σ _ hp
    · rw [if_neg hh] at h
      exact ih _ _ h

theorem looksLoop_filePath (env : Env) (mats : List MaterialPrim) :
    ∀ (σ : Impl), (looksLoop env mats σ).filePath = σ.filePath := by
  induction mats with
  | nil =>
    intro σ
    rfl
  | cons m rest ih =>
    intro σ
    unfold looksLoop
    rw [ih]
    obtain ⟨mats, ap, h⟩ := processMaterial_frame env m σ
    rw [h]

theorem processUSD_filePath (env : Env) (σ σ' : Impl) (h : processUSD env σ = Except.ok σ') :
    σ'.filePath = σ.filePath := by
  unfold processUSD at h
  simp only at h
  cases ho : env.openStage σ.filePath with
  | none =>
    rw [ho] at h
    simp only [Except.ok.injEq] at h
    rw [← h]
  | some stage =>
    rw [ho] at h
    simp only at h
    cases hl : env.lastWriteTime σ.filePath with
    | none =>
      rw [hl] at h
      exact absurd h (by simp)
    | some t =>
      rw [hl] at h
      simp only at h
      split at h
      · exact absurd h (by simp)
      · rename_i vc σ2 hm
        have h2 := meshesLoop_filePath env _ _ _ _ hm
        split at h
        · exact absurd h (by simp)
        · rename_i σ4 hs
          have h4 := secretsLoop_filePath env _ _ _ _ hs
          split at h
          · exact absurd h (by simp)
          · rename_i σ5 hli
            have h5 := lightsLoop_filePath env _ _ _ hli
            simp only [Except.ok.injEq] at h
            rw [← h]
            show (looksLoop env (stage.looks.getD []) σ5).filePath = σ.filePath
            rw [looksLoop_filePath, h5, h4]
            exact h2

theorem StoreSim.storeStructure_eq {r s : AssetReplacements} (h : StoreSim r s) :
    storeStructure r = storeStructure s := by
  obtain ⟨hg, hm, hs, hme, hl⟩ := h
  have hk : r.geometries.map (fun e => e.1) = s.geometries.map (fun e => e.1) := by
    have := congrArg (List.map Prod.fst) hg
    simpa [List.map_map, Function.comp_def] using this
  have hmk : r.materials.map (fun e => e.1) = s.materials.map (fun e => e.1) := by
    have := congrArg (List.map Prod.fst) hm
    simpa [List.map_map, Function.comp_def] using this
  unfold storeStructure
  rw [hk, hmk, hs, hme, hl]

/-- C6: for every document and every mod state that `load()` brought from `Unloaded` with
an empty store (the store of a new mod and of every unloaded one) to `Loaded`,
`unload()` followed by `load()` against the same document returns normally in `Loaded`
with a store that has the same keys in every table and the same list length under
every key as the store had before `unload()`. -/
theorem reload_reproduces_structure (env : Env) (σ0 σ1 : Impl)
    (hstate : σ0.state = State.Unloaded) (hempty : σ0.replacements = {})
    (hload : load env σ0 = Except.ok σ1) (hl : σ1.state = State.Loaded) :
    ∃ σ2, load env (unload σ1) = Except.ok σ2 ∧ σ2.state = State.Loaded
      ∧ storeStructure σ2.replacements = storeStructure σ1.replacements := by
  have hwalk : processUSD env σ0 = Except.ok σ1 := by
    unfold load at hload
    rw [if_pos hstate] at hload
    exact hload
  have hpath : σ1.filePath = σ0.filePath := processUSD_filePath env σ0 σ1 hwalk
  have hu : unload σ1
      = { σ1 with replacements := σ1.replacements.clear, state := State.Unloaded } := by
    unfold unload
    rw [if_pos hl]
  have hsim : Sim σ0 (unload σ1) := by
    unfold Sim
    rw [hu, hempty]
    exact ⟨rfl, rfl, rfl, rfl, rfl⟩
  have hp : σ0.filePath = (unload σ1).filePath := by
    rw [hu]
    exact hpath.symm
  have hreload : load env (unload σ1) = processUSD env (unload σ1) := by
    unfold load
    rw [if_pos (by rw [hu])]
  rcases exceptRel_cases (processUSD_sim env hp hsim) with ⟨f, hf, _⟩ | ⟨a, b, ha, hb, hR, hst⟩
  · rw [hwalk] at hf
    exact absurd hf (by simp)
  · rw [hwalk] at ha
    injection ha with ha
    subst ha
    refine ⟨b, ?_, ?_, ?_⟩
    · rw [hreload, hb]
    · rw [← hst, hl]
    · exact (StoreSim.storeStructure_eq hR).symm

/-- C6 witness: the example document, first loaded into a new mod, leaves one mesh key
with one replacement, one stored geometry and the two secret keys; unloading and loading again gives a store
of that same structure. -/
theorem reload_reproduces_structure_witness :
    exUnloaded.state = State.Unloaded ∧ exUnloaded.replacements = {}
    ∧ load exEnv exUnloaded = Except.ok exFirstLoad ∧ exFirstLoad.state = State.Loaded
    ∧ storeStructure exFirstLoad.replacements = ([(0xDEADBEEF, 1)], [], [42], [],
        [(kStorageCubeHash, 8), (kCompanionCubeHash, 4)])
    ∧ ∃ σ2, load exEnv (unload exFirstLoad) = Except.ok σ2 ∧ σ2.state = State.Loaded
      ∧ storeStructure σ2.replacements = storeStructure exFirstLoad.replacements :=
  ⟨rfl, rfl, rfl, rfl, by decide,
    reload_reproduces_structure exEnv exUnloaded exFirstLoad rfl rfl rfl rfl⟩

/-! ### Facts about material ingestion -/

theorem processMaterial_of_shader (env : Env) (matPrim : MaterialPrim) (σ : Impl)
    (shader : ShaderPrim)
    (hhash : getMaterialHash matPrim.name matPrim.typeName matPrim.usdOriginHash ≠ 0)
    (hnew : kvGet (getMaterialHash matPrim.name matPrim.typeName matPrim.usdOriginHash)
      σ.replacements.materials = none)
    (hsh : selectShader matPrim = some shader) :
    processMaterial env matPrim σ =
      (some (getMaterialHash matPrim.name matPrim.typeName matPrim.usdOriginHash),
        { σ with
          replacements := { σ.replacements with
            materials := kvSet (getMaterialHash matPrim.name matPrim.typeName matPrim.usdOriginHash)
              (buildMaterialData env.opaqueDefaults σ.assetPath shader) σ.replacements.materials }
          assetPath := assetPathAfterGet σ.assetPath shader }) := by
  unfold processMaterial
  simp only [if_neg hhash, hnew, hsh]

theorem processMaterial_stored (env : Env) (matPrim : MaterialPrim) (σ : Impl)
    (shader : ShaderPrim)
    (hhash : getMaterialHash matPrim.name matPrim.typeName matPrim.usdOriginHash ≠ 0)
    (hnew : kvGet (getMaterialHash matPrim.name matPrim.typeName matPrim.usdOriginHash)
      σ.replacements.materials = none)
    (hsh : selectShader matPrim = some shader) :
    (processMaterial env matPrim σ).1
        = some (getMaterialHash matPrim.name matPrim.typeName matPrim.usdOriginHash)
    ∧ kvGet (getMaterialHash matPrim.name matPrim.typeName matPrim.usdOriginHash)
        (processMaterial env matPrim σ).2.replacements.materials
      = some (buildMaterialData env.opaqueDefaults σ.assetPath shader) := by
  rw [processMaterial_of_shader env matPrim σ shader hhash hnew hsh]
  exact ⟨rfl, kvGet_kvSet_self _ _ _⟩

theorem buildMaterialData_type (d : OpaqueMaterialDefaults) (assetPath : List Char)
    (shader : ShaderPrim) :
    (buildMaterialData d assetPath shader).type = classifyMaterial assetPath shader := by
  unfold buildMaterialData
  cases h : classifyMaterial assetPath shader <;> rfl

/-! ### C17 -/

/-- The family of a material that `processMaterial` builds from a shader (non-zero hash,
not yet stored): from a source asset that is read, RayPortal when the string contains
`AperturePBR_Portal.mdl` (whatever else it contains), otherwise RayPortal when it
contains `AperturePBR_Translucent.mdl` and the shader has the legacy `rayPortalIndex`
attribute, otherwise Translucent when it contains `AperturePBR_Translucent.mdl`, and
Opaque otherwise; Opaque when the attribute has no value; and when the attribute has a
value that cannot be read, the family that the same tests give on the string the
function-static `assetPath` held on entry. -/
theorem material_family (env : Env) (matPrim : MaterialPrim) (σ : Impl) (shader : ShaderPrim)
    (hhash : getMaterialHash matPrim.name matPrim.typeName matPrim.usdOriginHash ≠ 0)
    (hnew : kvGet (getMaterialHash matPrim.name matPrim.typeName matPrim.usdOriginHash)
      σ.replacements.materials = none)
    (hsh : selectShader matPrim = some shader) :
    ∃ md,
      kvGet (getMaterialHash matPrim.name matPrim.typeName matPrim.usdOriginHash)
        (processMaterial env matPrim σ).2.replacements.materials = some md
      ∧ (∀ s, shader.sourceAsset = SourceAsset.path s →
          "AperturePBR_Portal.mdl".toList <:+: s →
          md.type = RtSurfaceMaterialType.RayPortal)
      ∧ (∀ s, shader.sourceAsset = SourceAsset.path s →
          ¬ "AperturePBR_Portal.mdl".toList <:+: s →
          "AperturePBR_Translucent.mdl".toList <:+: s →
          shader.hasLegacyRayPortalIndex = true → md.type = RtSurfaceMaterialType.RayPortal)
      ∧ (∀ s, shader.sourceAsset = SourceAsset.path s →
          ¬ "AperturePBR_Portal.mdl".toList <:+: s →
          "AperturePBR_Translucent.mdl".toList <:+: s →
          shader.hasLegacyRayPortalIndex = false → md.type = RtSurfaceMaterialType.Translucent)
      ∧ (∀ s, shader.sourceAsset = SourceAsset.path s →
          ¬ "AperturePBR_Portal.mdl".toList <:+: s →
          ¬ "AperturePBR_Translucent.mdl".toList <:+: s →
          md.type = RtSurfaceMaterialType.Opaque)
      ∧ (shader.sourceAsset = SourceAsset.noValue → md.type = RtSurfaceMaterialType.Opaque)
      ∧ (shader.sourceAsset = SourceAsset.unreadable →
          md.type = classifyMaterial [] { shader with sourceAsset := SourceAsset.path σ.assetPath }
          ∧ (processMaterial env matPrim σ).2.assetPath = σ.assetPath)
      ∧ (∀ s, shader.sourceAsset = SourceAsset.path s →
          (processMaterial env matPrim σ).2.assetPath = s) := by
  refine ⟨_, (processMaterial_stored env matPrim σ shader hhash hnew hsh).2,
    ?_, ?_, ?_, ?_, ?_, ?_, ?_⟩
  · intro s hs hp
    rw [buildMaterialData_type]
    unfold classifyMaterial assetPathAfterGet
    simp only [hs, if_pos hp]
  · intro s hs hp ht hl
    rw [buildMaterialData_type]
    unfold classifyMaterial assetPathAfterGet
    simp only [hs, if_neg hp, if_pos ht, hl, if_true]
  · intro s hs hp ht hl
    rw [buildMaterialData_type]
    unfold classifyMaterial assetPathAfterGet
    simp only [hs, if_neg hp, if_pos ht, hl]
    rfl
  · intro s hs hp ht
    rw [buildMaterialData_type]
    unfold classifyMaterial assetPathAfterGet
    simp only [hs, if_neg hp, if_neg ht]
  · intro hs
    rw [buildMaterialData_type]
    unfold classifyMaterial
    simp only [hs]
  · intro hs
    rw [buildMaterialData_type, processMaterial_of_shader env matPrim σ shader hhash hnew hsh]
    unfold classifyMaterial assetPathAfterGet
    simp only [hs]
    exact ⟨trivial, trivial⟩
  · intro s hs
    rw [processMaterial_of_shader env matPrim σ shader hhash hnew hsh]
    unfold assetPathAfterGet
    simp only [hs]

/-- A source asset that names both families gives RayPortal; one that names the
translucent family only, on a shader without the legacy attribute, gives Translucent. -/
theorem material_family_examples :
    (∃ md, kvGet 5 (processMaterial exEnv exPortalMaterial exUnloaded).2.replacements.materials
        = some md ∧ md.type = RtSurfaceMaterialType.RayPortal) ∧
    (∃ md, kvGet 6
        (processMaterial exEnv exTranslucentMaterial exUnloaded).2.replacements.materials
        = some md ∧ md.type = RtSurfaceMaterialType.Translucent) :=
  ⟨(material_family exEnv exPortalMaterial exUnloaded exPortalShader (by decide) rfl rfl).elim
      (fun md h => ⟨md, h.1, h.2.1 _ rfl (by decide)⟩),
    (material_family exEnv exTranslucentMaterial exUnloaded exTranslucentShader
      (by decide) rfl rfl).elim
      (fun md h => ⟨md, h.1, h.2.2.2.1 _ rfl (by decide) (by decide) rfl⟩)⟩

/-- C17 fails on the code: the material `mat_0000000000000005` has a ray-portal shader
and is processed first; the shader of `mat_0000000000000017` has a source-asset attribute
with a value that cannot be read as an asset path, so its source-asset string names no
family, yet `processMaterial` classifies it from the path the earlier call left in the
function-static `assetPath` and stores a RayPortal material, not an Opaque one.
Processed first, the same material is stored as Opaque. -/
theorem unreadable_source_asset_keeps_previous_family :
    exUnreadableShader.sourceAsset = SourceAsset.unreadable
    ∧ exUnloaded.assetPath = []
    ∧ (processMaterial exEnv exPortalMaterial exUnloaded).2.assetPath
        = "AperturePBR_Translucent.mdl/AperturePBR_Portal.mdl".toList
    ∧ (kvGet 0x17 (processMaterial exEnv exUnreadableMaterial
          (processMaterial exEnv exPortalMaterial exUnloaded).2).2.replacements.materials).map
        (fun md => md.type) = some RtSurfaceMaterialType.RayPortal
    ∧ (kvGet 0x17 (processMaterial exEnv exUnreadableMaterial
          exUnloaded).2.replacements.materials).map
        (fun md => md.type) = some RtSurfaceMaterialType.Opaque := by
  decide

/-! ### C18 -/

/-- The scan over the active children ends on the last shader-typed child, and on its
starting value when there is none. -/
theorem scan_last_shader (children : List ShaderPrim) :
    ∀ init : Option ShaderPrim,
      children.foldl (fun acc child => if child.isShader then some child else acc) init
        = match (children.filter (fun c => c.isShader)).getLast? with
          | some last => some last
          | none => init := by
  induction children with
  | nil =>
    intro init
    rfl
  | cons c t ih =>
    intro init
    rw [List.foldl_cons, ih]
    by_cases hc : c.isShader = true
    · rw [List.filter_cons_of_pos hc, if_pos hc]
      cases hl : (t.filter (fun c => c.isShader)) with
      | nil => rfl
      | cons a l =>
        rw [List.getLast?_cons_cons]
        cases hg : (a :: l).getLast? with
        | none => exact absurd hg (by simp)
        | some x => rfl
    · rw [List.filter_cons_of_neg hc, if_neg hc]

/-- C18 as stated fails: the material `mat_0000000000000002` has no child named `Shader`
and two shader-typed children; the first in child order is the portal shader, yet
`processMaterial` uses the last one and stores an Opaque material, not the RayPortal
material the first shader gives. -/
theorem processMaterial_uses_last_shader :
    exTwoShaderMaterial.shaderChild = none
    ∧ exTwoShaderMaterial.activeChildren.find? (fun c => c.isShader) = some exPortalShader
    ∧ selectShader exTwoShaderMaterial = some exPlainShader
    ∧ kvGet 2 (processMaterial exEnv exTwoShaderMaterial exUnloaded).2.replacements.materials
        = some (buildMaterialData exEnv.opaqueDefaults [] exPlainShader)
    ∧ (buildMaterialData exEnv.opaqueDefaults [] exPlainShader).type = RtSurfaceMaterialType.Opaque
    ∧ (buildMaterialData exEnv.opaqueDefaults [] exPortalShader).type
        = RtSurfaceMaterialType.RayPortal := by
  decide

/-- C18 (amended): for every material node that has no shader-typed child named `Shader`
and has a shader-typed node among its active children, the shader `processMaterial`
uses is the last shader-typed node among the active children in child order: it is the
one the scan selects, and the material stored under a non-zero, not yet stored hash is
built from it. -/
theorem shader_is_last_shader_child (env : Env) (matPrim : MaterialPrim) (σ : Impl)
    (last : ShaderPrim)
    (hno : ∀ sh, matPrim.shaderChild = some sh → sh.isShader = false)
    (hlast : (matPrim.activeChildren.filter (fun c => c.isShader)).getLast? = some last) :
    selectShader matPrim = some last
    ∧ (getMaterialHash matPrim.name matPrim.typeName matPrim.usdOriginHash ≠ 0 →
        kvGet (getMaterialHash matPrim.name matPrim.typeName matPrim.usdOriginHash)
          σ.replacements.materials = none →
        kvGet (getMaterialHash matPrim.name matPrim.typeName matPrim.usdOriginHash)
          (processMaterial env matPrim σ).2.replacements.materials
          = some (buildMaterialData env.opaqueDefaults σ.assetPath last)) := by
  have hsel : selectShader matPrim = some last := by
    unfold selectShader
    cases hc : matPrim.shaderChild with
    | none =>
      simp only
      rw [scan_last_shader, hlast]
    | some sh =>
      have hns : ¬ sh.isShader = true := by
        rw [hno sh hc]
        decide
      simp only [if_neg hns]
      rw [scan_last_shader, hlast]
  exact ⟨hsel, fun hhash hnew => (processMaterial_stored env matPrim σ last hhash hnew hsel).2⟩

/-- C18 witness: the material with the portal shader first and the plain shader last. -/
theorem shader_is_last_shader_child_witness :
    selectShader exTwoShaderMaterial = some exPlainShader
    ∧ kvGet 2 (processMaterial exEnv exTwoShaderMaterial exUnloaded).2.replacements.materials
        = some (buildMaterialData exEnv.opaqueDefaults [] exPlainShader) :=
  ⟨(shader_is_last_shader_child exEnv exTwoShaderMaterial exUnloaded exPlainShader
      (by decide) (by decide)).1,
    (shader_is_last_shader_child exEnv exTwoShaderMaterial exUnloaded exPlainShader
      (by decide) (by decide)).2 (by decide) rfl⟩

/-! ### C19 -/

/-- A material with no child named `Shader` and no shader-typed active child yields no
material: `processMaterial` returns null and leaves the store as it was. -/
theorem processMaterial_without_shader (env : Env) (matPrim : MaterialPrim) (σ : Impl)
    (hchild : matPrim.shaderChild = none)
    (hnone : ∀ c ∈ matPrim.activeChildren, c.isShader = false)
    (hnew : kvGet (getMaterialHash matPrim.name matPrim.typeName matPrim.usdOriginHash)
      σ.replacements.materials = none) :
    processMaterial env matPrim σ = (none, σ) := by
  have hf : matPrim.activeChildren.filter (fun c => c.isShader) = [] := by
    rw [List.filter_eq_nil_iff]
    intro c hc
    rw [hnone c hc]
    decide
  have hsel : selectShader matPrim = none := by
    unfold selectShader
    rw [hchild]
    simp only
    rw [scan_last_shader, hf]
    rfl
  unfold processMaterial
  simp only [hnew, hsel]
  split_ifs <;> rfl

/-- C19 fails on the code: the material `mat_0000000000000003` has a non-zero hash, a
child named `Shader` of another type and no shader-typed child, yet `processMaterial`
returns a non-null material and stores a `MaterialData` under the hash, built from the
attributes of the child that is not a shader. -/
theorem processMaterial_wrong_type_child_stores :
    getMaterialHash exWrongTypeMaterial.name exWrongTypeMaterial.typeName
      exWrongTypeMaterial.usdOriginHash = 3
    ∧ (∀ sh, exWrongTypeMaterial.shaderChild = some sh → sh.isShader = false)
    ∧ (∀ c ∈ exWrongTypeMaterial.activeChildren, c.isShader = false)
    ∧ (processMaterial exEnv exWrongTypeMaterial exUnloaded).1 = some 3
    ∧ (kvGet 3 (processMaterial exEnv exWrongTypeMaterial exUnloaded).2.replacements.materials).isSome
        = true := by
  decide

/-! ### C20 -/

/-- C20 fails on the code: the plain shader is of the opaque family, resolves the
use-legacy-alpha-state flag to false and authors neither `inputs:alpha_test_type` nor
`inputs:alpha_test_reference_value`, with blending disabled; the stored alpha-test type
and alpha reference value are indeterminate (the source casts variables that no
statement has assigned) and not the option-store defaults, while the blend type is the
default. -/
theorem unauthored_alpha_state_indeterminate :
    classifyMaterial [] exPlainShader = RtSurfaceMaterialType.Opaque
    ∧ exPlainShader.useLegacyAlphaState.getD exEnv.opaqueDefaults.UseLegacyAlphaState = false
    ∧ exPlainShader.alphaTestType = none ∧ exPlainShader.alphaReferenceValue = none
    ∧ ∃ md a,
        kvGet 4 (processMaterial exEnv exPlainMaterial exUnloaded).2.replacements.materials
          = some md
        ∧ md.alpha = some a
        ∧ a.alphaTestType = none
        ∧ a.alphaTestType ≠ some exEnv.opaqueDefaults.DefaultAlphaTestType
        ∧ a.alphaReferenceValue = none
        ∧ a.alphaReferenceValue ≠ some exEnv.opaqueDefaults.AlphaReferenceValue
        ∧ a.blendType = some exEnv.opaqueDefaults.DefaultBlendType :=
  ⟨by decide, by decide, rfl, rfl, _, _, rfl, rfl, rfl, by decide, rfl, by decide, rfl⟩

/-! ### Binary32 multiplication -/

theorem F32.pack_fields (x : F32) (h : x.bits < 2 ^ 32) :
    F32.pack x.signBit x.expField x.fraction = x := by
  have e : (F32.pack x.signBit x.expField x.fraction).bits = x.bits := by
    unfold F32.pack F32.signBit F32.expField F32.fraction
    norm_num at h ⊢
    by_cases hs : x.bits / 2147483648 % 2 = 1
    · simp only [hs, if_true]
      omega
    · simp only [hs, if_false]
      omega
  have hext : ∀ y : F32, y.bits = x.bits → y = x := by
    intro y hy
    cases y
    cases x
    simp only at hy
    subst hy
    rfl
  exact hext _ e

theorem F32.one_fields : F32.one.signBit = false ∧ F32.one.expField = 127
    ∧ F32.one.fraction = 0 ∧ F32.one.significand = 2 ^ 23 ∧ F32.one.exponent = -23
    ∧ F32.one.isNaN = false := by
  decide

theorem roundNearestEven_exact (m s : Nat) : roundNearestEven (m * 2 ^ s) s = m := by
  unfold roundNearestEven
  have hp : 0 < 2 ^ s := Nat.two_pow_pos s
  rw [Nat.mul_mod_left, Nat.mul_div_cancel _ hp]
  simp [hp]

/-- Multiplying by 1.0 returns the other factor: every `float` that is not a NaN is
unchanged. -/
theorem F32.mul_one (x : F32) (hx : x.bits < 2 ^ 32) (hnan : x.isNaN = false) :
    F32.mul x F32.one = x := by
  obtain ⟨o1, o2, o3, o4, o5, o6⟩ := F32.one_fields
  have hE : x.expField < 256 := Nat.mod_lt _ (by norm_num)
  have hF : x.fraction < 2 ^ 23 := Nat.mod_lt _ (Nat.two_pow_pos 23)
  have hsign : xor x.signBit F32.one.signBit = x.signBit := by
    rw [o1]
    simp
  unfold F32.mul
  simp only [hnan, o6, Bool.or_self, Bool.false_eq_true, if_false, hsign, o2, o3, o4, o5]
  by_cases hinf : x.expField = 255
  · have hfr : x.fraction = 0 := by
      unfold F32.isNaN at hnan
      simp only [hinf, decide_True, Bool.true_and, decide_eq_false_iff_not, ne_eq, not_not] at hnan
      exact hnan
    simp only [hinf, if_true]
    rw [if_neg (by omega)]
    have := F32.pack_fields x hx
    rw [hinf, hfr] at this
    exact this
  · rw [if_neg hinf, if_neg (by norm_num)]
    by_cases hz : x.significand = 0
    · -- a zero
      have hze : x.expField = 0 ∧ x.fraction = 0 := by
        unfold F32.significand at hz
        split_ifs at hz with h0
        · exact ⟨h0, hz⟩
        · have : 0 < 2 ^ 23 := Nat.two_pow_pos 23
          omega
      unfold F32.round
      rw [hz]
      simp only [Nat.zero_mul, if_true]
      have := F32.pack_fields x hx
      rw [hze.1, hze.2] at this
      exact this
    · have hm : x.significand * 2 ^ 23 ≠ 0 := by
        have : 0 < 2 ^ 23 := Nat.two_pow_pos 23
        exact Nat.mul_ne_zero hz (by omega)
      have hs24 := F32.significand_lt x
      have hlt : x.significand * 2 ^ 23 < 2 ^ 64 := by
        calc x.significand * 2 ^ 23 < 2 ^ 24 * 2 ^ 23 :=
              Nat.mul_lt_mul_of_pos_right hs24 (Nat.two_pow_pos 23)
          _ ≤ 2 ^ 64 := by norm_num
      obtain ⟨b1, b2, b3⟩ := bitLength_spec 64 (x.significand * 2 ^ 23) hlt
      obtain ⟨b4, b5⟩ := b2 hm
      -- the unit in the last place of the product is that of `x`
      have hulp : max (x.exponent + -23 + (bitLength 64 (x.significand * 2 ^ 23) : Int) - 24)
          (-149) = x.exponent := by
        by_cases h0 : x.expField = 0
        · -- subnormal: the product has at most 46 bits
          have hex : x.exponent = -149 := by
            unfold F32.exponent
            rw [if_pos h0]
          have hsig : x.significand < 2 ^ 23 := by
            unfold F32.significand
            rw [if_pos h0]
            exact hF
          have hp46 : x.significand * 2 ^ 23 < 2 ^ 46 := by
            calc x.significand * 2 ^ 23 < 2 ^ 23 * 2 ^ 23 :=
                  Nat.mul_lt_mul_of_pos_right hsig (Nat.two_pow_pos 23)
              _ = 2 ^ 46 := by norm_num
          have hb : bitLength 64 (x.significand * 2 ^ 23) ≤ 46 := by
            by_contra hcon
            have h46 : 46 ≤ bitLength 64 (x.significand * 2 ^ 23) - 1 := by omega
            have := Nat.pow_le_pow_right (by norm_num : 0 < 2) h46
            omega
          rw [hex]
          omega
        · have hex : x.exponent = (x.expField : Int) - 150 := by
            unfold F32.exponent
            rw [if_neg h0]
          have hsig : 2 ^ 23 ≤ x.significand := by
            unfold F32.significand
            rw [if_neg h0]
            omega
          have hp46 : 2 ^ 46 ≤ x.significand * 2 ^ 23 := by
            calc 2 ^ 46 = 2 ^ 23 * 2 ^ 23 := by norm_num
              _ ≤ x.significand * 2 ^ 23 := Nat.mul_le_mul_right _ hsig
          have hp47 : x.significand * 2 ^ 23 < 2 ^ 47 := by
            calc x.significand * 2 ^ 23 < 2 ^ 24 * 2 ^ 23 :=
                  Nat.mul_lt_mul_of_pos_right hs24 (Nat.two_pow_pos 23)
              _ = 2 ^ 47 := by norm_num
          have hb : bitLength 64 (x.significand * 2 ^ 23) = 47 := by
            have hle : bitLength 64 (x.significand * 2 ^ 23) ≤ 47 := by
              by_contra hcon
              have h47 : 47 ≤ bitLength 64 (x.significand * 2 ^ 23) - 1 := by omega
              have := Nat.pow_le_pow_right (by norm_num : 0 < 2) h47
              omega
            have hge : 47 ≤ bitLength 64 (x.significand * 2 ^ 23) := by
              by_contra hcon
              have h46 : bitLength 64 (x.significand * 2 ^ 23) ≤ 46 := by omega
              have := Nat.pow_le_pow_right (by norm_num : 0 < 2) h46
              omega
            omega
          rw [hb, hex]
          omega
      unfold F32.round
      rw [if_neg hm]
      simp only [hulp]
      have hle : x.exponent + -23 ≤ x.exponent := by omega
      have hsh : (x.exponent - (x.exponent + -23)).toNat = 23 := by
        have : x.exponent - (x.exponent + -23) = 23 := by ring
        rw [this]
        rfl
      rw [if_pos hle, hsh, roundNearestEven_exact]
      have h24 : x.significand ≠ 2 ^ 24 := by omega
      simp only [if_neg h24]
      by_cases h0 : x.expField = 0
      · have hsig : x.significand = x.fraction := by
          unfold F32.significand
          rw [if_pos h0]
        rw [hsig, if_pos hF]
        have := F32.pack_fields x hx
        rw [h0] at this
        exact this
      · have hsig : x.significand = 2 ^ 23 + x.fraction := by
          unfold F32.significand
          rw [if_neg h0]
        have hex : x.exponent = (x.expField : Int) - 150 := by
          unfold F32.exponent
          rw [if_neg h0]
        rw [if_neg (by omega), if_neg (by omega), hsig, hex]
        have e1 : ((x.expField : Int) - 150 + 150).toNat = x.expField := by
          have : (x.expField : Int) - 150 + 150 = x.expField := by ring
          rw [this]
          exact Int.toNat_ofNat _
        rw [e1, Nat.add_sub_cancel_left]
        exact F32.pack_fields x hx

theorem F32.pack_wf (sign : Bool) (e f : Nat) (he : e < 256) (hf : f < 2 ^ 23) :
    (F32.pack sign e f).bits < 2 ^ 32 ∧ (F32.pack sign e f).expField = e
      ∧ (F32.pack sign e f).fraction = f := by
  unfold F32.pack F32.expField F32.fraction
  norm_num at hf ⊢
  cases sign <;> simp <;> omega

theorem F32.round_bound (m : Nat) (e : Int) (hm : m < 2 ^ 64) :
    (if e ≤ max (e + (bitLength 64 m : Int) - 24) (-149)
      then roundNearestEven m (max (e + (bitLength 64 m : Int) - 24) (-149) - e).toNat
      else m * 2 ^ (e - max (e + (bitLength 64 m : Int) - 24) (-149)).toNat) ≤ 2 ^ 24 := by
  obtain ⟨b1, -, -⟩ := bitLength_spec 64 m hm
  generalize hu : max (e + (bitLength 64 m : Int) - 24) (-149) = ulp
  have hge : e + (bitLength 64 m : Int) - 24 ≤ ulp := by
    rw [← hu]
    exact le_max_left _ _
  by_cases hle : e ≤ ulp
  · rw [if_pos hle]
    have hs : bitLength 64 m ≤ (ulp - e).toNat + 24 := by omega
    have hlt : m < 2 ^ ((ulp - e).toNat + 24) :=
      lt_of_lt_of_le b1 (Nat.pow_le_pow_right (by norm_num) hs)
    have hdiv : m / 2 ^ (ulp - e).toNat < 2 ^ 24 := by
      rw [Nat.div_lt_iff_lt_mul (Nat.two_pow_pos _), ← pow_add, Nat.add_comm]
      exact hlt
    rcases roundNearestEven_cases m (ulp - e).toNat with h | ⟨h, -⟩
    · rw [h]
      omega
    · rw [h]
      omega
  · rw [if_neg hle]
    have hs : bitLength 64 m + (e - ulp).toNat ≤ 24 := by omega
    calc m * 2 ^ (e - ulp).toNat ≤ 2 ^ bitLength 64 m * 2 ^ (e - ulp).toNat :=
          Nat.mul_le_mul_right _ (le_of_lt b1)
      _ = 2 ^ (bitLength 64 m + (e - ulp).toNat) := by rw [← pow_add]
      _ ≤ 2 ^ 24 := Nat.pow_le_pow_right (by norm_num) hs

/-- A rounded result is a well-formed datum and not a NaN. -/
theorem F32.round_wf (sign : Bool) (m : Nat) (e : Int) (hm : m < 2 ^ 64) :
    (F32.round sign m e).bits < 2 ^ 32 ∧ (F32.round sign m e).isNaN = false := by
  have key : ∀ (ex f : Nat), ex < 256 → f < 2 ^ 23 → (ex = 255 → f = 0) →
      (F32.pack sign ex f).bits < 2 ^ 32 ∧ (F32.pack sign ex f).isNaN = false := by
    intro ex f hex hf hinf
    obtain ⟨w1, w2, w3⟩ := F32.pack_wf sign ex f hex hf
    refine ⟨w1, ?_⟩
    unfold F32.isNaN
    rw [w2, w3]
    by_cases h : ex = 255
    · simp [hinf h]
    · simp [h]
  have hb := F32.round_bound m e hm
  unfold F32.round
  by_cases h0 : m = 0
  · rw [if_pos h0]
    exact key 0 0 (by norm_num) (Nat.two_pow_pos 23) (by norm_num)
  · rw [if_neg h0]
    simp only
    generalize (if e ≤ max (e + (bitLength 64 m : Int) - 24) (-149)
      then roundNearestEven m (max (e + (bitLength 64 m : Int) - 24) (-149) - e).toNat
      else m * 2 ^ (e - max (e + (bitLength 64 m : Int) - 24) (-149)).toNat) = r at hb ⊢
    generalize max (e + (bitLength 64 m : Int) - 24) (-149) = ulp
    have h24 : (2 : Nat) ^ 24 = 2 ^ 23 + 2 ^ 23 := by norm_num
    have hp : 0 < 2 ^ 23 := Nat.two_pow_pos 23
    by_cases hr : r = 2 ^ 24
    · simp only [hr, if_true]
      rw [if_neg (by omega)]
      split_ifs with hov
      · exact key 255 0 (by norm_num) hp (fun _ => rfl)
      · exact key _ _ (by omega) (by omega) (by omega)
    · simp only [if_neg hr]
      split_ifs with hsub hov
      · exact key 0 r (by norm_num) hsub (by norm_num)
      · exact key 255 0 (by norm_num) hp (fun _ => rfl)
      · exact key _ _ (by omega) (by omega) (by omega)

/-- The product of two finite `float`s is a well-formed datum and not a NaN. -/
theorem F32.mul_wf (x y : F32) (hx : x.expField ≠ 255) (hy : y.expField ≠ 255) :
    (F32.mul x y).bits < 2 ^ 32 ∧ (F32.mul x y).isNaN = false := by
  have hnx : x.isNaN = false := by
    unfold F32.isNaN
    simp [hx]
  have hny : y.isNaN = false := by
    unfold F32.isNaN
    simp [hy]
  unfold F32.mul
  simp only [hnx, hny, Bool.or_self, Bool.false_eq_true, if_false, if_neg hx, if_neg hy]
  apply F32.round_wf
  calc x.significand * y.significand < 2 ^ 24 * 2 ^ 24 :=
        Nat.mul_lt_mul'' (F32.significand_lt x) (F32.significand_lt y)
    _ ≤ 2 ^ 64 := by norm_num

/-! ### C13 -/

theorem lightRadiance_plain (env : Env) (lightPrim : UsdPrim) (color : Vector3)
    (intensity : F32)
    (hcolor : lightColor lightPrim = color)
    (hint : lightPrim.intensity = some intensity)
    (htemp : lightPrim.enableColorTemperature.getD false = false)
    (hexp : lightPrim.exposure.getD F32.zero = F32.zero)
    (hpow : env.numerics.pow2 F32.zero = F32.one)
    (hcfin : color.x.expField ≠ 255 ∧ color.y.expField ≠ 255 ∧ color.z.expField ≠ 255)
    (hifin : intensity.expField ≠ 255) :
    lightRadiance env lightPrim = color.scale intensity := by
  have step : ∀ c : F32, c.expField ≠ 255 →
      F32.mul (F32.mul (F32.mul c intensity) F32.one) F32.one = F32.mul c intensity := by
    intro c hc
    obtain ⟨w1, w2⟩ := F32.mul_wf c intensity hc hifin
    rw [F32.mul_one _ w1 w2, F32.mul_one _ w1 w2]
  have o1 : Vector3.ones.x = F32.one := rfl
  have o2 : Vector3.ones.y = F32.one := rfl
  have o3 : Vector3.ones.z = F32.one := rfl
  unfold lightRadiance
  simp only [hcolor, hint, htemp, hexp, hpow, Option.getD_some, Bool.false_eq_true, if_false]
  unfold Vector3.scale Vector3.mul
  simp only [o1, o2, o3, step _ hcfin.1, step _ hcfin.2.1, step _ hcfin.2.2]

/-- C13: for every rect light (with the `intensity` attribute) whose colour temperature
is disabled, whose exposure is 0 and whose transform to the root is the identity,
`processLight` appends one Rect descriptor whose radiance is, per channel, the `float`
product `color * intensity`, where `color` is the value of the `color` attribute when it
has one and white `(1, 1, 1)` when it has none, and whose dimensions are
`(width, height)`.  The `float`s are finite binary32 data; the library facts used are
`pow(2, 0) = 1` and that the unit directions keep length 1 under the identity
transform. -/
theorem rect_light_descriptor (env : Env) (rootPrim lightPrim : UsdPrim)
    (meshes : List AssetReplacement) (color : Vector3) (intensity width height : F32)
    (hrect : lightPrim.type = PrimType.RectLight)
    (hhas : lightPrim.hasIntensity = true)
    (hcolor : (∃ c : GfVec3f, lightPrim.color = some c ∧ color = { x := c.x, y := c.y, z := c.z })
      ∨ (lightPrim.color = none ∧ color = { x := F32.one, y := F32.one, z := F32.one }))
    (hint : lightPrim.intensity = some intensity)
    (hw : lightPrim.width = some width) (hh : lightPrim.height = some height)
    (htemp : lightPrim.enableColorTemperature.getD false = false)
    (hexp : lightPrim.exposure.getD F32.zero = F32.zero)
    (hid : (if rootPrim.type.isLight then lightPrim.localToWorld
      else lightPrim.relativeToRoot) = 1)
    (hpow : env.numerics.pow2 F32.zero = F32.one)
    (hscale : ∀ i, env.numerics.axisScale 1 i = F32.one)
    (hcfin : color.x.expField ≠ 255 ∧ color.y.expField ≠ 255 ∧ color.z.expField ≠ 255)
    (hifin : intensity.expField ≠ 255)
    (hwfin : width.bits < 2 ^ 32 ∧ width.isNaN = false)
    (hhfin : height.bits < 2 ^ 32 ∧ height.isNaN = false) :
    ∃ light : RtLight,
      processLight env rootPrim lightPrim meshes
        = Except.ok (meshes ++ [{ lightData := some light }])
      ∧ light.shape = LightShape.Rect
      ∧ light.radiance = { x := F32.mul color.x intensity, y := F32.mul color.y intensity
                           z := F32.mul color.z intensity }
      ∧ light.dimensions = some (some width, height) := by
  have hread : lightColor lightPrim = color := by
    unfold lightColor
    rcases hcolor with ⟨c, hc, rfl⟩ | ⟨hc, rfl⟩
    · rw [hc]
    · rw [hc]
      rfl
  have hrad := lightRadiance_plain env lightPrim color intensity hread hint htemp hexp hpow
    hcfin hifin
  have hi : ¬ lightPrim.hasIntensity = false := by
    rw [hhas]
    decide
  have hshape : lightPrim.type.lightShape = some LightShape.Rect := by
    rw [hrect]
    rfl
  unfold processLight
  simp only [if_neg hi, hshape, hid, hscale, hw, hh, Option.map_some', Option.getD_some,
    F32.mul_one width hwfin.1 hwfin.2, F32.mul_one height hhfin.1 hhfin.2, hrad]
  exact ⟨_, rfl, rfl, rfl, rfl⟩

/-- C13 witness: the rect light with no `color` attribute, width 2, height 1 and
intensity 500 gets the radiance `(500, 500, 500)` and the dimensions `(2, 1)`; the same
light with the colour `(0.5, 1, 2)` gets the radiance `(250, 500, 1000)`. -/
theorem rect_light_descriptor_witness :
    (∃ light : RtLight,
      processLight exEnv exRectLight exRectLight [] = Except.ok [{ lightData := some light }]
      ∧ light.shape = LightShape.Rect
      ∧ light.radiance = { x := ex500, y := ex500, z := ex500 }
      ∧ light.dimensions = some (some exTwo, exOne))
    ∧ (∃ light : RtLight,
      processLight exEnv exColouredRectLight exColouredRectLight []
        = Except.ok [{ lightData := some light }]
      ∧ light.shape = LightShape.Rect
      ∧ light.radiance = { x := ex250, y := ex500, z := ex1000 }
      ∧ light.dimensions = some (some exTwo, exOne)) :=
  ⟨(rect_light_descriptor exEnv exRectLight exRectLight []
      { x := F32.one, y := F32.one, z := F32.one } ex500 exTwo exOne
      rfl rfl (Or.inr ⟨rfl, rfl⟩) rfl rfl rfl rfl rfl rfl rfl (fun _ => rfl) (by decide)
      (by decide) (by decide) (by decide)).elim
      (fun light h => ⟨light, h.1, h.2.1, h.2.2.1.trans (by decide), h.2.2.2⟩),
    (rect_light_descriptor exEnv exColouredRectLight exColouredRectLight []
      { x := exHalf, y := exOne, z := exTwo } ex500 exTwo exOne
      rfl rfl (Or.inl ⟨{ x := exHalf, y := exOne, z := exTwo }, rfl, rfl⟩) rfl rfl rfl rfl rfl
      rfl rfl (fun _ => rfl) (by decide) (by decide) (by decide) (by decide)).elim
      (fun light h => ⟨light, h.1, h.2.1, h.2.2.1.trans (by decide), h.2.2.2⟩)⟩

/-! ### C16 -/

/-- C16 fails on the code: for the mesh replacement root `mesh_00000000DEADBEEF` with a
distant light below it, `processLight` appends a Distant descriptor for the light (the
diagnostic that announces the light "will be ignored" is followed by no `return`), and
the replacement list of the root ends with it. -/
theorem distant_light_under_mesh_root_appended :
    exMeshRootWithDistantLight.rootPrim.type = PrimType.Mesh
    ∧ exDistantLight.type = PrimType.DistantLight
    ∧ (∃ light : RtLight,
        processLight exEnv exMeshRootWithDistantLight.rootPrim exDistantLight []
          = Except.ok [{ lightData := some light }]
        ∧ light.shape = LightShape.Distant)
    ∧ (∃ σ' mesh entry light,
        processReplacement exEnv exMeshRootWithDistantLight exUnloaded
          = Except.ok (σ', [mesh, entry])
        ∧ entry.lightData = some light ∧ light.shape = LightShape.Distant) :=
  ⟨rfl, rfl, ⟨_, rfl, rfl⟩, ⟨_, _, _, _, rfl, rfl, rfl⟩⟩

/-! ### C14 -/

theorem appended_cons {ms added l : List AssetReplacement} {x : AssetReplacement}
    (h : l = ms ++ [x] ++ added) (hx : x.includeOriginal = false)
    (hadd : ∀ e ∈ added, e.includeOriginal = false) :
    ∃ added1, l = ms ++ added1 ∧ ∀ e ∈ added1, e.includeOriginal = false := by
  refine ⟨x :: added, ?_, ?_⟩
  · rw [h, List.append_assoc]
    rfl
  · intro e he
    rcases List.mem_cons.mp he with rfl | he
    · exact hx
    · exact hadd e he

theorem appended_snoc {ms added l : List AssetReplacement} (x : AssetReplacement)
    (h : l = ms ++ added) (hx : x.includeOriginal = false)
    (hadd : ∀ e ∈ added, e.includeOriginal = false) :
    ∃ added1, l ++ [x] = ms ++ added1 ∧ ∀ e ∈ added1, e.includeOriginal = false := by
  refine ⟨added ++ [x], ?_, ?_⟩
  · rw [h, List.append_assoc]
  · intro e he
    rcases List.mem_append.mp he with he | he
    · exact hadd e he
    · rw [List.mem_singleton.mp he]
      exact hx

theorem subsetLoop_includeOriginal (env : Env) (geomKey : Nat) (M : Matrix4)
    (children : List ChildPrim) :
    ∀ (isFirst : Bool) (mat : Option Nat) (σ : Impl) (ms : List AssetReplacement)
      (r : Option Nat × Impl × List AssetReplacement),
      subsetLoop env geomKey M children isFirst mat σ ms = Except.ok r →
      ∃ added, r.2.2 = ms ++ added ∧ ∀ e ∈ added, e.includeOriginal = false := by
  induction children with
  | nil =>
    intro isFirst mat σ ms r h
    unfold subsetLoop at h
    simp only [Except.ok.injEq] at h
    rw [← h]
    exact ⟨[], by simp, by simp⟩
  | cons child rest ih =>
    intro isFirst mat σ ms r h
    unfold subsetLoop at h
    by_cases hg : child.isGeomSubset = true
    · rw [if_pos hg] at h
      by_cases hf : isFirst = true
      · rw [if_pos hf] at h
        cases hp : processGeomSubset env child geomKey mat σ with
        | error f =>
          rw [hp] at h
          exact absurd h (by simp)
        | ok r1 =>
          rw [hp] at h
          obtain ⟨d, m1, σ1⟩ := r1
          exact ih _ _ _ _ _ h
      · rw [if_neg hf] at h
        simp only at h
        cases hgeo : σ.getGeometry child.usdOriginHash with
        | some g =>
          rw [hgeo] at h
          simp only at h
          obtain ⟨added, h1, h2⟩ := ih _ _ _ _ _ h
          exact appended_cons h1 rfl h2
        | none =>
          rw [hgeo] at h
          simp only at h
          cases hp : processGeomSubset env child child.usdOriginHash mat
              (σ.storeGeometry child.usdOriginHash ((σ.getGeometry geomKey).getD {})) with
          | error f =>
            rw [hp] at h
            exact absurd h (by simp)
          | ok r1 =>
            rw [hp] at h
            obtain ⟨d, m1, σ1⟩ := r1
            cases d with
            | true =>
              simp only at h
              obtain ⟨added, h1, h2⟩ := ih _ _ _ _ _ h
              exact appended_cons h1 rfl h2
            | false =>
              simp only at h
              exact ih _ _ _ _ _ h
    · rw [if_neg hg] at h
      exact ih _ _ _ _ _ h

theorem processPrim_includeOriginal (env : Env) (prim : UsdPrim) (σ : Impl)
    (ms : List AssetReplacement) (r : Impl × List AssetReplacement)
    (h : processPrim env prim σ ms = Except.ok r) :
    ∃ added, r.2 = ms ++ added ∧ ∀ e ∈ added, e.includeOriginal = false := by
  have tail : ∀ (w : Except Fault (Option Nat × Impl × List AssetReplacement)),
      (∀ q, w = Except.ok q →
        ∃ added, q.2.2 = ms ++ added ∧ ∀ e ∈ added, e.includeOriginal = false) →
      (match w with
        | Except.error f => Except.error f
        | Except.ok (materialData, σ2, meshes1) =>
          if ((σ2.getGeometry prim.usdOriginHash).map (fun g => g.indexCount)).getD 0 = 0 then
            Except.ok (σ2, meshes1)
          else
            Except.ok (σ2, meshes1 ++ [{ geometryData := some prim.usdOriginHash
                                         materialData := materialData
                                         replacementToObject := replacementToObjectOf env prim }]))
        = (Except.ok r : Except Fault (Impl × List AssetReplacement)) →
      ∃ added, r.2 = ms ++ added ∧ ∀ e ∈ added, e.includeOriginal = false := by
    intro w hw hr
    cases w with
    | error f => exact absurd hr (by simp)
    | ok q =>
      obtain ⟨added, h1, h2⟩ := hw q rfl
      obtain ⟨m, σ2, ms1⟩ := q
      simp only at hr h1
      split_ifs at hr
      · simp only [Except.ok.injEq] at hr
        rw [← hr]
        exact ⟨added, h1, h2⟩
      · simp only [Except.ok.injEq] at hr
        rw [← hr]
        exact appended_snoc _ h1 rfl h2
  have walk : ∀ σ1 : Impl, ∀ q,
      (if (prim.activeChildren.filter (fun c => c.isGeomSubset)).length = 1 then
        match prim.activeChildren.find? (fun c => c.isGeomSubset) with
        | some child =>
          Except.ok ((if (processMaterialUser env child.boundMaterial
              (processMaterialUser env prim.boundMaterial σ1).2).1.isSome
            then (processMaterialUser env child.boundMaterial
              (processMaterialUser env prim.boundMaterial σ1).2).1
            else (processMaterialUser env prim.boundMaterial σ1).1),
            (processMaterialUser env child.boundMaterial
              (processMaterialUser env prim.boundMaterial σ1).2).2, ms)
        | none => Except.ok ((processMaterialUser env prim.boundMaterial σ1).1,
            (processMaterialUser env prim.boundMaterial σ1).2, ms)
      else subsetLoop env prim.usdOriginHash (replacementToObjectOf env prim)
        prim.activeChildren true (processMaterialUser env prim.boundMaterial σ1).1
        (processMaterialUser env prim.boundMaterial σ1).2 ms) = Except.ok q →
      ∃ added, q.2.2 = ms ++ added ∧ ∀ e ∈ added, e.includeOriginal = false := by
    intro σ1 q hq
    split_ifs at hq with hn
    · split at hq <;>
      · simp only [Except.ok.injEq] at hq
        rw [← hq]
        exact ⟨[], by simp, by simp⟩
    · exact subsetLoop_includeOriginal env _ _ _ _ _ _ _ _ hq
  unfold processPrim at h
  simp only at h
  cases hg : σ.getGeometry prim.usdOriginHash with
  | some g =>
    rw [hg] at h
    exact tail _ (walk σ) h
  | none =>
    rw [hg] at h
    simp only at h
    cases hc : createGeometry prim (prim.activeChildren.filter (fun c => c.isGeomSubset)).length σ with
    | error f =>
      rw [hc] at h
      exact absurd h (by simp)
    | ok c =>
      rw [hc] at h
      obtain ⟨b, σ1⟩ := c
      cases b with
      | false =>
        simp only [Except.ok.injEq] at h
        rw [← h]
        exact ⟨[], by simp, by simp⟩
      | true => exact tail _ (walk σ1) h

theorem processLight_includeOriginal (env : Env) (rootPrim lightPrim : UsdPrim)
    (ms r : List AssetReplacement) (h : processLight env rootPrim lightPrim ms = Except.ok r) :
    ∃ added, r = ms ++ added ∧ ∀ e ∈ added, e.includeOriginal = false := by
  unfold processLight at h
  simp only at h
  by_cases hi : lightPrim.hasIntensity = false
  · rw [if_pos hi] at h
    exact absurd h (by simp)
  · rw [if_neg hi] at h
    split at h
    · simp only [Except.ok.injEq] at h
      rw [← h]
      exact ⟨[_], rfl, by intro e he; rw [List.mem_singleton.mp he]⟩
    · simp only [Except.ok.injEq] at h
      rw [← h]
      exact ⟨[_], rfl, by intro e he; rw [List.mem_singleton.mp he]⟩
    · simp only [Except.ok.injEq] at h
      rw [← h]
      exact ⟨[], by simp, by simp⟩

theorem processNode_includeOriginal (env : Env) (rootPrim node : UsdPrim) (σ : Impl)
    (ms : List AssetReplacement) (r : Impl × List AssetReplacement)
    (h : processNode env rootPrim node σ ms = Except.ok r) :
    ∃ added, r.2 = ms ++ added ∧ ∀ e ∈ added, e.includeOriginal = false := by
  unfold processNode at h
  split_ifs at h
  · exact processPrim_includeOriginal env node σ ms r h
  · cases hl : processLight env rootPrim node ms with
    | error f =>
      rw [hl] at h
      exact absurd h (by simp)
    | ok ms1 =>
      rw [hl] at h
      simp only [Except.ok.injEq] at h
      rw [← h]
      exact processLight_includeOriginal env rootPrim node ms ms1 hl
  · simp only [Except.ok.injEq] at h
    rw [← h]
    exact ⟨[], by simp, by simp⟩

theorem processDescendants_includeOriginal (env : Env) (rootPrim : UsdPrim)
    (descs : List UsdPrim) :
    ∀ (σ : Impl) (ms : List AssetReplacement) (r : Impl × List AssetReplacement),
      processDescendants env rootPrim descs σ ms = Except.ok r →
      ∃ added, r.2 = ms ++ added ∧ ∀ e ∈ added, e.includeOriginal = false := by
  induction descs with
  | nil =>
    intro σ ms r h
    unfold processDescendants at h
    simp only [Except.ok.injEq] at h
    rw [← h]
    exact ⟨[], by simp, by simp⟩
  | cons d rest ih =>
    intro σ ms r h
    unfold processDescendants at h
    cases hn : processNode env rootPrim d σ ms with
    | error f =>
      rw [hn] at h
      exact absurd h (by simp)
    | ok r1 =>
      rw [hn] at h
      obtain ⟨σ1, ms1⟩ := r1
      simp only at h
      obtain ⟨a1, e1, p1⟩ := processNode_includeOriginal env rootPrim d σ ms _ hn
      obtain ⟨a2, e2, p2⟩ := ih σ1 ms1 r h
      simp only at e1
      refine ⟨a1 ++ a2, ?_, ?_⟩
      · rw [e2, e1, List.append_assoc]
      · intro e he
        rcases List.mem_append.mp he with he | he
        · exact p1 e he
        · exact p2 e he

/-- C14: for every replacement root, in the list `processReplacement` returns the first
entry has `includeOriginal` true if and only if the list is non-empty and the root
carries the `preserveOriginalDrawCall` attribute, and every entry at index 1 or higher
has `includeOriginal` false. -/
theorem includeOriginal_first_only (env : Env) (root : ReplacementRoot) (σ σ' : Impl)
    (ms : List AssetReplacement)
    (h : processReplacement env root σ = Except.ok (σ', ms)) :
    ((∃ first, ms.head? = some first ∧ first.includeOriginal = true)
        ↔ (ms ≠ [] ∧ root.rootPrim.hasPreserveOriginalDrawCall = true))
    ∧ ∀ i e, 1 ≤ i → ms[i]? = some e → e.includeOriginal = false := by
  unfold processReplacement at h
  cases hn : processNode env root.rootPrim root.rootPrim σ [] with
  | error f =>
    rw [hn] at h
    exact absurd h (by simp)
  | ok r1 =>
    rw [hn] at h
    obtain ⟨σ1, ms1⟩ := r1
    simp only at h
    cases hd : processDescendants env root.rootPrim root.descendants σ1 ms1 with
    | error f =>
      rw [hd] at h
      exact absurd h (by simp)
    | ok r2 =>
      rw [hd] at h
      obtain ⟨σ2, ms2⟩ := r2
      simp only at h
      obtain ⟨a1, e1, p1⟩ := processNode_includeOriginal env _ _ _ _ _ hn
      obtain ⟨a2, e2, p2⟩ := processDescendants_includeOriginal env _ _ _ _ _ hd
      simp only [List.nil_append] at e1 e2
      have hplain : ∀ e ∈ ms2, e.includeOriginal = false := by
        intro e he
        rw [e2, e1] at he
        rcases List.mem_append.mp he with he | he
        · exact p1 e he
        · exact p2 e he
      cases ms2 with
      | nil =>
        have hms : ms = [] := by
          split_ifs at h <;>
          · simp only [Except.ok.injEq, Prod.mk.injEq] at h
            exact h.2.symm
        rw [hms]
        refine ⟨⟨?_, ?_⟩, ?_⟩
        · rintro ⟨first, hf, -⟩
          simp at hf
        · rintro ⟨hne, -⟩
          exact absurd rfl hne
        · intro i e _ hi
          simp at hi
      | cons first rest =>
        have hrest : ∀ i e, 1 ≤ i → (first :: rest)[i]? = some e → e.includeOriginal = false := by
          intro i e hi he
          obtain ⟨j, rfl⟩ : ∃ j, i = j + 1 := ⟨i - 1, by omega⟩
          rw [List.getElem?_cons_succ] at he
          exact hplain e (List.mem_cons_of_mem _ (List.getElem?_mem he))
        by_cases hattr : root.rootPrim.hasPreserveOriginalDrawCall = true
        · have hms : ms = { first with includeOriginal := true } :: rest := by
            simp only [hattr, List.isEmpty_cons, Bool.not_false, Bool.and_self, if_true,
              Except.ok.injEq, Prod.mk.injEq] at h
            rw [← h.2]
            rfl
          rw [hms]
          refine ⟨⟨fun _ => ⟨by simp, hattr⟩, fun _ => ⟨_, rfl, rfl⟩⟩, ?_⟩
          intro i e hi he
          obtain ⟨j, rfl⟩ : ∃ j, i = j + 1 := ⟨i - 1, by omega⟩
          rw [List.getElem?_cons_succ] at he
          exact hplain e (List.mem_cons_of_mem _ (List.getElem?_mem he))
        · have hms : ms = first :: rest := by
            have hb : (!(first :: rest).isEmpty && root.rootPrim.hasPreserveOriginalDrawCall)
                = false := by
              simp [hattr]
            simp only [hb, Bool.false_eq_true, if_false, Except.ok.injEq, Prod.mk.injEq] at h
            exact h.2.symm
          rw [hms]
          refine ⟨⟨?_, fun hc => absurd hc.2 hattr⟩, hrest⟩
          rintro ⟨f, hf, hinc⟩
          simp only [List.head?_cons, Option.some.injEq] at hf
          rw [← hf, hplain first (List.mem_cons_self _ _)] at hinc
          exact absurd hinc (by decide)

/-- C14 witness: the root that carries `preserveOriginalDrawCall` returns the mesh entry
with `includeOriginal` true followed by the light entry with `includeOriginal` false. -/
theorem includeOriginal_first_only_witness :
    ∃ σ' mesh light,
      processReplacement exEnv exPreservingRoot exUnloaded = Except.ok (σ', [mesh, light])
      ∧ mesh.includeOriginal = true ∧ light.includeOriginal = false
      ∧ (((∃ first, [mesh, light].head? = some first ∧ first.includeOriginal = true)
          ↔ ([mesh, light] ≠ [] ∧ exPreservingRoot.rootPrim.hasPreserveOriginalDrawCall = true))
        ∧ ∀ i e, 1 ≤ i → [mesh, light][i]? = some e → e.includeOriginal = false) :=
  ⟨_, _, _, rfl, rfl, rfl, includeOriginal_first_only exEnv exPreservingRoot exUnloaded _ _ rfl⟩

/-! ### What ingestion leaves untouched -/

theorem storeGeometry_inv {α : Type} {p : Impl → α} (hp : WalkInvariant p)
    (σ : Impl) (k : Nat) (g : RasterGeometry) : p (σ.storeGeometry k g) = p σ :=
  hp σ (kvSet k g σ.replacements.geometries) σ.replacements.materials σ.replacedCount σ.assetPath

theorem modifyGeometry_inv {α : Type} {p : Impl → α} (hp : WalkInvariant p)
    (σ : Impl) (k : Nat) (f : RasterGeometry → RasterGeometry) :
    p (σ.modifyGeometry k f) = p σ :=
  hp σ (kvModify k f σ.replacements.geometries) σ.replacements.materials σ.replacedCount σ.assetPath

theorem removeGeometry_inv {α : Type} {p : Impl → α} (hp : WalkInvariant p)
    (σ : Impl) (k : Nat) : p (σ.removeGeometry k) = p σ :=
  hp σ (kvErase k σ.replacements.geometries) σ.replacements.materials σ.replacedCount σ.assetPath

theorem setReplacedCount_inv {α : Type} {p : Impl → α} (hp : WalkInvariant p)
    (σ : Impl) (c : Nat) : p (σ.setReplacedCount c) = p σ :=
  hp σ σ.replacements.geometries σ.replacements.materials c σ.assetPath

theorem processMaterial_inv {α : Type} {p : Impl → α} (hp : WalkInvariant p)
    (env : Env) (matPrim : MaterialPrim) (σ : Impl) : p (processMaterial env matPrim σ).2 = p σ := by
  obtain ⟨mats, ap, h⟩ := processMaterial_frame env matPrim σ
  rw [h]
  exact hp σ σ.replacements.geometries mats σ.replacedCount ap

theorem processMaterialUser_inv {α : Type} {p : Impl → α} (hp : WalkInvariant p)
    (env : Env) (b : Option MaterialPrim) (σ : Impl) :
    p (processMaterialUser env b σ).2 = p σ := by
  obtain ⟨mats, ap, h⟩ := processMaterialUser_frame env b σ
  rw [h]
  exact hp σ σ.replacements.geometries mats σ.replacedCount ap

theorem vertexBlock_inv {α : Type} {p : Impl → α} (hp : WalkInvariant p)
    (prim : UsdPrim) (σ : Impl) : p (vertexBlock prim σ) = p σ := by
  unfold vertexBlock
  simp only
  rw [modifyGeometry_inv hp, setReplacedCount_inv hp]

theorem processGeomSubset_inv {α : Type} {p : Impl → α} (hp : WalkInvariant p)
    (env : Env) (sub : ChildPrim) (q : Nat) (mat : Option Nat)
    (τ : Impl) (r : Bool × Option Nat × Impl)
    (h : processGeomSubset env sub q mat τ = Except.ok r) : p r.2.2 = p τ := by
  unfold processGeomSubset at h
  cases hidx : sub.triangleIndices with
  | none =>
    rw [hidx] at h
    simp only [Except.ok.injEq] at h
    rw [← h]
  | some idx =>
    rw [hidx] at h
    simp only at h
    by_cases hl : idx.length = 0
    · rw [if_pos hl] at h
      exact absurd h (by simp)
    · rw [if_neg hl] at h
      simp only [Except.ok.injEq] at h
      rw [← h]
      simp only
      rw [processMaterialUser_inv hp, modifyGeometry_inv hp, setReplacedCount_inv hp]

theorem indexBlock_inv {α : Type} {p : Impl → α} (hp : WalkInvariant p)
    (prim : UsdPrim) (numSubsets : Nat) (τ τ2 : Impl)
    (h : indexBlock prim numSubsets τ = Except.ok (some τ2)) : p τ2 = p τ := by
  unfold indexBlock at h
  simp only at h
  by_cases h1 : 0 < (if numSubsets ≤ 1 then (prim.faceVertexIndices.getD []).length * 4 else 0)
  · rw [if_pos h1] at h
    cases hfc : prim.faceVertexCounts.head? with
    | none =>
      rw [hfc] at h
      exact absurd h (by simp)
    | some c =>
      rw [hfc] at h
      simp only at h
      by_cases h2 : c ≠ 3 ∨ (prim.faceVertexIndices.getD []).length % 3 ≠ 0
      · rw [if_pos h2] at h
        exact absurd h (by simp)
      · rw [if_neg h2] at h
        simp only [Except.ok.injEq, Option.some.injEq] at h
        rw [← h]
        exact modifyGeometry_inv hp _ _ _
  · rw [if_neg h1] at h
    simp only [Except.ok.injEq, Option.some.injEq] at h
    rw [← h]

theorem createGeometry_inv {α : Type} {p : Impl → α} (hp : WalkInvariant p)
    (prim : UsdPrim) (n : Nat) (σ : Impl) (r : Bool × Impl)
    (h : createGeometry prim n σ = Except.ok r) : p r.2 = p σ := by
  unfold createGeometry at h
  simp only at h
  by_cases h1 : n ≤ 1 ∧ prim.faceVertexIndices.isSome = false
  · rw [if_pos h1] at h
    simp only [Except.ok.injEq] at h
    rw [← h]
    exact storeGeometry_inv hp _ _ _
  · rw [if_neg h1] at h
    by_cases h2 : prim.points.length = 0
    · rw [if_pos h2] at h
      simp only [Except.ok.injEq] at h
      rw [← h]
      exact storeGeometry_inv hp _ _ _
    · rw [if_neg h2] at h
      have hbase : p ((σ.storeGeometry prim.usdOriginHash {}).modifyGeometry
          prim.usdOriginHash (writeVertexCount prim.points.length)) = p σ := by
        rw [modifyGeometry_inv hp, storeGeometry_inv hp]
      cases hib : indexBlock prim n ((σ.storeGeometry prim.usdOriginHash {}).modifyGeometry
          prim.usdOriginHash (writeVertexCount prim.points.length)) with
      | error f =>
        rw [hib] at h
        exact absurd h (by simp)
      | ok o =>
        rw [hib] at h
        cases o with
        | none =>
          simp only [Except.ok.injEq] at h
          rw [← h]
          exact hbase
        | some σ2 =>
          simp only [Except.ok.injEq] at h
          rw [← h]
          show p (vertexBlock prim σ2) = p σ
          rw [vertexBlock_inv hp, indexBlock_inv hp prim n _ σ2 hib]
          exact hbase

theorem subsetLoop_inv {α : Type} {p : Impl → α} (hp : WalkInvariant p)
    (env : Env) (geomKey : Nat) (M : Matrix4) (children : List ChildPrim) :
    ∀ (isFirst : Bool) (mat : Option Nat) (τ : Impl) (ms : List AssetReplacement)
      (r : Option Nat × Impl × List AssetReplacement),
      subsetLoop env geomKey M children isFirst mat τ ms = Except.ok r →
      p r.2.1 = p τ := by
  induction children with
  | nil =>
    intro isFirst mat τ ms r h
    unfold subsetLoop at h
    simp only [Except.ok.injEq] at h
    rw [← h]
  | cons child rest ih =>
    intro isFirst mat τ ms r h
    unfold subsetLoop at h
    by_cases hsub : child.isGeomSubset = true
    · rw [if_pos hsub] at h
      by_cases hfirst : isFirst = true
      · rw [if_pos hfirst] at h
        cases hres : processGeomSubset env child geomKey mat τ with
        | error f =>
          rw [hres] at h
          exact absurd h (by simp)
        | ok r1 =>
          rw [hres] at h
          obtain ⟨d, m1, τ1⟩ := r1
          simp only at h
          rw [ih _ _ _ _ _ h]
          exact processGeomSubset_inv hp env child geomKey mat τ _ hres
      · rw [if_neg hfirst] at h
        simp only at h
        cases hget : τ.getGeometry child.usdOriginHash with
        | some g0 =>
          rw [hget] at h
          simp only at h
          rw [ih _ _ _ _ _ h, processMaterialUser_inv hp]
        | none =>
          rw [hget] at h
          simp only at h
          cases hres : processGeomSubset env child child.usdOriginHash mat
              (τ.storeGeometry child.usdOriginHash ((τ.getGeometry geomKey).getD {})) with
          | error f =>
            rw [hres] at h
            exact absurd h (by simp)
          | ok r1 =>
            rw [hres] at h
            obtain ⟨d, m1, τ1⟩ := r1
            have hq := processGeomSubset_inv hp env child child.usdOriginHash mat _ _ hres
            simp only at hq
            rw [storeGeometry_inv hp] at hq
            cases d with
            | true =>
              simp only at h
              rw [ih _ _ _ _ _ h]
              exact hq
            | false =>
              simp only at h
              rw [ih _ _ _ _ _ h, removeGeometry_inv hp]
              exact hq
    · rw [if_neg hsub] at h
      exact ih _ _ _ _ _ h

theorem processPrim_inv {α : Type} {p : Impl → α} (hp : WalkInvariant p)
    (env : Env) (prim : UsdPrim) (σ : Impl)
    (ms : List AssetReplacement) (r : Impl × List AssetReplacement)
    (h : processPrim env prim σ ms = Except.ok r) : p r.1 = p σ := by
  unfold processPrim at h
  simp only at h
  have key : ∀ (b : Bool) (σ1 : Impl), p σ1 = p σ →
      (match (Except.ok (b, σ1) : Except Fault (Bool × Impl)) with
        | Except.error f => Except.error f
        | Except.ok (false, σ1) => Except.ok (σ1, ms)
        | Except.ok (true, σ1) =>
          match (if (prim.activeChildren.filter (fun c => c.isGeomSubset)).length = 1 then
              match prim.activeChildren.find? (fun c => c.isGeomSubset) with
              | some child =>
                Except.ok
                  ((if (processMaterialUser env child.boundMaterial
                        (processMaterialUser env prim.boundMaterial σ1).2).1.isSome
                    then (processMaterialUser env child.boundMaterial
                        (processMaterialUser env prim.boundMaterial σ1).2).1
                    else (processMaterialUser env prim.boundMaterial σ1).1),
                    (processMaterialUser env child.boundMaterial
                        (processMaterialUser env prim.boundMaterial σ1).2).2, ms)
              | none => Except.ok ((processMaterialUser env prim.boundMaterial σ1).1,
                  (processMaterialUser env prim.boundMaterial σ1).2, ms)
            else subsetLoop env prim.usdOriginHash (replacementToObjectOf env prim)
              prim.activeChildren true (processMaterialUser env prim.boundMaterial σ1).1
              (processMaterialUser env prim.boundMaterial σ1).2 ms) with
          | Except.error f => Except.error f
          | Except.ok (materialData, σ2, meshes1) =>
            if ((σ2.getGeometry prim.usdOriginHash).map (fun g => g.indexCount)).getD 0 = 0 then
              Except.ok (σ2, meshes1)
            else
              Except.ok (σ2, meshes1 ++ [{ geometryData := some prim.usdOriginHash
                                           materialData := materialData
                                           replacementToObject := replacementToObjectOf env prim }]))
        = Except.ok r → p r.1 = p σ := by
    intro b σ1 h1 hr
    cases b with
    | false =>
      simp only [Except.ok.injEq] at hr
      rw [← hr]
      exact h1
    | true =>
      simp only at hr
      by_cases hone : (prim.activeChildren.filter (fun c => c.isGeomSubset)).length = 1
      · simp only [if_pos hone] at hr
        cases hfind : prim.activeChildren.find? (fun c => c.isGeomSubset) with
        | none =>
          rw [hfind] at hr
          simp only at hr
          split_ifs at hr <;>
          · simp only [Except.ok.injEq] at hr
            rw [← hr]
            simp only
            rw [processMaterialUser_inv hp, h1]
        | some child =>
          rw [hfind] at hr
          simp only at hr
          split_ifs at hr <;>
          · simp only [Except.ok.injEq] at hr
            rw [← hr]
            simp only
            rw [processMaterialUser_inv hp, processMaterialUser_inv hp, h1]
      · simp only [if_neg hone] at hr
        cases hloop : subsetLoop env prim.usdOriginHash (replacementToObjectOf env prim)
            prim.activeChildren true (processMaterialUser env prim.boundMaterial σ1).1
            (processMaterialUser env prim.boundMaterial σ1).2 ms with
        | error f =>
          rw [hloop] at hr
          exact absurd hr (by simp)
        | ok r2 =>
          rw [hloop] at hr
          obtain ⟨m2, σ2, ms2⟩ := r2
          have hq := subsetLoop_inv hp env _ _ _ _ _ _ _ _ hloop
          simp only at hq hr
          split_ifs at hr <;>
          · simp only [Except.ok.injEq] at hr
            rw [← hr]
            simp only
            rw [hq, processMaterialUser_inv hp, h1]
  cases hσ : σ.getGeometry prim.usdOriginHash with
  | some g =>
    rw [hσ] at h
    exact key true σ rfl h
  | none =>
    rw [hσ] at h
    simp only at h
    cases hcr : createGeometry prim (prim.activeChildren.filter (fun c => c.isGeomSubset)).length σ with
    | error f =>
      rw [hcr] at h
      exact absurd h (by simp)
    | ok r1 =>
      rw [hcr] at h
      obtain ⟨b, σ1⟩ := r1
      exact key b σ1 (createGeometry_inv hp prim _ σ _ hcr) h

theorem processNode_inv {α : Type} {p : Impl → α} (hp : WalkInvariant p)
    (env : Env) (rootPrim node : UsdPrim) (σ : Impl)
    (ms : List AssetReplacement) (r : Impl × List AssetReplacement)
    (h : processNode env rootPrim node σ ms = Except.ok r) : p r.1 = p σ := by
  unfold processNode at h
  by_cases hm : node.type = PrimType.Mesh
  · rw [if_pos hm] at h
    exact processPrim_inv hp env node σ ms r h
  · rw [if_neg hm] at h
    by_cases hl : node.type.isLight = true
    · rw [if_pos hl] at h
      cases hlight : processLight env rootPrim node ms with
      | error f =>
        rw [hlight] at h
        exact absurd h (by simp)
      | ok ms1 =>
        rw [hlight] at h
        simp only [Except.ok.injEq] at h
        rw [← h]
    · rw [if_neg hl] at h
      simp only [Except.ok.injEq] at h
      rw [← h]

theorem processDescendants_inv {α : Type} {p : Impl → α} (hp : WalkInvariant p)
    (env : Env) (rootPrim : UsdPrim) (descs : List UsdPrim) :
    ∀ (σ : Impl) (ms : List AssetReplacement) (r : Impl × List AssetReplacement),
      processDescendants env rootPrim descs σ ms = Except.ok r → p r.1 = p σ := by
  induction descs with
  | nil =>
    intro σ ms r h
    unfold processDescendants at h
    simp only [Except.ok.injEq] at h
    rw [← h]
  | cons d rest ih =>
    intro σ ms r h
    unfold processDescendants at h
    cases hn : processNode env rootPrim d σ ms with
    | error f =>
      rw [hn] at h
      exact absurd h (by simp)
    | ok r1 =>
      rw [hn] at h
      obtain ⟨σ1, ms1⟩ := r1
      simp only at h
      rw [ih _ _ _ h]
      exact processNode_inv hp env rootPrim d σ ms _ hn

theorem processReplacement_inv {α : Type} {p : Impl → α} (hp : WalkInvariant p)
    (env : Env) (root : ReplacementRoot) (σ : Impl)
    (r : Impl × List AssetReplacement)
    (h : processReplacement env root σ = Except.ok r) : p r.1 = p σ := by
  unfold processReplacement at h
  cases hn : processNode env root.rootPrim root.rootPrim σ [] with
  | error f =>
    rw [hn] at h
    exact absurd h (by simp)
  | ok r1 =>
    rw [hn] at h
    obtain ⟨σ1, ms1⟩ := r1
    simp only at h
    have h1 := processNode_inv hp env _ _ σ [] _ hn
    cases hd : processDescendants env root.rootPrim root.descendants σ1 ms1 with
    | error f =>
      rw [hd] at h
      exact absurd h (by simp)
    | ok r2 =>
      rw [hd] at h
      obtain ⟨σ2, ms2⟩ := r2
      have h2 := processDescendants_inv hp env _ _ σ1 ms1 _ hd
      simp only at h h1 h2
      split_ifs at h <;>
      · simp only [Except.ok.injEq] at h
        rw [← h]
        simp only
        rw [h2, h1]

theorem looksLoop_inv {α : Type} {p : Impl → α} (hp : WalkInvariant p)
    (env : Env) (mats : List MaterialPrim) :
    ∀ (σ : Impl), p (looksLoop env mats σ) = p σ := by
  induction mats with
  | nil =>
    intro σ
    rfl
  | cons m rest ih =>
    intro σ
    unfold looksLoop
    rw [ih, processMaterial_inv hp]

theorem secrets_walkInvariant :
    WalkInvariant (fun σ : Impl => σ.replacements.secretReplacements) := by
  intro σ geometries materials replacedCount assetPath
  rfl

theorem lights_walkInvariant : WalkInvariant (fun σ : Impl => σ.replacements.lights) := by
  intro σ geometries materials replacedCount assetPath
  rfl

/-! ### The tally of replacement roots and the numbering of the secret variants -/

theorem meshesLoop_tally (env : Env) (base : Nat) (hb : base ≠ 0)
    (roots : List ReplacementRoot) :
    ∀ (vc : List (Nat × Nat)) (σ : Impl) (r : List (Nat × Nat) × Impl),
      meshesLoop env roots vc σ = Except.ok r →
      kvGet base r.1 =
        if rootsDeriving roots base = 0 then kvGet base vc
        else some (((kvGet base vc).getD 0 + rootsDeriving roots base) % 2 ^ 32) := by
  induction roots with
  | nil =>
    intro vc σ r h
    unfold meshesLoop at h
    simp only [Except.ok.injEq] at h
    rw [← h]
    rfl
  | cons child rest ih =>
    intro vc σ r h
    unfold meshesLoop at h
    by_cases hh : getModelHash child.rootPrim.name ≠ 0
    · rw [if_pos hh] at h
      cases hp : processReplacement env child σ with
      | error f =>
        rw [hp] at h
        exact absurd h (by simp)
      | ok r1 =>
        rw [hp] at h
        obtain ⟨σ1, ms1⟩ := r1
        simp only at h
        rw [ih _ _ _ h]
        by_cases he : getModelHash child.rootPrim.name = base
        · have hc : rootsDeriving (child :: rest) base = rootsDeriving rest base + 1 := by
            unfold rootsDeriving
            rw [List.filter_cons_of_pos (by simpa using he)]
            rfl
          rw [hc, he, kvGet_kvSet_self]
          have h32 : (2 : Nat) ^ 32 = 4294967296 := by norm_num
          rw [h32]
          generalize (kvGet base vc).getD 0 = x
          generalize rootsDeriving rest base = c
          by_cases h0 : c = 0
          · rw [if_pos h0, if_neg (by omega), h0]
          · rw [if_neg h0, if_neg (by omega), Option.getD_some]
            congr 1
            omega
        · have hc : rootsDeriving (child :: rest) base = rootsDeriving rest base := by
            unfold rootsDeriving
            rw [List.filter_cons_of_neg (by simpa using he)]
          rw [hc, kvGet_kvSet_ne _ _ _ _ (Ne.symm he)]
    · rw [if_neg hh] at h
      rw [ih _ _ _ h]
      have he : ¬ getModelHash child.rootPrim.name = base := by
        intro hcon
        apply hh
        rw [hcon]
        exact hb
      have hc : rootsDeriving (child :: rest) base = rootsDeriving rest base := by
        unfold rootsDeriving
        rw [List.filter_cons_of_neg (by simpa using he)]
      rw [hc]

theorem lookupCount_tally (env : Env) (base : Nat) (hb : base ≠ 0)
    (roots : List ReplacementRoot) (σ : Impl) (r : List (Nat × Nat) × Impl)
    (h : meshesLoop env roots [] σ = Except.ok r) :
    lookupCount r.1 base =
      if rootsDeriving roots base = 0 then 1 else rootsDeriving roots base % 2 ^ 32 := by
  unfold lookupCount
  rw [meshesLoop_tally env base hb roots [] σ r h]
  by_cases h0 : rootsDeriving roots base = 0
  · simp only [h0, if_true]
    rfl
  · simp only [h0, if_false]
    simp [kvGet]

theorem storeSecret_get_self (r : AssetReplacements) (base : Nat) (s : SecretReplacement) :
    kvGet base (r.storeSecret base s).secretReplacements
      = some ((kvGet base r.secretReplacements).getD [] ++ [s]) := by
  unfold AssetReplacements.storeSecret
  exact kvGet_kvSet_self _ _ _

theorem storeSecret_get_ne (r : AssetReplacements) (base k : Nat) (s : SecretReplacement)
    (hne : k ≠ base) :
    kvGet k (r.storeSecret base s).secretReplacements = kvGet k r.secretReplacements := by
  unfold AssetReplacements.storeSecret
  exact kvGet_kvSet_ne _ _ _ _ hne

theorem registerVariants_get_ne (header : String) (base k : Nat) (hne : k ≠ base)
    (vs : List (String × Nat × String)) :
    ∀ (start : Nat) (r : AssetReplacements),
      kvGet k (registerVariants header base vs start r).secretReplacements
        = kvGet k r.secretReplacements := by
  induction vs with
  | nil =>
    intro start r
    rfl
  | cons v rest ih =>
    intro start r
    obtain ⟨name, unlockHash, path⟩ := v
    unfold registerVariants
    rw [ih, storeSecret_get_ne _ _ _ _ hne]

/-- The variants of one base hash are appended in source order, the `k`-th with variant
index `start + k` (a `uint32_t`). -/
theorem registerVariants_get (header : String) (base : Nat)
    (vs : List (String × Nat × String)) :
    ∀ (start : Nat) (r : AssetReplacements), start < 2 ^ 32 →
      ∃ added : List SecretReplacement,
        kvGet base (registerVariants header base vs start r).secretReplacements
            = (if vs = [] then kvGet base r.secretReplacements
               else some ((kvGet base r.secretReplacements).getD [] ++ added))
        ∧ added.length = vs.length
        ∧ ∀ k s, added[k]? = some s → s.variantId = (start + k) % 2 ^ 32 := by
  induction vs with
  | nil =>
    intro start r _
    exact ⟨[], by simp [registerVariants], rfl, by simp⟩
  | cons v rest ih =>
    intro start r hstart
    obtain ⟨name, unlockHash, path⟩ := v
    have h32 : (2 : Nat) ^ 32 = 4294967296 := by norm_num
    have hs1 : (start + 1) % 2 ^ 32 < 2 ^ 32 := Nat.mod_lt _ (Nat.two_pow_pos 32)
    obtain ⟨added, h1, h2, h3⟩ := ih ((start + 1) % 2 ^ 32)
      (r.storeSecret base
        { header := header, name := name, description := "", unlockHash := unlockHash
          assetHash := base, replacementPath := path, displayBeforeUnlocked := true
          exclusiveReplacement := true, variantId := start }) hs1
    rw [storeSecret_get_self] at h1
    refine ⟨{ header := header, name := name, description := "", unlockHash := unlockHash
              assetHash := base, replacementPath := path, displayBeforeUnlocked := true
              exclusiveReplacement := true, variantId := start } :: added, ?_, ?_, ?_⟩
    · unfold registerVariants
      rw [h1, if_neg (List.cons_ne_nil _ _)]
      by_cases hr : rest = []
      · rw [if_pos hr]
        have ha : added = [] := by
          rw [hr] at h2
          exact List.length_eq_zero.mp h2
        rw [ha]
      · rw [if_neg hr, Option.getD_some, List.append_assoc]
        rfl
    · rw [List.length_cons, List.length_cons, h2]
    · intro k s hk
      cases k with
      | zero =>
        simp only [List.getElem?_cons_zero, Option.some.injEq] at hk
        rw [← hk]
        simp only [Nat.add_zero]
        exact (Nat.mod_eq_of_lt hstart).symm
      | succ j =>
        rw [List.getElem?_cons_succ] at hk
        rw [h3 j s hk, h32]
        omega

theorem secret_bases_ne : kStorageCubeHash ≠ kCompanionCubeHash ∧ kStorageCubeHash ≠ 0
    ∧ kCompanionCubeHash ≠ 0 := by
  decide

theorem lookupCount_lt (vc : List (Nat × Nat)) (base : Nat)
    (h : ∀ v, kvGet base vc = some v → v < 2 ^ 32) : lookupCount vc base < 2 ^ 32 := by
  unfold lookupCount
  cases hk : kvGet base vc with
  | none =>
    simp only
    norm_num
  | some v => exact h v hk

theorem meshesLoop_inv {α : Type} {p : Impl → α} (hp : WalkInvariant p)
    (hm : ∀ (σ : Impl) (k : Nat) (v : List AssetReplacement), p (σ.setMeshes k v) = p σ)
    (env : Env) (roots : List ReplacementRoot) :
    ∀ (vc : List (Nat × Nat)) (σ : Impl) (r : List (Nat × Nat) × Impl),
      meshesLoop env roots vc σ = Except.ok r → p r.2 = p σ := by
  induction roots with
  | nil =>
    intro vc σ r h
    unfold meshesLoop at h
    simp only [Except.ok.injEq] at h
    rw [← h]
  | cons child rest ih =>
    intro vc σ r h
    unfold meshesLoop at h
    by_cases hh : getModelHash child.rootPrim.name ≠ 0
    · rw [if_pos hh] at h
      cases hr : processReplacement env child σ with
      | error f =>
        rw [hr] at h
        exact absurd h (by simp)
      | ok r1 =>
        rw [hr] at h
        obtain ⟨σ1, ms1⟩ := r1
        simp only at h
        rw [ih _ _ _ h, hm]
        exact processReplacement_inv hp env child σ _ hr
    · rw [if_neg hh] at h
      exact ih _ _ _ h

theorem secretVariantsLoop_inv {α : Type} {p : Impl → α} (hp : WalkInvariant p)
    (hm : ∀ (σ : Impl) (k : Nat) (v : List AssetReplacement), p (σ.setMeshes k v) = p σ)
    (env : Env) (dir : String) (hash : Nat) (secrets : List SecretReplacement) :
    ∀ (σ σ' : Impl), secretVariantsLoop env dir hash secrets σ = Except.ok σ' → p σ' = p σ := by
  induction secrets with
  | nil =>
    intro σ σ' h
    unfold secretVariantsLoop at h
    simp only [Except.ok.injEq] at h
    rw [← h]
  | cons s rest ih =>
    intro σ σ' h
    unfold secretVariantsLoop at h
    cases hl : env.lastWriteTime (dir ++ s.replacementPath) with
    | none =>
      rw [hl] at h
      exact ih _ _ h
    | some t =>
      rw [hl] at h
      simp only at h
      cases ho : env.openStage (dir ++ s.replacementPath) with
      | none =>
        rw [ho] at h
        exact ih _ _ h
      | some pStage =>
        rw [ho] at h
        simp only at h
        cases hd : pStage.defaultPrim with
        | none =>
          rw [hd] at h
          exact absurd h (by simp)
        | some rootPrim =>
          rw [hd] at h
          simp only at h
          cases hr : processReplacement env rootPrim σ with
          | error f =>
            rw [hr] at h
            exact absurd h (by simp)
          | ok r1 =>
            rw [hr] at h
            obtain ⟨σ1, ms1⟩ := r1
            simp only at h
            rw [ih _ _ h, hm]
            exact processReplacement_inv hp env rootPrim σ _ hr

theorem secretsLoop_inv {α : Type} {p : Impl → α} (hp : WalkInvariant p)
    (hm : ∀ (σ : Impl) (k : Nat) (v : List AssetReplacement), p (σ.setMeshes k v) = p σ)
    (env : Env) (dir : String) (table : List (Nat × List SecretReplacement)) :
    ∀ (σ σ' : Impl), secretsLoop env dir table σ = Except.ok σ' → p σ' = p σ := by
  induction table with
  | nil =>
    intro σ σ' h
    unfold secretsLoop at h
    simp only [Except.ok.injEq] at h
    rw [← h]
  | cons e rest ih =>
    intro σ σ' h
    obtain ⟨hash, secrets⟩ := e
    unfold secretsLoop at h
    cases hv : secretVariantsLoop env dir hash secrets σ with
    | error f =>
      rw [hv] at h
      exact absurd h (by simp)
    | ok σ1 =>
      rw [hv] at h
      simp only at h
      rw [ih _ _ h]
      exact secretVariantsLoop_inv hp hm env dir hash secrets σ σ1 hv

theorem lightsLoop_inv {α : Type} {p : Impl → α} (hp : WalkInvariant p)
    (hl : ∀ (σ : Impl) (k : Nat) (v : List AssetReplacement), p (σ.setLights k v) = p σ)
    (env : Env) (roots : List ReplacementRoot) :
    ∀ (σ σ' : Impl), lightsLoop env roots σ = Except.ok σ' → p σ' = p σ := by
  induction roots with
  | nil =>
    intro σ σ' h
    unfold lightsLoop at h
    simp only [Except.ok.injEq] at h
    rw [← h]
  | cons child rest ih =>
    intro σ σ' h
    unfold lightsLoop at h
    by_cases hh : getLightHash child.rootPrim.name ≠ 0
    · rw [if_pos hh] at h
      cases hr : processReplacement env child σ with
      | error f =>
        rw [hr] at h
        exact absurd h (by simp)
      | ok r1 =>
        rw [hr] at h
        obtain ⟨σ1, ms1⟩ := r1
        simp only at h
        rw [ih _ _ h, hl]
        exact processReplacement_inv hp env child σ _ hr
    · rw [if_neg hh] at h
      exact ih _ _ h

/-- The steps of a walk that returned normally after the document opened. -/
theorem processUSD_steps (env : Env) (σ σ' : Impl) (stage : UsdStage)
    (hopen : env.openStage σ.filePath = some stage) (h : processUSD env σ = Except.ok σ') :
    ∃ (t : Int) (vc : List (Nat × Nat)) (σ2 σ4 σ5 : Impl),
      env.lastWriteTime σ.filePath = some t
      ∧ meshesLoop env (stage.meshes.getD []) []
          { σ with state := State.Loading, openedFilePath := σ.filePath
                   fileModificationTime := t, status := statusOf stage } = Except.ok (vc, σ2)
      ∧ secretsLoop env (env.removeFilename σ.filePath)
          (TEMP_parseSecretReplacementVariants vc σ2.replacements).secretReplacements
          { σ2 with replacements := TEMP_parseSecretReplacementVariants vc σ2.replacements }
          = Except.ok σ4
      ∧ lightsLoop env (stage.lights.getD []) σ4 = Except.ok σ5
      ∧ σ' = { looksLoop env (stage.looks.getD []) σ5 with state := State.Loaded } := by
  unfold processUSD at h
  simp only [hopen] at h
  cases hl : env.lastWriteTime σ.filePath with
  | none =>
    rw [hl] at h
    exact absurd h (by simp)
  | some t =>
    rw [hl] at h
    simp only at h
    split at h
    · exact absurd h (by simp)
    · rename_i vc σ2 hm
      split at h
      · exact absurd h (by simp)
      · rename_i σ4 hs
        split at h
        · exact absurd h (by simp)
        · rename_i σ5 hli
          simp only [Except.ok.injEq] at h
          exact ⟨t, vc, σ2, σ4, σ5, rfl, hm, hs, hli, h.symm⟩

theorem setMeshes_secrets (σ : Impl) (k : Nat) (v : List AssetReplacement) :
    (σ.setMeshes k v).replacements.secretReplacements = σ.replacements.secretReplacements :=
  rfl

theorem setLights_secrets (σ : Impl) (k : Nat) (v : List AssetReplacement) :
    (σ.setLights k v).replacements.secretReplacements = σ.replacements.secretReplacements :=
  rfl

/-- After a walk that returned normally, the secret table is the registration of the
variants over the table the walk started with, numbered from the tally of the roots. -/
theorem processUSD_secrets (env : Env) (σ σ' : Impl) (stage : UsdStage)
    (hopen : env.openStage σ.filePath = some stage) (h : processUSD env σ = Except.ok σ') :
    ∃ (vc : List (Nat × Nat)) (σ2 : Impl),
      σ'.replacements.secretReplacements
        = (TEMP_parseSecretReplacementVariants vc σ2.replacements).secretReplacements
      ∧ σ2.replacements.secretReplacements = σ.replacements.secretReplacements
      ∧ (∀ base, base ≠ 0 →
          lookupCount vc base = firstVariantIndex (stage.meshes.getD []) base) := by
  obtain ⟨t, vc, σ2, σ4, σ5, -, hm, hs, hli, rfl⟩ := processUSD_steps env σ σ' stage hopen h
  refine ⟨vc, σ2, ?_, ?_, ?_⟩
  · show (looksLoop env (stage.looks.getD []) σ5).replacements.secretReplacements = _
    rw [looksLoop_inv secrets_walkInvariant env _ σ5,
      lightsLoop_inv secrets_walkInvariant setLights_secrets env _ σ4 σ5 hli,
      secretsLoop_inv secrets_walkInvariant setMeshes_secrets env _ _ _ σ4 hs]
  · exact meshesLoop_inv secrets_walkInvariant setMeshes_secrets env _ _ _ _ hm
  · intro base hb
    exact lookupCount_tally env base hb _ _ _ hm

theorem firstVariantIndex_lt (roots : List ReplacementRoot) (base : Nat) :
    firstVariantIndex roots base < 2 ^ 32 := by
  unfold firstVariantIndex
  split_ifs
  · norm_num
  · exact Nat.mod_lt _ (Nat.two_pow_pos 32)

/-! ### C15 -/

/-- C15 as stated fails: no mesh replacement root of the example document derives the
storage-cube hash (`c = 0`), yet the first storage-cube variant registered (`k = 0`)
receives the variant index 1, not `c + k = 0`. -/
theorem first_secret_variant_index_is_one :
    rootsDeriving (exStage.meshes.getD []) kStorageCubeHash = 0
    ∧ load exEnv exUnloaded = Except.ok exFirstLoad
    ∧ ∃ l s, kvGet kStorageCubeHash exFirstLoad.replacements.secretReplacements = some l
        ∧ l[0]? = some s ∧ s.variantId = 1 ∧ s.variantId ≠ 0 + 0 :=
  ⟨by decide, rfl, _, _, rfl, rfl, rfl, by decide⟩

/-- C15 (amended): for every document that the walk processes from a store without
secret variants, and each of the two hardcoded base hashes, the `k`-th secret variant
registered for that base hash (`k = 0, 1, ...`) receives the variant index `c + k`,
where `c` is the number of mesh replacement roots of the live document that derive that
base hash, and `1 + k` when no root derives it; the indices are `uint32_t`.  There are
eight storage-cube variants and four companion-cube variants. -/
theorem secret_variant_indices (env : Env) (σ σ' : Impl) (stage : UsdStage)
    (hempty : σ.replacements.secretReplacements = [])
    (hopen : env.openStage σ.filePath = some stage)
    (hwalk : processUSD env σ = Except.ok σ') :
    ∃ storage companion : List SecretReplacement,
      kvGet kStorageCubeHash σ'.replacements.secretReplacements = some storage
      ∧ storage.length = 8
      ∧ (∀ k s, storage[k]? = some s → s.variantId
          = ((if rootsDeriving (stage.meshes.getD []) kStorageCubeHash = 0 then 1
              else rootsDeriving (stage.meshes.getD []) kStorageCubeHash % 2 ^ 32) + k) % 2 ^ 32)
      ∧ kvGet kCompanionCubeHash σ'.replacements.secretReplacements = some companion
      ∧ companion.length = 4
      ∧ (∀ k s, companion[k]? = some s → s.variantId
          = ((if rootsDeriving (stage.meshes.getD []) kCompanionCubeHash = 0 then 1
              else rootsDeriving (stage.meshes.getD []) kCompanionCubeHash % 2 ^ 32) + k)
            % 2 ^ 32) := by
  obtain ⟨hne, hs0, hc0⟩ := secret_bases_ne
  obtain ⟨vc, σ2, h1, h2, h3⟩ := processUSD_secrets env σ σ' stage hopen hwalk
  have hnone : ∀ k, kvGet k σ2.replacements.secretReplacements = none := by
    intro k
    rw [h2, hempty]
    rfl
  obtain ⟨addS, s1, s2, s3⟩ := registerVariants_get "Storage Cubes" kStorageCubeHash
    storageCubeVariants (lookupCount vc kStorageCubeHash) σ2.replacements
    (by rw [h3 _ hs0]; exact firstVariantIndex_lt _ _)
  obtain ⟨addC, c1, c2, c3⟩ := registerVariants_get "Companion Cubes" kCompanionCubeHash
    companionCubeVariants (lookupCount vc kCompanionCubeHash)
    (registerVariants "Storage Cubes" kStorageCubeHash storageCubeVariants
      (lookupCount vc kStorageCubeHash) σ2.replacements)
    (by rw [h3 _ hc0]; exact firstVariantIndex_lt _ _)
  rw [if_neg (by decide), hnone] at s1
  rw [if_neg (by decide), registerVariants_get_ne _ _ _ (Ne.symm hne), hnone] at c1
  rw [h3 _ hs0] at s3
  rw [h3 _ hc0] at c3
  refine ⟨addS, addC, ?_, s2, s3, ?_, c2, c3⟩
  · rw [h1]
    unfold TEMP_parseSecretReplacementVariants
    rw [registerVariants_get_ne _ _ _ hne, s1]
    rfl
  · rw [h1]
    unfold TEMP_parseSecretReplacementVariants
    rw [c1]
    rfl

/-- C15 witness: two roots of the document derive the storage-cube hash, so the eight
storage-cube variants are numbered 2 to 9; no root derives the companion-cube hash, so
the four companion-cube variants are numbered 1 to 4. -/
theorem secret_variant_indices_witness :
    rootsDeriving (exStageCubes.meshes.getD []) kStorageCubeHash = 2
    ∧ rootsDeriving (exStageCubes.meshes.getD []) kCompanionCubeHash = 0
    ∧ (kvGet kStorageCubeHash exCubesLoaded.replacements.secretReplacements).map
        (fun l => l.map (fun s => s.variantId)) = some [2, 3, 4, 5, 6, 7, 8, 9]
    ∧ (kvGet kCompanionCubeHash exCubesLoaded.replacements.secretReplacements).map
        (fun l => l.map (fun s => s.variantId)) = some [1, 2, 3, 4]
    ∧ ∃ storage companion : List SecretReplacement,
      kvGet kStorageCubeHash exCubesLoaded.replacements.secretReplacements = some storage
      ∧ storage.length = 8
      ∧ (∀ k s, storage[k]? = some s → s.variantId
          = ((if rootsDeriving (exStageCubes.meshes.getD []) kStorageCubeHash = 0 then 1
              else rootsDeriving (exStageCubes.meshes.getD []) kStorageCubeHash % 2 ^ 32) + k)
            % 2 ^ 32)
      ∧ kvGet kCompanionCubeHash exCubesLoaded.replacements.secretReplacements = some companion
      ∧ companion.length = 4
      ∧ (∀ k s, companion[k]? = some s → s.variantId
          = ((if rootsDeriving (exStageCubes.meshes.getD []) kCompanionCubeHash = 0 then 1
              else rootsDeriving (exStageCubes.meshes.getD []) kCompanionCubeHash % 2 ^ 32) + k)
            % 2 ^ 32) :=
  ⟨by decide, by decide, by decide, by decide,
    secret_variant_indices exEnvCubes exUnloaded exCubesLoaded exStageCubes rfl rfl rfl⟩

/-! ### The subset loop -/

/-- The subset loop passes over the children that are not geometry subsets. -/
theorem subsetLoop_filter (env : Env) (geomKey : Nat) (M : Matrix4)
    (children : List ChildPrim) :
    ∀ (isFirst : Bool) (mat : Option Nat) (σ : Impl) (ms : List AssetReplacement),
      subsetLoop env geomKey M children isFirst mat σ ms
        = subsetLoop env geomKey M (children.filter (fun c => c.isGeomSubset)) isFirst mat σ ms := by
  induction children with
  | nil =>
    intro isFirst mat σ ms
    rfl
  | cons child rest ih =>
    intro isFirst mat σ ms
    by_cases hg : child.isGeomSubset = true
    · rw [List.filter_cons_of_pos hg]
      unfold subsetLoop
      simp only [hg, if_true, ih]
    · rw [List.filter_cons_of_neg hg, ← ih]
      simp only [subsetLoop, hg, Bool.false_eq_true, if_false]

theorem processGeomSubset_no_indices (env : Env) (sub : ChildPrim) (k : Nat)
    (mat : Option Nat) (σ : Impl) (h : sub.triangleIndices = none) :
    processGeomSubset env sub k mat σ = Except.ok (false, mat, σ) := by
  unfold processGeomSubset
  rw [h]

/-- A material with a non-zero hash and a shader yields its hash in every state. -/
theorem processMaterial_pointer (env : Env) (matPrim : MaterialPrim) (σ : Impl)
    (shader : ShaderPrim)
    (hhash : getMaterialHash matPrim.name matPrim.typeName matPrim.usdOriginHash ≠ 0)
    (hsh : selectShader matPrim = some shader) :
    (processMaterial env matPrim σ).1
      = some (getMaterialHash matPrim.name matPrim.typeName matPrim.usdOriginHash) := by
  unfold processMaterial
  simp only [if_neg hhash, hsh]
  split <;> rfl

/-- With two subsets, an accepted mesh enters the subset loop with its geometry in the
store. -/
theorem createGeometry_many_subsets (prim : UsdPrim) (n : Nat) (σ : Impl) (hn : 1 < n)
    (hpts : prim.points ≠ []) :
    ∃ σ1, createGeometry prim n σ = Except.ok (true, σ1)
      ∧ (σ1.getGeometry prim.usdOriginHash).isSome = true := by
  have hplen : prim.points.length ≠ 0 := fun h => hpts (List.length_eq_zero.mp h)
  have h1 : ¬ (n ≤ 1 ∧ prim.faceVertexIndices.isSome = false) := by
    intro hc
    omega
  have h2 : ¬ n ≤ 1 := by omega
  unfold createGeometry indexBlock
  simp only [if_neg h1, if_neg hplen, if_neg h2, lt_self_iff_false, if_false]
  refine ⟨_, rfl, ?_⟩
  rw [vertexBlock_getGeometry, getGeometry_modifyGeometry_self, getGeometry_storeGeometry_self]
  rfl

theorem processGeomSubset_indices (env : Env) (sub : ChildPrim) (k : Nat)
    (mat : Option Nat) (σ : Impl) (vecIndices : List Int)
    (hidx : sub.triangleIndices = some vecIndices) (hne : vecIndices ≠ []) :
    processGeomSubset env sub k mat σ
      = Except.ok (true,
          (if (processMaterialUser env sub.boundMaterial
                ((σ.setReplacedCount (nextCount σ.replacedCount)).modifyGeometry k
                  (writeSubsetIndices vecIndices (nextCount σ.replacedCount)))).1.isSome
           then (processMaterialUser env sub.boundMaterial
                ((σ.setReplacedCount (nextCount σ.replacedCount)).modifyGeometry k
                  (writeSubsetIndices vecIndices (nextCount σ.replacedCount)))).1
           else mat),
          (processMaterialUser env sub.boundMaterial
            ((σ.setReplacedCount (nextCount σ.replacedCount)).modifyGeometry k
              (writeSubsetIndices vecIndices (nextCount σ.replacedCount)))).2) := by
  have hlen : vecIndices.length ≠ 0 := fun h => hne (List.length_eq_zero.mp h)
  unfold processGeomSubset
  rw [hidx]
  simp only [hlen, if_false]

/-- The subset loop over two subsets of which the first has no `triangleIndices`: the
second is processed as the first successful one, on the parent geometry. -/
theorem subsetLoop_two (env : Env) (k : Nat) (M : Matrix4) (first second : ChildPrim)
    (mat : Option Nat) (τ : Impl) (ms : List AssetReplacement) (vecIndices : List Int)
    (hf1 : first.isGeomSubset = true) (hf2 : second.isGeomSubset = true)
    (hfirst : first.triangleIndices = none)
    (hsecond : second.triangleIndices = some vecIndices) (hne : vecIndices ≠ []) :
    subsetLoop env k M [first, second] true mat τ ms
      = Except.ok
          ((if (processMaterialUser env second.boundMaterial
                ((τ.setReplacedCount (nextCount τ.replacedCount)).modifyGeometry k
                  (writeSubsetIndices vecIndices (nextCount τ.replacedCount)))).1.isSome
            then (processMaterialUser env second.boundMaterial
                ((τ.setReplacedCount (nextCount τ.replacedCount)).modifyGeometry k
                  (writeSubsetIndices vecIndices (nextCount τ.replacedCount)))).1
            else mat),
           (processMaterialUser env second.boundMaterial
              ((τ.setReplacedCount (nextCount τ.replacedCount)).modifyGeometry k
                (writeSubsetIndices vecIndices (nextCount τ.replacedCount)))).2, ms) := by
  simp only [subsetLoop, hf1, hf2, if_true, processGeomSubset_no_indices env first k mat τ hfirst,
    Bool.false_eq_true, if_false, processGeomSubset_indices env second k mat τ vecIndices hsecond hne]

/-! ### C12 -/

/-- C12 (amended): for every mesh node that is already in the geometry store or has a
non-empty positions array, and whose geometry-subset children are two, the first without
the `triangleIndices` attribute and the second with a non-empty `triangleIndices` array:
`processGeomSubset` fails for the first; `processPrim` returns with the second subset's
indices as the node's own index buffer (`indexCount` is their number); when the second
subset is bound to a material with a non-zero hash and a shader, that material is the
node's material; and exactly one `AssetReplacement` is appended for the node. -/
theorem second_subset_becomes_parent (env : Env) (prim : UsdPrim) (σ : Impl)
    (meshes : List AssetReplacement) (first second : ChildPrim) (vecIndices : List Int)
    (hsub : prim.activeChildren.filter (fun c => c.isGeomSubset) = [first, second])
    (hfirst : first.triangleIndices = none)
    (hsecond : second.triangleIndices = some vecIndices) (hne : vecIndices ≠ [])
    (hgeom : (σ.getGeometry prim.usdOriginHash).isSome = true ∨ prim.points ≠ []) :
    (∀ (k : Nat) (mat : Option Nat) (τ : Impl),
        processGeomSubset env first k mat τ = Except.ok (false, mat, τ))
    ∧ ∃ (σ' : Impl) (g : RasterGeometry) (materialData : Option Nat),
        processPrim env prim σ meshes
          = Except.ok (σ', meshes ++ [{ geometryData := some prim.usdOriginHash
                                        materialData := materialData
                                        replacementToObject := replacementToObjectOf env prim }])
        ∧ σ'.getGeometry prim.usdOriginHash = some g
        ∧ g.indexBuffer = some (makeIndexBuffer vecIndices)
        ∧ g.indexCount = vecIndices.length
        ∧ (∀ matPrim shader, second.boundMaterial = some matPrim →
            getMaterialHash matPrim.name matPrim.typeName matPrim.usdOriginHash ≠ 0 →
            selectShader matPrim = some shader →
            materialData
              = some (getMaterialHash matPrim.name matPrim.typeName matPrim.usdOriginHash)) := by
  refine ⟨fun k mat τ => processGeomSubset_no_indices env first k mat τ hfirst, ?_⟩
  have hmem1 : first ∈ prim.activeChildren.filter (fun c => c.isGeomSubset) := by
    rw [hsub]
    exact List.mem_cons_self _ _
  have hmem2 : second ∈ prim.activeChildren.filter (fun c => c.isGeomSubset) := by
    rw [hsub]
    exact List.mem_cons_of_mem _ (List.mem_cons_self _ _)
  have hf1 : first.isGeomSubset = true := (List.mem_filter.mp hmem1).2
  have hf2 : second.isGeomSubset = true := (List.mem_filter.mp hmem2).2
  have hlen : vecIndices.length ≠ 0 := fun h => hne (List.length_eq_zero.mp h)
  have hnum : ¬ (prim.activeChildren.filter (fun c => c.isGeomSubset)).length = 1 := by
    rw [hsub]
    simp
  have hcount : ∀ c g1, (writeSubsetIndices vecIndices c g1).indexCount = vecIndices.length :=
    fun _ _ => rfl
  have tail : ∀ (σ1 : Impl) (g1 : RasterGeometry), σ1.getGeometry prim.usdOriginHash = some g1 →
      ∃ (σ' : Impl) (g : RasterGeometry) (materialData : Option Nat),
      (match (Except.ok (true, σ1) : Except Fault (Bool × Impl)) with
        | Except.error f => Except.error f
        | Except.ok (false, σ1) => Except.ok (σ1, meshes)
        | Except.ok (true, σ1) =>
          let r := processMaterialUser env prim.boundMaterial σ1
          let replacementToObject := replacementToObjectOf env prim
          let walked : Except Fault (Option Nat × Impl × List AssetReplacement) :=
            if (prim.activeChildren.filter (fun c => c.isGeomSubset)).length = 1 then
              match prim.activeChildren.find? (fun c => c.isGeomSubset) with
              | some child =>
                let r1 := processMaterialUser env child.boundMaterial r.2
                Except.ok ((if r1.1.isSome then r1.1 else r.1), r1.2, meshes)
              | none => Except.ok (r.1, r.2, meshes)
            else subsetLoop env prim.usdOriginHash replacementToObject prim.activeChildren
              true r.1 r.2 meshes
          match walked with
          | Except.error f => Except.error f
          | Except.ok (materialData, σ2, meshes1) =>
            if ((σ2.getGeometry prim.usdOriginHash).map (fun g => g.indexCount)).getD 0 = 0 then
              Except.ok (σ2, meshes1)
            else
              Except.ok (σ2, meshes1 ++ [{ geometryData := some prim.usdOriginHash
                                           materialData := materialData
                                           replacementToObject := replacementToObject }]))
        = Except.ok (σ', meshes ++ [{ geometryData := some prim.usdOriginHash
                                      materialData := materialData
                                      replacementToObject := replacementToObjectOf env prim }])
      ∧ σ'.getGeometry prim.usdOriginHash = some g
      ∧ g.indexBuffer = some (makeIndexBuffer vecIndices)
      ∧ g.indexCount = vecIndices.length
      ∧ (∀ matPrim shader, second.boundMaterial = some matPrim →
          getMaterialHash matPrim.name matPrim.typeName matPrim.usdOriginHash ≠ 0 →
          selectShader matPrim = some shader →
          materialData
            = some (getMaterialHash matPrim.name matPrim.typeName matPrim.usdOriginHash)) := by
    intro σ1 g1 hg1
    have hgt : (processMaterialUser env second.boundMaterial
        (((processMaterialUser env prim.boundMaterial σ1).2.setReplacedCount
            (nextCount (processMaterialUser env prim.boundMaterial σ1).2.replacedCount)).modifyGeometry
          prim.usdOriginHash (writeSubsetIndices vecIndices
            (nextCount (processMaterialUser env prim.boundMaterial σ1).2.replacedCount)))).2.getGeometry
          prim.usdOriginHash
        = some (writeSubsetIndices vecIndices
            (nextCount (processMaterialUser env prim.boundMaterial σ1).2.replacedCount) g1) := by
      rw [processMaterialUser_getGeometry, getGeometry_modifyGeometry_self,
        getGeometry_setReplacedCount, processMaterialUser_getGeometry, hg1]
      rfl
    have hnum2 : ¬ [first, second].length = 1 := by simp
    simp only [if_neg hnum, if_neg hnum2,
      subsetLoop_filter env prim.usdOriginHash _ prim.activeChildren, hsub,
      subsetLoop_two env prim.usdOriginHash _ first second _ _ meshes vecIndices hf1 hf2 hfirst
        hsecond hne, hgt, Option.map_some', Option.getD_some, hcount, if_neg hlen]
    refine ⟨_, _, _, rfl, hgt, rfl, rfl, ?_⟩
    intro matPrim shader hb hhash hsh
    have hp : ∀ τ, (processMaterialUser env second.boundMaterial τ).1
        = some (getMaterialHash matPrim.name matPrim.typeName matPrim.usdOriginHash) := by
      intro τ
      unfold processMaterialUser
      rw [hb]
      exact processMaterial_pointer env matPrim τ shader hhash hsh
    rw [hp]
    rfl
  unfold processPrim
  simp only
  cases hg : σ.getGeometry prim.usdOriginHash with
  | some g0 => exact tail σ g0 hg
  | none =>
    have hpts : prim.points ≠ [] := by
      rcases hgeom with h | h
      · rw [hg] at h
        exact absurd h (by simp)
      · exact h
    obtain ⟨σ1, h1, h2⟩ := createGeometry_many_subsets prim
      (prim.activeChildren.filter (fun c => c.isGeomSubset)).length σ
      (by rw [hsub]; simp) hpts
    obtain ⟨g1, hg1⟩ := Option.isSome_iff_exists.mp h2
    simp only
    rw [h1]
    exact tail σ1 g1 hg1

/-- C12 witness: the mesh with positions whose first subset has no indices and whose
second subset has three indices and the plain material `mat_0000000000000004`. -/
theorem second_subset_becomes_parent_witness :
    processGeomSubset exEnv exSubsetNoIndices 44 none exUnloaded
      = Except.ok (false, none, exUnloaded)
    ∧ ∃ (σ' : Impl) (g : RasterGeometry),
        processPrim exEnv exTwoSubsetMesh exUnloaded []
          = Except.ok (σ', [{ geometryData := some 44, materialData := some 4
                              replacementToObject := replacementToObjectOf exEnv exTwoSubsetMesh }])
        ∧ σ'.getGeometry 44 = some g
        ∧ g.indexBuffer = some (makeIndexBuffer [0, 1, 2])
        ∧ g.indexCount = 3 :=
  ⟨(second_subset_becomes_parent exEnv exTwoSubsetMesh exUnloaded [] exSubsetNoIndices
      exSubsetBound [0, 1, 2] rfl rfl rfl (by decide) (Or.inr (by decide))).1 44 none exUnloaded,
    _, _, rfl, rfl, rfl, rfl⟩

/-! ### A mesh root without subsets, descendants and material -/

/-- `processPrim` on a new triangle mesh with its own indices, no geometry subset and no
material binding: the geometry is stored with the index count of the array and one
replacement with a null material is appended. -/
theorem processPrim_plain_mesh (env : Env) (prim : UsdPrim) (σ : Impl)
    (meshes : List AssetReplacement) (vecIndices : List Int)
    (hsub : ∀ c ∈ prim.activeChildren, c.isGeomSubset = false)
    (hmat : prim.boundMaterial = none)
    (hnew : σ.getGeometry prim.usdOriginHash = none)
    (hidx : prim.faceVertexIndices = some vecIndices) (hne : vecIndices ≠ [])
    (hpts : prim.points ≠ []) (hfc : prim.faceVertexCounts.head? = some 3)
    (htri : vecIndices.length % 3 = 0) :
    ∃ (σ1 : Impl) (g : RasterGeometry),
      processPrim env prim σ meshes
        = Except.ok (σ1, meshes ++ [{ geometryData := some prim.usdOriginHash
                                      materialData := none
                                      replacementToObject := replacementToObjectOf env prim }])
      ∧ σ1.getGeometry prim.usdOriginHash = some g
      ∧ g.indexCount = vecIndices.length := by
  have hf : prim.activeChildren.filter (fun c => c.isGeomSubset) = [] := by
    rw [List.filter_eq_nil_iff]
    intro c hc
    rw [hsub c hc]
    decide
  have hlen : vecIndices.length ≠ 0 := fun h => hne (List.length_eq_zero.mp h)
  obtain ⟨σ1, hc, hg⟩ := createGeometry_accept prim
    (prim.activeChildren.filter (fun c => c.isGeomSubset)).length σ vecIndices
    (by rw [hf]; simp) hidx hne hpts hfc htri
  have hcount : ∀ a b, (fillVertexFields prim a b
      (writeMeshIndices vecIndices (writeVertexCount prim.points.length {}))).indexCount
      = vecIndices.length := fun _ _ => rfl
  have hpm : processMaterialUser env prim.boundMaterial σ1 = (none, σ1) := by
    rw [hmat]
    rfl
  have h01 : ¬ (prim.activeChildren.filter (fun c => c.isGeomSubset)).length = 1 := by
    rw [hf]
    simp
  unfold processPrim
  simp only [hnew, hc, if_neg h01, hpm,
    subsetLoop_no_subsets env prim.usdOriginHash _ prim.activeChildren true none σ1 meshes hsub,
    hg, Option.map_some', Option.getD_some, hcount, if_neg hlen]
  exact ⟨_, _, rfl, hg, hcount _ _⟩

/-- The opaque and the translucent constructor calls pass `shouldIgnore` on. -/
theorem buildMaterialData_ignored (d : OpaqueMaterialDefaults) (shader : ShaderPrim)
    (assetPath : List Char)
    (h : classifyMaterial assetPath shader ≠ RtSurfaceMaterialType.RayPortal) :
    (buildMaterialData d assetPath shader).ignored = shader.ignoreMaterial.getD false := by
  unfold buildMaterialData
  cases hc : classifyMaterial assetPath shader with
  | Opaque => rfl
  | Translucent => rfl
  | RayPortal => exact absurd hc h

/-- The ray-portal constructor call drops `shouldIgnore`. -/
theorem buildMaterialData_rayPortal_ignored (d : OpaqueMaterialDefaults) (shader : ShaderPrim)
    (assetPath : List Char)
    (h : classifyMaterial assetPath shader = RtSurfaceMaterialType.RayPortal) :
    (buildMaterialData d assetPath shader).ignored = false := by
  unfold buildMaterialData
  rw [h]

/-- C21 fails on the code: the shader of `mat_0000000000000021` is of the ray-portal
family and authors the ignore-material flag as true, yet the `MaterialData` that
`processMaterial` stores for it has the ignore flag unset; the same flag on the
translucent shader of `mat_0000000000000022` is carried into the stored `MaterialData`. -/
theorem rayPortal_drops_ignore_flag :
    classifyMaterial [] exIgnoredPortalShader = RtSurfaceMaterialType.RayPortal
    ∧ exIgnoredPortalShader.ignoreMaterial = some true
    ∧ (processMaterial exEnv exIgnoredPortalMaterial exUnloaded).1 = some 0x21
    ∧ (kvGet 0x21
        (processMaterial exEnv exIgnoredPortalMaterial exUnloaded).2.replacements.materials).map
          (fun md => md.ignored) = some false
    ∧ (kvGet 0x22
        (processMaterial exEnv exIgnoredTranslucentMaterial
          exUnloaded).2.replacements.materials).map
          (fun md => md.ignored) = some true := by
  decide

/-! ### C25 -/

theorem appendedP_cons {P : AssetReplacement → Prop} {ms added l : List AssetReplacement}
    {x : AssetReplacement} (h : l = ms ++ [x] ++ added) (hx : P x)
    (hadd : ∀ e ∈ added, P e) :
    ∃ added1, l = ms ++ added1 ∧ ∀ e ∈ added1, P e := by
  refine ⟨x :: added, ?_, ?_⟩
  · rw [h, List.append_assoc]
    rfl
  · intro e he
    rcases List.mem_cons.mp he with rfl | he
    · exact hx
    · exact hadd e he

theorem appendedP_snoc {P : AssetReplacement → Prop} {ms added l : List AssetReplacement}
    (x : AssetReplacement) (h : l = ms ++ added) (hx : P x) (hadd : ∀ e ∈ added, P e) :
    ∃ added1, l ++ [x] = ms ++ added1 ∧ ∀ e ∈ added1, P e := by
  refine ⟨added ++ [x], ?_, ?_⟩
  · rw [h, List.append_assoc]
  · intro e he
    rcases List.mem_append.mp he with he | he
    · exact hadd e he
    · rw [List.mem_singleton.mp he]
      exact hx

/-- Every entry the subset loop appends is a mesh entry with the transform handed to the
loop. -/
theorem subsetLoop_appended (P : AssetReplacement → Prop) (env : Env) (geomKey : Nat)
    (M : Matrix4)
    (hP : ∀ g m, P { geometryData := some g, materialData := m, replacementToObject := M })
    (children : List ChildPrim) :
    ∀ (isFirst : Bool) (mat : Option Nat) (σ : Impl) (ms : List AssetReplacement)
      (r : Option Nat × Impl × List AssetReplacement),
      subsetLoop env geomKey M children isFirst mat σ ms = Except.ok r →
      ∃ added, r.2.2 = ms ++ added ∧ ∀ e ∈ added, P e := by
  induction children with
  | nil =>
    intro isFirst mat σ ms r h
    unfold subsetLoop at h
    simp only [Except.ok.injEq] at h
    rw [← h]
    exact ⟨[], by simp, by simp⟩
  | cons child rest ih =>
    intro isFirst mat σ ms r h
    unfold subsetLoop at h
    by_cases hg : child.isGeomSubset = true
    · rw [if_pos hg] at h
      by_cases hf : isFirst = true
      · rw [if_pos hf] at h
        cases hp : processGeomSubset env child geomKey mat σ with
        | error f =>
          rw [hp] at h
          exact absurd h (by simp)
        | ok r1 =>
          rw [hp] at h
          obtain ⟨d, m1, σ1⟩ := r1
          exact ih _ _ _ _ _ h
      · rw [if_neg hf] at h
        simp only at h
        cases hgeo : σ.getGeometry child.usdOriginHash with
        | some g =>
          rw [hgeo] at h
          simp only at h
          obtain ⟨added, h1, h2⟩ := ih _ _ _ _ _ h
          exact appendedP_cons h1 (hP _ _) h2
        | none =>
          rw [hgeo] at h
          simp only at h
          cases hp : processGeomSubset env child child.usdOriginHash mat
              (σ.storeGeometry child.usdOriginHash ((σ.getGeometry geomKey).getD {})) with
          | error f =>
            rw [hp] at h
            exact absurd h (by simp)
          | ok r1 =>
            rw [hp] at h
            obtain ⟨d, m1, σ1⟩ := r1
            cases d with
            | true =>
              simp only at h
              obtain ⟨added, h1, h2⟩ := ih _ _ _ _ _ h
              exact appendedP_cons h1 (hP _ _) h2
            | false =>
              simp only at h
              exact ih _ _ _ _ _ h
    · rw [if_neg hg] at h
      exact ih _ _ _ _ _ h

/-- Every entry `processPrim` appends is a mesh entry with the transform
`replacementToObjectOf env prim`. -/
theorem processPrim_appended (P : AssetReplacement → Prop) (env : Env) (prim : UsdPrim)
    (hP : ∀ g m, P { geometryData := some g, materialData := m
                     replacementToObject := replacementToObjectOf env prim })
    (σ : Impl) (ms : List AssetReplacement) (r : Impl × List AssetReplacement)
    (h : processPrim env prim σ ms = Except.ok r) :
    ∃ added, r.2 = ms ++ added ∧ ∀ e ∈ added, P e := by
  have tail : ∀ (w : Except Fault (Option Nat × Impl × List AssetReplacement)),
      (∀ q, w = Except.ok q → ∃ added, q.2.2 = ms ++ added ∧ ∀ e ∈ added, P e) →
      (match w with
        | Except.error f => Except.error f
        | Except.ok (materialData, σ2, meshes1) =>
          if ((σ2.getGeometry prim.usdOriginHash).map (fun g => g.indexCount)).getD 0 = 0 then
            Except.ok (σ2, meshes1)
          else
            Except.ok (σ2, meshes1 ++ [{ geometryData := some prim.usdOriginHash
                                         materialData := materialData
                                         replacementToObject := replacementToObjectOf env prim }]))
        = (Except.ok r : Except Fault (Impl × List AssetReplacement)) →
      ∃ added, r.2 = ms ++ added ∧ ∀ e ∈ added, P e := by
    intro w hw hr
    cases w with
    | error f => exact absurd hr (by simp)
    | ok q =>
      obtain ⟨added, h1, h2⟩ := hw q rfl
      obtain ⟨m, σ2, ms1⟩ := q
      simp only at hr h1
      split_ifs at hr
      · simp only [Except.ok.injEq] at hr
        rw [← hr]
        exact ⟨added, h1, h2⟩
      · simp only [Except.ok.injEq] at hr
        rw [← hr]
        exact appendedP_snoc _ h1 (hP _ _) h2
  have walk : ∀ σ1 : Impl, ∀ q,
      (if (prim.activeChildren.filter (fun c => c.isGeomSubset)).length = 1 then
        match prim.activeChildren.find? (fun c => c.isGeomSubset) with
        | some child =>
          Except.ok ((if (processMaterialUser env child.boundMaterial
              (processMaterialUser env prim.boundMaterial σ1).2).1.isSome
            then (processMaterialUser env child.boundMaterial
              (processMaterialUser env prim.boundMaterial σ1).2).1
            else (processMaterialUser env prim.boundMaterial σ1).1),
            (processMaterialUser env child.boundMaterial
              (processMaterialUser env prim.boundMaterial σ1).2).2, ms)
        | none => Except.ok ((processMaterialUser env prim.boundMaterial σ1).1,
            (processMaterialUser env prim.boundMaterial σ1).2, ms)
      else subsetLoop env prim.usdOriginHash (replacementToObjectOf env prim)
        prim.activeChildren true (processMaterialUser env prim.boundMaterial σ1).1
        (processMaterialUser env prim.boundMaterial σ1).2 ms) = Except.ok q →
      ∃ added, q.2.2 = ms ++ added ∧ ∀ e ∈ added, P e := by
    intro σ1 q hq
    split_ifs at hq with hn
    · split at hq <;>
      · simp only [Except.ok.injEq] at hq
        rw [← hq]
        exact ⟨[], by simp, by simp⟩
    · exact subsetLoop_appended P env _ _ hP _ _ _ _ _ _ hq
  unfold processPrim at h
  simp only at h
  cases hg : σ.getGeometry prim.usdOriginHash with
  | some g =>
    rw [hg] at h
    exact tail _ (walk σ) h
  | none =>
    rw [hg] at h
    simp only at h
    cases hc : createGeometry prim
        (prim.activeChildren.filter (fun c => c.isGeomSubset)).length σ with
    | error f =>
      rw [hc] at h
      exact absurd h (by simp)
    | ok q =>
      rw [hc] at h
      obtain ⟨b, σ1⟩ := q
      cases b with
      | false =>
        simp only [Except.ok.injEq] at h
        rw [← h]
        exact ⟨[], by simp, by simp⟩
      | true => exact tail _ (walk σ1) h

theorem XYflip_mul_self : XYflip * XYflip = 1 := by
  unfold XYflip
  rw [Matrix.diagonal_mul_diagonal]
  ext i j
  fin_cases i <;> fin_cases j <;> simp [Matrix.diagonal, Matrix.one_apply]

theorem XYflip_inv : XYflip⁻¹ = XYflip := Matrix.inv_eq_right_inv XYflip_mul_self

/-- An entry of the change of basis: the sign flips when exactly one of the two indices
is the Z index. -/
theorem XYflip_conj_apply (M : Matrix4) (i j : Fin 4) :
    (XYflip * M * XYflip) i j = if (i = 2 ∧ j ≠ 2) ∨ (i ≠ 2 ∧ j = 2) then - M i j else M i j := by
  unfold XYflip
  rw [Matrix.mul_diagonal, Matrix.diagonal_mul]
  fin_cases i <;> fin_cases j <;> simp

theorem XYflip_conj_conj (M : Matrix4) : XYflip * (XYflip * M * XYflip) * XYflip = M := by
  calc XYflip * (XYflip * M * XYflip) * XYflip
      = (XYflip * XYflip) * M * (XYflip * XYflip) := by simp only [Matrix.mul_assoc]
    _ = M := by rw [XYflip_mul_self, Matrix.one_mul, Matrix.mul_one]

/-- C25: with the left-handed option set, every entry that `processPrim` appends for a
node with transform `M` records `F * M * F⁻¹` for `F = XYflip = diag(1, 1, -1, 1)`; its
entry `(i, j)` is `-M i j` when exactly one of `i`, `j` is the Z index 2 and `M i j`
otherwise; and the change of basis applied twice gives `M` back. -/
theorem lhs_change_of_basis (env : Env) (prim : UsdPrim) (σ : Impl)
    (ms : List AssetReplacement) (r : Impl × List AssetReplacement)
    (hlhs : env.isLHS = true) (h : processPrim env prim σ ms = Except.ok r) :
    XYflip = Matrix.diagonal ![1, 1, -1, 1]
    ∧ (∃ added, r.2 = ms ++ added ∧ ∀ e ∈ added,
        e.replacementToObject = XYflip * prim.localToWorld * XYflip⁻¹
        ∧ ∀ i j : Fin 4, e.replacementToObject i j =
            if (i = 2 ∧ j ≠ 2) ∨ (i ≠ 2 ∧ j = 2) then - prim.localToWorld i j
            else prim.localToWorld i j)
    ∧ XYflip * (XYflip * prim.localToWorld * XYflip⁻¹) * XYflip⁻¹ = prim.localToWorld := by
  refine ⟨rfl, ?_, ?_⟩
  · refine processPrim_appended _ env prim ?_ σ ms r h
    intro g m
    have hM : replacementToObjectOf env prim = XYflip * prim.localToWorld * XYflip := by
      unfold replacementToObjectOf
      rw [if_pos hlhs]
    simp only [hM, XYflip_inv]
    exact ⟨trivial, fun i j => XYflip_conj_apply _ i j⟩
  · rw [XYflip_inv]
    exact XYflip_conj_conj _

/-- C25 witness: the sheared triangle under the left-handed option is accepted, and the
one entry appended for it has the entries `(0, 2)` and `(3, 2)` negated. -/
theorem lhs_change_of_basis_witness :
    ∃ r, processPrim exEnvLHS exSheared exUnloaded [] = Except.ok r
      ∧ (∃ e, r.2 = [e] ∧ e.replacementToObject 0 2 = -5 ∧ e.replacementToObject 3 2 = -9
          ∧ e.replacementToObject 3 0 = 7 ∧ e.replacementToObject 2 2 = 1) := by
  obtain ⟨σ1, g, hp, -, -⟩ := processPrim_plain_mesh exEnvLHS exSheared exUnloaded []
    [0, 1, 2] (by decide) rfl rfl rfl (by decide) (by decide) rfl rfl
  refine ⟨_, hp, ?_⟩
  obtain ⟨-, ⟨added, hadd, hall⟩, -⟩ :=
    lhs_change_of_basis exEnvLHS exSheared exUnloaded [] _ rfl hp
  simp only [List.nil_append] at hadd
  have he := hall _ (hadd ▸ List.mem_singleton_self _)
  refine ⟨_, rfl, ?_, ?_, ?_, ?_⟩
  · rw [he.2]; simp [exSheared]
  · rw [he.2]; simp [exSheared]
  · rw [he.2]; simp [exSheared]
  · rw [he.2]; simp [exSheared]

/-! ### C26 -/

/-- C26 fails on the code: the scaled child is a proper descendant of the mesh
replacement root `mesh_00000000DEADBEEF`; the entry `processPrim` appends for it records
the child's world transform (the scale by two), which is not its transform relative to
the root (the identity).  A light at the same place under the same root is recorded by
`processLight` with the transform relative to the root. -/
theorem descendant_mesh_records_world_transform :
    exScaledRoot.descendants = [exScaledChild]
    ∧ (∃ σ1 e0 e1, processReplacement exEnv exScaledRoot exUnloaded = Except.ok (σ1, [e0, e1])
      ∧ e1.geometryData = some exScaledChild.usdOriginHash
      ∧ e1.replacementToObject = exScaledChild.localToWorld
      ∧ e1.replacementToObject ≠ exScaledChild.relativeToRoot)
    ∧ ∃ l, processLight exEnv exScaledRoot.rootPrim exScaledLight []
        = Except.ok [{ lightData := some l }]
      ∧ l.localToRoot = exScaledChild.relativeToRoot := by
  refine ⟨rfl, ⟨_, _, _, rfl, rfl, rfl, ?_⟩, _, rfl, rfl⟩
  intro h
  have h00 := congrFun (congrFun h 0) 0
  simp [replacementToObjectOf, exEnv, exScaledChild] at h00

/-! ### C27 -/

theorem emod_toNat_of_range (i : Int) (h0 : 0 ≤ i) (h1 : i < 65536) :
    (((i % 2 ^ 16).toNat : Nat) : Int) = i := by
  have h : i % 2 ^ 16 = i := Int.emod_eq_of_lt h0 (by norm_num; exact h1)
  rw [h]
  exact Int.toNat_of_nonneg h0

theorem emod_toNat_of_neg (i : Int) (h0 : i < 0) : (((i % 2 ^ 16).toNat : Nat) : Int) ≠ i := by
  have h : 0 ≤ i % 2 ^ 16 := Int.emod_nonneg _ (by norm_num)
  rw [Int.toNat_of_nonneg h]
  omega

/-- When every index is below 65536 the index view is the 16-bit one. -/
theorem makeIndexBuffer_16 (vecIndices : List Int) (hint : ∀ i ∈ vecIndices, IsInt32 i)
    (hlt : ∀ i ∈ vecIndices, i < 65536) :
    makeIndexBuffer vecIndices =
      { stride := 2, indexType := VkIndexType.UINT16
        data := vecIndices.map (fun i => (i % 2 ^ 16).toNat) } := by
  unfold makeIndexBuffer
  rw [if_pos ((use16bitIndices_iff vecIndices hint).mpr hlt)]

/-- C27: for every non-empty array of `int` indices that are all below 65536, both
ingestion paths return and leave the 16-bit index view whose element at every position
`k` is the `k`-th input index reduced modulo 2^16; that element equals the input index
when the index is not negative (so an array with all elements in [0, 65536) is stored
exactly), and differs from it when the index is negative (such an index does not raise
the maximum, so the 16-bit path is still taken). -/
theorem index16_values (env : Env) (vecIndices : List Int)
    (hne : vecIndices ≠ []) (hint : ∀ i ∈ vecIndices, IsInt32 i)
    (hlt : ∀ i ∈ vecIndices, i < 65536) :
    ∃ ib : IndexBuffer,
      ib.indexType = VkIndexType.UINT16 ∧ ib.stride = 2
      ∧ ib.data.length = vecIndices.length
      ∧ (∀ (k : Nat) (i : Int), vecIndices[k]? = some i →
          ib.data[k]? = some (i % 2 ^ 16).toNat
          ∧ (0 ≤ i → (((i % 2 ^ 16).toNat : Nat) : Int) = i)
          ∧ (i < 0 → (((i % 2 ^ 16).toNat : Nat) : Int) ≠ i))
      ∧ ((∀ i ∈ vecIndices, 0 ≤ i) → ib.data.map Int.ofNat = vecIndices)
      ∧ (∀ (subPrim : ChildPrim) (geomKey : Nat) (materialData : Option Nat) (σ : Impl)
          (g : RasterGeometry),
          subPrim.triangleIndices = some vecIndices → σ.getGeometry geomKey = some g →
          ∃ mat σ' g',
            processGeomSubset env subPrim geomKey materialData σ = Except.ok (true, mat, σ')
            ∧ σ'.getGeometry geomKey = some g' ∧ g'.indexBuffer = some ib)
      ∧ (∀ (prim : UsdPrim) (σ : Impl) (meshes : List AssetReplacement),
          (prim.activeChildren.filter (fun c => c.isGeomSubset)).length ≤ 1 →
          σ.getGeometry prim.usdOriginHash = none →
          prim.faceVertexIndices = some vecIndices → prim.points ≠ [] →
          prim.faceVertexCounts.head? = some 3 → vecIndices.length % 3 = 0 →
          ∃ σ' meshes' g',
            processPrim env prim σ meshes = Except.ok (σ', meshes')
            ∧ σ'.getGeometry prim.usdOriginHash = some g' ∧ g'.indexBuffer = some ib) := by
  have hib := makeIndexBuffer_16 vecIndices hint hlt
  refine ⟨makeIndexBuffer vecIndices, by rw [hib], by rw [hib], by rw [hib]; simp, ?_, ?_, ?_, ?_⟩
  · intro k i hk
    refine ⟨?_, fun h0 => emod_toNat_of_range i h0 (hlt i (List.getElem?_mem hk)),
      emod_toNat_of_neg i⟩
    rw [hib]
    simp only [List.getElem?_map, hk, Option.map_some']
  · intro hpos
    rw [hib]
    simp only [List.map_map]
    conv_rhs => rw [← List.map_id vecIndices]
    apply List.map_congr_left
    intro i hi
    exact emod_toNat_of_range i (hpos i hi) (hlt i hi)
  · intro subPrim geomKey materialData σ g hidx hg
    obtain ⟨mat, σ', hr, hg'⟩ :=
      processGeomSubset_indexBuffer env subPrim geomKey materialData σ vecIndices g hidx hne hg
    exact ⟨mat, σ', _, hr, hg', rfl⟩
  · intro prim σ meshes hsub hnew hidx hpts hfc htri
    obtain ⟨σ', meshes', hr, hg'⟩ :=
      processPrim_accept env prim σ meshes vecIndices hsub hnew hidx hne hpts hfc htri
    exact ⟨σ', meshes', _, hr, hg', rfl⟩

/-- C27 witness: the subset with indices `0 1 65535` is stored as `0 1 65535` in 16 bits;
the mesh with indices `-1 0 1` is stored as `65535 0 1` in 16 bits. -/
theorem index16_values_witness :
    (∃ mat σ' g',
      processGeomSubset exEnv exSubset65535 1 none exWithGeometry = Except.ok (true, mat, σ')
      ∧ σ'.getGeometry 1 = some g'
      ∧ g'.indexBuffer
          = some { stride := 2, indexType := VkIndexType.UINT16, data := [0, 1, 65535] }) ∧
    (∃ σ' meshes' g',
      processPrim exEnv exMeshNegative exUnloaded [] = Except.ok (σ', meshes')
      ∧ σ'.getGeometry 42 = some g'
      ∧ g'.indexBuffer
          = some { stride := 2, indexType := VkIndexType.UINT16, data := [65535, 0, 1] }) := by
  obtain ⟨ib, h1, h2, h3, h4, -, h6, -⟩ :=
    index16_values exEnv [0, 1, 65535] (by decide) (by decide) (by decide)
  obtain ⟨jb, k1, k2, k3, k4, -, -, k7⟩ :=
    index16_values exEnv [-1, 0, 1] (by decide) (by decide) (by decide)
  constructor
  · obtain ⟨mat, σ', g', hr, hg, hb⟩ := h6 exSubset65535 1 none exWithGeometry {} rfl rfl
    refine ⟨mat, σ', g', hr, hg, ?_⟩
    rw [hb]
    obtain ⟨s, t, d⟩ := ib
    simp only at h1 h2 h3 h4
    subst h1 h2
    have e0 := (h4 0 0 rfl).1
    have e1 := (h4 1 1 rfl).1
    have e2 := (h4 2 65535 rfl).1
    match d, h3, e0, e1, e2 with
    | [a, b, c], _, e0, e1, e2 =>
      simp only [List.getElem?_cons_zero, List.getElem?_cons_succ, Option.some.injEq] at e0 e1 e2
      subst e0 e1 e2
      decide
  · obtain ⟨σ', ms', g', hr, hg, hb⟩ :=
      k7 exMeshNegative exUnloaded [] (by decide) rfl rfl (by decide) rfl rfl
    refine ⟨σ', ms', g', hr, hg, ?_⟩
    rw [hb]
    obtain ⟨s, t, d⟩ := jb
    simp only at k1 k2 k3 k4
    subst k1 k2
    have e0 := (k4 0 (-1) (by decide)).1
    have e1 := (k4 1 0 rfl).1
    have e2 := (k4 2 1 rfl).1
    match d, k3, e0, e1, e2 with
    | [a, b, c], _, e0, e1, e2 =>
      simp only [List.getElem?_cons_zero, List.getElem?_cons_succ, Option.some.injEq] at e0 e1 e2
      subst e0 e1 e2
      decide

/-! ### C23 -/

/-- C23 as stated fails: the mesh has the face-vertex counts `3 4 2` and nine indices
of its own, no subset, and is new to the store; `processPrim` accepts it and appends an
`AssetReplacement` for it, with all nine indices in the index view. -/
theorem mixed_faces_accepted :
    exMixedFaces.faceVertexCounts = [3, 4, 2]
    ∧ (exMixedFaces.activeChildren.filter (fun c => c.isGeomSubset)).length = 0
    ∧ exUnloaded.getGeometry exMixedFaces.usdOriginHash = none
    ∧ ∃ σ1 g e, processPrim exEnv exMixedFaces exUnloaded [] = Except.ok (σ1, [e])
        ∧ e.geometryData = some exMixedFaces.usdOriginHash
        ∧ σ1.getGeometry exMixedFaces.usdOriginHash = some g
        ∧ g.indexCount = 9 := by
  refine ⟨rfl, rfl, rfl, ?_⟩
  obtain ⟨σ1, g, hp, hg, hn⟩ := processPrim_plain_mesh exEnv exMixedFaces exUnloaded []
    [0, 1, 2, 0, 1, 2, 3, 0, 1] (by decide) rfl rfl rfl (by decide) (by decide) rfl rfl
  exact ⟨σ1, g, _, hp, rfl, hg, hn⟩

/-! ### C24 -/

theorem getGeometry_store_remove (σ : Impl) (h k : Nat) (g : RasterGeometry) :
    ((σ.storeGeometry h g).removeGeometry h).getGeometry k
      = if k = h then none else σ.getGeometry k := by
  by_cases hk : k = h
  · subst hk
    rw [if_pos rfl, getGeometry_removeGeometry, if_pos rfl]
  · rw [if_neg hk, getGeometry_removeGeometry_ne _ _ _ hk, getGeometry_storeGeometry_ne _ _ _ _ hk]

/-- C24: when the subset loop of `processPrim` reaches a geometry subset after the first
successful one (`isFirst` is false), the subset's structural hash is not in the store
and its `processGeomSubset` call returns false, the loop goes on to the remaining
children with the list of replacements unchanged (no `AssetReplacement` for the subset)
and with a store that holds no `RasterGeometry` under the subset's hash and, under every
other hash, what it held before. -/
theorem failed_subset_removed (env : Env) (geomKey : Nat) (M : Matrix4) (child : ChildPrim)
    (rest : List ChildPrim) (mat mat1 : Option Nat) (σ σ1 : Impl)
    (ms : List AssetReplacement)
    (hsub : child.isGeomSubset = true)
    (hnew : σ.getGeometry child.usdOriginHash = none)
    (hfail : processGeomSubset env child child.usdOriginHash mat
      (σ.storeGeometry child.usdOriginHash ((σ.getGeometry geomKey).getD {}))
        = Except.ok (false, mat1, σ1)) :
    ∃ σ2, subsetLoop env geomKey M (child :: rest) false mat σ ms
        = subsetLoop env geomKey M rest false mat σ2 ms
      ∧ σ2.getGeometry child.usdOriginHash = none
      ∧ (∀ k, k ≠ child.usdOriginHash → σ2.getGeometry k = σ.getGeometry k) := by
  refine ⟨σ1.removeGeometry child.usdOriginHash, ?_, ?_, ?_⟩
  · conv_lhs => unfold subsetLoop
    rw [if_pos hsub]
    simp only [Bool.false_eq_true, if_false, hnew, hfail]
  · rw [getGeometry_removeGeometry, if_pos rfl]
  · intro k hk
    rcases processGeomSubset_effect env child _ mat _ false mat1 σ1 hfail with ⟨-, rfl⟩ | ⟨h, -⟩
    · rw [getGeometry_store_remove, if_neg hk]
    · exact absurd h (by simp)

/-- C24 witness: in the three-subset mesh the second subset has no `triangleIndices`;
after `processPrim` the store holds nothing under its hash 8, and the replacements are
those of the third subset and of the mesh itself. -/
theorem failed_subset_removed_witness :
    (∃ σ2, subsetLoop exEnv 48 1 [exSubsetNoIndices] false none exWithGeometry []
        = subsetLoop exEnv 48 1 [] false none σ2 []
      ∧ σ2.getGeometry exSubsetNoIndices.usdOriginHash = none
      ∧ (∀ k, k ≠ exSubsetNoIndices.usdOriginHash →
          σ2.getGeometry k = exWithGeometry.getGeometry k))
    ∧ ∃ σ' e1 e2, processPrim exEnv exThreeSubsetMesh exUnloaded [] = Except.ok (σ', [e1, e2])
        ∧ σ'.getGeometry 8 = none
        ∧ e1.geometryData = some 10 ∧ e2.geometryData = some 48 :=
  ⟨failed_subset_removed exEnv 48 1 exSubsetNoIndices [] none none exWithGeometry _ []
      rfl rfl rfl,
    _, _, _, rfl, rfl, rfl, rfl⟩

/-! ### The steps of `processPrim` and what they leave of a stored geometry -/

/-- A normal return of `processPrim` taken apart: the creation block (skipped when the
geometry is in the store), the walk over the subsets, and the final append. -/
theorem processPrim_steps (env : Env) (prim : UsdPrim) (σ : Impl)
    (ms : List AssetReplacement) (σ' : Impl) (ms' : List AssetReplacement)
    (h : processPrim env prim σ ms = Except.ok (σ', ms')) :
    ∃ (b : Bool) (σ1 : Impl),
      ((∃ g0, σ.getGeometry prim.usdOriginHash = some g0 ∧ b = true ∧ σ1 = σ) ∨
        (σ.getGeometry prim.usdOriginHash = none ∧
          createGeometry prim (prim.activeChildren.filter (fun c => c.isGeomSubset)).length σ
            = Except.ok (b, σ1)))
      ∧ (b = false → σ' = σ1 ∧ ms' = ms)
      ∧ (b = true → ∃ (m : Option Nat) (ms1 : List AssetReplacement),
          (((prim.activeChildren.filter (fun c => c.isGeomSubset)).length = 1
              ∧ (∀ k, σ'.getGeometry k = σ1.getGeometry k) ∧ ms1 = ms) ∨
            ((prim.activeChildren.filter (fun c => c.isGeomSubset)).length ≠ 1
              ∧ subsetLoop env prim.usdOriginHash (replacementToObjectOf env prim)
                  prim.activeChildren true (processMaterialUser env prim.boundMaterial σ1).1
                  (processMaterialUser env prim.boundMaterial σ1).2 ms
                  = Except.ok (m, σ', ms1)))
          ∧ ms' = if ((σ'.getGeometry prim.usdOriginHash).map (fun g => g.indexCount)).getD 0 = 0
                  then ms1
                  else ms1 ++ [{ geometryData := some prim.usdOriginHash, materialData := m
                                 replacementToObject := replacementToObjectOf env prim }]) := by
  have tail : ∀ (w : Except Fault (Option Nat × Impl × List AssetReplacement)),
      (match w with
        | Except.error f => Except.error f
        | Except.ok (materialData, σ2, meshes1) =>
          if ((σ2.getGeometry prim.usdOriginHash).map (fun g => g.indexCount)).getD 0 = 0 then
            Except.ok (σ2, meshes1)
          else
            Except.ok (σ2, meshes1 ++ [{ geometryData := some prim.usdOriginHash
                                         materialData := materialData
                                         replacementToObject := replacementToObjectOf env prim }]))
        = (Except.ok (σ', ms') : Except Fault (Impl × List AssetReplacement)) →
      ∃ (m : Option Nat) (ms1 : List AssetReplacement), w = Except.ok (m, σ', ms1)
        ∧ ms' = if ((σ'.getGeometry prim.usdOriginHash).map (fun g => g.indexCount)).getD 0 = 0
                then ms1
                else ms1 ++ [{ geometryData := some prim.usdOriginHash, materialData := m
                               replacementToObject := replacementToObjectOf env prim }] := by
    intro w hr
    cases w with
    | error f => exact absurd hr (by simp)
    | ok q =>
      obtain ⟨m, σ2, ms1⟩ := q
      simp only at hr
      by_cases hz : ((σ2.getGeometry prim.usdOriginHash).map (fun g => g.indexCount)).getD 0 = 0
      · rw [if_pos hz] at hr
        simp only [Except.ok.injEq, Prod.mk.injEq] at hr
        obtain ⟨rfl, rfl⟩ := hr
        exact ⟨m, ms1, rfl, by rw [if_pos hz]⟩
      · rw [if_neg hz] at hr
        simp only [Except.ok.injEq, Prod.mk.injEq] at hr
        obtain ⟨rfl, rfl⟩ := hr
        exact ⟨m, ms1, rfl, by rw [if_neg hz]⟩
  have walk : ∀ (σ1 : Impl) (m : Option Nat) (ms1 : List AssetReplacement),
      (if (prim.activeChildren.filter (fun c => c.isGeomSubset)).length = 1 then
        match prim.activeChildren.find? (fun c => c.isGeomSubset) with
        | some child =>
          Except.ok ((if (processMaterialUser env child.boundMaterial
              (processMaterialUser env prim.boundMaterial σ1).2).1.isSome
            then (processMaterialUser env child.boundMaterial
              (processMaterialUser env prim.boundMaterial σ1).2).1
            else (processMaterialUser env prim.boundMaterial σ1).1),
            (processMaterialUser env child.boundMaterial
              (processMaterialUser env prim.boundMaterial σ1).2).2, ms)
        | none => Except.ok ((processMaterialUser env prim.boundMaterial σ1).1,
            (processMaterialUser env prim.boundMaterial σ1).2, ms)
      else subsetLoop env prim.usdOriginHash (replacementToObjectOf env prim)
        prim.activeChildren true (processMaterialUser env prim.boundMaterial σ1).1
        (processMaterialUser env prim.boundMaterial σ1).2 ms) = Except.ok (m, σ', ms1) →
      (((prim.activeChildren.filter (fun c => c.isGeomSubset)).length = 1
          ∧ (∀ k, σ'.getGeometry k = σ1.getGeometry k) ∧ ms1 = ms) ∨
        ((prim.activeChildren.filter (fun c => c.isGeomSubset)).length ≠ 1
          ∧ subsetLoop env prim.usdOriginHash (replacementToObjectOf env prim)
              prim.activeChildren true (processMaterialUser env prim.boundMaterial σ1).1
              (processMaterialUser env prim.boundMaterial σ1).2 ms
              = Except.ok (m, σ', ms1))) := by
    intro σ1 m ms1 hq
    by_cases hn : (prim.activeChildren.filter (fun c => c.isGeomSubset)).length = 1
    · rw [if_pos hn] at hq
      left
      refine ⟨hn, ?_⟩
      split at hq
      · simp only [Except.ok.injEq, Prod.mk.injEq] at hq
        obtain ⟨-, rfl, rfl⟩ := hq
        exact ⟨fun k => by simp only [processMaterialUser_getGeometry], rfl⟩
      · simp only [Except.ok.injEq, Prod.mk.injEq] at hq
        obtain ⟨-, rfl, rfl⟩ := hq
        exact ⟨fun k => by simp only [processMaterialUser_getGeometry], rfl⟩
    · rw [if_neg hn] at hq
      exact Or.inr ⟨hn, hq⟩
  unfold processPrim at h
  simp only at h
  cases hg : σ.getGeometry prim.usdOriginHash with
  | some g =>
    rw [hg] at h
    obtain ⟨m, ms1, hw, hms⟩ := tail _ h
    exact ⟨true, σ, Or.inl ⟨g, rfl, rfl, rfl⟩, fun hb => absurd hb (by simp),
      fun _ => ⟨m, ms1, walk σ m ms1 hw, hms⟩⟩
  | none =>
    rw [hg] at h
    simp only at h
    cases hc : createGeometry prim
        (prim.activeChildren.filter (fun c => c.isGeomSubset)).length σ with
    | error f =>
      rw [hc] at h
      exact absurd h (by simp)
    | ok q =>
      rw [hc] at h
      obtain ⟨b, σ1⟩ := q
      cases b with
      | false =>
        simp only [Except.ok.injEq, Prod.mk.injEq] at h
        exact ⟨false, σ1, Or.inr ⟨rfl, rfl⟩, fun _ => ⟨h.1.symm, h.2.symm⟩,
          fun hb => absurd hb (by simp)⟩
      | true =>
        obtain ⟨m, ms1, hw, hms⟩ := tail _ h
        exact ⟨true, σ1, Or.inr ⟨rfl, rfl⟩, fun hb => absurd hb (by simp),
          fun _ => ⟨m, ms1, walk σ1 m ms1 hw, hms⟩⟩

/-- The index block writes only to the geometry of the mesh. -/
theorem indexBlock_cases (prim : UsdPrim) (numSubsets : Nat) (τ : Impl) (r : Option Impl)
    (h : indexBlock prim numSubsets τ = Except.ok r) :
    (r = some τ ∧ (1 < numSubsets ∨ (prim.faceVertexIndices.getD []) = [])) ∨
    (r = none ∧ numSubsets ≤ 1 ∧ (prim.faceVertexIndices.getD []) ≠ []
      ∧ ∃ c, prim.faceVertexCounts.head? = some c
        ∧ (c ≠ 3 ∨ (prim.faceVertexIndices.getD []).length % 3 ≠ 0)) ∨
    (r = some (τ.modifyGeometry prim.usdOriginHash
        (writeMeshIndices (prim.faceVertexIndices.getD [])))
      ∧ numSubsets ≤ 1 ∧ (prim.faceVertexIndices.getD []) ≠ []
      ∧ prim.faceVertexCounts.head? = some 3
      ∧ (prim.faceVertexIndices.getD []).length % 3 = 0) := by
  unfold indexBlock at h
  simp only at h
  by_cases hsz : 0 < (if numSubsets ≤ 1 then (prim.faceVertexIndices.getD []).length * 4 else 0)
  · rw [if_pos hsz] at h
    have hn : numSubsets ≤ 1 := by
      by_contra hcon
      rw [if_neg hcon] at hsz
      exact absurd hsz (by decide)
    rw [if_pos hn] at hsz
    have hne : prim.faceVertexIndices.getD [] ≠ [] := by
      intro hcon
      rw [hcon] at hsz
      exact absurd hsz (by decide)
    cases hfc : prim.faceVertexCounts.head? with
    | none =>
      rw [hfc] at h
      exact absurd h (by simp)
    | some c =>
      rw [hfc] at h
      simp only at h
      by_cases hck : c ≠ 3 ∨ (prim.faceVertexIndices.getD []).length % 3 ≠ 0
      · rw [if_pos hck] at h
        simp only [Except.ok.injEq] at h
        exact Or.inr (Or.inl ⟨h.symm, hn, hne, c, rfl, hck⟩)
      · rw [if_neg hck] at h
        simp only [Except.ok.injEq] at h
        have hc3 : c = 3 := by
          by_contra hcon
          exact hck (Or.inl hcon)
        have h3 : (prim.faceVertexIndices.getD []).length % 3 = 0 := by
          by_contra hcon
          exact hck (Or.inr hcon)
        exact Or.inr (Or.inr ⟨h.symm, hn, hne, by rw [hc3], h3⟩)
  · rw [if_neg hsz] at h
    simp only [Except.ok.injEq] at h
    refine Or.inl ⟨h.symm, ?_⟩
    by_cases hn : numSubsets ≤ 1
    · rw [if_pos hn] at hsz
      right
      apply List.length_eq_zero.mp
      omega
    · left
      omega

/-- The geometry an accepting creation block leaves: the vertex fields over the
geometry with the vertex count, and with the index view when the mesh has at most one
subset and indices of its own. -/
theorem createGeometry_stored (prim : UsdPrim) (numSubsets : Nat) (σ σ1 : Impl)
    (h : createGeometry prim numSubsets σ = Except.ok (true, σ1)) :
    prim.points ≠ [] ∧
    ∃ (cUV cPos : Nat) (g0 : RasterGeometry),
      σ1.getGeometry prim.usdOriginHash = some (fillVertexFields prim cUV cPos g0)
      ∧ (g0 = writeVertexCount prim.points.length {}
        ∨ (numSubsets ≤ 1 ∧ prim.faceVertexIndices.getD [] ≠ []
          ∧ prim.faceVertexCounts.head? = some 3
          ∧ (prim.faceVertexIndices.getD []).length % 3 = 0
          ∧ g0 = writeMeshIndices (prim.faceVertexIndices.getD [])
              (writeVertexCount prim.points.length {}))) := by
  unfold createGeometry at h
  simp only at h
  split_ifs at h with h1 h2
  · simp at h
  · simp at h
  · refine ⟨fun hcon => h2 (by rw [hcon]; rfl), ?_⟩
    have hbase : ((σ.storeGeometry prim.usdOriginHash {}).modifyGeometry prim.usdOriginHash
        (writeVertexCount prim.points.length)).getGeometry prim.usdOriginHash
          = some (writeVertexCount prim.points.length {}) := by
      simp [getGeometry_modifyGeometry, getGeometry_storeGeometry]
    cases hib : indexBlock prim numSubsets
        ((σ.storeGeometry prim.usdOriginHash {}).modifyGeometry prim.usdOriginHash
          (writeVertexCount prim.points.length)) with
    | error f =>
      rw [hib] at h
      exact absurd h (by simp)
    | ok r =>
      rw [hib] at h
      rcases indexBlock_cases prim numSubsets _ r hib with
        ⟨rfl, -⟩ | ⟨rfl, -⟩ | ⟨rfl, hn, hne, hfc, h3⟩
      · simp only [Except.ok.injEq, Prod.mk.injEq, true_and] at h
        rw [← h, vertexBlock_getGeometry, hbase]
        exact ⟨_, _, _, rfl, Or.inl rfl⟩
      · simp at h
      · simp only [Except.ok.injEq, Prod.mk.injEq, true_and] at h
        rw [← h, vertexBlock_getGeometry, getGeometry_modifyGeometry, if_pos rfl, hbase]
        exact ⟨_, _, _, rfl, Or.inr ⟨hn, hne, hfc, h3, rfl⟩⟩

/-- The geometry a rejecting creation block leaves has no indices. -/
theorem createGeometry_rejected (prim : UsdPrim) (numSubsets : Nat) (σ σ1 : Impl)
    (h : createGeometry prim numSubsets σ = Except.ok (false, σ1)) :
    ∃ g, σ1.getGeometry prim.usdOriginHash = some g ∧ g.indexCount = 0
      ∧ g.indexBuffer = none := by
  unfold createGeometry at h
  simp only at h
  split_ifs at h with h1 h2
  · simp only [Except.ok.injEq, Prod.mk.injEq, true_and] at h
    rw [← h]
    exact ⟨{}, by simp [getGeometry_storeGeometry], rfl, rfl⟩
  · simp only [Except.ok.injEq, Prod.mk.injEq, true_and] at h
    rw [← h]
    exact ⟨{}, by simp [getGeometry_storeGeometry], rfl, rfl⟩
  · cases hib : indexBlock prim numSubsets
        ((σ.storeGeometry prim.usdOriginHash {}).modifyGeometry prim.usdOriginHash
          (writeVertexCount prim.points.length)) with
    | error f =>
      rw [hib] at h
      exact absurd h (by simp)
    | ok r =>
      rw [hib] at h
      rcases indexBlock_cases prim numSubsets _ r hib with ⟨rfl, -⟩ | ⟨rfl, -⟩ | ⟨rfl, -⟩
      · simp at h
      · simp only [Except.ok.injEq, Prod.mk.injEq, true_and] at h
        rw [← h]
        exact ⟨writeVertexCount prim.points.length {},
          by simp [getGeometry_modifyGeometry, getGeometry_storeGeometry], rfl, rfl⟩
      · simp at h

/-- The subset loop keeps a property of the geometry stored under `k`, as long as the
writes of `processGeomSubset` keep it when `k` is the geometry of the mesh itself. -/
theorem subsetLoop_keeps (Q : RasterGeometry → Prop) (env : Env) (geomKey k : Nat)
    (M : Matrix4)
    (hQ : geomKey = k → ∀ idx c g, Q g → Q (writeSubsetIndices idx c g))
    (children : List ChildPrim) :
    ∀ (isFirst : Bool) (mat : Option Nat) (σ : Impl) (ms : List AssetReplacement)
      (r : Option Nat × Impl × List AssetReplacement),
      subsetLoop env geomKey M children isFirst mat σ ms = Except.ok r →
      (∃ g, σ.getGeometry k = some g ∧ Q g) → ∃ g, r.2.1.getGeometry k = some g ∧ Q g := by
  have step : ∀ (child : ChildPrim) (q : Nat) (mat : Option Nat) (τ : Impl) (d : Bool)
      (m1 : Option Nat) (τ1 : Impl),
      processGeomSubset env child q mat τ = Except.ok (d, m1, τ1) →
      (q = k → ∀ idx c g, Q g → Q (writeSubsetIndices idx c g)) →
      (∃ g, τ.getGeometry k = some g ∧ Q g) → ∃ g, τ1.getGeometry k = some g ∧ Q g := by
    intro child q mat τ d m1 τ1 hp hq hk
    rcases processGeomSubset_effect env child q mat τ d m1 τ1 hp with ⟨-, rfl⟩ | ⟨-, -, idx, hg⟩
    · exact hk
    · obtain ⟨g, hg1, hg2⟩ := hk
      rw [hg k]
      by_cases hkq : k = q
      · rw [if_pos hkq, hg1]
        exact ⟨_, rfl, hq hkq.symm _ _ _ hg2⟩
      · rw [if_neg hkq]
        exact ⟨g, hg1, hg2⟩
  induction children with
  | nil =>
    intro isFirst mat σ ms r h hk
    unfold subsetLoop at h
    simp only [Except.ok.injEq] at h
    rw [← h]
    exact hk
  | cons child rest ih =>
    intro isFirst mat σ ms r h hk
    unfold subsetLoop at h
    by_cases hg : child.isGeomSubset = true
    · rw [if_pos hg] at h
      by_cases hf : isFirst = true
      · rw [if_pos hf] at h
        cases hp : processGeomSubset env child geomKey mat σ with
        | error f =>
          rw [hp] at h
          exact absurd h (by simp)
        | ok r1 =>
          rw [hp] at h
          obtain ⟨d, m1, σ1⟩ := r1
          exact ih _ _ _ _ _ h (step _ _ _ _ _ _ _ hp hQ hk)
      · rw [if_neg hf] at h
        simp only at h
        cases hgeo : σ.getGeometry child.usdOriginHash with
        | some g =>
          rw [hgeo] at h
          simp only at h
          refine ih _ _ _ _ _ h ?_
          rw [processMaterialUser_getGeometry]
          exact hk
        | none =>
          rw [hgeo] at h
          simp only at h
          have hck : k ≠ child.usdOriginHash := by
            intro hcon
            obtain ⟨g, hg1, -⟩ := hk
            rw [hcon, hgeo] at hg1
            exact absurd hg1 (by simp)
          have hk0 : ∃ g, (σ.storeGeometry child.usdOriginHash
              ((σ.getGeometry geomKey).getD {})).getGeometry k = some g ∧ Q g := by
            rw [getGeometry_storeGeometry_ne _ _ _ _ hck]
            exact hk
          cases hp : processGeomSubset env child child.usdOriginHash mat
              (σ.storeGeometry child.usdOriginHash ((σ.getGeometry geomKey).getD {})) with
          | error f =>
            rw [hp] at h
            exact absurd h (by simp)
          | ok r1 =>
            rw [hp] at h
            obtain ⟨d, m1, σ1⟩ := r1
            have hk1 := step _ _ _ _ _ _ _ hp (fun hcon => absurd hcon.symm hck) hk0
            cases d with
            | true =>
              simp only at h
              exact ih _ _ _ _ _ h hk1
            | false =>
              simp only at h
              refine ih _ _ _ _ _ h ?_
              rw [getGeometry_removeGeometry_ne _ _ _ hck]
              exact hk1
    · rw [if_neg hg] at h
      exact ih _ _ _ _ _ h hk

/-- A mesh without subsets leaves the subset loop at once. -/
theorem subsetLoop_zero_subsets (env : Env) (geomKey : Nat) (M : Matrix4)
    (children : List ChildPrim) (isFirst : Bool) (mat : Option Nat) (σ : Impl)
    (ms : List AssetReplacement)
    (h0 : (children.filter (fun c => c.isGeomSubset)).length = 0) :
    subsetLoop env geomKey M children isFirst mat σ ms = Except.ok (mat, σ, ms) := by
  rw [subsetLoop_filter, List.length_eq_zero.mp h0]
  rfl

/-- The floats of the first vertex, followed by the interleaving of the rest. -/
theorem interleaveVertices_cons (nv uv : Bool) (p : GfVec3f) (ps ns : List GfVec3f)
    (ts : List GfVec2f) (hn : nv = true → ns ≠ []) (ht : uv = true → ts ≠ []) :
    ∃ nf uf, interleaveVertices nv uv (p :: ps) ns ts
        = [p.x, p.y, p.z] ++ nf ++ uf ++ interleaveVertices nv uv ps ns.tail ts.tail
      ∧ (if nv then ∃ n, ns[0]? = some n ∧ nf = [n.x, n.y, n.z] else nf = [])
      ∧ (if uv then ∃ t, ts[0]? = some t ∧ uf = [t.x, t.y] else uf = [])
      ∧ nf.length = (if nv then 3 else 0) ∧ uf.length = (if uv then 2 else 0) := by
  cases nv with
  | false =>
    cases uv with
    | false => exact ⟨[], [], by simp [interleaveVertices], by simp, by simp, rfl, rfl⟩
    | true =>
      cases ts with
      | nil => exact absurd rfl (ht rfl)
      | cons t ts =>
        exact ⟨[], [t.x, t.y], by simp [interleaveVertices], by simp, by simp, rfl, rfl⟩
  | true =>
    cases ns with
    | nil => exact absurd rfl (hn rfl)
    | cons n ns =>
      cases uv with
      | false =>
        exact ⟨[n.x, n.y, n.z], [], by simp [interleaveVertices], by simp, by simp, rfl, rfl⟩
      | true =>
        cases ts with
        | nil => exact absurd rfl (ht rfl)
        | cons t ts =>
          exact ⟨[n.x, n.y, n.z], [t.x, t.y], by simp [interleaveVertices], by simp, by simp,
            rfl, rfl⟩

/-- The number of floats written: the floats per vertex times the number of points. -/
theorem interleaveVertices_length (nv uv : Bool) :
    ∀ (ps ns : List GfVec3f) (ts : List GfVec2f),
      (nv = true → ns.length = ps.length) → (uv = true → ts.length = ps.length) →
      (interleaveVertices nv uv ps ns ts).length
        = ps.length * (3 + (if nv then 3 else 0) + (if uv then 2 else 0)) := by
  intro ps
  induction ps with
  | nil =>
    intro ns ts _ _
    simp [interleaveVertices]
  | cons p ps ih =>
    intro ns ts hn ht
    have hn0 : nv = true → ns ≠ [] := by
      intro h hcon
      have := hn h
      rw [hcon] at this
      simp at this
    have ht0 : uv = true → ts ≠ [] := by
      intro h hcon
      have := ht h
      rw [hcon] at this
      simp at this
    obtain ⟨nf, uf, heq, -, -, hnl, hul⟩ := interleaveVertices_cons nv uv p ps ns ts hn0 ht0
    rw [heq]
    simp only [List.length_append, List.length_cons, List.length_nil, hnl, hul]
    rw [ih ns.tail ts.tail
      (fun h => by rw [List.length_tail, hn h]; simp)
      (fun h => by rw [List.length_tail, ht h]; simp)]
    ring

theorem isNormalValid_iff (prim : UsdPrim) (hpts : prim.points ≠ []) :
    isNormalValid prim = true ↔ prim.normals.length = prim.points.length := by
  unfold isNormalValid
  simp only [Bool.and_eq_true, Bool.not_eq_true', List.isEmpty_eq_false, decide_eq_true_eq]
  constructor
  · intro h
    exact h.2.symm
  · intro h
    refine ⟨?_, h.symm⟩
    intro hcon
    rw [hcon] at h
    exact hpts (List.length_eq_zero.mp h.symm)

theorem isUVValid_iff (prim : UsdPrim) (hpts : prim.points ≠ []) :
    isUVValid prim = true ↔ prim.invertedUvs.length = prim.points.length := by
  unfold isUVValid
  simp only [Bool.and_eq_true, Bool.not_eq_true', List.isEmpty_eq_false, decide_eq_true_eq]
  constructor
  · intro h
    exact h.2.symm
  · intro h
    refine ⟨?_, h.symm⟩
    intro hcon
    rw [hcon] at h
    exact hpts (List.length_eq_zero.mp h.symm)

/-- A mesh new to the store that ends with a non-zero index count went through an
accepting creation block; the walk over the subsets left the vertex fields written there,
and left the whole geometry when the mesh has at most one subset. -/
theorem processPrim_created (env : Env) (prim : UsdPrim) (σ : Impl)
    (ms : List AssetReplacement) (σ' : Impl) (ms' : List AssetReplacement)
    (g : RasterGeometry)
    (hnew : σ.getGeometry prim.usdOriginHash = none)
    (hr : processPrim env prim σ ms = Except.ok (σ', ms'))
    (hg : σ'.getGeometry prim.usdOriginHash = some g) (hacc : g.indexCount ≠ 0) :
    prim.points ≠ [] ∧
    ∃ (cUV cPos : Nat) (g0 : RasterGeometry),
      vertexFields g = vertexFields (fillVertexFields prim cUV cPos g0)
      ∧ g0.vertexCount = prim.points.length
      ∧ g0.normalBuffer = none ∧ g0.texcoordBuffer = none
      ∧ ((prim.activeChildren.filter (fun c => c.isGeomSubset)).length ≤ 1 →
          g = fillVertexFields prim cUV cPos
                (writeMeshIndices (prim.faceVertexIndices.getD [])
                  (writeVertexCount prim.points.length {}))) := by
  obtain ⟨b, σ1, hcr, hfalse, htrue⟩ := processPrim_steps env prim σ ms σ' ms' hr
  rcases hcr with ⟨g0, hg0, -, -⟩ | ⟨-, hc⟩
  · rw [hnew] at hg0
    exact absurd hg0 (by simp)
  cases b with
  | false =>
    obtain ⟨g1, hg1, hz, -⟩ := createGeometry_rejected prim _ σ σ1 hc
    rw [(hfalse rfl).1, hg1] at hg
    simp only [Option.some.injEq] at hg
    rw [← hg] at hacc
    exact absurd hz hacc
  | true =>
    obtain ⟨hpts, cUV, cPos, g0, hs, hcase⟩ := createGeometry_stored prim _ σ σ1 hc
    refine ⟨hpts, cUV, cPos, g0, ?_, ?_, ?_, ?_, ?_⟩
    · obtain ⟨m, ms1, hw, -⟩ := htrue rfl
      rcases hw with ⟨-, hsame, -⟩ | ⟨hn, hloop⟩
      · rw [hsame, hs] at hg
        simp only [Option.some.injEq] at hg
        rw [hg]
      · have hk := subsetLoop_keeps
          (fun g1 => vertexFields g1 = vertexFields (fillVertexFields prim cUV cPos g0)) env
          prim.usdOriginHash prim.usdOriginHash _ (fun _ idx c g1 h1 => h1) _ _ _ _ _ _ hloop
          ⟨_, by rw [processMaterialUser_getGeometry]; exact hs, rfl⟩
        obtain ⟨g2, hg2, hv⟩ := hk
        simp only at hg2
        rw [hg] at hg2
        simp only [Option.some.injEq] at hg2
        rw [hg2]
        exact hv
    · rcases hcase with rfl | ⟨-, -, -, -, rfl⟩ <;> rfl
    · rcases hcase with rfl | ⟨-, -, -, -, rfl⟩ <;> rfl
    · rcases hcase with rfl | ⟨-, -, -, -, rfl⟩ <;> rfl
    · intro hle
      obtain ⟨m, ms1, hw, -⟩ := htrue rfl
      have hgs : g = fillVertexFields prim cUV cPos g0 := by
        rcases hw with ⟨-, hsame, -⟩ | ⟨hn, hloop⟩
        · rw [hsame, hs] at hg
          simp only [Option.some.injEq] at hg
          exact hg.symm
        · have h0 : (prim.activeChildren.filter (fun c => c.isGeomSubset)).length = 0 := by
            omega
          rw [subsetLoop_zero_subsets _ _ _ _ _ _ _ _ h0] at hloop
          simp only [Except.ok.injEq, Prod.mk.injEq] at hloop
          rw [← hloop.2.1, processMaterialUser_getGeometry, hs] at hg
          simp only [Option.some.injEq] at hg
          exact hg.symm
      rcases hcase with rfl | ⟨-, -, -, -, rfl⟩
      · rw [hgs] at hacc
        exact absurd rfl hacc
      · exact hgs

/-- The vertex count of an ingested mesh is the number of its points. -/
theorem processPrim_vertexCount (env : Env) (prim : UsdPrim) (σ : Impl)
    (ms : List AssetReplacement) (σ' : Impl) (ms' : List AssetReplacement)
    (g : RasterGeometry)
    (hnew : σ.getGeometry prim.usdOriginHash = none)
    (hr : processPrim env prim σ ms = Except.ok (σ', ms'))
    (hg : σ'.getGeometry prim.usdOriginHash = some g) (hacc : g.indexCount ≠ 0) :
    g.vertexCount = prim.points.length := by
  obtain ⟨-, cUV, cPos, g0, hv, hcount, -⟩ :=
    processPrim_created env prim σ ms σ' ms' g hnew hr hg hacc
  simp only [vertexFields, Prod.mk.injEq] at hv
  rw [hv.1]
  exact hcount

/-- C28: for every mesh new to the store that `processPrim` ingests with a non-zero
index count, and every alignment function that does not shrink its argument, the layout
of the packed buffer has the total size `align(indexSize) + align(stride * vertexCount)`;
the index sub-range (offset 0) and the vertex sub-range (offset `align(indexSize)`) lie
inside the buffer and the first ends where the second starts; the interleaved vertex
bytes (4 per float) are `stride * vertexCount` and fit the vertex sub-range; with two or
more subsets no index bytes go into this buffer (`indexSize` is 0), and with at most one
subset the index bytes written (2 or 4 per index) end at or before the start of the
vertex sub-range. -/
theorem buffer_writes_in_bounds (align : Nat → Nat) (halign : ∀ x, x ≤ align x)
    (env : Env) (prim : UsdPrim) (σ : Impl)
    (ms : List AssetReplacement) (σ' : Impl) (ms' : List AssetReplacement)
    (g : RasterGeometry) (L : BufferLayout)
    (hL : L = bufferLayout align prim (prim.activeChildren.filter (fun c => c.isGeomSubset)).length)
    (hnew : σ.getGeometry prim.usdOriginHash = none)
    (hr : processPrim env prim σ ms = Except.ok (σ', ms'))
    (hg : σ'.getGeometry prim.usdOriginHash = some g) (hacc : g.indexCount ≠ 0) :
    L.totalSize = align L.indexSize + align (L.vertexStructureSize * g.vertexCount)
    ∧ L.indexOffset = 0 ∧ L.indexOffset + L.indexSliceSize ≤ L.pointsOffset
    ∧ L.indexOffset + L.indexSliceSize ≤ L.totalSize
    ∧ L.pointsOffset + L.vertexSliceSize ≤ L.totalSize
    ∧ 4 * g.vertexData.length = L.vertexStructureSize * g.vertexCount
    ∧ L.vertexStructureSize * g.vertexCount ≤ L.vertexSliceSize
    ∧ (2 ≤ (prim.activeChildren.filter (fun c => c.isGeomSubset)).length → L.indexSize = 0)
    ∧ ((prim.activeChildren.filter (fun c => c.isGeomSubset)).length ≤ 1 →
        ∃ ib, g.indexBuffer = some ib ∧ (ib.stride = 2 ∨ ib.stride = 4)
          ∧ ib.data.length = g.indexCount
          ∧ L.indexOffset + ib.data.length * ib.stride ≤ L.indexSliceSize
          ∧ L.indexOffset + ib.data.length * ib.stride ≤ L.pointsOffset) := by
  obtain ⟨hpts, cUV, cPos, g0, hv, hcount, -, -, hle⟩ :=
    processPrim_created env prim σ ms σ' ms' g hnew hr hg hacc
  simp only [vertexFields, Prod.mk.injEq] at hv
  obtain ⟨hvc, hvd, -, -, -⟩ := hv
  have hvc1 : g.vertexCount = prim.points.length := by rw [hvc]; exact hcount
  have hlen : 4 * g.vertexData.length = vertexStructureSize prim * prim.points.length := by
    rw [hvd]
    show 4 * (interleaveVertices (isNormalValid prim) (isUVValid prim) prim.points
      prim.normals prim.invertedUvs).length = _
    rw [interleaveVertices_length _ _ _ _ _
      (fun h => (isNormalValid_iff prim hpts).mp h) (fun h => (isUVValid_iff prim hpts).mp h)]
    unfold vertexStructureSize
    cases isNormalValid prim <;> cases isUVValid prim <;> simp <;> ring
  subst hL
  simp only [bufferLayout]
  rw [hvc1]
  refine ⟨rfl, trivial, by omega, by omega, le_refl _, hlen, halign _, ?_, ?_⟩
  · intro h2
    rw [if_neg (by omega)]
  · intro h1
    have hgeq := hle h1
    rw [if_pos h1]
    have hib : g.indexBuffer = some (makeIndexBuffer (prim.faceVertexIndices.getD [])) := by
      rw [hgeq]; rfl
    have hic : g.indexCount = (prim.faceVertexIndices.getD []).length := by
      rw [hgeq]; rfl
    have hdl : (makeIndexBuffer (prim.faceVertexIndices.getD [])).data.length
        = (prim.faceVertexIndices.getD []).length := by
      unfold makeIndexBuffer
      split_ifs <;> simp
    have hst : (makeIndexBuffer (prim.faceVertexIndices.getD [])).stride = 2
        ∨ (makeIndexBuffer (prim.faceVertexIndices.getD [])).stride = 4 := by
      unfold makeIndexBuffer
      split_ifs
      · exact Or.inl rfl
      · exact Or.inr rfl
    have hal := halign ((prim.faceVertexIndices.getD []).length * 4)
    refine ⟨_, hib, hst, by rw [hdl, hic], ?_, ?_⟩
    · rw [hdl]
      rcases hst with h | h <;> rw [h] <;> omega
    · rw [hdl]
      rcases hst with h | h <;> rw [h] <;> omega

/-- Rounding up to a multiple of a positive alignment does not shrink the size. -/
theorem exAlign_le (a : Nat) (ha : 0 < a) (x : Nat) : x ≤ exAlign a x := by
  unfold exAlign
  have h1 := Nat.div_add_mod (x + (a - 1)) a
  have h2 := Nat.mod_lt (x + (a - 1)) ha
  rw [Nat.mul_comm] at h1
  omega

/-- C28 witness: the example triangle with 64-byte alignment: the buffer has 128 bytes,
the 6 index bytes end before offset 64, where the 36 vertex bytes start. -/
theorem buffer_writes_in_bounds_witness :
    ∃ σ' ms' g ib, processPrim exEnv exTriangle exUnloaded [] = Except.ok (σ', ms')
      ∧ σ'.getGeometry 42 = some g ∧ g.indexBuffer = some ib
      ∧ (bufferLayout (exAlign 64) exTriangle 0).totalSize = 128
      ∧ (bufferLayout (exAlign 64) exTriangle 0).pointsOffset = 64
      ∧ ib.data.length * ib.stride ≤ 64
      ∧ 4 * g.vertexData.length = 36 := by
  obtain ⟨σ1, g, hp, hg, hn⟩ := processPrim_plain_mesh exEnv exTriangle exUnloaded []
    [0, 1, 2] (by decide) rfl rfl rfl (by decide) (by decide) rfl rfl
  obtain ⟨-, -, -, -, -, hbytes, -, -, hidx⟩ :=
    buffer_writes_in_bounds (exAlign 64) (exAlign_le 64 (by decide)) exEnv exTriangle exUnloaded [] σ1 _ g _ rfl
      rfl hp hg (by rw [hn]; decide)
  obtain ⟨ib, hib, -, -, -, hfit⟩ := hidx (by decide)
  have hvc : g.vertexCount = 3 :=
    (processPrim_vertexCount exEnv exTriangle exUnloaded [] σ1 _ g rfl hp hg
      (by rw [hn]; decide))
  refine ⟨σ1, _, g, ib, hp, hg, hib, by decide, by decide, ?_, ?_⟩
  · have h64 : (bufferLayout (exAlign 64) exTriangle
        (exTriangle.activeChildren.filter (fun c => c.isGeomSubset)).length).pointsOffset
          = 64 := by decide
    rw [h64] at hfit
    have h0 : (bufferLayout (exAlign 64) exTriangle
        (exTriangle.activeChildren.filter (fun c => c.isGeomSubset)).length).indexOffset
          = 0 := rfl
    rw [h0] at hfit
    omega
  · rw [hbytes, hvc]
    decide

/-! ### C29 -/

theorem processUSD_resting (env : Env) (σ σ' : Impl) (h : processUSD env σ = Except.ok σ') :
    σ'.state = State.Loaded
    ∨ (σ'.state = State.Unloaded ∧ σ'.replacements = σ.replacements) := by
  cases hopen : env.openStage σ.filePath with
  | some stage => exact Or.inl (processUSD_state_of_open env σ σ' stage hopen h)
  | none =>
    unfold processUSD at h
    simp only [hopen, Except.ok.injEq] at h
    rw [← h]
    exact Or.inr ⟨rfl, rfl⟩

theorem unload_resting (σ : Impl) (hσ : RestingState σ) : RestingState (unload σ) := by
  unfold unload
  by_cases hl : σ.state = State.Loaded
  · rw [if_pos hl]
    exact Or.inr ⟨rfl, rfl⟩
  · rw [if_neg hl]
    exact hσ

theorem processUSD_resting_of_unloaded (env : Env) (σ σ' : Impl)
    (hσ : σ.state = State.Unloaded ∧ σ.replacements = {})
    (h : processUSD env σ = Except.ok σ') : RestingState σ' := by
  rcases processUSD_resting env σ σ' h with hl | ⟨hu, hr⟩
  · exact Or.inl hl
  · exact Or.inr ⟨hu, by rw [hr, hσ.2]⟩

theorem unload_unloaded (σ : Impl) (hσ : RestingState σ) :
    (unload σ).state = State.Unloaded ∧ (unload σ).replacements = {} := by
  unfold unload
  by_cases hl : σ.state = State.Loaded
  · rw [if_pos hl]
    exact ⟨rfl, rfl⟩
  · rw [if_neg hl]
    rcases hσ with h | h
    · exact absurd h hl
    · exact h

theorem checkForChanges_resting (env : Env) (σ : Impl) (r : Bool × Impl)
    (hσ : RestingState σ) (h : checkForChanges env σ = Except.ok r) : RestingState r.2 := by
  unfold checkForChanges at h
  by_cases hp : σ.openedFilePath = ""
  · rw [if_pos hp] at h
    simp only [Except.ok.injEq] at h
    rw [← h]
    exact hσ
  · rw [if_neg hp] at h
    simp only at h
    cases ht : env.lastWriteTime σ.openedFilePath with
    | none =>
      rw [ht] at h
      by_cases hl : σ.state = State.Loaded
      · rw [if_pos hl] at h
        exact absurd h (by simp)
      · rw [if_neg hl] at h
        simp only [Except.ok.injEq] at h
        rw [← h]
        rcases hσ with h1 | h1
        · exact absurd h1 hl
        · exact Or.inr ⟨rfl, h1.2⟩
    | some t =>
      rw [ht] at h
      simp only [ite_self] at h
      by_cases hnew : t > σ.fileModificationTime
      · rw [if_pos hnew] at h
        cases hu : processUSD env (unload σ) with
        | error f =>
          rw [hu] at h
          exact absurd h (by simp)
        | ok σ1 =>
          rw [hu] at h
          simp only [Except.ok.injEq] at h
          rw [← h]
          exact processUSD_resting_of_unloaded env _ σ1 (unload_unloaded σ hσ) hu
      · rw [if_neg hnew] at h
        simp only [Except.ok.injEq] at h
        rw [← h]
        exact hσ

theorem runCall_resting (env : Env) (c : Call) (σ σ' : Impl) (hσ : RestingState σ)
    (h : runCall env c σ = Except.ok σ') : RestingState σ' := by
  cases c with
  | load =>
    simp only [runCall, load] at h
    by_cases hu : σ.state = State.Unloaded
    · rw [if_pos hu] at h
      rcases hσ with h1 | h1
      · rw [h1] at hu
        exact absurd hu (by decide)
      · exact processUSD_resting_of_unloaded env σ σ' h1 h
    · rw [if_neg hu] at h
      simp only [Except.ok.injEq] at h
      rw [← h]
      exact hσ
  | unload =>
    simp only [runCall, Except.ok.injEq] at h
    rw [← h]
    exact unload_resting σ hσ
  | checkForChanges =>
    simp only [runCall] at h
    cases hc : checkForChanges env σ with
    | error f =>
      rw [hc] at h
      exact absurd h (by simp)
    | ok r =>
      rw [hc] at h
      obtain ⟨b, σ1⟩ := r
      simp only [Except.ok.injEq] at h
      rw [← h]
      exact checkForChanges_resting env σ (b, σ1) hσ hc

theorem runCalls_resting (calls : List (Env × Call)) :
    ∀ (σ σ' : Impl), RestingState σ → runCalls calls σ = Except.ok σ' → RestingState σ' := by
  induction calls with
  | nil =>
    intro σ σ' hσ h
    simp only [runCalls, Except.ok.injEq] at h
    rw [← h]
    exact hσ
  | cons head rest ih =>
    intro σ σ' hσ h
    obtain ⟨env, c⟩ := head
    simp only [runCalls] at h
    cases hc : runCall env c σ with
    | error f =>
      rw [hc] at h
      exact absurd h (by simp)
    | ok σ1 =>
      rw [hc] at h
      exact ih σ1 σ' (runCall_resting env c σ σ1 hσ hc) h

/-- C29: from an `Unloaded` mod with an empty replacement store, after every finite
sequence of `load()`, `unload()` and `checkForChanges()` calls that all return normally,
each made with the file system and document provider of its time, the state is `Loaded`
or `Unloaded`, never `Loading`, and whenever it is `Unloaded` the replacement store is
empty. -/
theorem lifecycle_invariant (calls : List (Env × Call)) (σ0 σ : Impl)
    (h0 : σ0.state = State.Unloaded) (he : σ0.replacements = {})
    (hrun : runCalls calls σ0 = Except.ok σ) :
    (σ.state = State.Loaded ∨ σ.state = State.Unloaded)
    ∧ σ.state ≠ State.Loading
    ∧ (σ.state = State.Unloaded → σ.replacements = {}) := by
  rcases runCalls_resting calls σ0 σ (Or.inr ⟨h0, he⟩) hrun with h | h
  · refine ⟨Or.inl h, by rw [h]; decide, ?_⟩
    intro hu
    rw [h] at hu
    exact absurd hu (by decide)
  · exact ⟨Or.inr h.1, by rw [h.1]; decide, fun _ => h.2⟩

/-- C29 witness: loading the example document, polling after it was written again,
polling after it was deleted (which throws in `Loaded`, so the run uses `unload` first)
and loading with no document on disk ends `Unloaded` with an empty store; the run up to
the first poll ends `Loaded`. -/
theorem lifecycle_invariant_witness :
    (∃ σ, runCalls [(exEnv, Call.load), (exEnvTouched, Call.checkForChanges),
          (exEnv, Call.unload), (exEnvMissing, Call.checkForChanges),
          (exEnvMissing, Call.load)] exUnloaded = Except.ok σ
      ∧ σ.state = State.Unloaded ∧ σ.replacements = {})
    ∧ (∃ σ, runCalls [(exEnv, Call.load), (exEnvTouched, Call.checkForChanges)] exUnloaded
          = Except.ok σ ∧ σ.state = State.Loaded) := by
  refine ⟨⟨_, rfl, ?_⟩, ⟨_, rfl, ?_⟩⟩
  · have h := lifecycle_invariant [(exEnv, Call.load), (exEnvTouched, Call.checkForChanges),
      (exEnv, Call.unload), (exEnvMissing, Call.checkForChanges),
      (exEnvMissing, Call.load)] exUnloaded _ rfl rfl rfl
    exact ⟨rfl, h.2.2 rfl⟩
  · have h := lifecycle_invariant [(exEnv, Call.load), (exEnvTouched, Call.checkForChanges)]
      exUnloaded _ rfl rfl rfl
    rcases h.1 with h1 | h1
    · exact h1
    · exact absurd h1 (by decide)

/-! ### C30 -/

/-- With at most one subset the walk over the subsets appends nothing and leaves the
geometry of the mesh as the creation block left it. -/
theorem processPrim_few_subsets (env : Env) (prim : UsdPrim) (σ : Impl)
    (ms : List AssetReplacement) (σ' : Impl) (ms' : List AssetReplacement)
    (hsub : (prim.activeChildren.filter (fun c => c.isGeomSubset)).length ≤ 1)
    (hnew : σ.getGeometry prim.usdOriginHash = none)
    (hr : processPrim env prim σ ms = Except.ok (σ', ms')) :
    ∃ (b : Bool) (σ1 : Impl),
      createGeometry prim (prim.activeChildren.filter (fun c => c.isGeomSubset)).length σ
        = Except.ok (b, σ1)
      ∧ (b = false → ms' = ms)
      ∧ (b = true → σ'.getGeometry prim.usdOriginHash = σ1.getGeometry prim.usdOriginHash
          ∧ ∃ m, ms' =
            if ((σ'.getGeometry prim.usdOriginHash).map (fun g => g.indexCount)).getD 0 = 0
            then ms
            else ms ++ [{ geometryData := some prim.usdOriginHash, materialData := m
                          replacementToObject := replacementToObjectOf env prim }]) := by
  obtain ⟨b, σ1, hcr, hfalse, htrue⟩ := processPrim_steps env prim σ ms σ' ms' hr
  rcases hcr with ⟨g0, hg0, -, -⟩ | ⟨-, hc⟩
  · rw [hnew] at hg0
    exact absurd hg0 (by simp)
  refine ⟨b, σ1, hc, fun hb => (hfalse hb).2, ?_⟩
  intro hb
  obtain ⟨m, ms1, hw, hms⟩ := htrue hb
  rcases hw with ⟨-, hsame, rfl⟩ | ⟨hn, hloop⟩
  · exact ⟨hsame _, m, hms⟩
  · have h0 : (prim.activeChildren.filter (fun c => c.isGeomSubset)).length = 0 := by omega
    rw [subsetLoop_zero_subsets _ _ _ _ _ _ _ _ h0] at hloop
    simp only [Except.ok.injEq, Prod.mk.injEq] at hloop
    obtain ⟨-, hσ, rfl⟩ := hloop
    refine ⟨?_, m, hms⟩
    rw [← hσ, processMaterialUser_getGeometry]

/-- C23 (amended): for a mesh node with at most one geometry subset whose structural hash
is new to the store, `processPrim` appends an `AssetReplacement` only if the node has
positions and face-vertex indices of its own, the first entry of `faceVertexCounts` is 3
and the number of indices is a multiple of 3 that is not 0; and every such node is
accepted, with exactly one `AssetReplacement` appended, whatever the later entries of
`faceVertexCounts` are. -/
theorem accepted_mesh_passes_first_face_check (env : Env) (prim : UsdPrim) (σ : Impl)
    (ms : List AssetReplacement)
    (hsub : (prim.activeChildren.filter (fun c => c.isGeomSubset)).length ≤ 1)
    (hnew : σ.getGeometry prim.usdOriginHash = none) :
    (∀ (σ' : Impl) (ms' : List AssetReplacement),
      processPrim env prim σ ms = Except.ok (σ', ms') → ms' ≠ ms →
      prim.points ≠ []
      ∧ ∃ v, prim.faceVertexIndices = some v ∧ v ≠ []
          ∧ prim.faceVertexCounts.head? = some 3 ∧ v.length % 3 = 0)
    ∧ (∀ v, prim.faceVertexIndices = some v → v ≠ [] → prim.points ≠ [] →
        prim.faceVertexCounts.head? = some 3 → v.length % 3 = 0 →
        ∃ (σ' : Impl) (e : AssetReplacement),
          processPrim env prim σ ms = Except.ok (σ', ms ++ [e])
          ∧ e.geometryData = some prim.usdOriginHash) := by
  constructor
  · intro σ' ms' hr happ
    obtain ⟨b, σ1, hc, hfalse, htrue⟩ :=
      processPrim_few_subsets env prim σ ms σ' ms' hsub hnew hr
    cases b with
    | false => exact absurd (hfalse rfl) happ
    | true =>
      obtain ⟨hgeo, m, hms⟩ := htrue rfl
      obtain ⟨hpts, cUV, cPos, g0, hs, hcase⟩ := createGeometry_stored prim _ σ σ1 hc
      refine ⟨hpts, ?_⟩
      rcases hcase with rfl | ⟨-, hne, hfc, h3, -⟩
      · rw [hgeo, hs] at hms
        exact absurd hms happ
      · cases hv : prim.faceVertexIndices with
        | none =>
          rw [hv] at hne
          exact absurd rfl hne
        | some v =>
          rw [hv] at hne h3
          exact ⟨v, rfl, hne, hfc, h3⟩
  · intro v hidx hne hpts hfc htri
    obtain ⟨σ', ms', hr, hg⟩ := processPrim_accept env prim σ ms v hsub hnew hidx hne hpts hfc htri
    obtain ⟨b, σ1, hc, hfalse, htrue⟩ :=
      processPrim_few_subsets env prim σ ms σ' ms' hsub hnew hr
    have hlen : v.length ≠ 0 := fun h => hne (List.length_eq_zero.mp h)
    cases b with
    | false =>
      obtain ⟨g, hg1, hz, -⟩ := createGeometry_rejected prim _ σ σ1 hc
      obtain ⟨σ2, hc2, -⟩ := createGeometry_accept prim _ σ v hsub hidx hne hpts hfc htri
      rw [hc2] at hc
      simp at hc
    | true =>
      obtain ⟨-, m, hms⟩ := htrue rfl
      rw [hg] at hms
      simp only [Option.map_some', Option.getD_some] at hms
      rw [if_neg (by exact hlen)] at hms
      rw [hms] at hr
      exact ⟨σ', _, hr, rfl⟩

/-- C23 (amended) witness: the mesh with the face counts `3 4 2` and nine indices is
accepted; the example triangle is accepted and passes the check. -/
theorem accepted_mesh_passes_first_face_check_witness :
    (∃ (σ' : Impl) (e : AssetReplacement),
      processPrim exEnv exMixedFaces exUnloaded [] = Except.ok (σ', [e])
      ∧ e.geometryData = some 47)
    ∧ exMixedFaces.faceVertexCounts.head? = some 3
    ∧ (exMixedFaces.faceVertexIndices.getD []).length % 3 = 0 := by
  obtain ⟨h1, h2⟩ := accepted_mesh_passes_first_face_check exEnv exMixedFaces exUnloaded []
    (by decide) rfl
  obtain ⟨σ', e, hr, he⟩ := h2 [0, 1, 2, 0, 1, 2, 3, 0, 1] rfl (by decide) (by decide) rfl rfl
  obtain ⟨-, v, hv, -, hfc, h3⟩ := h1 σ' _ hr (by simp)
  refine ⟨⟨σ', e, hr, he⟩, hfc, ?_⟩
  rw [hv]
  exact h3

/-- C12 as stated fails: the mesh without positions is new to the store and has two
geometry subsets, the first without `triangleIndices`, the second with three indices and
a bound material, yet `processPrim` returns with nothing appended; and in the mesh with
positions whose second subset is bound to a material without shader, the replacement
appended for the node has a null material. -/
theorem second_subset_not_always_parent :
    exTwoSubsetNoPoints.activeChildren.filter (fun c => c.isGeomSubset)
      = [exSubsetNoIndices, exSubsetBound]
    ∧ exSubsetNoIndices.triangleIndices = none
    ∧ exSubsetBound.triangleIndices = some [0, 1, 2]
    ∧ (∃ σ', processPrim exEnv exTwoSubsetNoPoints exUnloaded [] = Except.ok (σ', []))
    ∧ exTwoSubsetNoShaderMesh.activeChildren.filter (fun c => c.isGeomSubset)
      = [exSubsetNoIndices, exSubsetNoShader]
    ∧ exSubsetNoShader.boundMaterial = some exNoShaderMaterial
    ∧ (∃ σ' e, processPrim exEnv exTwoSubsetNoShaderMesh exUnloaded [] = Except.ok (σ', [e])
        ∧ e.materialData = none) :=
  ⟨rfl, rfl, rfl, ⟨_, rfl⟩, rfl, rfl, ⟨_, _, rfl, rfl⟩⟩

end UsdMod
